import Mathlib

/-!
# The MES bytecode virtual machine of ai5-sdl2

A shallow embedding of `src/vm.c` (with `include/vm.h` and `include/game.h`).

* The memory image `memory_raw` is a function from byte offsets to bytes together
  with its size `sizeof(struct memory)`; an access outside the image is undefined
  behaviour in C and is reported as `Fault.undefined`.
* `uint32_t` values are natural numbers reduced modulo `2^32`, `uint16_t` values
  modulo `2^16`, bytes modulo `2^8`.  Typed views of the image (`uint16_t*`,
  `uint32_t*`) are little-endian, as `le_get16`/`le_get32` are.
* A code pointer `uint8_t *code` is `none` for `NULL` and `some off` for
  `memory_raw + off`.
* The expression stack `vm.stack[0 .. vm.stack_ptr)` is a list whose head is the
  top of the stack; `vm.stack_ptr` is its length.
* The global `vm` is spread over two records: `Machine` holds `vm.ip` and
  `vm.stack` next to the memory image, `State` adds `vm.scope_counter`,
  `vm.mes_call_stack_ptr`, `vm.mes_call_stack` and `vm.procedures`.  A function
  that takes a `Machine` cannot touch the latter, as its C original does not.
* `VM_ERROR` aborts the run; it is `Fault.vm_error` carrying the format string and
  its arguments.
* Headers that are not part of the sources (`ai5/mes.h`, `memory.h`, the asset,
  graphics, audio, input, menu and savedata collaborators) are parameters,
  collected in `Config`.  A call to a collaborator is appended to `Machine.trace`.
* `vm_exec` may run forever, so it takes fuel; loops that consume bytecode are
  bounded by the size of the memory image.
-/

namespace AI5

/-! ## Outcomes -/

/-- The ways a run can end without returning. -/
inductive Fault where
  | vm_error (fmt : String) (args : List Int)
  | undefined (what : String)
  | out_of_fuel
  deriving DecidableEq, Repr

/-- The macro `VM_ERROR(fmt, ...)`: print the VM state and abort. -/
def VM_ERROR {α : Type} (fmt : String) (args : List Int) : Except Fault α :=
  .error (.vm_error fmt args)

/-! ## `ai5/mes.h` -/

/-- The expression operators that `vm_eval` switches on. -/
inductive mes_expression_op where
  | MES_EXPR_IMM | MES_EXPR_VAR | MES_EXPR_ARRAY16_GET16 | MES_EXPR_ARRAY16_GET8
  | MES_EXPR_PLUS | MES_EXPR_MINUS | MES_EXPR_MUL | MES_EXPR_DIV | MES_EXPR_MOD
  | MES_EXPR_RAND | MES_EXPR_AND | MES_EXPR_OR | MES_EXPR_BITAND | MES_EXPR_BITIOR
  | MES_EXPR_BITXOR | MES_EXPR_LT | MES_EXPR_GT | MES_EXPR_LTE | MES_EXPR_GTE
  | MES_EXPR_EQ | MES_EXPR_NEQ | MES_EXPR_IMM16 | MES_EXPR_IMM32 | MES_EXPR_REG16
  | MES_EXPR_REG8 | MES_EXPR_ARRAY32_GET32 | MES_EXPR_ARRAY32_GET16
  | MES_EXPR_ARRAY32_GET8 | MES_EXPR_VAR32 | MES_EXPR_END
  deriving DecidableEq, Repr

/-- The statement kinds that `vm_exec_statement` switches on. -/
inductive mes_statement_op where
  | MES_STMT_END | MES_STMT_TXT | MES_STMT_STR | MES_STMT_SETRBC | MES_STMT_SETV
  | MES_STMT_SETRBE | MES_STMT_SETAC | MES_STMT_SETA_AT | MES_STMT_SETAD
  | MES_STMT_SETAW | MES_STMT_SETAB | MES_STMT_JZ | MES_STMT_JMP | MES_STMT_SYS
  | MES_STMT_GOTO | MES_STMT_CALL | MES_STMT_MENUI | MES_STMT_PROC | MES_STMT_UTIL
  | MES_STMT_LINE | MES_STMT_PROCD | MES_STMT_MENUS | MES_STMT_SETRD
  | MES_STMT_INVALID
  deriving DecidableEq, Repr

/-! ## Collaborators -/

/-- An argument passed to a collaborator. -/
inductive HostArg where
  | num (n : Nat)
  | str (bytes : List Nat)
  | text (msg : String)
  deriving DecidableEq, Repr

/-- A recorded call of a collaborator function. -/
structure HostCall where
  fn : String
  args : List HostArg
  deriving DecidableEq, Repr

/-- A decoded CG as far as `vm_load_image` looks at it. -/
structure cg where
  x : Nat
  y : Nat
  w : Nat
  h : Nat
  palette : Option (List Nat)

/-- Everything `vm.c` takes from outside the sources: the MES dialect tables of
`ai5/mes.h`, the layout of `struct memory` (`memory.h`), the selected title, and
the collaborators. -/
structure Config where
  mes_opcode_to_expr : Nat → mes_expression_op
  mes_opcode_to_stmt : Nat → mes_statement_op
  mes_char_is_zenkaku : Nat → Bool
  mes_char_is_hankaku : Nat → Bool
  SJIS_2BYTE : Nat → Bool
  MES_PARAM_STRING : Nat
  MES_PARAM_EXPRESSION : Nat
  MES_SYS_VAR_FLAGS : Nat
  MES_SYS_VAR_TEXT_START_X : Nat
  MES_SYS_VAR_TEXT_END_X : Nat
  MES_SYS_VAR_TEXT_CURSOR_X : Nat
  MES_SYS_VAR_TEXT_CURSOR_Y : Nat
  MES_SYS_VAR_FONT_HEIGHT : Nat
  MES_SYS_VAR_CHAR_SPACE : Nat
  MES_SYS_VAR_LINE_SPACE : Nat
  MES_SYS_VAR_DST_SURFACE : Nat
  MES_SYS_VAR_MASK_COLOR : Nat
  MES_SYS_VAR_CG_X : Nat
  MES_SYS_VAR_CG_Y : Nat
  MES_SYS_VAR_CG_W : Nat
  MES_SYS_VAR_CG_H : Nat
  MES_SYS_VAR_CG_OFFSET : Nat
  MES_SYS_VAR_DATA_OFFSET : Nat
  VM_FLAG_LOAD_PALETTE : Nat
  INPUT_ACTIVATE : Nat
  INPUT_CANCEL : Nat
  INPUT_SHIFT : Nat
  INPUT_NR_INPUTS : Nat
  memory_size : Nat
  var4_off : Nat
  var16_off : Nat
  system_var16_off : Nat
  var32_off : Nat
  system_var32_off : Nat
  file_data_off : Nat
  MEMORY_FILE_DATA_SIZE : Nat
  palette_off : Nat
  gfx_view_w : Nat
  gfx_view_h : Nat
  call_saves_procedures : Bool
  var4_size : Nat
  target_is_doukyuusei : Bool
  host_ret : List HostCall → HostCall → List Nat
  host_mem : List HostCall → HostCall → (Nat → Nat) → (Nat → Nat)
  asset_mes_load : List Nat → Option (List Nat)
  asset_data_load : List Nat → Option (List Nat)
  asset_cg_load : List Nat → Option (List Nat)
  cg_load_arcdata : List Nat → Option cg
  asset_cg_name : List HostCall → Option (List Nat)
  asset_data_name : List HostCall → Option (List Nat)

/-! ## `vm.h` -/

/-- The C constant `VM_STACK_SIZE`. -/
def VM_STACK_SIZE : Nat := 1024

/-- The C constant `VM_MAX_PROCEDURES`. -/
def VM_MAX_PROCEDURES : Nat := 150

/-- The number of frames of `vm.mes_call_stack`. -/
def VM_MES_CALL_STACK_SIZE : Nat := 128

/-- The flag bit `VM_FLAG_RETURN`. -/
def VM_FLAG_RETURN : Nat := 0x10

/-- The flag bit `VM_FLAG_LOG`. -/
def VM_FLAG_LOG : Nat := 0x80

/-- The C type `struct vm_pointer`. -/
structure vm_pointer where
  ptr : Nat
  code : Option Nat
  deriving DecidableEq, Repr

/-- The C type `struct vm_mes_call`: one frame of the CALL stack. -/
structure vm_mes_call where
  ip : vm_pointer
  mes_name : List Nat
  procedures : Nat → vm_pointer

/-- The part of the process state that the expression evaluator and the
statements that never re-enter `vm_exec` work on: the memory image, the fields
`vm.ip` and `vm.stack` of the global `vm`, the file-scope and function-scope
statics of `vm.c`, and the collaborator calls made so far. -/
structure Machine where
  memory : Nat → Nat
  ip : vm_pointer
  stack : List Nat
  trace : List HostCall
  saved_cg_name : Option (List Nat)
  saved_data_name : Option (List Nat)
  check_cursor_start_t : Nat
  check_cursor_wait_t : Nat
  check_cursor_x : Nat
  check_cursor_y : Nat

/-- The whole process state: a `Machine` together with the remaining fields of the
C type `struct vm` (`vm.scope_counter`, `vm.mes_call_stack_ptr`,
`vm.mes_call_stack`, `vm.procedures`). -/
structure State extends Machine where
  scope_counter : Nat
  mes_call_stack_ptr : Nat
  mes_call_stack : Nat → vm_mes_call
  procedures : Nat → vm_pointer

/-- The field `vm.stack_ptr`. -/
def Machine.stack_ptr (s : Machine) : Nat := s.stack.length

/-! ## Machine integers and the memory image -/

/-- Conversion to `uint32_t`. -/
def u32 (n : Nat) : Nat := n % 4294967296

/-- Conversion to `uint16_t`. -/
def u16 (n : Nat) : Nat := n % 65536

/-- Conversion to `uint8_t`. -/
def u8 (n : Nat) : Nat := n % 256

/-- One byte of the memory image. -/
def mem_get8 (cfg : Config) (m : Nat → Nat) (a : Nat) : Except Fault Nat :=
  if a < cfg.memory_size then .ok (m a % 256)
  else .error (.undefined "read outside the memory image")

/-- A `uint16_t` of the memory image. -/
def mem_get16 (cfg : Config) (m : Nat → Nat) (a : Nat) : Except Fault Nat :=
  if a + 1 < cfg.memory_size then .ok (m a % 256 + 256 * (m (a + 1) % 256))
  else .error (.undefined "read outside the memory image")

/-- A `uint32_t` of the memory image. -/
def mem_get32 (cfg : Config) (m : Nat → Nat) (a : Nat) : Except Fault Nat :=
  if a + 3 < cfg.memory_size then
    .ok (m a % 256 + 256 * (m (a + 1) % 256) + 65536 * (m (a + 2) % 256)
      + 16777216 * (m (a + 3) % 256))
  else .error (.undefined "read outside the memory image")

/-- Store one byte. -/
def mem_set8 (cfg : Config) (m : Nat → Nat) (a v : Nat) : Except Fault (Nat → Nat) :=
  if a < cfg.memory_size then .ok (fun x => if x = a then v % 256 else m x)
  else .error (.undefined "write outside the memory image")

/-- Store a `uint16_t`. -/
def mem_set16 (cfg : Config) (m : Nat → Nat) (a v : Nat) : Except Fault (Nat → Nat) :=
  if a + 1 < cfg.memory_size then
    .ok (fun x => if x = a then v % 256 else if x = a + 1 then v / 256 % 256 else m x)
  else .error (.undefined "write outside the memory image")

/-- Store a `uint32_t`. -/
def mem_set32 (cfg : Config) (m : Nat → Nat) (a v : Nat) : Except Fault (Nat → Nat) :=
  if a + 3 < cfg.memory_size then
    .ok (fun x => if x = a then v % 256 else if x = a + 1 then v / 256 % 256
      else if x = a + 2 then v / 65536 % 256 else if x = a + 3 then v / 16777216 % 256
      else m x)
  else .error (.undefined "write outside the memory image")

/-- The C call `memcpy(memory_raw + a, data, size)`. -/
def mem_copy (cfg : Config) (m : Nat → Nat) (a : Nat) (data : List Nat) :
    Except Fault (Nat → Nat) :=
  if a + data.length ≤ cfg.memory_size then
    .ok (fun x => if a ≤ x ∧ x < a + data.length then data.getD (x - a) 0 % 256 else m x)
  else .error (.undefined "write outside the memory image")

/-- Replace the memory image. -/
def Machine.set_memory (s : Machine) (m : Nat → Nat) : Machine := { s with memory := m }

/-- Assign `vm.ip`. -/
def Machine.set_ip (s : Machine) (p : vm_pointer) : Machine := { s with ip := p }

/-- Assign `vm.ip.ptr`. -/
def Machine.set_ip_ptr (s : Machine) (p : Nat) : Machine := { s with ip := { s.ip with ptr := p } }

/-- Assign `vm.stack` (and with it `vm.stack_ptr`). -/
def Machine.set_stack (s : Machine) (st : List Nat) : Machine := { s with stack := st }

/-- The byte `vm.ip.code[vm.ip.ptr + k]`. -/
def code_get8 (cfg : Config) (s : Machine) (k : Nat) : Except Fault Nat :=
  match s.ip.code with
  | none => .error (.undefined "NULL code pointer")
  | some base => mem_get8 cfg s.memory (base + s.ip.ptr + k)

/-- The C call `le_get16(vm.ip.code, vm.ip.ptr)`. -/
def code_get16 (cfg : Config) (s : Machine) : Except Fault Nat := do
  let b0 ← code_get8 cfg s 0
  let b1 ← code_get8 cfg s 1
  pure (b0 + 256 * b1)

/-- The C call `le_get32(vm.ip.code, vm.ip.ptr)`. -/
def code_get32 (cfg : Config) (s : Machine) : Except Fault Nat := do
  let b0 ← code_get8 cfg s 0
  let b1 ← code_get8 cfg s 1
  let b2 ← code_get8 cfg s 2
  let b3 ← code_get8 cfg s 3
  pure (b0 + 256 * b1 + 65536 * b2 + 16777216 * b3)

/-- Address of `usr_var4[i]`. -/
def var4_addr (cfg : Config) (i : Nat) : Nat := cfg.var4_off + i

/-- Address of `usr_var16[i]`. -/
def var16_addr (cfg : Config) (i : Nat) : Nat := cfg.var16_off + 2 * i

/-- Address of `sys_var16[i]`. -/
def system_var16_addr (cfg : Config) (i : Nat) : Nat := cfg.system_var16_off + 2 * i

/-- Address of `usr_var32[i]`. -/
def var32_addr (cfg : Config) (i : Nat) : Nat := cfg.var32_off + 4 * i

/-- Address of `sys_var32[i]`. -/
def system_var32_addr (cfg : Config) (i : Nat) : Nat := cfg.system_var32_off + 4 * i

/-- The value `usr_var32[var - 1]` for a byte `var`; with `var = 0` this is the
`uint32_t` in front of the bank. -/
def var32_pred (cfg : Config) (m : Nat → Nat) (var : Nat) : Except Fault Nat :=
  if 4 ≤ cfg.var32_off + 4 * var then mem_get32 cfg m (cfg.var32_off + 4 * var - 4)
  else .error (.undefined "read outside the memory image")

/-- A collaborator call that only returns values. -/
def host_call (cfg : Config) (fn : String) (args : List HostArg) (s : Machine) :
    List Nat × Machine :=
  (cfg.host_ret s.trace ⟨fn, args⟩, { s with trace := s.trace ++ [⟨fn, args⟩] })

/-- A collaborator call that may also rewrite the memory image. -/
def host_mem_call (cfg : Config) (fn : String) (args : List HostArg) (s : Machine) :
    List Nat × Machine :=
  (cfg.host_ret s.trace ⟨fn, args⟩,
    { s with memory := cfg.host_mem s.trace ⟨fn, args⟩ s.memory,
             trace := s.trace ++ [⟨fn, args⟩] })

/-- A collaborator call made for its effect only. -/
def host_do (cfg : Config) (fn : String) (args : List HostArg) (s : Machine) : Machine :=
  (host_call cfg fn args s).2

/-! ## `vm.h`: flags -/

/-- The C function `vm_flag_is_on`. -/
def vm_flag_is_on (cfg : Config) (s : Machine) (flag : Nat) : Except Fault Bool := do
  let f ← mem_get16 cfg s.memory (system_var16_addr cfg cfg.MES_SYS_VAR_FLAGS)
  pure (f &&& flag == flag)

/-- The C function `vm_flag_on`. -/
def vm_flag_on (cfg : Config) (s : Machine) (flag : Nat) : Except Fault Machine := do
  let f ← mem_get16 cfg s.memory (system_var16_addr cfg cfg.MES_SYS_VAR_FLAGS)
  let m ← mem_set16 cfg s.memory (system_var16_addr cfg cfg.MES_SYS_VAR_FLAGS) (f ||| u16 flag)
  pure (s.set_memory m)

/-- The C function `vm_flag_off`. -/
def vm_flag_off (cfg : Config) (s : Machine) (flag : Nat) : Except Fault Machine := do
  let f ← mem_get16 cfg s.memory (system_var16_addr cfg cfg.MES_SYS_VAR_FLAGS)
  let m ← mem_set16 cfg s.memory (system_var16_addr cfg cfg.MES_SYS_VAR_FLAGS)
    (f &&& (65535 - u16 flag))
  pure (s.set_memory m)

/-! ## `vm.c`: reading bytecode and the expression stack -/

/-- The C function `vm_read_byte`. -/
def vm_read_byte (cfg : Config) (s : Machine) : Except Fault (Nat × Machine) := do
  let b ← code_get8 cfg s 0
  pure (b, s.set_ip_ptr (u32 (s.ip.ptr + 1)))

/-- The C function `vm_peek_byte`. -/
def vm_peek_byte (cfg : Config) (s : Machine) : Except Fault Nat :=
  code_get8 cfg s 0

/-- The C function `vm_rewind_byte`. -/
def vm_rewind_byte (s : Machine) : Machine :=
  s.set_ip_ptr (u32 (s.ip.ptr + 4294967295))

/-- The C function `vm_read_word`. -/
def vm_read_word (cfg : Config) (s : Machine) : Except Fault (Nat × Machine) := do
  let v ← code_get16 cfg s
  pure (v, s.set_ip_ptr (u32 (s.ip.ptr + 2)))

/-- The C function `vm_read_dword`. -/
def vm_read_dword (cfg : Config) (s : Machine) : Except Fault (Nat × Machine) := do
  let v ← code_get32 cfg s
  pure (v, s.set_ip_ptr (u32 (s.ip.ptr + 4)))

/-- The C function `vm_stack_push`: store, increment, then check.  The store
`vm.stack[vm.stack_ptr++] = val` is outside the array when `vm.stack_ptr` is
`VM_STACK_SIZE` or more. -/
def vm_stack_push (s : Machine) (val : Nat) : Except Fault Machine :=
  if s.stack_ptr ≥ VM_STACK_SIZE then .error (.undefined "write past the end of vm.stack")
  else
    let s1 := s.set_stack (u32 val :: s.stack)
    if s1.stack_ptr ≥ VM_STACK_SIZE then VM_ERROR "Stack overflow" [] else .ok s1

/-- The C function `vm_stack_pop`. -/
def vm_stack_pop (s : Machine) : Except Fault (Nat × Machine) :=
  match s.stack with
  | [] => VM_ERROR "Tried to pop from empty stack" []
  | v :: rest => .ok (v, s.set_stack rest)

/-- The C library function `toupper` in the C locale. -/
def toupper (c : Nat) : Nat := if 97 ≤ c ∧ c ≤ 122 then c - 32 else c

/-- The loop of `vm_load_mes` that upper-cases `memory_raw[i]` up to the first
NUL byte, starting at index `i`. -/
def vm_load_mes_toupper (cfg : Config) : Nat → Nat → (Nat → Nat) → Except Fault (Nat → Nat)
  | 0, _, _ => .error .out_of_fuel
  | fuel + 1, i, m => do
    let c ← mem_get8 cfg m i
    if c = 0 then pure m
    else do
      let m1 ← mem_set8 cfg m i (toupper c)
      vm_load_mes_toupper cfg fuel (i + 1) m1

/-- The C function `vm_load_mes`; `name` is the C string without its NUL.  The MES
name slot `memory_mes_name()` is the start of the memory image. -/
def vm_load_mes (cfg : Config) (name : List Nat) (s : Machine) : Except Fault Machine := do
  let m1 ← mem_copy cfg s.memory 0 (name ++ [0])
  let m2 ← vm_load_mes_toupper cfg (cfg.memory_size + 1) 0 m1
  let s1 := host_do cfg "asset_mes_load" [.str name] (s.set_memory m2)
  match cfg.asset_mes_load name with
  | none => VM_ERROR "Failed to load MES file \"%s\"" []
  | some data => do
    let m3 ← mem_copy cfg s1.memory cfg.file_data_off data
    pure (s1.set_memory m3)

/-! ## `vm.c`: the expression evaluator -/

/-- The macro `OPERATOR(op)` of `vm_eval`: pop `b`, pop `a`, push `a op b`. -/
def OPERATOR (op : Nat → Nat → Except Fault Nat) (s : Machine) : Except Fault Machine := do
  let (b, s1) ← vm_stack_pop s
  let (a, s2) ← vm_stack_pop s1
  let r ← op a b
  vm_stack_push s2 r

/-- The C result of a comparison or logical operator: `1` or `0`. -/
def c_bool (p : Bool) : Nat := if p then 1 else 0

/-- One pass through the `switch` of `vm_eval` for the opcode byte `op`: the
result is `some r` when the `MES_EXPR_END` case returns `r`. -/
def vm_eval_op (cfg : Config) (op : Nat) (s : Machine) : Except Fault (Option Nat × Machine) :=
  match cfg.mes_opcode_to_expr op with
  | .MES_EXPR_IMM => do
    let s1 ← vm_stack_push s op
    pure (none, s1)
  | .MES_EXPR_VAR => do
    let (i, s1) ← vm_read_byte cfg s
    let v ← mem_get16 cfg s1.memory (var16_addr cfg i)
    let s2 ← vm_stack_push s1 v
    pure (none, s2)
  | .MES_EXPR_ARRAY16_GET16 => do
    let (i, s1) ← vm_stack_pop s
    let (var, s2) ← vm_read_byte cfg s1
    let base ← if var = 0 then pure cfg.system_var16_off
      else mem_get16 cfg s2.memory (var16_addr cfg (var - 1))
    let v ← mem_get16 cfg s2.memory (base + 2 * i)
    let s3 ← vm_stack_push s2 v
    pure (none, s3)
  | .MES_EXPR_ARRAY16_GET8 => do
    let (i, s1) ← vm_stack_pop s
    let (var, s2) ← vm_read_byte cfg s1
    let base ← mem_get16 cfg s2.memory (var16_addr cfg var)
    let v ← mem_get8 cfg s2.memory (base + i)
    let s3 ← vm_stack_push s2 v
    pure (none, s3)
  | .MES_EXPR_PLUS => do
    let s1 ← OPERATOR (fun a b => pure (a + b)) s
    pure (none, s1)
  | .MES_EXPR_MINUS => do
    let s1 ← OPERATOR (fun a b => pure (a + (4294967296 - u32 b))) s
    pure (none, s1)
  | .MES_EXPR_MUL => do
    let s1 ← OPERATOR (fun a b => pure (a * b)) s
    pure (none, s1)
  | .MES_EXPR_DIV => do
    let s1 ← OPERATOR (fun a b =>
      if b = 0 then .error (.undefined "division by zero") else pure (a / b)) s
    pure (none, s1)
  | .MES_EXPR_MOD => do
    let s1 ← OPERATOR (fun a b =>
      if b = 0 then .error (.undefined "division by zero") else pure (a % b)) s
    pure (none, s1)
  | .MES_EXPR_RAND =>
    if cfg.target_is_doukyuusei then do
      let (range, s1) ← vm_read_word cfg s
      let (r, s2) := host_call cfg "rand" [] s1
      if range = 0 then .error (.undefined "division by zero")
      else do
        let s3 ← vm_stack_push s2 (r.headD 0 % range)
        pure (none, s3)
    else do
      let (range, s1) ← vm_stack_pop s
      let (r, s2) := host_call cfg "rand" [] s1
      if range = 0 then .error (.undefined "division by zero")
      else do
        let s3 ← vm_stack_push s2 (u32 (r.headD 0) % range)
        pure (none, s3)
  | .MES_EXPR_AND => do
    let s1 ← OPERATOR (fun a b => pure (c_bool (a != 0 && b != 0))) s
    pure (none, s1)
  | .MES_EXPR_OR => do
    let s1 ← OPERATOR (fun a b => pure (c_bool (a != 0 || b != 0))) s
    pure (none, s1)
  | .MES_EXPR_BITAND => do
    let s1 ← OPERATOR (fun a b => pure (a &&& b)) s
    pure (none, s1)
  | .MES_EXPR_BITIOR => do
    let s1 ← OPERATOR (fun a b => pure (a ||| b)) s
    pure (none, s1)
  | .MES_EXPR_BITXOR => do
    let s1 ← OPERATOR (fun a b => pure (a ^^^ b)) s
    pure (none, s1)
  | .MES_EXPR_LT => do
    let s1 ← OPERATOR (fun a b => pure (c_bool (decide (a < b)))) s
    pure (none, s1)
  | .MES_EXPR_GT => do
    let s1 ← OPERATOR (fun a b => pure (c_bool (decide (a > b)))) s
    pure (none, s1)
  | .MES_EXPR_LTE => do
    let s1 ← OPERATOR (fun a b => pure (c_bool (decide (a ≤ b)))) s
    pure (none, s1)
  | .MES_EXPR_GTE => do
    let s1 ← OPERATOR (fun a b => pure (c_bool (decide (a ≥ b)))) s
    pure (none, s1)
  | .MES_EXPR_EQ => do
    let s1 ← OPERATOR (fun a b => pure (c_bool (a == b))) s
    pure (none, s1)
  | .MES_EXPR_NEQ => do
    let s1 ← OPERATOR (fun a b => pure (c_bool (a != b))) s
    pure (none, s1)
  | .MES_EXPR_IMM16 => do
    let (v, s1) ← vm_read_word cfg s
    let s2 ← vm_stack_push s1 v
    pure (none, s2)
  | .MES_EXPR_IMM32 => do
    let (v, s1) ← vm_read_dword cfg s
    let s2 ← vm_stack_push s1 v
    pure (none, s2)
  | .MES_EXPR_REG16 => do
    let (i, s1) ← vm_read_word cfg s
    let v ← mem_get8 cfg s1.memory (var4_addr cfg i)
    let s2 ← vm_stack_push s1 v
    pure (none, s2)
  | .MES_EXPR_REG8 => do
    let (i, s1) ← vm_stack_pop s
    let v ← mem_get8 cfg s1.memory (var4_addr cfg i)
    let s2 ← vm_stack_push s1 v
    pure (none, s2)
  | .MES_EXPR_ARRAY32_GET32 => do
    let (i, s1) ← vm_stack_pop s
    let (var, s2) ← vm_read_byte cfg s1
    let base ← if var = 0 then pure cfg.system_var32_off
      else mem_get32 cfg s2.memory (var32_addr cfg (var - 1))
    let v ← mem_get32 cfg s2.memory (base + 4 * i)
    let s3 ← vm_stack_push s2 v
    pure (none, s3)
  | .MES_EXPR_ARRAY32_GET16 => do
    let (i, s1) ← vm_stack_pop s
    let (var, s2) ← vm_read_byte cfg s1
    let base ← var32_pred cfg s2.memory var
    let v ← mem_get16 cfg s2.memory (base + 2 * i)
    let s3 ← vm_stack_push s2 v
    pure (none, s3)
  | .MES_EXPR_ARRAY32_GET8 => do
    let (i, s1) ← vm_stack_pop s
    let (var, s2) ← vm_read_byte cfg s1
    let base ← var32_pred cfg s2.memory var
    let v ← mem_get8 cfg s2.memory (base + i)
    let s3 ← vm_stack_push s2 v
    pure (none, s3)
  | .MES_EXPR_VAR32 => do
    let (i, s1) ← vm_read_byte cfg s
    let v ← mem_get32 cfg s1.memory (var32_addr cfg i)
    let s2 ← vm_stack_push s1 v
    pure (none, s2)
  | .MES_EXPR_END => do
    let (r, s1) ← vm_stack_pop s
    if s1.stack_ptr > 0 then VM_ERROR "Stack pointer is non-zero at end of expression" []
    else pure (some r, s1)

/-- The `while (true)` loop of `vm_eval`: read an opcode byte, run the switch. -/
def vm_eval_loop (cfg : Config) : Nat → Machine → Except Fault (Nat × Machine)
  | 0, _ => .error .out_of_fuel
  | fuel + 1, s => do
    let (op, s1) ← vm_read_byte cfg s
    let (r, s2) ← vm_eval_op cfg op s1
    match r with
    | some v => pure (v, s2)
    | none => vm_eval_loop cfg fuel s2

/-- The C function `vm_eval`.  Every pass of its loop reads at least one byte of
the memory image, which bounds the number of passes. -/
def vm_eval (cfg : Config) (s : Machine) : Except Fault (Nat × Machine) :=
  vm_eval_loop cfg (cfg.memory_size + 1) s

/-! ## `vm.c`: parameter lists -/

/-- The C constant `STRING_PARAM_SIZE`. -/
def STRING_PARAM_SIZE : Nat := 64

/-- The C constant `MAX_PARAMS`. -/
def MAX_PARAMS : Nat := 30

/-- The C type `struct param`.  Of the union members `str` and `val` the one that
was written is the one that is read: every reader checks `type` first. -/
structure param where
  type : Nat
  str : List Nat
  val : Nat
  deriving DecidableEq, Repr

/-- The C type `struct param_list`. -/
structure param_list where
  params : Nat → param
  nr_params : Nat

/-- The initialiser `struct param_list params = {0}`. -/
def param_list_zero : param_list :=
  { params := fun _ => { type := 0, str := [], val := 0 }, nr_params := 0 }

/-- The assignments `params->params[i].type = b; params->params[i].val = v`. -/
def param_list.set_expr (params : param_list) (i b v : Nat) : param_list :=
  { params with params := fun k =>
      if k = i then { type := b, str := (params.params i).str, val := v } else params.params k }

/-- The assignment `params->params[i].type = b` followed by the string `str`
stored in `params->params[i].str`. -/
def param_list.set_str (params : param_list) (i b : Nat) (str : List Nat) : param_list :=
  { params with params := fun k =>
      if k = i then { type := b, str := str, val := (params.params i).val } else params.params k }

/-- The loop of `read_string_param`; `acc` holds `str[0 .. str_i)` in reverse. -/
def read_string_param_loop (cfg : Config) : Nat → List Nat → Machine → Except Fault (List Nat × Machine)
  | 0, _, _ => .error .out_of_fuel
  | fuel + 1, acc, s => do
    let (c, s1) ← vm_read_byte cfg s
    if c = 0 then
      if acc.length ≥ STRING_PARAM_SIZE then
        .error (.undefined "write past the end of the string parameter buffer")
      else pure (acc.reverse, s1)
    else if acc.length ≥ STRING_PARAM_SIZE then
      VM_ERROR "String parameter overflowed buffer" []
    else read_string_param_loop cfg fuel (c :: acc) s1

/-- The C function `read_string_param`; the result is the string stored in `str`. -/
def read_string_param (cfg : Config) (s : Machine) : Except Fault (List Nat × Machine) :=
  read_string_param_loop cfg (cfg.memory_size + 1) [] s

/-- The loop of `read_params`, entered with the loop counter `i`. -/
def read_params_loop (cfg : Config) : Nat → Nat → param_list → Machine →
    Except Fault (param_list × Machine)
  | 0, _, _, _ => .error .out_of_fuel
  | fuel + 1, i, params, s => do
    let (b, s1) ← vm_read_byte cfg s
    if b = 0 then pure ({ params with nr_params := i }, s1)
    else if i ≥ MAX_PARAMS then VM_ERROR "Too many parameters" []
    else if b = cfg.MES_PARAM_EXPRESSION then do
      let (v, s2) ← vm_eval cfg s1
      read_params_loop cfg fuel (i + 1) (params.set_expr i b v) s2
    else do
      let (str, s2) ← read_string_param cfg s1
      read_params_loop cfg fuel (i + 1) (params.set_str i b str) s2

/-- The C function `read_params`, applied to a zero-initialised list. -/
def read_params (cfg : Config) (s : Machine) : Except Fault (param_list × Machine) :=
  read_params_loop cfg (cfg.memory_size + 1) 0 param_list_zero s

/-- The C function `check_string_param`. -/
def check_string_param (cfg : Config) (params : param_list) (i : Nat) : Except Fault (List Nat) :=
  if params.nr_params < i then VM_ERROR "Too few parameters" []
  else if (params.params i).type ≠ cfg.MES_PARAM_STRING then
    VM_ERROR "Expected string parameter" []
  else pure (params.params i).str

/-- The C function `check_expr_param`. -/
def check_expr_param (cfg : Config) (params : param_list) (i : Nat) : Except Fault Nat :=
  if params.nr_params < i then VM_ERROR "Too few parameters" []
  else if (params.params i).type ≠ cfg.MES_PARAM_EXPRESSION then
    VM_ERROR "Expected expression parameter" []
  else pure (params.params i).val

/-! ## `vm.c`: text statements -/

/-- The C constant `TXT_BUF_SIZE`. -/
def TXT_BUF_SIZE : Nat := 4096

/-- The macro `WARNING(fmt, ...)`: a log line. -/
def WARNING (cfg : Config) (fmt : String) (s : Machine) : Machine :=
  host_do cfg "WARNING" [.text fmt] s

/-- Read `sys_var16[i]`. -/
def get_sys_var16 (cfg : Config) (s : Machine) (i : Nat) : Except Fault Nat :=
  mem_get16 cfg s.memory (system_var16_addr cfg i)

/-- Assign `sys_var16[i]`. -/
def set_sys_var16 (cfg : Config) (s : Machine) (i v : Nat) : Except Fault Machine := do
  let m ← mem_set16 cfg s.memory (system_var16_addr cfg i) v
  pure (s.set_memory m)

/-- The loop of `draw_text` over the characters of `text`. -/
def draw_text_loop (cfg : Config) (surface char_space : Nat) :
    Nat → List Nat → Machine → Except Fault Machine
  | 0, _, _ => .error .out_of_fuel
  | _ + 1, [], s => pure s
  | fuel + 1, c :: rest, s => do
    let zenkaku := cfg.SJIS_2BYTE c
    let adv := if zenkaku then char_space / 8 else char_space / 16
    let x ← get_sys_var16 cfg s cfg.MES_SYS_VAR_TEXT_CURSOR_X
    let end_x ← get_sys_var16 cfg s cfg.MES_SYS_VAR_TEXT_END_X
    let (next_x, s1) ←
      if u16 (x + adv) > end_x then do
        let y ← get_sys_var16 cfg s cfg.MES_SYS_VAR_TEXT_CURSOR_Y
        let line_space ← get_sys_var16 cfg s cfg.MES_SYS_VAR_LINE_SPACE
        let sa ← set_sys_var16 cfg s cfg.MES_SYS_VAR_TEXT_CURSOR_Y (u16 (y + line_space))
        let start_x ← get_sys_var16 cfg sa cfg.MES_SYS_VAR_TEXT_START_X
        let sb ← set_sys_var16 cfg sa cfg.MES_SYS_VAR_TEXT_CURSOR_X start_x
        let x1 ← get_sys_var16 cfg sb cfg.MES_SYS_VAR_TEXT_CURSOR_X
        pure (u16 (x1 + adv), sb)
      else pure (u16 (x + adv), s)
    let x2 ← get_sys_var16 cfg s1 cfg.MES_SYS_VAR_TEXT_CURSOR_X
    let y2 ← get_sys_var16 cfg s1 cfg.MES_SYS_VAR_TEXT_CURSOR_Y
    let s2 := host_do cfg "gfx_text_draw_glyph"
      [.num (x2 * 8), .num y2, .num surface, .str (if zenkaku then c :: rest.take 1 else [c])] s1
    let s3 ← set_sys_var16 cfg s2 cfg.MES_SYS_VAR_TEXT_CURSOR_X next_x
    draw_text_loop cfg surface char_space fuel (if zenkaku then rest.drop 1 else rest) s3

/-- The C function `draw_text`; `text` is the C string without its NUL. -/
def draw_text (cfg : Config) (text : List Nat) (s : Machine) : Except Fault Machine := do
  let surface ← get_sys_var16 cfg s cfg.MES_SYS_VAR_DST_SURFACE
  let char_space ← get_sys_var16 cfg s cfg.MES_SYS_VAR_CHAR_SPACE
  draw_text_loop cfg surface char_space (text.length + 1) text s

/-- The C string held by a buffer: the bytes in front of the first NUL. -/
def c_string (buf : List Nat) : List Nat := buf.takeWhile (fun c => c != 0)

/-- The loop of `stmt_txt`; `acc` holds `str[0 .. str_i)` in reverse. -/
def stmt_txt_loop (cfg : Config) : Nat → List Nat → Machine → Except Fault (List Nat × Machine)
  | 0, _, _ => .error .out_of_fuel
  | fuel + 1, acc, s => do
    let c ← vm_peek_byte cfg s
    if c = 0 then do
      let (_, s1) ← vm_read_byte cfg s
      pure (acc, s1)
    else if !cfg.mes_char_is_zenkaku c then
      pure (acc, WARNING cfg "Invalid byte in TXT statement: %02x" s)
    else if acc.length + 2 > TXT_BUF_SIZE then
      .error (.undefined "write past the end of the text buffer")
    else do
      let (c1, s1) ← vm_read_byte cfg s
      let (c2, s2) ← vm_read_byte cfg s1
      stmt_txt_loop cfg fuel (c2 :: c1 :: acc) s2

/-- The C function `stmt_txt`. -/
def stmt_txt (cfg : Config) (s : Machine) : Except Fault Machine := do
  let (acc, s1) ← stmt_txt_loop cfg (cfg.memory_size + 1) [] s
  if acc.length ≥ TXT_BUF_SIZE then .error (.undefined "write past the end of the text buffer")
  else draw_text cfg (c_string acc.reverse) s1

/-- The loop of `stmt_str`; `acc` holds `str[0 .. str_i)` in reverse. -/
def stmt_str_loop (cfg : Config) : Nat → List Nat → Machine → Except Fault (List Nat × Machine)
  | 0, _, _ => .error .out_of_fuel
  | fuel + 1, acc, s => do
    let c ← vm_peek_byte cfg s
    if c = 0 then do
      let (_, s1) ← vm_read_byte cfg s
      pure (acc, s1)
    else if !cfg.mes_char_is_hankaku c then
      pure (acc, WARNING cfg "Invalid byte in STR statement: %02x" s)
    else if acc.length + 1 > TXT_BUF_SIZE then
      .error (.undefined "write past the end of the text buffer")
    else do
      let (_, s1) ← vm_read_byte cfg s
      stmt_str_loop cfg fuel (c :: acc) s1

/-- The C function `stmt_str`. -/
def stmt_str (cfg : Config) (s : Machine) : Except Fault Machine := do
  let (acc, s1) ← stmt_str_loop cfg (cfg.memory_size + 1) [] s
  if acc.length ≥ TXT_BUF_SIZE then .error (.undefined "write past the end of the text buffer")
  else draw_text cfg (c_string acc.reverse) s1

/-! ## `vm.c`: assignment statements -/

/-- The shared shape of the assignment statements,
`do { store(i++, vm_eval()); } while (vm_read_byte());`, with `store` the
assignment to the cell numbered `i` and `next` the increment of `i`. -/
def stmt_set_loop (cfg : Config) (store : (Nat → Nat) → Nat → Nat → Except Fault (Nat → Nat))
    (next : Nat → Nat) : Nat → Nat → Machine → Except Fault Machine
  | 0, _, _ => .error .out_of_fuel
  | fuel + 1, i, s => do
    let (v, s1) ← vm_eval cfg s
    let m ← store s1.memory i v
    let (b, s2) ← vm_read_byte cfg (s1.set_memory m)
    if b ≠ 0 then stmt_set_loop cfg store next fuel (next i) s2 else pure s2

/-- The C function `stmt_setrbc`: `usr_var4[i++] = vm_eval() & 0xf` with a
`uint16_t` index. -/
def stmt_setrbc (cfg : Config) (s : Machine) : Except Fault Machine := do
  let (i, s1) ← vm_read_word cfg s
  stmt_set_loop cfg (fun m i v => mem_set8 cfg m (var4_addr cfg i) (v &&& 0xf))
    (fun i => u16 (i + 1)) (cfg.memory_size + 1) i s1

/-- The C function `stmt_setv`: `usr_var16[i++] = vm_eval()` with a `uint8_t`
index. -/
def stmt_setv (cfg : Config) (s : Machine) : Except Fault Machine := do
  let (i, s1) ← vm_read_byte cfg s
  stmt_set_loop cfg (fun m i v => mem_set16 cfg m (var16_addr cfg i) (u16 v))
    (fun i => u8 (i + 1)) (cfg.memory_size + 1) i s1

/-- The C function `stmt_setrbe`: `usr_var4[i++] = vm_eval() & 0xf` with a
`uint32_t` index. -/
def stmt_setrbe (cfg : Config) (s : Machine) : Except Fault Machine := do
  let (i, s1) ← vm_eval cfg s
  stmt_set_loop cfg (fun m i v => mem_set8 cfg m (var4_addr cfg i) (v &&& 0xf))
    (fun i => u32 (i + 1)) (cfg.memory_size + 1) i s1

/-- The C function `stmt_setrd`: `usr_var32[i++] = vm_eval()` with a `uint32_t`
index. -/
def stmt_setrd (cfg : Config) (s : Machine) : Except Fault Machine := do
  let (i, s1) ← vm_read_byte cfg s
  stmt_set_loop cfg (fun m i v => mem_set32 cfg m (var32_addr cfg i) (u32 v))
    (fun i => u32 (i + 1)) (cfg.memory_size + 1) i s1

/-- The C function `stmt_setac`: bytes from `memory_raw + usr_var4[var] + i` on. -/
def stmt_setac (cfg : Config) (s : Machine) : Except Fault Machine := do
  let (i, s1) ← vm_eval cfg s
  let (var, s2) ← vm_read_byte cfg s1
  let base ← mem_get8 cfg s2.memory (var4_addr cfg var)
  stmt_set_loop cfg (fun m a v => mem_set8 cfg m a (u8 v)) (fun a => a + 1)
    (cfg.memory_size + 1) (base + i) s2

/-- The C function `stmt_seta_at`: `uint16_t` cells from element `i` of
`sys_var16` (`var = 0`) or of the array at `memory_raw + usr_var16[var - 1]`. -/
def stmt_seta_at (cfg : Config) (s : Machine) : Except Fault Machine := do
  let (i, s1) ← vm_eval cfg s
  let (var, s2) ← vm_read_byte cfg s1
  let base ← if var = 0 then pure cfg.system_var16_off
    else mem_get16 cfg s2.memory (var16_addr cfg (var - 1))
  stmt_set_loop cfg (fun m a v => mem_set16 cfg m a (u16 v)) (fun a => a + 2)
    (cfg.memory_size + 1) (base + 2 * i) s2

/-- The C function `stmt_setad`: `uint32_t` cells from element `i` of `sys_var32`
(`var = 0`) or of the array at `memory_raw + usr_var32[var - 1]`. -/
def stmt_setad (cfg : Config) (s : Machine) : Except Fault Machine := do
  let (i, s1) ← vm_eval cfg s
  let (var, s2) ← vm_read_byte cfg s1
  let base ← if var = 0 then pure cfg.system_var32_off
    else mem_get32 cfg s2.memory (var32_addr cfg (var - 1))
  stmt_set_loop cfg (fun m a v => mem_set32 cfg m a (u32 v)) (fun a => a + 4)
    (cfg.memory_size + 1) (base + 4 * i) s2

/-- The C function `stmt_setaw`: `uint16_t` cells from element `i` of the array at
`memory_raw + usr_var32[var - 1]`. -/
def stmt_setaw (cfg : Config) (s : Machine) : Except Fault Machine := do
  let (i, s1) ← vm_eval cfg s
  let (var, s2) ← vm_read_byte cfg s1
  let base ← var32_pred cfg s2.memory var
  stmt_set_loop cfg (fun m a v => mem_set16 cfg m a (u16 v)) (fun a => a + 2)
    (cfg.memory_size + 1) (base + 2 * i) s2

/-- The C function `stmt_setab`: bytes from `memory_raw + usr_var32[var - 1] + i`
on. -/
def stmt_setab (cfg : Config) (s : Machine) : Except Fault Machine := do
  let (i, s1) ← vm_eval cfg s
  let (var, s2) ← vm_read_byte cfg s1
  let base ← var32_pred cfg s2.memory var
  stmt_set_loop cfg (fun m a v => mem_set8 cfg m a (u8 v)) (fun a => a + 1)
    (cfg.memory_size + 1) (base + i) s2

/-! ## `vm.c`: jumps -/

/-- The C function `stmt_jz`. -/
def stmt_jz (cfg : Config) (s : Machine) : Except Fault Machine := do
  let (val, s1) ← vm_eval cfg s
  let (ptr, s2) ← vm_read_dword cfg s1
  if val = 1 then pure s2 else pure (s2.set_ip_ptr ptr)

/-- The C function `stmt_jmp`. -/
def stmt_jmp (cfg : Config) (s : Machine) : Except Fault Machine := do
  let ptr ← code_get32 cfg s
  pure (s.set_ip_ptr ptr)

/-! ## `vm.c`: the `System` handlers that do not re-enter the VM -/

/-- The C constant `GFX_NR_SURFACES`. -/
def GFX_NR_SURFACES : Nat := 5

/-- The C function `stmt_sys_set_font_size`. -/
def stmt_sys_set_font_size (cfg : Config) (s : Machine) : Except Fault Machine := do
  let h ← get_sys_var16 cfg s cfg.MES_SYS_VAR_FONT_HEIGHT
  pure (host_do cfg "gfx_text_set_size" [.num h] s)

/-- The C function `stmt_sys_cursor_save_pos`. -/
def stmt_sys_cursor_save_pos (cfg : Config) (s : Machine) : Except Fault Machine := do
  let (r, s1) := host_call cfg "cursor_get_pos" [] s
  let s2 ← set_sys_var16 cfg s1 3 (u16 (r.getD 0 0))
  set_sys_var16 cfg s2 4 (u16 (r.getD 1 0))

/-- The C function `stmt_sys_cursor`. -/
def stmt_sys_cursor (cfg : Config) (params : param_list) (s : Machine) : Except Fault Machine := do
  let f ← check_expr_param cfg params 0
  match f with
  | 0 => pure (host_do cfg "cursor_reload" [] s)
  | 1 => pure (host_do cfg "cursor_unload" [] s)
  | 2 => stmt_sys_cursor_save_pos cfg s
  | 3 => do
    let x ← check_expr_param cfg params 1
    let y ← check_expr_param cfg params 2
    pure (host_do cfg "cursor_set_pos" [.num x, .num y] s)
  | 4 => do
    let n ← check_expr_param cfg params 1
    pure (host_do cfg "cursor_load" [.num n] s)
  | 5 => pure (host_do cfg "cursor_show" [] s)
  | 6 => pure (host_do cfg "cursor_hide" [] s)
  | _ => VM_ERROR "System.Cursor.function[%u] not implemented" [(f : Int)]

/-- The C function `stmt_sys_anim`. -/
def stmt_sys_anim (cfg : Config) (params : param_list) (s : Machine) : Except Fault Machine := do
  let f ← check_expr_param cfg params 0
  match f with
  | 0 => do
    let a ← check_expr_param cfg params 1
    pure (host_do cfg "anim_init_stream" [.num a] s)
  | 1 => do
    let a ← check_expr_param cfg params 1
    pure (host_do cfg "anim_start" [.num a] s)
  | 2 => do
    let a ← check_expr_param cfg params 1
    pure (host_do cfg "anim_stop" [.num a] s)
  | 3 => do
    let a ← check_expr_param cfg params 1
    pure (host_do cfg "anim_halt" [.num a] s)
  | 4 => pure (WARNING cfg "System.Anim.function[4] not implemented" s)
  | 5 => pure (host_do cfg "anim_stop_all" [] s)
  | 6 => pure (host_do cfg "anim_halt_all" [] s)
  | 20 => do
    let a ← check_expr_param cfg params 1
    let b ← check_expr_param cfg params 2
    let c ← check_expr_param cfg params 3
    pure (host_do cfg "anim_set_offset" [.num a, .num b, .num c] s)
  | _ => VM_ERROR "System.Anim.function[%u] not implemented" [(f : Int)]

/-- The result of `sprintf(save_name, "FLAG%02u", save_no)` for `save_no <= 99`. -/
def save_name (save_no : Nat) : List Nat :=
  [70, 76, 65, 71, 48 + save_no / 10, 48 + save_no % 10]

/-- A savedata collaborator: it may rewrite the memory image. -/
def savedata (cfg : Config) (fn : String) (args : List HostArg) (s : Machine) : Machine :=
  (host_mem_call cfg fn args s).2

/-- The C function `stmt_sys_savedata`. -/
def stmt_sys_savedata (cfg : Config) (params : param_list) (s : Machine) : Except Fault Machine := do
  let save_no ← check_expr_param cfg params 1
  if save_no > 99 then VM_ERROR "Invalid save number: %u" [(save_no : Int)]
  else do
    let name := save_name save_no
    let f ← check_expr_param cfg params 0
    match f with
    | 0 => pure (savedata cfg "savedata_resume_load" [.str name] s)
    | 1 => pure (savedata cfg "savedata_resume_save" [.str name] s)
    | 2 => pure (savedata cfg "savedata_load" [.str name] s)
    | 3 => pure (savedata cfg "savedata_save" [.str name] s)
    | 4 => pure (savedata cfg "savedata_load_var4" [.str name] s)
    | 5 => pure (savedata cfg "savedata_save_var4" [.str name] s)
    | 6 => pure (savedata cfg "savedata_save_union_var4" [.str name] s)
    | 7 => do
      let a ← check_expr_param cfg params 2
      let b ← check_expr_param cfg params 3
      pure (savedata cfg "savedata_load_var4_slice" [.str name, .num a, .num b] s)
    | 8 => do
      let a ← check_expr_param cfg params 2
      let b ← check_expr_param cfg params 3
      pure (savedata cfg "savedata_save_var4_slice" [.str name, .num a, .num b] s)
    | 9 => do
      let save_no2 ← check_expr_param cfg params 2
      if save_no2 > 99 then VM_ERROR "Invalid save number: %u" [(save_no2 : Int)]
      else pure (savedata cfg "savedata_copy" [.str name, .str (save_name save_no2)] s)
    | 11 => pure (savedata cfg "savedata_f11" [.str name] s)
    | 13 => do
      let str ← check_string_param cfg params 2
      pure (savedata cfg "savedata_set_mes_name" [.str name, .str str] s)
    | _ => VM_ERROR "System.savedata.function[%u] not implemented" [(f : Int)]

/-- The C function `stmt_sys_audio`. -/
def stmt_sys_audio (cfg : Config) (params : param_list) (s : Machine) : Except Fault Machine := do
  let f ← check_expr_param cfg params 0
  match f with
  | 0 => do
    let name ← check_string_param cfg params 1
    pure (host_do cfg "audio_bgm_play" [.str name, .num 1] s)
  | 2 => pure (host_do cfg "audio_bgm_stop" [] s)
  | 3 => do
    let name ← check_string_param cfg params 1
    let ch ← check_expr_param cfg params 2
    pure (host_do cfg "audio_se_play" [.str name, .num ch] s)
  | 4 => do
    let a ← check_expr_param cfg params 1
    let b ← check_expr_param cfg params 2
    let c ← check_expr_param cfg params 3
    pure (host_do cfg "audio_bgm_fade" [.num a, .num b, .num c, .num 1] s)
  | 5 => do
    let a ← check_expr_param cfg params 1
    pure (host_do cfg "audio_bgm_set_volume" [.num a] s)
  | 7 => do
    let a ← check_expr_param cfg params 1
    let b ← check_expr_param cfg params 2
    let c ← check_expr_param cfg params 3
    pure (host_do cfg "audio_bgm_fade" [.num a, .num b, .num c, .num 0] s)
  | 9 => do
    let a ← check_expr_param cfg params 1
    pure (host_do cfg "audio_bgm_fade" [.num a, .num a, .num 1, .num 1] s)
  | 10 => do
    let a ← check_expr_param cfg params 1
    let b ← check_expr_param cfg params 2
    pure (host_do cfg "audio_bgm_fade" [.num a, .num b, .num 1, .num 0] s)
  | 12 => do
    let a ← check_expr_param cfg params 1
    pure (host_do cfg "audio_se_stop" [.num a] s)
  | 18 => pure (host_do cfg "audio_bgm_stop" [] s)
  | _ => VM_ERROR "System.Audio.function[%d] not implemented" [(f : Int)]

/-- The C function `vm_read_file`. -/
def vm_read_file (cfg : Config) (name : List Nat) (offset : Nat) (s : Machine) :
    Except Fault Machine :=
  let s1 := host_do cfg "asset_data_load" [.str name] s
  match cfg.asset_data_load name with
  | none => pure (WARNING cfg "Failed to read data file \"%s\"" s1)
  | some data =>
    if offset + data.length > cfg.MEMORY_FILE_DATA_SIZE then
      pure (WARNING cfg "Tried to read file beyond end of buffer" s1)
    else do
      let m ← mem_copy cfg s1.memory (cfg.file_data_off + offset) data
      pure (s1.set_memory m)

/-- The C function `stmt_sys_file`. -/
def stmt_sys_file (cfg : Config) (params : param_list) (s : Machine) : Except Fault Machine := do
  let f ← check_expr_param cfg params 0
  match f with
  | 0 => do
    let name ← check_string_param cfg params 1
    let offset ← check_expr_param cfg params 2
    vm_read_file cfg name offset s
  | _ => VM_ERROR "System.File.function[%d] not implemented" [(f : Int)]

/-- The C function `vm_load_image`. -/
def vm_load_image (cfg : Config) (name : List Nat) (i : Nat) (s : Machine) : Except Fault Machine :=
  let s1 := host_do cfg "asset_cg_load" [.str name] s
  match cfg.asset_cg_load name with
  | none => pure (WARNING cfg "Failed to load CG \"%s\"" s1)
  | some data => do
    let off ← mem_get32 cfg s1.memory (system_var32_addr cfg cfg.MES_SYS_VAR_CG_OFFSET)
    if off + data.length > cfg.MEMORY_FILE_DATA_SIZE then
      VM_ERROR "CG data would exceed buffer size" []
    else do
      let m ← mem_copy cfg s1.memory (cfg.file_data_off + off) data
      let s2 := s1.set_memory m
      match cfg.cg_load_arcdata data with
      | none => pure (WARNING cfg "Failed to decode CG \"%s\"" s2)
      | some c => do
        let s3 ← set_sys_var16 cfg s2 cfg.MES_SYS_VAR_CG_X (u16 (c.x / 8))
        let s4 ← set_sys_var16 cfg s3 cfg.MES_SYS_VAR_CG_Y (u16 c.y)
        let s5 ← set_sys_var16 cfg s4 cfg.MES_SYS_VAR_CG_W (u16 (c.w / 8))
        let s6 ← set_sys_var16 cfg s5 cfg.MES_SYS_VAR_CG_H (u16 c.h)
        let s7 := host_do cfg "gfx_draw_cg" [.num i, .str data] s6
        match c.palette with
        | none => pure s7
        | some pal => do
          let load_pal ← vm_flag_is_on cfg s7 cfg.VM_FLAG_LOAD_PALETTE
          if load_pal then do
            let m1 ← mem_copy cfg s7.memory cfg.palette_off (pal.take 1024)
            pure (s7.set_memory m1)
          else pure s7

/-- The C function `stmt_sys_load_image`. -/
def stmt_sys_load_image (cfg : Config) (params : param_list) (s : Machine) :
    Except Fault Machine := do
  let name ← check_string_param cfg params 0
  let i ← get_sys_var16 cfg s cfg.MES_SYS_VAR_DST_SURFACE
  vm_load_image cfg name i s

/-- The C function `check_rgb_param`. -/
def check_rgb_param (cfg : Config) (params : param_list) (i : Nat) :
    Except Fault (Nat × Nat × Nat) := do
  let c ← check_expr_param cfg params i
  pure (u8 ((c / 16 % 16) * 17), u8 ((c / 256 % 16) * 17), u8 ((c % 16) * 17))

/-- The C function `stmt_sys_palette_crossfade1`. -/
def stmt_sys_palette_crossfade1 (cfg : Config) (params : param_list) (s : Machine) :
    Except Fault Machine :=
  if params.nr_params > 1 then do
    let (r, g, b) ← check_rgb_param cfg params 1
    pure (host_do cfg "gfx_palette_crossfade_to" [.num r, .num g, .num b, .num 240] s)
  else pure (host_do cfg "gfx_palette_crossfade" [.num 240] s)

/-- The C function `stmt_sys_palette_crossfade2`. -/
def stmt_sys_palette_crossfade2 (cfg : Config) (params : param_list) (s : Machine) :
    Except Fault Machine := do
  let t ← check_expr_param cfg params 1
  if params.nr_params > 2 then do
    let (r, g, b) ← check_rgb_param cfg params 2
    pure (host_do cfg "gfx_palette_crossfade_to"
      [.num r, .num g, .num b, .num ((t % 16) * 240)] s)
  else pure (host_do cfg "gfx_palette_crossfade" [.num ((t % 16) * 240)] s)

/-- The C function `stmt_sys_palette`. -/
def stmt_sys_palette (cfg : Config) (params : param_list) (s : Machine) : Except Fault Machine := do
  let f ← check_expr_param cfg params 0
  match f with
  | 0 => pure (host_do cfg "gfx_palette_set" [] s)
  | 1 => stmt_sys_palette_crossfade1 cfg params s
  | 2 => stmt_sys_palette_crossfade2 cfg params s
  | 3 => pure (host_do cfg "gfx_hide_screen" [] s)
  | 4 => pure (host_do cfg "gfx_unhide_screen" [] s)
  | _ => VM_ERROR "System.Palette.function[%d] not implemented" [(f : Int)]

/-- The rectangle arguments shared by the graphics handlers: `x`, `y` and
`w = (br_x - x) + 1`, `h = (br_y - y) + 1`, as passed on (`x * 8, y, w * 8, h`). -/
def check_rect_params (cfg : Config) (params : param_list) : Except Fault (List HostArg) := do
  let x ← check_expr_param cfg params 1
  let y ← check_expr_param cfg params 2
  let brx ← check_expr_param cfg params 3
  let bry ← check_expr_param cfg params 4
  let w := u32 (brx + (4294967296 - x) + 1)
  let h := u32 (bry + (4294967296 - y) + 1)
  pure [.num (u32 (x * 8)), .num y, .num (u32 (w * 8)), .num h]

/-- The shared body of `stmt_sys_graphics_copy`, `stmt_sys_graphics_copy_masked`
and `stmt_sys_graphics_copy_swap`. -/
def sys_graphics_copy_body (cfg : Config) (fn : String) (extra : List HostArg)
    (params : param_list) (s : Machine) : Except Fault Machine := do
  let rect ← check_rect_params cfg params
  let src_i ← check_expr_param cfg params 5
  let dst_x ← check_expr_param cfg params 6
  let dst_y ← check_expr_param cfg params 7
  let dst_i ← check_expr_param cfg params 8
  if src_i ≥ GFX_NR_SURFACES then VM_ERROR "Invalid surface index: %u" [(src_i : Int)]
  else if dst_i ≥ GFX_NR_SURFACES then VM_ERROR "Invalid surface index: %u" [(dst_i : Int)]
  else pure (host_do cfg fn
    (rect ++ [.num src_i, .num (u32 (dst_x * 8)), .num dst_y, .num dst_i] ++ extra) s)

/-- The C function `stmt_sys_graphics_copy`. -/
def stmt_sys_graphics_copy (cfg : Config) (params : param_list) (s : Machine) :
    Except Fault Machine :=
  sys_graphics_copy_body cfg "gfx_copy" [] params s

/-- The C function `stmt_sys_graphics_copy_masked`. -/
def stmt_sys_graphics_copy_masked (cfg : Config) (params : param_list) (s : Machine) :
    Except Fault Machine := do
  let mask ← get_sys_var16 cfg s cfg.MES_SYS_VAR_MASK_COLOR
  sys_graphics_copy_body cfg "gfx_copy_masked" [.num mask] params s

/-- The C function `stmt_sys_graphics_fill_bg`. -/
def stmt_sys_graphics_fill_bg (cfg : Config) (params : param_list) (s : Machine) :
    Except Fault Machine := do
  let rect ← check_rect_params cfg params
  let i ← get_sys_var16 cfg s cfg.MES_SYS_VAR_DST_SURFACE
  pure (host_do cfg "gfx_text_fill" (rect ++ [.num i]) s)

/-- The C function `stmt_sys_graphics_copy_swap`. -/
def stmt_sys_graphics_copy_swap (cfg : Config) (params : param_list) (s : Machine) :
    Except Fault Machine :=
  sys_graphics_copy_body cfg "gfx_copy_swap" [] params s

/-- The C function `stmt_sys_graphics_swap_bg_fg`. -/
def stmt_sys_graphics_swap_bg_fg (cfg : Config) (params : param_list) (s : Machine) :
    Except Fault Machine := do
  let rect ← check_rect_params cfg params
  let i ← get_sys_var16 cfg s cfg.MES_SYS_VAR_DST_SURFACE
  pure (host_do cfg "gfx_text_swap_colors" (rect ++ [.num i]) s)

/-- The C function `stmt_sys_graphics_compose`. -/
def stmt_sys_graphics_compose (cfg : Config) (params : param_list) (s : Machine) :
    Except Fault Machine := do
  let rect ← check_rect_params cfg params
  let fg_i ← check_expr_param cfg params 5
  let bg_x ← check_expr_param cfg params 6
  let bg_y ← check_expr_param cfg params 7
  let bg_i ← check_expr_param cfg params 8
  let dst_x ← check_expr_param cfg params 9
  let dst_y ← check_expr_param cfg params 10
  let dst_i ← check_expr_param cfg params 11
  if fg_i ≥ GFX_NR_SURFACES then VM_ERROR "Invalid surface index: %u" [(fg_i : Int)]
  else if bg_i ≥ GFX_NR_SURFACES then VM_ERROR "Invalid surface index: %u" [(bg_i : Int)]
  else if dst_i ≥ GFX_NR_SURFACES then VM_ERROR "Invalid surface_index: %u" [(dst_i : Int)]
  else do
    let mask ← get_sys_var16 cfg s cfg.MES_SYS_VAR_MASK_COLOR
    pure (host_do cfg "gfx_compose"
      (rect ++ [.num fg_i, .num (u32 (bg_x * 8)), .num bg_y, .num bg_i,
        .num (u32 (dst_x * 8)), .num dst_y, .num dst_i, .num mask]) s)

/-- The C function `stmt_sys_graphics_invert_colors`. -/
def stmt_sys_graphics_invert_colors (cfg : Config) (params : param_list) (s : Machine) :
    Except Fault Machine := do
  let rect ← check_rect_params cfg params
  let i ← get_sys_var16 cfg s cfg.MES_SYS_VAR_DST_SURFACE
  if i ≥ GFX_NR_SURFACES then VM_ERROR "Invalid surface index: %u" [(i : Int)]
  else pure (host_do cfg "gfx_invert_colors" (rect ++ [.num i]) s)

/-- The C function `stmt_sys_graphics`. -/
def stmt_sys_graphics (cfg : Config) (params : param_list) (s : Machine) : Except Fault Machine := do
  let f ← check_expr_param cfg params 0
  match f with
  | 0 => stmt_sys_graphics_copy cfg params s
  | 1 => stmt_sys_graphics_copy_masked cfg params s
  | 2 => stmt_sys_graphics_fill_bg cfg params s
  | 3 => stmt_sys_graphics_copy_swap cfg params s
  | 4 => stmt_sys_graphics_swap_bg_fg cfg params s
  | 5 => stmt_sys_graphics_compose cfg params s
  | 6 => stmt_sys_graphics_invert_colors cfg params s
  | 20 => stmt_sys_graphics_copy cfg params s
  | _ => VM_ERROR "System.Image.function[%d] not implemented" [(f : Int)]

/-- The loop `while (input_keywait() != INPUT_ACTIVATE);` of `stmt_sys_wait`. -/
def input_keywait_loop (cfg : Config) : Nat → Machine → Except Fault Machine
  | 0, _ => .error .out_of_fuel
  | fuel + 1, s =>
    let (r, s1) := host_call cfg "input_keywait" [] s
    if r.headD 0 ≠ cfg.INPUT_ACTIVATE then input_keywait_loop cfg fuel s1 else pure s1

/-- The timed loop of `stmt_sys_wait`. -/
def vm_timer_loop (cfg : Config) (target_t : Nat) : Nat → Nat → Machine → Except Fault Machine
  | 0, _, _ => .error .out_of_fuel
  | fuel + 1, timer, s =>
    if timer < target_t then
      let (d, s1) := host_call cfg "input_down" [.num cfg.INPUT_SHIFT] s
      if d.headD 0 ≠ 0 then pure s1
      else
        let (t, s2) := host_call cfg "vm_timer_tick" [.num timer, .num 16] s1
        vm_timer_loop cfg target_t fuel (u32 (t.headD 0)) s2
    else pure s

/-- The C function `stmt_sys_wait`; its loops wait on the collaborators, so they
take fuel. -/
def stmt_sys_wait (cfg : Config) (fuel : Nat) (params : param_list) (s : Machine) :
    Except Fault Machine := do
  let wait_key ← if params.nr_params = 0 then pure true
    else do
      let v ← check_expr_param cfg params 0
      pure (v == 0)
  if wait_key then input_keywait_loop cfg fuel s
  else do
    let (t, s1) := host_call cfg "vm_timer_create" [] s
    let timer := u32 (t.headD 0)
    let s2 ← vm_timer_loop cfg (u32 (timer + (params.params 0).val)) fuel timer s1
    pure (host_do cfg "input_clear" [] s2)

/-- The C function `stmt_sys_set_text_colors`. -/
def stmt_sys_set_text_colors (cfg : Config) (params : param_list) (s : Machine) :
    Except Fault Machine := do
  let colors ← check_expr_param cfg params 0
  pure (host_do cfg "gfx_text_set_colors" [.num (colors / 16 % 16), .num (colors % 16)] s)

/-- The C function `farcall_addr_valid`. -/
def farcall_addr_valid (cfg : Config) (addr : Nat) : Bool :=
  decide (addr ≥ cfg.file_data_off) && decide (addr < cfg.file_data_off + cfg.MEMORY_FILE_DATA_SIZE)

/-- Assign `usr_var16[i]`. -/
def set_usr_var16 (cfg : Config) (s : Machine) (i v : Nat) : Except Fault Machine := do
  let m ← mem_set16 cfg s.memory (var16_addr cfg i) v
  pure (s.set_memory m)

/-- Assign `usr_var32[i]`. -/
def set_usr_var32 (cfg : Config) (s : Machine) (i v : Nat) : Except Fault Machine := do
  let m ← mem_set32 cfg s.memory (var32_addr cfg i) v
  pure (s.set_memory m)

/-- Assign `sys_var32[i]`. -/
def set_sys_var32 (cfg : Config) (s : Machine) (i v : Nat) : Except Fault Machine := do
  let m ← mem_set32 cfg s.memory (system_var32_addr cfg i) v
  pure (s.set_memory m)

/-- The scan of `stmt_sys_check_cursor_pos` over the 10-byte entries that start
at offset `off` of the file-data region. -/
def check_cursor_pos_loop (cfg : Config) (x y : Nat) : Nat → Nat → Machine → Except Fault Machine
  | 0, _, _ => .error .out_of_fuel
  | fuel + 1, off, s =>
    if off + 10 < cfg.MEMORY_FILE_DATA_SIZE then do
      let a := cfg.file_data_off + off
      let id ← mem_get16 cfg s.memory a
      if id = 0xffff then set_usr_var16 cfg s 18 0xffff
      else do
        let x_left ← mem_get16 cfg s.memory (a + 2)
        let y_top ← mem_get16 cfg s.memory (a + 4)
        let x_right ← mem_get16 cfg s.memory (a + 6)
        let y_bot ← mem_get16 cfg s.memory (a + 8)
        if x ≥ x_left ∧ x ≤ x_right ∧ y ≥ y_top ∧ y ≤ y_bot then set_usr_var16 cfg s 18 id
        else check_cursor_pos_loop cfg x y fuel (off + 10) s
    else
      set_usr_var16 cfg (WARNING cfg "Read past end of buffer in System.check_cursor_pos" s) 18 0

/-- The C function `stmt_sys_check_cursor_pos`. -/
def stmt_sys_check_cursor_pos (cfg : Config) (params : param_list) (s : Machine) :
    Except Fault Machine := do
  let x ← check_expr_param cfg params 0
  let y ← check_expr_param cfg params 1
  if x ≥ cfg.gfx_view_w ∨ y ≥ cfg.gfx_view_h then
    pure (WARNING cfg "Invalid argument to System.check_cursor_pos: (%u,%u)" s)
  else do
    let off ← check_expr_param cfg params 2
    check_cursor_pos_loop cfg x y (cfg.MEMORY_FILE_DATA_SIZE + 1) off s

/-- The C function `stmt_sys_check_input`. -/
def stmt_sys_check_input (cfg : Config) (params : param_list) (s : Machine) :
    Except Fault Machine := do
  let input ← check_expr_param cfg params 0
  let v ← check_expr_param cfg params 1
  let value := v != 0
  if input ≥ cfg.INPUT_NR_INPUTS then
    set_sys_var32 cfg (WARNING cfg "Invalid input number: %u" s) 18 0
  else do
    let (d, s1) := host_call cfg "input_down" [.num input] s
    let is_down := d.headD 0 != 0
    set_usr_var32 cfg s1 18 (c_bool (value && is_down))

/-- The C function `stmt_sys_set_screen_surface`. -/
def stmt_sys_set_screen_surface (cfg : Config) (params : param_list) (s : Machine) :
    Except Fault Machine := do
  let i ← check_expr_param cfg params 0
  if i ≥ GFX_NR_SURFACES then VM_ERROR "Invalid surface number: %u" [(i : Int)]
  else pure (host_do cfg "gfx_set_screen_surface" [.num i] s)

/-! ## `vm.c`: the remaining statements that do not re-enter the VM -/

/-- The C function `stmt_goto`. -/
def stmt_goto (cfg : Config) (s : Machine) : Except Fault Machine := do
  let (params, s1) ← read_params cfg s
  let name ← check_string_param cfg params 0
  let s2 ← vm_load_mes cfg name s1
  vm_flag_on cfg s2 VM_FLAG_RETURN

/-- The C function `stmt_menui`. -/
def stmt_menui (cfg : Config) (s : Machine) : Except Fault Machine := do
  let (params, s1) ← read_params cfg s
  let (addr, s2) ← vm_read_dword cfg s1
  let n ← check_expr_param cfg params 0
  let s3 := (host_mem_call cfg "menu_define"
    [.num n, .num (c_bool (addr == u32 (s2.ip.ptr + 1)))] s2).2
  pure (s3.set_ip_ptr addr)

/-- The arguments shared by `stmt_util_fade` and `stmt_util_pixelate`. -/
def check_util_rect (cfg : Config) (params : param_list) : Except Fault (List HostArg) := do
  let rect ← check_rect_params cfg params
  let dst_i ← check_expr_param cfg params 5
  pure (rect ++ [.num dst_i])

/-- The C function `stmt_util_fade`. -/
def stmt_util_fade (cfg : Config) (params : param_list) (s : Machine) : Except Fault Machine := do
  let args ← check_util_rect cfg params
  let d ← check_expr_param cfg params 6
  let src ← check_expr_param cfg params 7
  let src_i : Nat := if src = 0 then 4294967295 else 2
  if d = 1 then pure (host_do cfg "gfx_fade_down" (args ++ [.num src_i]) s)
  else pure (host_do cfg "gfx_fade_right" (args ++ [.num src_i]) s)

/-- The C function `stmt_util_pixelate`. -/
def stmt_util_pixelate (cfg : Config) (params : param_list) (s : Machine) :
    Except Fault Machine := do
  let args ← check_util_rect cfg params
  let mag ← check_expr_param cfg params 6
  pure (host_do cfg "gfx_pixelate" (args ++ [.num mag]) s)

/-- The C function `stmt_util_check_cursor`, with its function-scope statics in
the state. -/
def stmt_util_check_cursor (cfg : Config) (params : param_list) (s : Machine) :
    Except Fault Machine := do
  let p1 ← check_expr_param cfg params 1
  if p1 = 0 then do
    let (t, s1) := host_call cfg "vm_get_ticks" [] s
    let wait_t ← check_expr_param cfg params 2
    let (pos, s2) := host_call cfg "input_get_cursor_pos" [] s1
    pure { s2 with check_cursor_start_t := u32 (t.headD 0), check_cursor_wait_t := wait_t,
                   check_cursor_x := pos.getD 0 0, check_cursor_y := pos.getD 1 0 }
  else do
    let (t, s1) := host_call cfg "vm_get_ticks" [] s
    let current_t := u32 (t.headD 0)
    let s2 ← set_usr_var16 cfg s1 18 0
    if current_t < u32 (s2.check_cursor_start_t + s2.check_cursor_wait_t) then pure s2
    else do
      let (pos, s3) := host_call cfg "input_get_cursor_pos" [] s2
      if pos.getD 0 0 = s3.check_cursor_x ∧ pos.getD 1 0 = s3.check_cursor_y then
        set_usr_var16 cfg s3 18 1
      else
        pure { s3 with check_cursor_start_t := current_t,
                       check_cursor_x := pos.getD 0 0, check_cursor_y := pos.getD 1 0 }

/-- The C function `stmt_util_save_animation`. -/
def stmt_util_save_animation (cfg : Config) (s : Machine) : Machine :=
  { s with saved_cg_name := cfg.asset_cg_name s.trace,
           saved_data_name := cfg.asset_data_name s.trace }

/-- The C function `stmt_util_restore_animation`. -/
def stmt_util_restore_animation (cfg : Config) (s : Machine) : Except Fault Machine :=
  match s.saved_cg_name, s.saved_data_name with
  | some cg_name, some data_name => do
    let s1 ← vm_load_image cfg cg_name 1 s
    let off ← mem_get32 cfg s1.memory (system_var32_addr cfg cfg.MES_SYS_VAR_DATA_OFFSET)
    vm_read_file cfg data_name off s1
  | _, _ => VM_ERROR "No saved animation in Util.restore_animation" []

/-- The C function `vm_peek`. -/
def vm_peek (cfg : Config) (s : Machine) : Machine :=
  host_do cfg "gfx_update" [] (host_do cfg "anim_execute" [] (host_do cfg "handle_events" [] s))

/-- The C function `stmt_line`. -/
def stmt_line (cfg : Config) (s : Machine) : Except Fault Machine := do
  let (b, s1) ← vm_read_byte cfg s
  if b ≠ 0 then pure s1
  else do
    let start_x ← get_sys_var16 cfg s1 cfg.MES_SYS_VAR_TEXT_START_X
    let s2 ← set_sys_var16 cfg s1 cfg.MES_SYS_VAR_TEXT_CURSOR_X start_x
    let y ← get_sys_var16 cfg s2 cfg.MES_SYS_VAR_TEXT_CURSOR_Y
    let line_space ← get_sys_var16 cfg s2 cfg.MES_SYS_VAR_LINE_SPACE
    set_sys_var16 cfg s2 cfg.MES_SYS_VAR_TEXT_CURSOR_Y (u16 (y + line_space))

/-! ## `vm.c`: statements that re-enter `vm_exec`

`vm_exec`, `vm_exec_statement` and the statements that call `vm_exec` are mutually
recursive in C.  Here the statements take the function `exec` they call for
`vm_exec()`; `vm_exec_loop` below passes `vm_exec` itself. -/

/-- Replace the `Machine` part of a `State`. -/
def State.with_machine (s : State) (m : Machine) : State := { s with toMachine := m }

/-- Run a function of the `Machine` on a `State`. -/
def State.run {α : Type} (s : State) (f : Machine → Except Fault (α × Machine)) :
    Except Fault (α × State) :=
  match f s.toMachine with
  | .error e => .error e
  | .ok (r, m) => .ok (r, s.with_machine m)

/-- Run a function of the `Machine` that returns nothing on a `State`. -/
def State.run_ (s : State) (f : Machine → Except Fault Machine) : Except Fault State :=
  match f s.toMachine with
  | .error e => .error e
  | .ok m => .ok (s.with_machine m)

/-- Assign `vm.ip` in a `State`. -/
def State.with_ip (s : State) (p : vm_pointer) : State := s.with_machine (s.toMachine.set_ip p)

/-- The C function `stmt_sys_farcall`. -/
def stmt_sys_farcall (cfg : Config) (exec : State → Except Fault State)
    (params : param_list) (s : State) : Except Fault State := do
  let addr ← check_expr_param cfg params 0
  if !farcall_addr_valid cfg addr then VM_ERROR "Tried to farcall to invalid address" []
  else do
    let saved_ip := s.ip
    let s1 := s.with_ip { ptr := 0, code := some addr }
    let s2 ← exec s1
    pure (s2.with_ip saved_ip)

/-- Conversion of a `uint32_t` to `int32_t`. -/
def i32 (n : Nat) : Int := if n < 2147483648 then (n : Int) else (n : Int) - 4294967296

/-- The C function `stmt_sys`. -/
def stmt_sys (cfg : Config) (exec : State → Except Fault State) (fuel : Nat) (s : State) :
    Except Fault State := do
  let (no, s1) ← s.run (vm_eval cfg)
  let (params, s2) ← s1.run (read_params cfg)
  match no with
  | 0 => s2.run_ (stmt_sys_set_font_size cfg)
  | 2 => s2.run_ (stmt_sys_cursor cfg params)
  | 3 => s2.run_ (stmt_sys_anim cfg params)
  | 4 => s2.run_ (stmt_sys_savedata cfg params)
  | 5 => s2.run_ (stmt_sys_audio cfg params)
  | 7 => s2.run_ (stmt_sys_file cfg params)
  | 8 => s2.run_ (stmt_sys_load_image cfg params)
  | 9 => s2.run_ (stmt_sys_palette cfg params)
  | 10 => s2.run_ (stmt_sys_graphics cfg params)
  | 11 => s2.run_ (stmt_sys_wait cfg fuel params)
  | 12 => s2.run_ (stmt_sys_set_text_colors cfg params)
  | 13 => stmt_sys_farcall cfg exec params s2
  | 14 => s2.run_ (stmt_sys_check_cursor_pos cfg params)
  | 15 => s2.run_ (fun m => do
    let n ← check_expr_param cfg params 0
    pure (host_mem_call cfg "menu_get_no" [.num n] m).2)
  | 18 => s2.run_ (stmt_sys_check_input cfg params)
  | 23 => s2.run_ (stmt_sys_set_screen_surface cfg params)
  | _ => VM_ERROR "System.function[%d] not implemented" [i32 no]

/-- The 12 bytes `memcpy(frame->mes_name, memory_mes_name(), 12)` copies, followed
by the NUL stored in `frame->mes_name[12]`. -/
def saved_mes_name (cfg : Config) (m : Nat → Nat) : Except Fault (List Nat) :=
  if 12 ≤ cfg.memory_size then pure ((List.range 12).map (fun k => m k % 256) ++ [0])
  else .error (.undefined "read outside the memory image")

/-- The part of `stmt_call` under "save current VM state": the frame
`vm.mes_call_stack[vm.mes_call_stack_ptr++]` receives `vm.ip`, the first 12 bytes of
the MES name slot and a copy of `vm.procedures`. -/
def stmt_call_save (cfg : Config) (s : State) : Except Fault State :=
  let p := s.mes_call_stack_ptr
  if p ≥ VM_MES_CALL_STACK_SIZE then .error (.undefined "write past the end of vm.mes_call_stack")
  else do
    let mes_name ← saved_mes_name cfg s.memory
    let frame : vm_mes_call := { ip := s.ip, mes_name := mes_name, procedures := s.procedures }
    pure { s with
      mes_call_stack_ptr := u16 (p + 1)
      mes_call_stack := Function.update s.mes_call_stack p frame }

/-- The part of `stmt_call` under "restore previous VM state". -/
def stmt_call_restore (cfg : Config) (s : State) : Except Fault State :=
  let q := u16 (s.mes_call_stack_ptr + 65535)
  if q ≥ VM_MES_CALL_STACK_SIZE then
    .error (.undefined "read past the end of vm.mes_call_stack")
  else do
    let frame := s.mes_call_stack q
    let s1 : State := { s.with_ip { ptr := s.ip.ptr, code := frame.ip.code } with
      mes_call_stack_ptr := q }
    let ret ← vm_flag_is_on cfg s1.toMachine VM_FLAG_RETURN
    if !ret then do
      let s2 : State := { s1.with_ip { ptr := frame.ip.ptr, code := s1.ip.code } with
        procedures := frame.procedures }
      let s3 ← s2.run_ (vm_load_mes cfg (c_string frame.mes_name))
      pure { s3 with
        mes_call_stack := Function.update s3.mes_call_stack q
          { ip := { ptr := 0, code := none }
            mes_name := 0 :: frame.mes_name.drop 1
            procedures := frame.procedures } }
    else pure s1

/-- The C function `stmt_call`. -/
def stmt_call (cfg : Config) (exec : State → Except Fault State) (s : State) :
    Except Fault State := do
  let (params, s1) ← s.run (read_params cfg)
  let name ← check_string_param cfg params 0
  let s2 ← stmt_call_save cfg s1
  -- load and execute mes file
  let s3 := s2.with_ip { ptr := 0, code := some cfg.file_data_off }
  let s4 ← s3.run_ (vm_load_mes cfg name)
  let s5 ← exec s4
  stmt_call_restore cfg s5

/-- The C function `vm_call_procedure`. -/
def vm_call_procedure (exec : State → Except Fault State) (no : Nat) (s : State) :
    Except Fault State :=
  if no ≥ VM_MAX_PROCEDURES then VM_ERROR "Invalid procedure number: %u" [(no : Int)]
  else do
    let saved_ip := s.ip
    let s1 := s.with_ip (s.procedures no)
    let s2 ← exec s1
    pure (s2.with_ip saved_ip)

/-- The C function `stmt_proc`. -/
def stmt_proc (cfg : Config) (exec : State → Except Fault State) (s : State) :
    Except Fault State := do
  let (params, s1) ← s.run (read_params cfg)
  let no ← check_expr_param cfg params 0
  vm_call_procedure exec no s1

/-- The `do ... while (t < stop_t)` loop of `stmt_util_wait_until`. -/
def stmt_util_wait_until_loop (cfg : Config) (exec : State → Except Fault State)
    (stop_t : Nat) : Nat → Nat → State → Except Fault State
  | 0, _, _ => .error .out_of_fuel
  | fuel + 1, t, s =>
    let m1 := vm_peek cfg s.toMachine
    let (a, m2) := host_call cfg "input_down" [.num cfg.INPUT_ACTIVATE] m1
    if a.headD 0 ≠ 0 then vm_call_procedure exec 110 (s.with_machine m2)
    else
      let (c, m3) := host_call cfg "input_down" [.num cfg.INPUT_CANCEL] m2
      if c.headD 0 ≠ 0 then vm_call_procedure exec 111 (s.with_machine m3)
      else
        let (now, m4) := host_call cfg "vm_get_ticks" [] m3
        let delta_t := u32 (u32 (now.headD 0) + (4294967296 - u32 t))
        let m5 := if delta_t < 16 then host_do cfg "vm_delay" [.num (16 - delta_t)] m4 else m4
        let (t1, m6) := host_call cfg "vm_get_ticks" [] m5
        if u32 (t1.headD 0) < stop_t then
          stmt_util_wait_until_loop cfg exec stop_t fuel (u32 (t1.headD 0)) (s.with_machine m6)
        else pure (s.with_machine m6)

/-- The C function `stmt_util_wait_until`. -/
def stmt_util_wait_until (cfg : Config) (exec : State → Except Fault State) (fuel : Nat)
    (params : param_list) (s : State) : Except Fault State :=
  if (s.procedures 110).code = none ∨ (s.procedures 111).code = none then
    VM_ERROR "procedures 110-111 not defined in Util.wait_until" []
  else do
    let stop_t ← check_expr_param cfg params 1
    let (t, m1) := host_call cfg "vm_get_ticks" [] s.toMachine
    stmt_util_wait_until_loop cfg exec stop_t fuel (u32 (t.headD 0)) (s.with_machine m1)

/-- The C function `stmt_util`. -/
def stmt_util (cfg : Config) (exec : State → Except Fault State) (fuel : Nat) (s : State) :
    Except Fault State := do
  let (params, s1) ← s.run (read_params cfg)
  let f ← check_expr_param cfg params 0
  match f with
  | 10 => s1.run_ (stmt_util_fade cfg params)
  | 12 => s1.run_ (stmt_util_pixelate cfg params)
  | 15 => s1.run_ (stmt_util_check_cursor cfg params)
  | 16 => s1.run_ (fun m => do
    let n ← check_expr_param cfg params 1
    pure (host_do cfg "vm_delay" [.num (u32 (n * 15))] m))
  | 17 => s1.run_ (fun m => pure (stmt_util_save_animation cfg m))
  | 18 => s1.run_ (stmt_util_restore_animation cfg)
  | 22 => s1.run_ (fun m =>
    let (r, m1) := host_call cfg "anim_running" [] m
    set_usr_var16 cfg m1 18 (u16 (r.headD 0)))
  | 100 => s1.run_ (fun m => pure (WARNING cfg "Util.set_monochrome not implemented" m))
  | 201 => s1.run_ (fun m => do
    let name ← check_string_param cfg params 1
    pure (host_do cfg "audio_bgm_play" [.str name, .num 0] m))
  | 210 => s1.run_ (fun m =>
    let (r, m1) := host_call cfg "vm_get_ticks" [] m
    set_usr_var32 cfg m1 16 (u32 (r.headD 0)))
  | 211 => stmt_util_wait_until cfg exec fuel params s1
  | 213 => s1.run_ (fun m => pure (WARNING cfg "Util.function[213] not implemented" m))
  | _ => VM_ERROR "Util.function[%u] not implemented" [(f : Int)]

/-- The C function `stmt_procd`. -/
def stmt_procd (cfg : Config) (s : State) : Except Fault State := do
  let (i, s1) ← s.run (vm_eval cfg)
  if i ≥ VM_MAX_PROCEDURES then VM_ERROR "Invalid procedure number: %d" [i32 i]
  else do
    let s2 : State := { s1 with
      procedures := Function.update s1.procedures i
        { ptr := u32 (s1.ip.ptr + 4), code := s1.ip.code } }
    let (v, s3) ← s2.run (vm_read_dword cfg)
    pure (s3.with_machine (s3.toMachine.set_ip_ptr v))

/-! ## `vm.c`: the statement dispatcher and the VM loop -/

/-- The `MES_STMT_INVALID` case of `vm_exec_statement`. -/
def stmt_invalid (cfg : Config) (op : Nat) (s : Machine) : Except Fault Machine :=
  let s1 := WARNING cfg "Unprefixed text: 0x%02x (possibly unhandled statement)"
    (vm_rewind_byte s)
  if cfg.mes_char_is_hankaku op then stmt_str cfg s1 else stmt_txt cfg s1

/-- The `switch` of `vm_exec_statement` for the opcode byte `op`, except for
`MES_STMT_END`. -/
def vm_exec_stmt_op (cfg : Config) (exec : State → Except Fault State) (fuel : Nat)
    (op : Nat) (s : State) : Except Fault State :=
  match cfg.mes_opcode_to_stmt op with
  | .MES_STMT_END => pure s
  | .MES_STMT_TXT => s.run_ (stmt_txt cfg)
  | .MES_STMT_STR => s.run_ (stmt_str cfg)
  | .MES_STMT_SETRBC => s.run_ (stmt_setrbc cfg)
  | .MES_STMT_SETV => s.run_ (stmt_setv cfg)
  | .MES_STMT_SETRBE => s.run_ (stmt_setrbe cfg)
  | .MES_STMT_SETAC => s.run_ (stmt_setac cfg)
  | .MES_STMT_SETA_AT => s.run_ (stmt_seta_at cfg)
  | .MES_STMT_SETAD => s.run_ (stmt_setad cfg)
  | .MES_STMT_SETAW => s.run_ (stmt_setaw cfg)
  | .MES_STMT_SETAB => s.run_ (stmt_setab cfg)
  | .MES_STMT_JZ => s.run_ (stmt_jz cfg)
  | .MES_STMT_JMP => s.run_ (stmt_jmp cfg)
  | .MES_STMT_SYS => stmt_sys cfg exec fuel s
  | .MES_STMT_GOTO => s.run_ (stmt_goto cfg)
  | .MES_STMT_CALL => stmt_call cfg exec s
  | .MES_STMT_MENUI => s.run_ (stmt_menui cfg)
  | .MES_STMT_PROC => stmt_proc cfg exec s
  | .MES_STMT_UTIL => stmt_util cfg exec fuel s
  | .MES_STMT_LINE => s.run_ (stmt_line cfg)
  | .MES_STMT_PROCD => stmt_procd cfg s
  | .MES_STMT_MENUS => s.run_ (fun m => pure (host_mem_call cfg "menu_exec" [] m).2)
  | .MES_STMT_SETRD => s.run_ (stmt_setrd cfg)
  | .MES_STMT_INVALID => s.run_ (stmt_invalid cfg op)

/-- The C function `vm_exec_statement`: `false` is returned for `MES_STMT_END`. -/
def vm_exec_statement (cfg : Config) (exec : State → Except Fault State) (fuel : Nat)
    (s : State) : Except Fault (Bool × State) := do
  let (op, s1) ← s.run (vm_read_byte cfg)
  if cfg.mes_opcode_to_stmt op = .MES_STMT_END then pure (false, s1)
  else do
    let s2 ← vm_exec_stmt_op cfg exec fuel op s1
    pure (true, s2)

/-- The statement `vm.scope_counter++`. -/
def scope_enter (s : State) : State :=
  { s with scope_counter := u32 (s.scope_counter + 1) }

/-- The statement `vm.scope_counter--`. -/
def scope_leave (s : State) : State :=
  { s with scope_counter := u32 (s.scope_counter + 4294967295) }

/-- One pass through the `while (true)` loop of `vm_exec`: the check of the RETURN
flag, one statement, and `vm_peek`.  The result is `false` when the pass ends in
`break`. -/
def vm_exec_pass (cfg : Config) (exec : State → Except Fault State) (fuel : Nat) (s : State) :
    Except Fault (Bool × State) := do
  let ret ← vm_flag_is_on cfg s.toMachine VM_FLAG_RETURN
  if ret && s.scope_counter != 1 then pure (false, s)
  else do
    let s1 ← if ret then s.run_ (fun m => do
        let ma ← vm_flag_off cfg m VM_FLAG_RETURN
        pure (ma.set_ip_ptr 0))
      else pure s
    let (go, s2) ← vm_exec_statement cfg exec fuel s1
    if !go then pure (false, s2) else pure (true, s2.with_machine (vm_peek cfg s2.toMachine))

/-- The `while (true)` loop of `vm_exec`.  A nested `vm_exec()` is the same loop
between `scope_enter` and `scope_leave`; each pass and each nesting level uses up
one unit of fuel. -/
def vm_exec_loop (cfg : Config) : Nat → State → Except Fault State
  | 0, _ => .error .out_of_fuel
  | fuel + 1, s => do
    let (go, s1) ← vm_exec_pass cfg
      (fun t => do
        let t1 ← vm_exec_loop cfg fuel (scope_enter t)
        pure (scope_leave t1)) fuel s
    if go then vm_exec_loop cfg fuel s1 else pure s1

/-- The C function `vm_exec`. -/
def vm_exec (cfg : Config) (fuel : Nat) (s : State) : Except Fault State := do
  let s1 ← vm_exec_loop cfg fuel (scope_enter s)
  pure (scope_leave s1)

/-! ## `vm.c`: the globals at a fatal error

`Except Fault` keeps no state with a fault.  The functions below are the functions of
the same name once more, with the globals as they are when the function calls
`VM_ERROR`; without those globals each of them is the function above. -/

/-- A fault together with the globals as they were at the `VM_ERROR` call.  The
globals are kept (`some`) where the function that is modelled makes the call itself;
a fault that comes out of a callee is passed on without them (`none`). -/
structure Fatal (σ : Type) where
  fault : Fault
  globals : Option σ

/-- The macro `VM_ERROR(fmt, ...)`, called with the globals `s`. -/
def VM_ERROR_at {σ α : Type} (s : σ) (fmt : String) (args : List Int) : Except (Fatal σ) α :=
  .error { fault := .vm_error fmt args, globals := some s }

/-- The result of a callee: its fault is passed on. -/
def of_callee {σ α : Type} : Except Fault α → Except (Fatal σ) α
  | .ok a => .ok a
  | .error e => .error { fault := e, globals := none }

/-- The result without the globals of the fault. -/
def forget_globals {σ α : Type} : Except (Fatal σ) α → Except Fault α
  | .ok a => .ok a
  | .error f => .error f.fault

/-- The C function `vm_stack_pop`, with the globals at its `VM_ERROR` call. -/
def vm_stack_pop_traced (s : Machine) : Except (Fatal Machine) (Nat × Machine) :=
  match s.stack with
  | [] => VM_ERROR_at s "Tried to pop from empty stack" []
  | v :: rest => .ok (v, s.set_stack rest)

/-- The loop of `read_params`, with the list `*params` and the globals at its
`VM_ERROR` call. -/
def read_params_loop_traced (cfg : Config) : Nat → Nat → param_list → Machine →
    Except (Fatal (param_list × Machine)) (param_list × Machine)
  | 0, _, _, _ => of_callee (.error .out_of_fuel)
  | fuel + 1, i, params, s => do
    let (b, s1) ← of_callee (vm_read_byte cfg s)
    if b = 0 then pure ({ params with nr_params := i }, s1)
    else if i ≥ MAX_PARAMS then VM_ERROR_at (params, s1) "Too many parameters" []
    else if b = cfg.MES_PARAM_EXPRESSION then do
      let (v, s2) ← of_callee (vm_eval cfg s1)
      read_params_loop_traced cfg fuel (i + 1) (params.set_expr i b v) s2
    else do
      let (str, s2) ← of_callee (read_string_param cfg s1)
      read_params_loop_traced cfg fuel (i + 1) (params.set_str i b str) s2

/-- The C function `read_params`, applied to a zero-initialised list, with the list
and the globals at its `VM_ERROR` call. -/
def read_params_traced (cfg : Config) (s : Machine) :
    Except (Fatal (param_list × Machine)) (param_list × Machine) :=
  read_params_loop_traced cfg (cfg.memory_size + 1) 0 param_list_zero s

/-- The C function `stmt_sys`, with the globals at its `VM_ERROR` call. -/
def stmt_sys_traced (cfg : Config) (exec : State → Except Fault State) (fuel : Nat)
    (s : State) : Except (Fatal State) State := do
  let (no, s1) ← of_callee (s.run (vm_eval cfg))
  let (params, s2) ← of_callee (s1.run (read_params cfg))
  match no with
  | 0 => of_callee (s2.run_ (stmt_sys_set_font_size cfg))
  | 2 => of_callee (s2.run_ (stmt_sys_cursor cfg params))
  | 3 => of_callee (s2.run_ (stmt_sys_anim cfg params))
  | 4 => of_callee (s2.run_ (stmt_sys_savedata cfg params))
  | 5 => of_callee (s2.run_ (stmt_sys_audio cfg params))
  | 7 => of_callee (s2.run_ (stmt_sys_file cfg params))
  | 8 => of_callee (s2.run_ (stmt_sys_load_image cfg params))
  | 9 => of_callee (s2.run_ (stmt_sys_palette cfg params))
  | 10 => of_callee (s2.run_ (stmt_sys_graphics cfg params))
  | 11 => of_callee (s2.run_ (stmt_sys_wait cfg fuel params))
  | 12 => of_callee (s2.run_ (stmt_sys_set_text_colors cfg params))
  | 13 => of_callee (stmt_sys_farcall cfg exec params s2)
  | 14 => of_callee (s2.run_ (stmt_sys_check_cursor_pos cfg params))
  | 15 => of_callee (s2.run_ (fun m => do
    let n ← check_expr_param cfg params 0
    pure (host_mem_call cfg "menu_get_no" [.num n] m).2))
  | 18 => of_callee (s2.run_ (stmt_sys_check_input cfg params))
  | 23 => of_callee (s2.run_ (stmt_sys_set_screen_surface cfg params))
  | _ => VM_ERROR_at s2 "System.function[%d] not implemented" [i32 no]

/-- The C function `vm_call_procedure`, with the globals at its `VM_ERROR` call. -/
def vm_call_procedure_traced (exec : State → Except Fault State) (no : Nat) (s : State) :
    Except (Fatal State) State :=
  if no ≥ VM_MAX_PROCEDURES then VM_ERROR_at s "Invalid procedure number: %u" [(no : Int)]
  else do
    let saved_ip := s.ip
    let s1 := s.with_ip (s.procedures no)
    let s2 ← of_callee (exec s1)
    pure (s2.with_ip saved_ip)

/-- The C function `stmt_procd`, with the globals at its `VM_ERROR` call. -/
def stmt_procd_traced (cfg : Config) (s : State) : Except (Fatal State) State := do
  let (i, s1) ← of_callee (s.run (vm_eval cfg))
  if i ≥ VM_MAX_PROCEDURES then VM_ERROR_at s1 "Invalid procedure number: %d" [i32 i]
  else do
    let s2 : State := { s1 with
      procedures := Function.update s1.procedures i
        { ptr := u32 (s1.ip.ptr + 4), code := s1.ip.code } }
    let (v, s3) ← of_callee (s2.run (vm_read_dword cfg))
    pure (s3.with_machine (s3.toMachine.set_ip_ptr v))

/-! ## `aishimai.c`: the handlers and the text renderer of `game_ai_shimai` -/

/-- The C call `le_get16(buf, off)` on a buffer of `uint8_t`. -/
def buf_get16 (buf : Nat → Nat) (off : Nat) : Nat :=
  buf off % 256 + 256 * (buf (off + 1) % 256)

/-- The loop of `get_char_index` at the index `i`, with `n` entries left to
compare. -/
def get_char_index_loop (ch : Nat) (table : Nat → Nat) : Nat → Nat → Int
  | 0, _ => -1
  | n + 1, i =>
    if buf_get16 table ((i + 1) * 2) = ch then (i : Int)
    else get_char_index_loop ch table n (i + 1)

/-- The C function `get_char_index`; `ch` is converted to `uint16_t`. -/
def get_char_index (ch : Nat) (table : Nat → Nat) : Int :=
  get_char_index_loop (u16 ch) table (buf_get16 table 0) 0

/-- The C assignment `buf[i] = v` on a buffer of `uint8_t`. -/
def buf_set (buf : Nat → Nat) (i v : Nat) : Nat → Nat :=
  fun x => if x = i then v % 256 else buf x

/-- The C assignment `bg[k] = (uint8_t)((a * fg + inv_a * bg[k]) >> 8)` of the blend
functions, in `uint32_t` arithmetic. -/
def blend_store (bg : Nat → Nat) (k a inv_a fg : Nat) : Nat → Nat :=
  buf_set bg k (u8 (u32 (a * fg + inv_a * (bg k % 256)) / 256))

/-- The C function `alpha_blend_rgb_mono`; `bg` is the buffer the C pointer points
into and `p` the offset of the pixel in it. -/
def alpha_blend_rgb_mono (bg : Nat → Nat) (p fg alpha : Nat) : Nat → Nat :=
  let a := u32 (u8 alpha + 1)
  let inv_a := u32 (256 - u8 alpha)
  let bg0 := blend_store bg p a inv_a (u8 fg)
  let bg1 := blend_store bg0 (p + 1) a inv_a (u8 fg)
  blend_store bg1 (p + 2) a inv_a (u8 fg)

/-- The C function `alpha_blend_rgb_bgr`; `fg` is the buffer of the foreground colour
and `c` the offset of the colour in it. -/
def alpha_blend_rgb_bgr (bg : Nat → Nat) (p : Nat) (fg : Nat → Nat) (c alpha : Nat) :
    Nat → Nat :=
  let a := u32 (u8 alpha + 1)
  let inv_a := u32 (256 - u8 alpha)
  let bg0 := blend_store bg p a inv_a (fg (c + 2) % 256)
  let bg1 := blend_store bg0 (p + 1) a inv_a (fg (c + 1) % 256)
  blend_store bg1 (p + 2) a inv_a (fg c % 256)

/-- The C initialiser `uint8_t alpha = (min(*msk, 15) * 16) - 8` of the render
functions: the `int` value converted to `uint8_t`. -/
def glyph_alpha (msk : Nat) : Nat :=
  ((((min msk 15 * 16 : Nat) : Int) - 8) % 256).toNat

/-- The body of the inner loop of `render_char_merged` for the glyph pixel at offset
`g` of the font data and the destination pixel at offset `d`. -/
def render_char_merged_pixel (dst fnt msk : Nat → Nat) (pal : Option (Nat → Nat))
    (d g : Nat) : Nat → Nat :=
  if msk g % 256 = 0 then dst
  else match pal with
    | some pal =>
      alpha_blend_rgb_bgr dst d pal (fnt g % 256 * 3) (glyph_alpha (msk g % 256))
    | none =>
      if msk g % 256 > 15 then
        buf_set (buf_set (buf_set dst d (fnt g)) (d + 1) (fnt g)) (d + 2) (fnt g)
      else alpha_blend_rgb_mono dst d (fnt g) (glyph_alpha (msk g % 256))

/-- The C function `render_char_merged`.  Each pointer argument is the buffer it
points into, read from the pointer on; `pal` is `none` for `NULL`.  The result is the
destination buffer after the call.  The `int` arguments are the glyph size and the
surface pitch of the callers, which are not negative. -/
def render_char_merged (dst_in fnt_in msk_in : Nat → Nat) (pal : Option (Nat → Nat))
    (char_w char_h stride : Nat) : Nat → Nat :=
  (List.range char_h).foldl (fun dst row =>
    (List.range char_w).foldl (fun dst col =>
      render_char_merged_pixel dst fnt_in msk_in pal (row * stride + 3 * col)
        (char_w * row + col)) dst) dst_in

/-- The body of the inner loop of `render_char_redscale`. -/
def render_char_redscale_pixel (dst fnt msk : Nat → Nat) (d g : Nat) : Nat → Nat :=
  if msk g % 256 = 0 then dst
  else
    let dst1 :=
      if msk g % 256 > 15 then buf_set dst d (fnt g)
      else alpha_blend_rgb_mono dst d (fnt g) (glyph_alpha (msk g % 256))
    buf_set (buf_set dst1 (d + 1) 0) (d + 2) 0

/-- The C function `render_char_redscale`, with the conventions of
`render_char_merged`; the palette argument is not read. -/
def render_char_redscale (dst_in fnt_in msk_in : Nat → Nat) (_pal : Option (Nat → Nat))
    (char_w char_h stride : Nat) : Nat → Nat :=
  (List.range char_h).foldl (fun dst row =>
    (List.range char_w).foldl (fun dst col =>
      render_char_redscale_pixel dst fnt_in msk_in (row * stride + 3 * col)
        (char_w * row + col)) dst) dst_in

/-- The C function `render_char_separate`, with the conventions of
`render_char_merged`: the grey value goes to the glyph rectangle and the mask to the
rectangle 256 rows below it; the palette argument is not read. -/
def render_char_separate (dst_in fnt_in msk_in : Nat → Nat) (_pal : Option (Nat → Nat))
    (char_w char_h stride : Nat) : Nat → Nat :=
  (List.range char_h).foldl (fun dst row =>
    (List.range char_w).foldl (fun dst col =>
      let g := char_w * row + col
      let fnt_dst := row * stride + 3 * col
      let msk_dst := (row + 256) * stride + 3 * col
      let dst1 :=
        if fnt_in g % 256 ≠ 0 then
          buf_set (buf_set (buf_set dst fnt_dst (fnt_in g)) (fnt_dst + 1) (fnt_in g))
            (fnt_dst + 2) (fnt_in g)
        else dst
      if msk_in g % 256 ≠ 0 then
        buf_set (buf_set (buf_set dst1 msk_dst (msk_in g)) (msk_dst + 1) (msk_in g))
          (msk_dst + 2) (msk_in g)
      else dst1) dst) dst_in

/-- The three functions a `render_text_params.render_char` points to. -/
inductive render_char_fn where
  | merged
  | redscale
  | separate
  deriving DecidableEq, Repr

/-- The call `p->render_char(dst, fnt, msk, pal, char_w, char_h, stride)`. -/
def render_char_fn.call : render_char_fn → (Nat → Nat) → (Nat → Nat) → (Nat → Nat) →
    Option (Nat → Nat) → Nat → Nat → Nat → Nat → Nat
  | .merged => render_char_merged
  | .redscale => render_char_redscale
  | .separate => render_char_separate

/-- The C type `struct render_text_params`; the font pointers are addresses in the
memory image, `font_pal` is `none` for `NULL`. -/
structure render_text_params where
  char_w : Nat
  char_h : Nat
  surface : Nat
  render_char : render_char_fn
  font_tbl : Nat
  font_msk : Nat
  font_fnt : Nat
  font_pal : Option Nat

/-- The surfaces `gfx_get_surface` returns: `pixels i` is the buffer `surf->pixels`
of surface `i` and `pitch i` its `surf->pitch`. -/
structure gfx_surfaces where
  pixels : Nat → Nat → Nat
  pitch : Nat → Nat

/-- The loop of `render_text` over the bytes of `txt` in front of its NUL, two bytes
per pass; `pixels` and `pitch` are those of the surface.  The result is the cursor,
the pixels and the machine after the loop.  With one byte left, `txt += 2` steps over
the NUL and the loop condition reads past the end of the string. -/
def render_text_loop (cfg : Config) (p : render_text_params)
    (pitch start_x end_x char_space line_space : Nat) :
    List Nat → Nat → Nat → (Nat → Nat) → Machine →
      Except Fault (Nat × Nat × (Nat → Nat) × Machine)
  | [], x, y, pixels, s => pure (x, y, pixels, s)
  | [_], _, _, _, _ => .error (.undefined "read past the end of the text")
  | b0 :: b1 :: rest, x, y, pixels, s =>
    let char_code := b0 % 256 + 256 * (b1 % 256)
    let char_i := get_char_index char_code (fun k => s.memory (p.font_tbl + k))
    if char_i < 0 then
      render_text_loop cfg p pitch start_x end_x char_space line_space rest x y pixels
        (WARNING cfg "Invalid character: %04x" s)
    else
      let g := char_i.toNat * p.char_w * p.char_h
      let dst := y * pitch + x * 3
      let out := p.render_char.call (fun k => pixels (dst + k))
        (fun k => s.memory (p.font_fnt + g + k)) (fun k => s.memory (p.font_msk + g + k))
        (p.font_pal.map (fun a k => s.memory (a + k))) p.char_w p.char_h pitch
      let pixels1 := fun a => if dst ≤ a then out (a - dst) else pixels a
      let x1 := u16 (x + char_space)
      if x1 + char_space > end_x then
        render_text_loop cfg p pitch start_x end_x char_space line_space rest start_x
          (u16 (y + line_space)) pixels1 s
      else
        render_text_loop cfg p pitch start_x end_x char_space line_space rest x1 y pixels1 s

/-- The C function `render_text`; `txt` is the C string without its NUL.  The
accessors `mem_get_sysvar16` and `mem_set_sysvar16` of `memory.h` are the reads and
writes of the `system_var16` bank. -/
def render_text (cfg : Config) (txt : List Nat) (p : render_text_params)
    (surf : gfx_surfaces) (s : Machine) : Except Fault (gfx_surfaces × Machine) := do
  let start_x ← get_sys_var16 cfg s cfg.MES_SYS_VAR_TEXT_START_X
  let end_x ← get_sys_var16 cfg s cfg.MES_SYS_VAR_TEXT_END_X
  let char_space ← get_sys_var16 cfg s cfg.MES_SYS_VAR_CHAR_SPACE
  let line_space ← get_sys_var16 cfg s cfg.MES_SYS_VAR_LINE_SPACE
  let x ← get_sys_var16 cfg s cfg.MES_SYS_VAR_TEXT_CURSOR_X
  let y ← get_sys_var16 cfg s cfg.MES_SYS_VAR_TEXT_CURSOR_Y
  let (x1, y1, pixels, s1) ← render_text_loop cfg p (surf.pitch p.surface) start_x end_x
    char_space line_space txt x y (surf.pixels p.surface) s
  let s2 ← set_sys_var16 cfg s1 cfg.MES_SYS_VAR_TEXT_CURSOR_X x1
  let s3 ← set_sys_var16 cfg s2 cfg.MES_SYS_VAR_TEXT_CURSOR_Y y1
  pure ({ surf with pixels := Function.update surf.pixels p.surface pixels },
    host_do cfg "gfx_dirty" [.num p.surface] s3)

/-- The accessor `mem_get_var4` of `memory.h`: the byte `usr_var4[i]`. -/
def mem_get_var4 (cfg : Config) (s : Machine) (i : Nat) : Except Fault Nat :=
  mem_get8 cfg s.memory (var4_addr cfg i)

/-- The accessor `mem_get_var32` of `memory.h`: the value `usr_var32[i]`. -/
def mem_get_var32 (cfg : Config) (s : Machine) (i : Nat) : Except Fault Nat :=
  mem_get32 cfg s.memory (var32_addr cfg i)

/-- The C function `render_text_select`. -/
def render_text_select (cfg : Config) (txt : List Nat) (surf : gfx_surfaces) (s : Machine) :
    Except Fault (gfx_surfaces × Machine) := do
  let sel ← mem_get_var4 cfg s 2002
  if sel < 1 ∨ sel > 3 then
    pure (surf, WARNING cfg "Invalid SELECT font index: %d" s)
  else do
    let surface ← get_sys_var16 cfg s cfg.MES_SYS_VAR_DST_SURFACE
    let tbl ← mem_get_var32 cfg s 3
    let msk ← mem_get_var32 cfg s (5 + (sel - 1) * 3)
    let fnt ← mem_get_var32 cfg s (6 + (sel - 1) * 3)
    let pal ← mem_get_var32 cfg s (4 + (sel - 1) * 3)
    render_text cfg txt
      { char_w := if sel = 2 then 49 else 47
        char_h := if sel = 2 then 49 else 47
        surface := surface
        render_char := .merged
        font_tbl := cfg.file_data_off + tbl
        font_msk := cfg.file_data_off + msk
        font_fnt := cfg.file_data_off + fnt
        font_pal := some (cfg.file_data_off + pal) } surf s

/-- The initialiser of `struct render_text_params p` in `ai_shimai_TXT`. -/
def ai_shimai_TXT_params (cfg : Config) (s : Machine) : Except Fault render_text_params := do
  let v2017 ← mem_get_var4 cfg s 2017
  let render_merged := v2017 != 0
  let v2018 ← mem_get_var4 cfg s 2018
  let render_redscale := v2018 != 0
  let surface ← if render_merged then get_sys_var16 cfg s cfg.MES_SYS_VAR_DST_SURFACE
    else pure 7
  let tbl ← mem_get_var32 cfg s 0
  let msk ← mem_get_var32 cfg s 1
  let fnt ← mem_get_var32 cfg s 2
  pure
    { char_w := 28
      char_h := 28
      surface := surface
      render_char := if render_redscale then .redscale
        else if render_merged then .merged else .separate
      font_tbl := cfg.file_data_off + tbl
      font_msk := cfg.file_data_off + msk
      font_fnt := cfg.file_data_off + fnt
      font_pal := none }

/-- The C function `ai_shimai_TXT`. -/
def ai_shimai_TXT (cfg : Config) (txt : List Nat) (surf : gfx_surfaces) (s : Machine) :
    Except Fault (gfx_surfaces × Machine) := do
  let sel ← mem_get_var4 cfg s 2002
  if sel ≠ 0 then render_text_select cfg txt surf s
  else do
    let p ← ai_shimai_TXT_params cfg s
    render_text cfg txt p surf s

/-! ## A concrete title for the worked examples -/

/-- An expression opcode table (the AI5WIN byte assignment) for the examples. -/
def example_opcode_to_expr (op : Nat) : mes_expression_op :=
  match op with
  | 0x80 => .MES_EXPR_VAR
  | 0xA0 => .MES_EXPR_ARRAY16_GET16
  | 0xC0 => .MES_EXPR_ARRAY16_GET8
  | 0xE0 => .MES_EXPR_PLUS
  | 0xE1 => .MES_EXPR_MINUS
  | 0xE2 => .MES_EXPR_MUL
  | 0xE3 => .MES_EXPR_DIV
  | 0xE4 => .MES_EXPR_MOD
  | 0xE5 => .MES_EXPR_RAND
  | 0xE6 => .MES_EXPR_AND
  | 0xE7 => .MES_EXPR_OR
  | 0xE8 => .MES_EXPR_BITAND
  | 0xE9 => .MES_EXPR_BITIOR
  | 0xEA => .MES_EXPR_BITXOR
  | 0xEB => .MES_EXPR_LT
  | 0xEC => .MES_EXPR_GT
  | 0xED => .MES_EXPR_LTE
  | 0xEE => .MES_EXPR_GTE
  | 0xEF => .MES_EXPR_EQ
  | 0xF0 => .MES_EXPR_NEQ
  | 0xF1 => .MES_EXPR_IMM16
  | 0xF2 => .MES_EXPR_IMM32
  | 0xF3 => .MES_EXPR_REG16
  | 0xF4 => .MES_EXPR_REG8
  | 0xF5 => .MES_EXPR_ARRAY32_GET32
  | 0xF6 => .MES_EXPR_ARRAY32_GET16
  | 0xF7 => .MES_EXPR_ARRAY32_GET8
  | 0xF8 => .MES_EXPR_VAR32
  | 0xFF => .MES_EXPR_END
  | _ => .MES_EXPR_IMM

/-- A statement opcode table for the examples. -/
def example_opcode_to_stmt (op : Nat) : mes_statement_op :=
  match op with
  | 0x00 => .MES_STMT_END
  | 0x01 => .MES_STMT_TXT
  | 0x02 => .MES_STMT_STR
  | 0x03 => .MES_STMT_SETRBC
  | 0x04 => .MES_STMT_SETV
  | 0x05 => .MES_STMT_SETRBE
  | 0x06 => .MES_STMT_SETAC
  | 0x07 => .MES_STMT_SETA_AT
  | 0x08 => .MES_STMT_SETAD
  | 0x09 => .MES_STMT_SETAW
  | 0x0A => .MES_STMT_SETAB
  | 0x0B => .MES_STMT_JZ
  | 0x0C => .MES_STMT_JMP
  | 0x0D => .MES_STMT_SYS
  | 0x0E => .MES_STMT_GOTO
  | 0x0F => .MES_STMT_CALL
  | 0x10 => .MES_STMT_MENUI
  | 0x11 => .MES_STMT_PROC
  | 0x12 => .MES_STMT_UTIL
  | 0x13 => .MES_STMT_LINE
  | 0x14 => .MES_STMT_PROCD
  | 0x15 => .MES_STMT_MENUS
  | 0x16 => .MES_STMT_SETRD
  | _ => .MES_STMT_INVALID

/-- A title for the examples: the bank offsets of `ai_shimai_mem_init` (MES name
slot of 128 bytes, 2048 var4 cells), a file-data region of 64 KiB at offset
0x1000, collaborators that return nothing and load the MES files in `files`. -/
def example_config (files : List Nat → Option (List Nat)) (saves : Bool) : Config where
  mes_opcode_to_expr := example_opcode_to_expr
  mes_opcode_to_stmt := example_opcode_to_stmt
  mes_char_is_zenkaku := fun c => decide (0x81 ≤ c ∧ c ≤ 0x9f) || decide (0xe0 ≤ c ∧ c ≤ 0xef)
  mes_char_is_hankaku := fun c => decide (0x20 ≤ c ∧ c ≤ 0x7e)
  SJIS_2BYTE := fun c => decide (c &&& 0xe0 = 0x80) || decide (c &&& 0xe0 = 0xe0)
  MES_PARAM_STRING := 1
  MES_PARAM_EXPRESSION := 2
  MES_SYS_VAR_FLAGS := 2
  MES_SYS_VAR_TEXT_START_X := 5
  MES_SYS_VAR_TEXT_END_X := 7
  MES_SYS_VAR_TEXT_CURSOR_X := 3
  MES_SYS_VAR_TEXT_CURSOR_Y := 4
  MES_SYS_VAR_FONT_HEIGHT := 10
  MES_SYS_VAR_CHAR_SPACE := 12
  MES_SYS_VAR_LINE_SPACE := 13
  MES_SYS_VAR_DST_SURFACE := 18
  MES_SYS_VAR_MASK_COLOR := 20
  MES_SYS_VAR_CG_X := 14
  MES_SYS_VAR_CG_Y := 15
  MES_SYS_VAR_CG_W := 16
  MES_SYS_VAR_CG_H := 17
  MES_SYS_VAR_CG_OFFSET := 1
  MES_SYS_VAR_DATA_OFFSET := 2
  VM_FLAG_LOAD_PALETTE := 0x40
  INPUT_ACTIVATE := 0
  INPUT_CANCEL := 1
  INPUT_SHIFT := 2
  INPUT_NR_INPUTS := 8
  memory_size := 0x12000
  var4_off := 128
  var16_off := 2180
  system_var16_off := 2232
  var32_off := 2280
  system_var32_off := 2384
  file_data_off := 0x1000
  MEMORY_FILE_DATA_SIZE := 0x10000
  palette_off := 0x11000
  gfx_view_w := 640
  gfx_view_h := 400
  call_saves_procedures := saves
  var4_size := 2048
  target_is_doukyuusei := false
  host_ret := fun _ _ => []
  host_mem := fun _ _ m => m
  asset_mes_load := files
  asset_data_load := fun _ => none
  asset_cg_load := fun _ => none
  cg_load_arcdata := fun _ => none
  asset_cg_name := fun _ => none
  asset_data_name := fun _ => none

/-- The memory image that holds `bytes` from offset `base` on and zero elsewhere. -/
def example_memory (base : Nat) (bytes : List Nat) : Nat → Nat :=
  fun a => if base ≤ a then bytes.getD (a - base) 0 else 0

/-- The null `struct vm_pointer`. -/
def vm_pointer_zero : vm_pointer := { ptr := 0, code := none }

/-- The machine after `vm_init` with `code` loaded at the start of the file-data
region of `example_config`: everything else is zero. -/
def example_machine (code : List Nat) : Machine where
  memory := example_memory 0x1000 code
  ip := { ptr := 0, code := some 0x1000 }
  stack := []
  trace := []
  saved_cg_name := none
  saved_data_name := none
  check_cursor_start_t := 0
  check_cursor_wait_t := 0
  check_cursor_x := 0
  check_cursor_y := 0

/-- The zero-initialised global `vm` around `example_machine`. -/
def example_state (code : List Nat) : State where
  toMachine := example_machine code
  scope_counter := 0
  mes_call_stack_ptr := 0
  mes_call_stack := fun _ =>
    { ip := vm_pointer_zero, mes_name := [], procedures := fun _ => vm_pointer_zero }
  procedures := fun _ => vm_pointer_zero

/-! ## Vocabulary for stating properties -/

/-- The bytes `bytes` are stored in the memory image `m` from address `a` on. -/
def mem_holds (m : Nat → Nat) (a : Nat) (bytes : List Nat) : Prop :=
  ∀ k, k < bytes.length → m (a + k) % 256 = bytes.getD k 0

/-- The little-endian encoding of a `uint32_t`. -/
def le_bytes32 (v : Nat) : List Nat :=
  [v % 256, v / 256 % 256, v / 65536 % 256, v / 16777216 % 256]

/-- The little-endian encoding of a `uint16_t`. -/
def le_bytes16 (v : Nat) : List Nat := [v % 256, v / 256 % 256]
instance (m : Nat → Nat) (a : Nat) (bytes : List Nat) : Decidable (mem_holds m a bytes) := by
  unfold mem_holds
  infer_instance

/-- The title of the examples with no MES files and `call_saves_procedures` clear. -/
def example_title : Config := example_config (fun _ => none) false
/-- Two machines that differ at most in `vm.ip.ptr`, `vm.stack` and the collaborator
trace. -/
def same_image (s s' : Machine) : Prop :=
  s'.memory = s.memory ∧ s'.ip.code = s.ip.code ∧ s'.saved_cg_name = s.saved_cg_name ∧
  s'.saved_data_name = s.saved_data_name ∧
  s'.check_cursor_start_t = s.check_cursor_start_t ∧
  s'.check_cursor_wait_t = s.check_cursor_wait_t ∧
  s'.check_cursor_x = s.check_cursor_x ∧ s'.check_cursor_y = s.check_cursor_y

/-- The bytes `enc` are an expression whose value is `v` whatever the memory image
holds elsewhere: evaluated from an empty stack at any place of the image where it
fits, `vm_eval` returns `v` with `vm.ip.ptr` just past `enc`. -/
def pure_expr (cfg : Config) (enc : List Nat) (v : Nat) : Prop :=
  ∀ (s : Machine) (base : Nat), s.ip.code = some base → s.stack = [] →
    mem_holds s.memory (base + s.ip.ptr) enc →
    base + s.ip.ptr + enc.length ≤ cfg.memory_size → s.ip.ptr + enc.length < 4294967296 →
    vm_eval cfg s = .ok (v, s.set_ip_ptr (s.ip.ptr + enc.length))

/-- One entry of the value list of an assignment statement: the bytes of the
expression, its value, and the byte that follows it. -/
structure set_item where
  enc : List Nat
  val : Nat
  sep : Nat

/-- A well-formed value list: every entry is an expression with the stated value,
a non-zero byte follows every entry but the last, and a zero byte ends the list. -/
def set_items_ok (cfg : Config) : List set_item → Prop
  | [] => False
  | [it] => pure_expr cfg it.enc it.val ∧ it.sep = 0
  | it :: it2 :: rest =>
    pure_expr cfg it.enc it.val ∧ it.sep ≠ 0 ∧ it.sep < 256 ∧ set_items_ok cfg (it2 :: rest)

/-- The bytecode of a value list. -/
def set_items_bytes : List set_item → List Nat
  | [] => []
  | it :: rest => it.enc ++ [it.sep] ++ set_items_bytes rest

/-- The memory image after the nibbles of `vals` were stored in `var4[i]`,
`var4[i + 1]`, and so on. -/
def setrbc_memory (cfg : Config) (m : Nat → Nat) (i : Nat) (vals : List Nat) : Nat → Nat :=
  fun a =>
    if var4_addr cfg i ≤ a ∧ a < var4_addr cfg i + vals.length then
      vals.getD (a - var4_addr cfg i) 0 % 16
    else m a
/-- The example program of the procedure statements: `PROCD 7` with target 13, the
procedure body `SETV 3; 42` and `END` at offsets 7 to 12, then `PROC 7` and `END`. -/
def example_proc_code : List Nat :=
  [0x14, 7, 0xFF, 13, 0, 0, 0, 0x04, 3, 42, 0xFF, 0, 0x00, 0x11, 2, 7, 0xFF, 0, 0x00]

/-- The state of `example_proc_code` right after the parameter list of `PROC 7` was
read: `procedures[7]` points at offset 7 and `vm.ip.ptr` is 18. -/
def example_proc_state : State :=
  { example_state example_proc_code with
    toMachine := (example_machine example_proc_code).set_ip_ptr 18
    scope_counter := 1
    procedures := Function.update (fun _ => vm_pointer_zero) 7 { ptr := 7, code := some 0x1000 } }
/-- The CALL stack of `s'` has the depth of that of `s` and the same frames below
that depth. -/
def call_stack_kept (s s' : State) : Prop :=
  s'.mes_call_stack_ptr = s.mes_call_stack_ptr ∧
  ∀ j, j < s.mes_call_stack_ptr → s'.mes_call_stack j = s.mes_call_stack j
/-- The MES name slot of the image `m` holds the C string `name`: at most 12
characters that `toupper` leaves alone, followed by a NUL byte. -/
def mes_name_is (m : Nat → Nat) (name : List Nat) : Prop :=
  name.length ≤ 12 ∧ (∀ c ∈ name, c ≠ 0 ∧ c < 256 ∧ toupper c = c) ∧ mem_holds m 0 (name ++ [0])
/-- The caller of the CALL examples, the MES file `A`: `PROCD 7` with target 9 (the
body of procedure 7 is the `END` at offset 7), then `CALL "B"` and `END`. -/
def example_caller_code : List Nat :=
  [0x14, 7, 0xFF, 9, 0, 0, 0, 0x00, 0x00, 0x0F, 1, 66, 0, 0, 0x00]

/-- The callee of the CALL examples, the MES file `B`: `SETV 3; 42`, then `PROCD 7`
with target 13, which redefines procedure 7 with the body at offset 12, and `END`. -/
def example_callee_code : List Nat :=
  [0x04, 3, 42, 0xFF, 0, 0x14, 7, 0xFF, 13, 0, 0, 0, 0x00, 0x00]

/-- The MES files of the CALL examples. -/
def example_call_files (name : List Nat) : Option (List Nat) :=
  if name = [65] then some example_caller_code
  else if name = [66] then some example_callee_code
  else none

/-- The title of the CALL examples: `call_saves_procedures` is clear, as in
`game_ai_shimai`. -/
def example_call_title : Config := example_config example_call_files false

/-- The state of the caller right after the opcode of its `CALL` was read: the MES
name slot holds `A`, procedure 7 is defined, `vm.ip.ptr` is 10. -/
def example_call_state : State :=
  { example_state example_caller_code with
    toMachine :=
      { example_machine example_caller_code with
        memory := fun a => if a = 0 then 65 else example_memory 0x1000 example_caller_code a
        ip := { ptr := 10, code := some 0x1000 } }
    scope_counter := 1
    procedures := Function.update (fun _ => vm_pointer_zero) 7 { ptr := 7, code := some 0x1000 } }

/-- The state of a run that returned, `d` otherwise. -/
def example_result (d : State) : Except Fault State → State
  | .ok t => t
  | .error _ => d

/-- The parameter list of the `CALL` of the examples. -/
def example_call_params : param_list :=
  match example_call_state.run (read_params example_call_title) with
  | .ok (p, _) => p
  | .error _ => param_list_zero

/-- The call site of the examples: `example_call_state` after `read_params`. -/
def example_call_site : State :=
  match example_call_state.run (read_params example_call_title) with
  | .ok (_, t) => t
  | .error _ => example_call_state

/-- The call site with the frame of the `CALL` pushed. -/
def example_call_saved : State :=
  example_result example_call_site (stmt_call_save example_call_title example_call_site)

/-- The state in which the callee starts: the file `B` is loaded and `vm.ip` is at
its start. -/
def example_call_loaded : State :=
  example_result example_call_saved
    ((example_call_saved.with_ip { ptr := 0, code := some example_call_title.file_data_off }).run_
      (vm_load_mes example_call_title [66]))

/-- The state in which the `vm_exec` of the callee returns. -/
def example_call_done : State :=
  example_result example_call_loaded (vm_exec example_call_title 10 example_call_loaded)
/-- The target of a farcall lies in the file-data region. -/
def in_file_data (cfg : Config) (addr : Nat) : Prop :=
  cfg.file_data_off ≤ addr ∧ addr < cfg.file_data_off + cfg.MEMORY_FILE_DATA_SIZE

instance (cfg : Config) (addr : Nat) : Decidable (in_file_data cfg addr) := by
  unfold in_file_data
  infer_instance

/-- A parameter list that holds the one expression parameter `v`. -/
def example_params_expr (v : Nat) : param_list :=
  { param_list_zero.set_expr 0 2 v with nr_params := 1 }
/-- The characters of a C string: bytes other than NUL. -/
def c_chars (name : List Nat) : Prop := ∀ c ∈ name, c ≠ 0 ∧ c < 256
/-- Address of the flags word `system_var16[MES_SYS_VAR_FLAGS]`. -/
def flags_addr (cfg : Config) : Nat := system_var16_addr cfg cfg.MES_SYS_VAR_FLAGS

/-- A state of nesting depth 2 whose RETURN flag is set: the flags word holds
`0x10`, and an `END` is the next statement. -/
def example_return_state : State :=
  { example_state [0x00] with
    toMachine :=
      { example_machine [0x00] with
        memory := fun a =>
          if a = flags_addr example_title then 0x10 else example_memory 0x1000 [0x00] a }
    scope_counter := 2 }

/-- The MES files of the example of a `GOTO` inside a `CALL`: `B` is `GOTO "C"` and
`C` is `END`. -/
def example_unwind_files (name : List Nat) : Option (List Nat) :=
  if name = [66] then some [0x0E, 1, 67, 0, 0]
  else if name = [67] then some [0x00]
  else none

/-- The title of the example of a `GOTO` inside a `CALL`. -/
def example_unwind_title : Config := example_config example_unwind_files false
/-- The run ended in `VM_ERROR`. -/
def is_vm_error {α : Type} : Except Fault α → Bool
  | .error (.vm_error _ _) => true
  | _ => false

/-- The expression `IMM32 a, IMM32 b, op, END` of the examples. -/
def example_pair_expr (a b op : Nat) : List Nat :=
  (0xF2 :: le_bytes32 a) ++ (0xF2 :: le_bytes32 b) ++ [op, 0xFF]
/-- The operators of `vm_eval` that go through the macro `OPERATOR`. -/
def is_binary_operator : mes_expression_op → Bool
  | .MES_EXPR_PLUS | .MES_EXPR_MINUS | .MES_EXPR_MUL | .MES_EXPR_DIV | .MES_EXPR_MOD
  | .MES_EXPR_AND | .MES_EXPR_OR | .MES_EXPR_BITAND | .MES_EXPR_BITIOR | .MES_EXPR_BITXOR
  | .MES_EXPR_LT | .MES_EXPR_GT | .MES_EXPR_LTE | .MES_EXPR_GTE | .MES_EXPR_EQ
  | .MES_EXPR_NEQ => true
  | _ => false
/-- The bytes of the variable banks in the examples of the array reads, as pairs of
address and value under `example_title`:
`usr_var16[0] = 0x2100`, `usr_var16[2] = 0x2000`, `usr_var16[3] = 0x2200`,
`sys_var16[0] = 0xAA11`, `sys_var16[2] = 0x1234`, the four bytes in front of
`usr_var32` hold `0x3100`, `usr_var32[1] = 0x3000`, `sys_var32[0] = 0x77665544`,
`sys_var32[1] = 0x12345678`; and the array elements the examples read. -/
def example_bank_bytes : List (Nat × Nat) :=
  [(2180, 0x00), (2181, 0x21), (2184, 0x00), (2185, 0x20), (2186, 0x00), (2187, 0x22),
   (2232, 0x11), (2233, 0xAA), (2236, 0x34), (2237, 0x12),
   (2276, 0x00), (2277, 0x31), (2284, 0x00), (2285, 0x30),
   (2384, 0x44), (2385, 0x55), (2386, 0x66), (2387, 0x77),
   (2388, 0x78), (2389, 0x56), (2390, 0x34), (2391, 0x12),
   (0x2002, 0xCD), (0x2003, 0xAB), (0x2001, 0x99), (0x2101, 0xBB), (0x2201, 0xCC),
   (0x3004, 0xEF), (0x3005, 0xBE), (0x3006, 0xAD), (0x3007, 0xDE),
   (0x3001, 0x5A), (0x3002, 0x0D), (0x3003, 0xF0), (0x3101, 0xA5), (0x3102, 0x55),
   (0x3103, 0x55)]

/-- The machine of the examples of the array reads: `code` at the start of the
file-data region, the bytes of `example_bank_bytes`, and the expression stack
`stack`. -/
def example_bank_machine (code stack : List Nat) : Machine :=
  { example_machine code with
    memory := fun a =>
      match example_bank_bytes.lookup a with
      | some v => v
      | none => example_memory 0x1000 code a
    stack := stack }
/-- The case `op` of the switch of `vm_eval`, entered in the machine `s` with the
index on top of the stack `rest` and `vm.ip` at the variable byte, reads that byte
and pushes `v` in place of the index; nothing else changes. -/
def array_read_pushes (cfg : Config) (op : Nat) (s : Machine) (v : Nat) (rest : List Nat) :
    Prop :=
  ∃ t, vm_eval_op cfg op s = .ok (none, t) ∧ t.stack = v :: rest ∧
    t.ip = { ptr := u32 (s.ip.ptr + 1), code := s.ip.code } ∧ t.memory = s.memory

/-- A parameter list that holds the expression parameters `vals` in order. -/
def example_params_exprs (vals : List Nat) : param_list :=
  { params := fun k =>
      if k < vals.length then { type := 2, str := [], val := vals.getD k 0 }
      else { type := 0, str := [], val := 0 }
    nr_params := vals.length }

/-- The byte `render_char_merged` without a palette leaves in a channel that held
`c`, for a glyph pixel with grey value `g` and mask `m`: unchanged for `m = 0`, the
grey value for `m > 15`, and the blend with `alpha = m * 16 - 8` in between. -/
def merged_mono_channel (g m c : Nat) : Nat :=
  if m % 256 = 0 then c
  else if m % 256 > 15 then g % 256
  else ((m % 256 * 16 - 8 + 1) * (g % 256) + (256 - (m % 256 * 16 - 8)) * (c % 256)) / 256
/-- Grey values of a 2 by 2 glyph for the examples. -/
def example_glyph_fnt (i : Nat) : Nat := [10, 200, 77, 255].getD i 0

/-- Mask values of a 2 by 2 glyph for the examples: transparent, two partial values
and an opaque one. -/
def example_glyph_msk (i : Nat) : Nat := [0, 8, 15, 20].getD i 0

/-- A destination surface for the examples: every byte is 100. -/
def example_surface (_ : Nat) : Nat := 100
/-- The memory image after the values `vals` were stored little-endian in consecutive
cells of `w` bytes from address `a` on: byte `j` of cell `k` holds byte `j` of the
value `k`, so each value is reduced to the width of its cell. -/
def cells_memory (w : Nat) (m : Nat → Nat) (a : Nat) (vals : List Nat) : Nat → Nat :=
  fun x =>
    if a ≤ x ∧ x < a + w * vals.length then
      vals.getD ((x - a) / w) 0 / 256 ^ ((x - a) % w) % 256
    else m x

/-- The entries of a value list that are followed by a further entry: each is an
expression with the stated value, followed by a non-zero byte. -/
def set_items_open (cfg : Config) (items : List set_item) : Prop :=
  ∀ it ∈ items, pure_expr cfg it.enc it.val ∧ it.sep ≠ 0 ∧ it.sep < 256
/-- One entry of a parameter list in the bytecode: an expression (its bytes and its
value), or a string under the tag byte `tag`. -/
inductive param_entry where
  | expr (enc : List Nat) (val : Nat)
  | str (tag : Nat) (chars : List Nat)

/-- The bytecode of an entry: the tag byte, then the expression or the string with
its NUL. -/
def param_entry.bytes (cfg : Config) : param_entry → List Nat
  | .expr enc _ => cfg.MES_PARAM_EXPRESSION :: enc
  | .str tag chars => tag :: (chars ++ [0])

/-- A well-formed entry: an expression with the stated value, or a string of at most
63 characters under a tag byte that is neither NUL nor the expression tag. -/
def param_entry.ok (cfg : Config) : param_entry → Prop
  | .expr enc val => pure_expr cfg enc val
  | .str tag chars =>
    tag ≠ 0 ∧ tag ≠ cfg.MES_PARAM_EXPRESSION ∧ c_chars chars ∧ chars.length < 64

/-- The bytecode of a list of entries, without the closing NUL. -/
def param_entries_bytes (cfg : Config) : List param_entry → List Nat
  | [] => []
  | e :: rest => e.bytes cfg ++ param_entries_bytes cfg rest

/-- The slot `p` of a parameter list holds the entry: its tag and its value. -/
def param_entry.stored (cfg : Config) (e : param_entry) (p : param) : Prop :=
  match e with
  | .expr _ val => p.type = cfg.MES_PARAM_EXPRESSION ∧ p.val = val
  | .str tag chars => p.type = tag ∧ p.str = chars

/-- The assignments `read_params` makes for an entry in slot `i`. -/
def param_entry.store (cfg : Config) (e : param_entry) (params : param_list) (i : Nat) :
    param_list :=
  match e with
  | .expr _ val => params.set_expr i cfg.MES_PARAM_EXPRESSION val
  | .str tag chars => params.set_str i tag chars

/-- The assignments `read_params` makes for a list of entries from slot `i` on. -/
def param_entries_store (cfg : Config) : List param_entry → param_list → Nat → param_list
  | [], params, _ => params
  | e :: rest, params, i => param_entries_store cfg rest (e.store cfg params i) (i + 1)

/-- The parameter list of the examples: the expression 5, the string `AB` and the
expression `0x1234`. -/
def example_entries : List param_entry :=
  [.expr [5, 0xFF] 5, .str 1 [65, 66], .expr [0xF1, 0x34, 0x12, 0xFF] 0x1234]

/-- A list of 31 entries, each the expression 1. -/
def example_entries_31 : List param_entry := List.replicate 31 (.expr [1, 0xFF] 1)
/-- A full parameter list: 30 entries, each the expression 1. -/
def example_entries_30 : List param_entry := List.replicate 30 (.expr [1, 0xFF] 1)

/-- The machine of the examples of `check_expr_param`, at the parameter list
`5, "AB", 0x1234`. -/
def example_params_machine : Machine :=
  example_machine [2, 5, 0xFF, 1, 65, 66, 0, 2, 0xF1, 0x34, 0x12, 0xFF, 0]

/-- The parameter list `read_params` returns on `example_params_machine`. -/
def example_read_params : param_list :=
  match read_params example_title example_params_machine with
  | .ok x => x.1
  | .error _ => param_list_zero
/-- The byte `render_char_redscale` leaves in channel `k` of a pixel that held `c`
there, for a glyph pixel with grey value `g` and mask `m`: unchanged for `m = 0`;
otherwise the byte of `render_char_merged` without a palette in the red channel
(`k = 0`) and 0 in the other two. -/
def redscale_channel (g m k c : Nat) : Nat :=
  if m % 256 = 0 then c
  else if k = 0 then merged_mono_channel g m c
  else 0
/-- A glyph table for the examples: 3 entries, the code points `0x8141`, `0x82A0`
and `0x8141` again. -/
def example_font_tbl (i : Nat) : Nat := [3, 0, 0x41, 0x81, 0xA0, 0x82, 0x41, 0x81].getD i 0
/-- The title of the examples with every input down: `input_down` returns 1. -/
def example_input_title : Config :=
  { example_title with
    host_ret := fun _ c => if c.fn = "input_down" then [1] else [] }

/-- The machine of the examples of `stmt_sys_check_input`: `var32[18] = 5` and
`system_var32[18] = 7`. -/
def example_input_machine : Machine :=
  { example_machine [] with
    memory := fun a => if a = 2352 then 5 else if a = 2456 then 7 else 0 }
/-- One 10-byte entry of the table `stmt_sys_check_cursor_pos` reads: an id and a
rectangle. -/
structure hit_entry where
  id : Nat
  x_left : Nat
  y_top : Nat
  x_right : Nat
  y_bot : Nat

/-- The 10 bytes of an entry: five little-endian `uint16_t`. -/
def hit_entry.bytes (e : hit_entry) : List Nat :=
  le_bytes16 e.id ++ le_bytes16 e.x_left ++ le_bytes16 e.y_top ++ le_bytes16 e.x_right
    ++ le_bytes16 e.y_bot

/-- The fields of an entry are `uint16_t`, and its id is not the terminator. -/
def hit_entry.ok (e : hit_entry) : Prop :=
  e.id < 65536 ∧ e.id ≠ 0xffff ∧ e.x_left < 65536 ∧ e.y_top < 65536 ∧ e.x_right < 65536 ∧
    e.y_bot < 65536

/-- The rectangle of the entry contains the point, bounds included. -/
def hit_entry.has (e : hit_entry) (x y : Nat) : Prop :=
  e.x_left ≤ x ∧ x ≤ e.x_right ∧ e.y_top ≤ y ∧ y ≤ e.y_bot

/-- The bytes of a table of entries, without a terminator. -/
def hit_table_bytes : List hit_entry → List Nat
  | [] => []
  | e :: rest => e.bytes ++ hit_table_bytes rest

/-- The table of the examples: the rectangles `(10,10)-(20,20)` with id 1,
`(15,15)-(30,30)` with id 2 and `(15,15)-(30,30)` with id 3. -/
def example_hit_table : List hit_entry :=
  [⟨1, 10, 10, 20, 20⟩, ⟨2, 15, 15, 30, 30⟩, ⟨3, 15, 15, 30, 30⟩]

/-- The machine of the examples of `stmt_sys_check_cursor_pos`: the example table
and its terminator at the start of the file-data region, and `var16[18] = 5`. -/
def example_hit_machine : Machine :=
  { example_machine [] with
    memory := fun a =>
      if a = 2216 then 5 else example_memory 0x1000 (hit_table_bytes example_hit_table ++ [0xFF, 0xFF]) a }

/-- The machine of the examples of a table that runs into the end of the file-data
region: one entry, `(10,10)-(20,20)` with id 1, at offset `0xFFEC`, and
`var16[18] = 5`. -/
def example_overrun_machine : Machine :=
  { example_machine [] with
    memory := fun a =>
      if a = 2216 then 5
      else example_memory (0x1000 + 0xFFEC) (hit_table_bytes [⟨1, 10, 10, 20, 20⟩]) a }
instance (e : hit_entry) : Decidable e.ok := by
  unfold hit_entry.ok
  infer_instance

instance (e : hit_entry) (x y : Nat) : Decidable (e.has x y) := by
  unfold hit_entry.has
  infer_instance
/-- The instruction pointer of `s` is at a byte that is no statement opcode, no NUL,
no hankaku character and no zenkaku lead byte; the two system variables `draw_text`
reads lie in the memory image. -/
def at_unprefixed_byte (cfg : Config) (s : Machine) : Prop :=
  ∃ base op, s.ip.code = some base ∧ base + s.ip.ptr < cfg.memory_size ∧
    s.ip.ptr + 1 < 4294967296 ∧ s.memory (base + s.ip.ptr) % 256 = op ∧ op ≠ 0 ∧
    cfg.mes_opcode_to_stmt op = .MES_STMT_INVALID ∧
    cfg.mes_char_is_hankaku op = false ∧ cfg.mes_char_is_zenkaku op = false ∧
    system_var16_addr cfg cfg.MES_SYS_VAR_DST_SURFACE + 2 ≤ cfg.memory_size ∧
    system_var16_addr cfg cfg.MES_SYS_VAR_CHAR_SPACE + 2 ≤ cfg.memory_size
/-- The machine of the text examples: `var4[2002] = 0`, `var4[2017] = 0`,
`var4[2018] = 1`; the text area runs from `start_x = 10` to `end_x = 100` with
`char_space = 28` and `line_space = 30`, the cursor is at `(10, 0)`; `var32[0] = 0`,
`var32[1] = 0x100` and `var32[2] = 0x2000` place the fonts, and `example_font_tbl`
lies at the start of the file data. -/
def example_text_machine : Machine :=
  { example_machine [] with
    memory := fun a =>
      if a = 2146 then 1
      else if a = 2285 then 1
      else if a = 2289 then 0x20
      else if 0x1000 ≤ a then example_font_tbl (a - 0x1000)
      else example_memory 2238
        [10, 0, 0, 0, 10, 0, 0, 0, 100, 0, 0, 0, 0, 0, 0, 0, 0, 0, 28, 0, 30, 0] a }

/-- The text of the examples: the characters `0x8141`, `0x8142` (not in
`example_font_tbl`), `0x82A0`, `0x8141` and `0x8141`. -/
def example_text : List Nat := [0x41, 0x81, 0x42, 0x81, 0xA0, 0x82, 0x41, 0x81, 0x41, 0x81]

/-- The surfaces of the examples: every byte is 100 and every pitch is 1920. -/
def example_surfaces : gfx_surfaces :=
  { pixels := fun _ => example_surface, pitch := fun _ => 1920 }

/-- For each two-byte character of `txt`, whether `get_char_index` finds it in the
table at `tbl` of the memory image `m`. -/
def text_found (m : Nat → Nat) (tbl : Nat) : List Nat → List Bool
  | b0 :: b1 :: rest =>
    decide (0 ≤ get_char_index (b0 % 256 + 256 * (b1 % 256)) (fun k => m (tbl + k)))
      :: text_found m tbl rest
  | _ => []

/-- The walk of the text cursor over the characters of a text, given for each
character whether its glyph is found: a character without glyph leaves the cursor
where it is, every other one advances it by `char_space`, and when the next glyph
would end past `end_x` the cursor wraps to `start_x`.  The result is the final `x`
and the number of wraps. -/
def cursor_walk (start_x end_x char_space : Nat) : List Bool → Nat → Nat × Nat
  | [], x => (x, 0)
  | false :: fs, x => cursor_walk start_x end_x char_space fs x
  | true :: fs, x =>
    if x + char_space + char_space > end_x then
      ((cursor_walk start_x end_x char_space fs start_x).1,
        (cursor_walk start_x end_x char_space fs start_x).2 + 1)
    else cursor_walk start_x end_x char_space fs (x + char_space)

/-- The loop of `vm_exec` with an assertion in front of every pass, also in every
nested `vm_exec`: a pass that starts with `scope_counter = 0` is a fault. -/
def vm_exec_loop_checked (cfg : Config) : Nat → State → Except Fault State
  | 0, _ => .error .out_of_fuel
  | fuel + 1, s =>
    if s.scope_counter = 0 then .error (.undefined "statement with scope_counter = 0")
    else do
      let (go, s1) ← vm_exec_pass cfg
        (fun t => do
          let t1 ← vm_exec_loop_checked cfg fuel (scope_enter t)
          pure (scope_leave t1)) fuel s
      if go then vm_exec_loop_checked cfg fuel s1 else pure s1

/-- The function `vm_exec` with the assertion of `vm_exec_loop_checked`. -/
def vm_exec_checked (cfg : Config) (fuel : Nat) (s : State) : Except Fault State := do
  let s1 ← vm_exec_loop_checked cfg fuel (scope_enter s)
  pure (scope_leave s1)
/-- The machine at the head of the loop of `vm_eval` after `n` passes that returned
nothing, started from `s`; `none` when one of these passes returns or fails. -/
def vm_eval_passes (cfg : Config) : Nat → Machine → Option Machine
  | 0, s => some s
  | n + 1, s =>
    match vm_read_byte cfg s with
    | .ok (op, s1) =>
      match vm_eval_op cfg op s1 with
      | .ok (none, s2) => vm_eval_passes cfg n s2
      | _ => none
    | .error _ => none

/-- The run of `vm_eval` from `s` reads an `END` opcode, and `t` is the machine right
after that opcode byte was read: some number of passes that returned nothing lead
from `s` to the pass that reads it, within the passes `vm_eval` can make. -/
def vm_eval_reads_END (cfg : Config) (s t : Machine) : Prop :=
  ∃ (n : Nat) (t0 : Machine) (op : Nat), n ≤ cfg.memory_size ∧
    vm_eval_passes cfg n s = some t0 ∧ vm_read_byte cfg t0 = .ok (op, t) ∧
    cfg.mes_opcode_to_expr op = .MES_EXPR_END
@[simp] theorem of_callee_ok {σ α : Type} (a : α) :
    (of_callee (.ok a) : Except (Fatal σ) α) = .ok a := rfl

@[simp] theorem forget_globals_ok {σ α : Type} (a : α) :
    forget_globals (.ok a : Except (Fatal σ) α) = .ok a := rfl

@[simp] theorem forget_globals_pure {σ α : Type} (a : α) :
    forget_globals (pure a : Except (Fatal σ) α) = .ok a := rfl

@[simp] theorem forget_globals_of_callee {σ α : Type} (r : Except Fault α) :
    forget_globals (of_callee r : Except (Fatal σ) α) = r := by
  cases r <;> rfl

@[simp] theorem forget_globals_VM_ERROR_at {σ α : Type} (s : σ) (fmt : String)
    (args : List Int) :
    forget_globals (VM_ERROR_at s fmt args : Except (Fatal σ) α) = VM_ERROR fmt args := rfl

theorem forget_globals_bind_callee {σ α β : Type} (r : Except Fault α)
    (f : α → Except (Fatal σ) β) :
    forget_globals (of_callee r >>= f) = (r >>= fun a => forget_globals (f a)) := by
  cases r <;> rfl

/-- A function with the globals at its fault returns what the function without
returns. -/
theorem forget_globals_eq_ok {σ α : Type} (r : Except (Fatal σ) α) (a : α)
    (h : forget_globals r = .ok a) : r = .ok a := by
  cases r with
  | error f => cases h
  | ok b =>
    simp only [forget_globals_ok, Except.ok.injEq] at h
    rw [h]

theorem vm_stack_pop_traced_forget (s : Machine) :
    forget_globals (vm_stack_pop_traced s) = vm_stack_pop s := by
  unfold vm_stack_pop_traced vm_stack_pop
  cases s.stack <;> rfl

theorem vm_call_procedure_traced_forget (exec : State → Except Fault State) (no : Nat)
    (s : State) :
    forget_globals (vm_call_procedure_traced exec no s) = vm_call_procedure exec no s := by
  unfold vm_call_procedure_traced vm_call_procedure
  split
  · rfl
  · rw [forget_globals_bind_callee]
    rfl

theorem stmt_procd_traced_forget (cfg : Config) (s : State) :
    forget_globals (stmt_procd_traced cfg s) = stmt_procd cfg s := by
  unfold stmt_procd_traced stmt_procd
  rw [forget_globals_bind_callee]
  congr 1
  funext x
  obtain ⟨i, s1⟩ := x
  dsimp only
  split
  · rfl
  · rw [forget_globals_bind_callee]
    rfl

theorem stmt_sys_traced_forget (cfg : Config) (exec : State → Except Fault State) (fuel : Nat)
    (s : State) :
    forget_globals (stmt_sys_traced cfg exec fuel s) = stmt_sys cfg exec fuel s := by
  unfold stmt_sys_traced stmt_sys
  rw [forget_globals_bind_callee]
  congr 1
  funext x
  obtain ⟨no, s1⟩ := x
  dsimp only
  rw [forget_globals_bind_callee]
  congr 1
  funext y
  obtain ⟨params, s2⟩ := y
  dsimp only
  split <;> first
    | exact forget_globals_of_callee _
    | rfl

/-! # Properties -/

/-! ## Machine integers -/

theorem u32_of_lt {n : Nat} (h : n < 4294967296) : u32 n = n := Nat.mod_eq_of_lt h

theorem u16_of_lt {n : Nat} (h : n < 65536) : u16 n = n := Nat.mod_eq_of_lt h

theorem u8_of_lt {n : Nat} (h : n < 256) : u8 n = n := Nat.mod_eq_of_lt h

theorem u32_lt (n : Nat) : u32 n < 4294967296 := Nat.mod_lt _ (by decide)

theorem le_bytes32_sum {v : Nat} (h : v < 4294967296) :
    v % 256 + 256 * (v / 256 % 256) + 65536 * (v / 65536 % 256)
      + 16777216 * (v / 16777216 % 256) = v := by
  omega

theorem le_bytes16_sum {v : Nat} (h : v < 65536) :
    v % 256 + 256 * (v / 256 % 256) = v := by
  omega

/-! ## Updating a machine -/

@[simp] theorem set_ip_ptr_memory (s : Machine) (p : Nat) : (s.set_ip_ptr p).memory = s.memory := rfl
@[simp] theorem set_ip_ptr_ptr (s : Machine) (p : Nat) : (s.set_ip_ptr p).ip.ptr = p := rfl
@[simp] theorem set_ip_ptr_code (s : Machine) (p : Nat) : (s.set_ip_ptr p).ip.code = s.ip.code := rfl
@[simp] theorem set_ip_ptr_stack (s : Machine) (p : Nat) : (s.set_ip_ptr p).stack = s.stack := rfl
@[simp] theorem set_ip_ptr_trace (s : Machine) (p : Nat) : (s.set_ip_ptr p).trace = s.trace := rfl
@[simp] theorem set_stack_memory (s : Machine) (st : List Nat) : (s.set_stack st).memory = s.memory := rfl
@[simp] theorem set_stack_ip (s : Machine) (st : List Nat) : (s.set_stack st).ip = s.ip := rfl
@[simp] theorem set_stack_stack (s : Machine) (st : List Nat) : (s.set_stack st).stack = st := rfl
@[simp] theorem set_stack_trace (s : Machine) (st : List Nat) : (s.set_stack st).trace = s.trace := rfl
@[simp] theorem set_memory_memory (s : Machine) (m : Nat → Nat) : (s.set_memory m).memory = m := rfl
@[simp] theorem set_memory_ip (s : Machine) (m : Nat → Nat) : (s.set_memory m).ip = s.ip := rfl
@[simp] theorem set_memory_stack (s : Machine) (m : Nat → Nat) : (s.set_memory m).stack = s.stack := rfl
@[simp] theorem set_memory_trace (s : Machine) (m : Nat → Nat) : (s.set_memory m).trace = s.trace := rfl
@[simp] theorem set_ip_memory (s : Machine) (p : vm_pointer) : (s.set_ip p).memory = s.memory := rfl
@[simp] theorem set_ip_ip (s : Machine) (p : vm_pointer) : (s.set_ip p).ip = p := rfl
@[simp] theorem set_ip_stack (s : Machine) (p : vm_pointer) : (s.set_ip p).stack = s.stack := rfl
@[simp] theorem stack_ptr_eq (s : Machine) : s.stack_ptr = s.stack.length := rfl

@[simp] theorem set_ip_ptr_twice (s : Machine) (p q : Nat) :
    (s.set_ip_ptr p).set_ip_ptr q = s.set_ip_ptr q := rfl

@[simp] theorem set_stack_twice (s : Machine) (a b : List Nat) :
    (s.set_stack a).set_stack b = s.set_stack b := rfl

@[simp] theorem set_stack_set_ip_ptr (s : Machine) (a : List Nat) (p : Nat) :
    (s.set_stack a).set_ip_ptr p = (s.set_ip_ptr p).set_stack a := rfl

theorem set_stack_self (s : Machine) : s.set_stack s.stack = s := rfl

theorem set_ip_ptr_self (s : Machine) : s.set_ip_ptr s.ip.ptr = s := rfl

/-! ## Bytes in the memory image -/

theorem mem_holds_nil (m : Nat → Nat) (a : Nat) : mem_holds m a [] := by
  intro k hk; simp at hk

theorem mem_holds_cons (m : Nat → Nat) (a b : Nat) (bs : List Nat) :
    mem_holds m a (b :: bs) ↔ m a % 256 = b ∧ mem_holds m (a + 1) bs := by
  constructor
  · intro h
    refine ⟨by simpa using h 0 (by simp), ?_⟩
    intro k hk
    have := h (k + 1) (by simpa using hk)
    simpa [Nat.add_assoc, Nat.add_comm 1 k] using this
  · rintro ⟨h0, h1⟩ k hk
    cases k with
    | zero => simpa using h0
    | succ k =>
      have := h1 k (by simpa using hk)
      simpa [Nat.add_assoc, Nat.add_comm 1 k] using this

theorem mem_holds_append (m : Nat → Nat) (a : Nat) (xs ys : List Nat) :
    mem_holds m a (xs ++ ys) ↔ mem_holds m a xs ∧ mem_holds m (a + xs.length) ys := by
  induction xs generalizing a with
  | nil => simp [mem_holds_nil]
  | cons x xs ih =>
    simp only [List.cons_append, mem_holds_cons, ih, List.length_cons]
    have e : a + 1 + xs.length = a + (xs.length + 1) := by omega
    rw [e]
    tauto

/-! ## Reading bytecode -/

theorem code_get8_eq (cfg : Config) (s : Machine) (base k : Nat) (hc : s.ip.code = some base)
    (hb : base + s.ip.ptr + k < cfg.memory_size) :
    code_get8 cfg s k = .ok (s.memory (base + s.ip.ptr + k) % 256) := by
  simp [code_get8, hc, mem_get8, hb]

theorem vm_read_byte_eq (cfg : Config) (s : Machine) (base b : Nat) (hc : s.ip.code = some base)
    (hb : base + s.ip.ptr < cfg.memory_size) (hm : s.memory (base + s.ip.ptr) % 256 = b) :
    vm_read_byte cfg s = .ok (b, s.set_ip_ptr (u32 (s.ip.ptr + 1))) := by
  have := code_get8_eq cfg s base 0 hc (by simpa using hb)
  simp only [vm_read_byte, this, bind, Except.bind, pure, Except.pure]
  simp [hm]

theorem vm_read_word_eq (cfg : Config) (s : Machine) (base v : Nat) (hc : s.ip.code = some base)
    (hb : base + s.ip.ptr + 2 ≤ cfg.memory_size) (hv : v < 65536)
    (hm : mem_holds s.memory (base + s.ip.ptr) [v % 256, v / 256 % 256]) :
    vm_read_word cfg s = .ok (v, s.set_ip_ptr (u32 (s.ip.ptr + 2))) := by
  have h0 := code_get8_eq cfg s base 0 hc (by omega)
  have h1 := code_get8_eq cfg s base 1 hc (by omega)
  simp only [mem_holds_cons, Nat.add_zero] at hm h0
  obtain ⟨e0, e1, -⟩ := hm
  simp only [vm_read_word, code_get16, h0, h1, bind, Except.bind, pure, Except.pure, e0, e1,
    le_bytes16_sum hv]

theorem vm_read_dword_eq (cfg : Config) (s : Machine) (base v : Nat) (hc : s.ip.code = some base)
    (hb : base + s.ip.ptr + 4 ≤ cfg.memory_size) (hv : v < 4294967296)
    (hm : mem_holds s.memory (base + s.ip.ptr) (le_bytes32 v)) :
    vm_read_dword cfg s = .ok (v, s.set_ip_ptr (u32 (s.ip.ptr + 4))) := by
  have h0 := code_get8_eq cfg s base 0 hc (by omega)
  have h1 := code_get8_eq cfg s base 1 hc (by omega)
  have h2 := code_get8_eq cfg s base 2 hc (by omega)
  have h3 := code_get8_eq cfg s base 3 hc (by omega)
  simp only [le_bytes32, mem_holds_cons, Nat.add_zero] at hm h0
  obtain ⟨e0, e1, e2, e3, -⟩ := hm
  simp only [vm_read_dword, code_get32, h0, h1, h2, h3, bind, Except.bind, pure, Except.pure,
    e0, e1, e2, e3, le_bytes32_sum hv]

theorem vm_stack_push_eq (s : Machine) (v : Nat) (h : s.stack.length + 1 < VM_STACK_SIZE) :
    vm_stack_push s v = .ok (s.set_stack (u32 v :: s.stack)) := by
  simp only [vm_stack_push, stack_ptr_eq, set_stack_stack, List.length_cons]
  rw [if_neg (by omega), if_neg (by omega)]

theorem vm_stack_pop_eq (s : Machine) (v : Nat) (rest : List Nat) (h : s.stack = v :: rest) :
    vm_stack_pop s = .ok (v, s.set_stack rest) := by
  simp [vm_stack_pop, h]

/-! ## The expression evaluator -/

theorem vm_eval_loop_succ (cfg : Config) (fuel : Nat) (s : Machine) :
    vm_eval_loop cfg (fuel + 1) s =
      (vm_read_byte cfg s >>= fun x => vm_eval_op cfg x.1 x.2 >>= fun y =>
        match y.1 with
        | some v => pure (v, y.2)
        | none => vm_eval_loop cfg fuel y.2) := by
  rfl

theorem vm_eval_loop_step (cfg : Config) (fuel : Nat) (s s1 s2 : Machine) (op : Nat)
    (h1 : vm_read_byte cfg s = .ok (op, s1)) (h2 : vm_eval_op cfg op s1 = .ok (none, s2)) :
    vm_eval_loop cfg (fuel + 1) s = vm_eval_loop cfg fuel s2 := by
  rw [vm_eval_loop_succ, h1]
  simp only [bind, Except.bind, h2]

theorem vm_eval_loop_done (cfg : Config) (fuel : Nat) (s s1 s2 : Machine) (op v : Nat)
    (h1 : vm_read_byte cfg s = .ok (op, s1)) (h2 : vm_eval_op cfg op s1 = .ok (some v, s2)) :
    vm_eval_loop cfg (fuel + 1) s = .ok (v, s2) := by
  rw [vm_eval_loop_succ, h1]
  simp only [bind, Except.bind, h2]
  rfl

theorem vm_eval_loop_mono (cfg : Config) (f : Nat) :
    ∀ (s : Machine) (r : Nat × Machine), vm_eval_loop cfg f s = .ok r →
      ∀ f', f ≤ f' → vm_eval_loop cfg f' s = .ok r := by
  induction f with
  | zero => intro s r h; simp [vm_eval_loop] at h
  | succ f ih =>
    intro s r h f' hf
    obtain ⟨g, rfl⟩ : ∃ g, f' = g + 1 := ⟨f' - 1, by omega⟩
    rw [vm_eval_loop_succ] at h ⊢
    cases h1 : vm_read_byte cfg s with
    | error e => simp [h1, bind, Except.bind] at h
    | ok x =>
      simp only [h1, bind, Except.bind] at h ⊢
      cases h2 : vm_eval_op cfg x.1 x.2 with
      | error e => simp [h2] at h
      | ok y =>
        simp only [h2] at h ⊢
        cases h3 : y.1 with
        | some v => simpa [h3] using h
        | none =>
          simp only [h3] at h ⊢
          exact ih _ _ h _ (by omega)

theorem vm_eval_of_loop (cfg : Config) (f : Nat) (s : Machine) (r : Nat × Machine)
    (h : vm_eval_loop cfg f s = .ok r) (hf : f ≤ cfg.memory_size + 1) :
    vm_eval cfg s = .ok r :=
  vm_eval_loop_mono cfg f s r h _ hf

theorem OPERATOR_eq (op : Nat → Nat → Except Fault Nat) (s : Machine) (a b r : Nat)
    (rest : List Nat) (hs : s.stack = b :: a :: rest) (hr : op a b = .ok r)
    (hl : rest.length + 1 < VM_STACK_SIZE) :
    OPERATOR op s = .ok (s.set_stack (u32 r :: rest)) := by
  simp only [OPERATOR, vm_stack_pop_eq s b (a :: rest) hs, bind, Except.bind,
    vm_stack_pop_eq (s.set_stack (a :: rest)) a rest rfl, hr, set_stack_twice]
  rw [vm_stack_push_eq _ _ (by simpa using hl)]
  rfl

theorem vm_eval_op_imm (cfg : Config) (op : Nat) (s : Machine)
    (hop : cfg.mes_opcode_to_expr op = .MES_EXPR_IMM) (hl : s.stack.length + 1 < VM_STACK_SIZE) :
    vm_eval_op cfg op s = .ok (none, s.set_stack (u32 op :: s.stack)) := by
  simp only [vm_eval_op, hop, vm_stack_push_eq s op hl, bind, Except.bind, pure, Except.pure]

theorem vm_eval_op_imm16 (cfg : Config) (op : Nat) (s : Machine) (base v : Nat)
    (hop : cfg.mes_opcode_to_expr op = .MES_EXPR_IMM16) (hl : s.stack.length + 1 < VM_STACK_SIZE)
    (hc : s.ip.code = some base) (hb : base + s.ip.ptr + 2 ≤ cfg.memory_size) (hv : v < 65536)
    (hm : mem_holds s.memory (base + s.ip.ptr) (le_bytes16 v)) :
    vm_eval_op cfg op s =
      .ok (none, (s.set_ip_ptr (u32 (s.ip.ptr + 2))).set_stack (v :: s.stack)) := by
  simp only [vm_eval_op, hop, vm_read_word_eq cfg s base v hc hb hv hm, bind, Except.bind]
  rw [vm_stack_push_eq _ _ (by simpa using hl), u32_of_lt (n := v) (by omega)]
  rfl

theorem vm_eval_op_imm32 (cfg : Config) (op : Nat) (s : Machine) (base v : Nat)
    (hop : cfg.mes_opcode_to_expr op = .MES_EXPR_IMM32) (hl : s.stack.length + 1 < VM_STACK_SIZE)
    (hc : s.ip.code = some base) (hb : base + s.ip.ptr + 4 ≤ cfg.memory_size)
    (hv : v < 4294967296) (hm : mem_holds s.memory (base + s.ip.ptr) (le_bytes32 v)) :
    vm_eval_op cfg op s =
      .ok (none, (s.set_ip_ptr (u32 (s.ip.ptr + 4))).set_stack (v :: s.stack)) := by
  simp only [vm_eval_op, hop, vm_read_dword_eq cfg s base v hc hb hv hm, bind, Except.bind]
  rw [vm_stack_push_eq _ _ (by simpa using hl), u32_of_lt hv]
  rfl

theorem vm_eval_op_end (cfg : Config) (op : Nat) (s : Machine)
    (hop : cfg.mes_opcode_to_expr op = .MES_EXPR_END) :
    vm_eval_op cfg op s =
      match s.stack with
      | [] => VM_ERROR "Tried to pop from empty stack" []
      | [v] => .ok (some v, s.set_stack [])
      | _ :: _ :: _ => VM_ERROR "Stack pointer is non-zero at end of expression" [] := by
  simp only [vm_eval_op, hop]
  rcases hs : s.stack with _ | ⟨v, _ | ⟨w, rest⟩⟩
  · simp [vm_stack_pop, hs, bind, Except.bind, VM_ERROR]
  · simp [vm_stack_pop, hs, bind, Except.bind, pure, Except.pure]
  · simp [vm_stack_pop, hs, bind, Except.bind, VM_ERROR]

theorem vm_eval_loop_imm (cfg : Config) (fuel : Nat) (s : Machine) (base ptr op : Nat)
    (hc : s.ip.code = some base) (hp : s.ip.ptr = ptr)
    (hm : mem_holds s.memory (base + ptr) [op])
    (hb : base + ptr + 1 ≤ cfg.memory_size) (hw : ptr + 1 < 4294967296)
    (hop : cfg.mes_opcode_to_expr op = .MES_EXPR_IMM) (hl : s.stack.length + 1 < VM_STACK_SIZE) :
    vm_eval_loop cfg (fuel + 1) s =
      vm_eval_loop cfg fuel ((s.set_ip_ptr (ptr + 1)).set_stack (u32 op :: s.stack)) := by
  subst hp
  simp only [mem_holds_cons] at hm
  rw [vm_eval_loop_step cfg fuel s _ _ op
    (vm_read_byte_eq cfg s base op hc (by omega) hm.1)
    (vm_eval_op_imm cfg op _ hop (by simpa using hl)), u32_of_lt hw]
  rfl

theorem vm_eval_loop_imm16 (cfg : Config) (fuel : Nat) (s : Machine) (base ptr op v : Nat)
    (hc : s.ip.code = some base) (hp : s.ip.ptr = ptr)
    (hm : mem_holds s.memory (base + ptr) (op :: le_bytes16 v)) (hv : v < 65536)
    (hb : base + ptr + 3 ≤ cfg.memory_size) (hw : ptr + 3 < 4294967296)
    (hop : cfg.mes_opcode_to_expr op = .MES_EXPR_IMM16)
    (hl : s.stack.length + 1 < VM_STACK_SIZE) :
    vm_eval_loop cfg (fuel + 1) s =
      vm_eval_loop cfg fuel ((s.set_ip_ptr (ptr + 3)).set_stack (v :: s.stack)) := by
  subst hp
  rw [mem_holds_cons] at hm
  have e1 : u32 (s.ip.ptr + 1) = s.ip.ptr + 1 := u32_of_lt (by omega)
  rw [vm_eval_loop_step cfg fuel s _ _ op
    (vm_read_byte_eq cfg s base op hc (by omega) hm.1)
    (vm_eval_op_imm16 cfg op _ base v hop (by simpa using hl) (by simpa using hc)
      (by simp only [set_ip_ptr_ptr, e1]; omega) hv
      (by simp only [set_ip_ptr_ptr, set_ip_ptr_memory, e1]; rw [← Nat.add_assoc]; exact hm.2))]
  simp only [set_ip_ptr_ptr, set_ip_ptr_twice, set_ip_ptr_stack, e1]
  rw [u32_of_lt (by omega)]

theorem vm_eval_loop_imm32 (cfg : Config) (fuel : Nat) (s : Machine) (base ptr op v : Nat)
    (hc : s.ip.code = some base) (hp : s.ip.ptr = ptr)
    (hm : mem_holds s.memory (base + ptr) (op :: le_bytes32 v)) (hv : v < 4294967296)
    (hb : base + ptr + 5 ≤ cfg.memory_size) (hw : ptr + 5 < 4294967296)
    (hop : cfg.mes_opcode_to_expr op = .MES_EXPR_IMM32)
    (hl : s.stack.length + 1 < VM_STACK_SIZE) :
    vm_eval_loop cfg (fuel + 1) s =
      vm_eval_loop cfg fuel ((s.set_ip_ptr (ptr + 5)).set_stack (v :: s.stack)) := by
  subst hp
  rw [mem_holds_cons] at hm
  have e1 : u32 (s.ip.ptr + 1) = s.ip.ptr + 1 := u32_of_lt (by omega)
  rw [vm_eval_loop_step cfg fuel s _ _ op
    (vm_read_byte_eq cfg s base op hc (by omega) hm.1)
    (vm_eval_op_imm32 cfg op _ base v hop (by simpa using hl) (by simpa using hc)
      (by simp only [set_ip_ptr_ptr, e1]; omega) hv
      (by simp only [set_ip_ptr_ptr, set_ip_ptr_memory, e1]; rw [← Nat.add_assoc]; exact hm.2))]
  simp only [set_ip_ptr_ptr, set_ip_ptr_twice, set_ip_ptr_stack, e1]
  rw [u32_of_lt (by omega)]

theorem vm_eval_loop_operator (cfg : Config) (fuel : Nat) (s : Machine) (base ptr op a b r : Nat)
    (rest : List Nat) (f : Nat → Nat → Except Fault Nat)
    (hc : s.ip.code = some base) (hp : s.ip.ptr = ptr)
    (hm : mem_holds s.memory (base + ptr) [op])
    (hb : base + ptr + 1 ≤ cfg.memory_size) (hw : ptr + 1 < 4294967296)
    (hop : ∀ t : Machine, vm_eval_op cfg op t = (OPERATOR f t >>= fun t1 => pure (none, t1)))
    (hs : s.stack = b :: a :: rest) (hr : f a b = .ok r) (hl : rest.length + 1 < VM_STACK_SIZE) :
    vm_eval_loop cfg (fuel + 1) s =
      vm_eval_loop cfg fuel ((s.set_ip_ptr (ptr + 1)).set_stack (u32 r :: rest)) := by
  subst hp
  simp only [mem_holds_cons] at hm
  have h2 : vm_eval_op cfg op (s.set_ip_ptr (u32 (s.ip.ptr + 1))) =
      .ok (none, (s.set_ip_ptr (u32 (s.ip.ptr + 1))).set_stack (u32 r :: rest)) := by
    rw [hop, OPERATOR_eq f _ a b r rest (by simpa using hs) hr hl]
    rfl
  rw [vm_eval_loop_step cfg fuel s _ _ op
    (vm_read_byte_eq cfg s base op hc (by omega) hm.1) h2, u32_of_lt hw]

theorem vm_eval_loop_end (cfg : Config) (fuel : Nat) (s : Machine) (base ptr op v : Nat)
    (hc : s.ip.code = some base) (hp : s.ip.ptr = ptr)
    (hm : mem_holds s.memory (base + ptr) [op])
    (hb : base + ptr + 1 ≤ cfg.memory_size) (hw : ptr + 1 < 4294967296)
    (hop : cfg.mes_opcode_to_expr op = .MES_EXPR_END) (hs : s.stack = [v]) :
    vm_eval_loop cfg (fuel + 1) s = .ok (v, (s.set_ip_ptr (ptr + 1)).set_stack []) := by
  subst hp
  simp only [mem_holds_cons] at hm
  have h2 : vm_eval_op cfg op (s.set_ip_ptr (u32 (s.ip.ptr + 1))) =
      .ok (some v, (s.set_ip_ptr (u32 (s.ip.ptr + 1))).set_stack []) := by
    rw [vm_eval_op_end cfg op _ hop]
    simp [hs]
  rw [vm_eval_loop_done cfg fuel s _ _ op v
    (vm_read_byte_eq cfg s base op hc (by omega) hm.1) h2, u32_of_lt hw]

/-- Evaluation of `IMM32 a, IMM32 b, op, END` for an operator `op` of the `OPERATOR`
family. -/
theorem vm_eval_imm32_pair (cfg : Config) (s : Machine) (base a b imm32 op e r : Nat)
    (f : Nat → Nat → Except Fault Nat)
    (hc : s.ip.code = some base) (hs : s.stack = [])
    (hm : mem_holds s.memory (base + s.ip.ptr)
      ((imm32 :: le_bytes32 a) ++ (imm32 :: le_bytes32 b) ++ [op, e]))
    (ha : a < 4294967296) (hb : b < 4294967296)
    (hbound : base + s.ip.ptr + 12 ≤ cfg.memory_size) (hwrap : s.ip.ptr + 12 < 4294967296)
    (himm : cfg.mes_opcode_to_expr imm32 = .MES_EXPR_IMM32)
    (hend : cfg.mes_opcode_to_expr e = .MES_EXPR_END)
    (hop : ∀ t : Machine, vm_eval_op cfg op t = (OPERATOR f t >>= fun t1 => pure (none, t1)))
    (hr : f a b = .ok r) :
    vm_eval cfg s = .ok (u32 r, s.set_ip_ptr (s.ip.ptr + 12)) := by
  apply vm_eval_of_loop cfg 4 _ _ _ (by omega)
  simp only [mem_holds_append, List.length_cons, le_bytes32, List.length_nil] at hm
  obtain ⟨⟨h1, h2⟩, h3⟩ := hm
  rw [mem_holds_cons] at h3
  rw [vm_eval_loop_imm32 cfg 3 s base s.ip.ptr imm32 a hc rfl h1 ha (by omega) (by omega) himm
    (by simp [hs, VM_STACK_SIZE])]
  rw [vm_eval_loop_imm32 cfg 2 _ base (s.ip.ptr + 5) imm32 b (by simpa using hc) rfl
    (by simpa [Nat.add_assoc] using h2) hb (by omega) (by omega) himm
    (by simp [hs, VM_STACK_SIZE])]
  rw [vm_eval_loop_operator cfg 1 _ base (s.ip.ptr + 5 + 5) op a b r [] f (by simpa using hc) rfl
    (by
      rw [mem_holds_cons]
      refine ⟨?_, mem_holds_nil _ _⟩
      simpa [Nat.add_assoc] using h3.1)
    (by omega) (by omega) hop (by simp [hs]) hr (by simp [VM_STACK_SIZE])]
  rw [vm_eval_loop_end cfg 0 _ base (s.ip.ptr + 5 + 5 + 1) e (u32 r) (by simpa using hc) rfl
    (by
      rw [mem_holds_cons]
      refine ⟨?_, mem_holds_nil _ _⟩
      have := h3.2
      rw [mem_holds_cons] at this
      simpa [Nat.add_assoc] using this.1)
    (by omega) (by omega) hend (by simp)]
  have e12 : s.ip.ptr + 5 + 5 + 1 + 1 = s.ip.ptr + 12 := by omega
  simp only [set_stack_set_ip_ptr, set_ip_ptr_twice, set_stack_twice, e12]
  rw [← hs]
  rfl

/-! ## C1: binary arithmetic operators -/

/-- C1. For all 32-bit values `a` (pushed first) and `b` (pushed second), `vm_eval`
of `IMM32 a, IMM32 b, OP, END` returns `(a OP b) mod 2^32` with `a` as the left
operand, for `OP` among PLUS, MINUS, MUL, BITAND, BITIOR, BITXOR; MINUS wraps
modulo `2^32` when `a < b`; and `IMM(3) IMM(4) PLUS END` evaluates to `7`. -/
theorem vm_eval_binary_arithmetic (cfg : Config) (s : Machine) (base a b imm32 op e : Nat)
    (hc : s.ip.code = some base) (hs : s.stack = [])
    (hm : mem_holds s.memory (base + s.ip.ptr)
      ((imm32 :: le_bytes32 a) ++ (imm32 :: le_bytes32 b) ++ [op, e]))
    (ha : a < 4294967296) (hb : b < 4294967296)
    (hbound : base + s.ip.ptr + 12 ≤ cfg.memory_size) (hwrap : s.ip.ptr + 12 < 4294967296)
    (himm : cfg.mes_opcode_to_expr imm32 = .MES_EXPR_IMM32)
    (hend : cfg.mes_opcode_to_expr e = .MES_EXPR_END) :
    (cfg.mes_opcode_to_expr op = .MES_EXPR_PLUS →
      vm_eval cfg s = .ok ((a + b) % 4294967296, s.set_ip_ptr (s.ip.ptr + 12))) ∧
    (cfg.mes_opcode_to_expr op = .MES_EXPR_MINUS →
      vm_eval cfg s = .ok ((a + 4294967296 - b) % 4294967296, s.set_ip_ptr (s.ip.ptr + 12)) ∧
      (((a + 4294967296 - b) % 4294967296 : Nat) : Int) = ((a : Int) - (b : Int)) % 4294967296 ∧
      (a < b → (a + 4294967296 - b) % 4294967296 = 4294967296 - (b - a))) ∧
    (cfg.mes_opcode_to_expr op = .MES_EXPR_MUL →
      vm_eval cfg s = .ok ((a * b) % 4294967296, s.set_ip_ptr (s.ip.ptr + 12))) ∧
    (cfg.mes_opcode_to_expr op = .MES_EXPR_BITAND →
      vm_eval cfg s = .ok ((a &&& b) % 4294967296, s.set_ip_ptr (s.ip.ptr + 12))) ∧
    (cfg.mes_opcode_to_expr op = .MES_EXPR_BITIOR →
      vm_eval cfg s = .ok ((a ||| b) % 4294967296, s.set_ip_ptr (s.ip.ptr + 12))) ∧
    (cfg.mes_opcode_to_expr op = .MES_EXPR_BITXOR →
      vm_eval cfg s = .ok ((a ^^^ b) % 4294967296, s.set_ip_ptr (s.ip.ptr + 12))) ∧
    (∀ (t : Machine) (tb plus en : Nat), t.ip.code = some tb → t.stack = [] →
      mem_holds t.memory (tb + t.ip.ptr) [3, 4, plus, en] →
      tb + t.ip.ptr + 4 ≤ cfg.memory_size → t.ip.ptr + 4 < 4294967296 →
      cfg.mes_opcode_to_expr 3 = .MES_EXPR_IMM → cfg.mes_opcode_to_expr 4 = .MES_EXPR_IMM →
      cfg.mes_opcode_to_expr plus = .MES_EXPR_PLUS → cfg.mes_opcode_to_expr en = .MES_EXPR_END →
      vm_eval cfg t = .ok (7, t.set_ip_ptr (t.ip.ptr + 4))) := by
  refine ⟨?_, ?_, ?_, ?_, ?_, ?_, ?_⟩
  · intro h
    exact vm_eval_imm32_pair cfg s base a b imm32 op e (a + b) (fun a b => pure (a + b))
      hc hs hm ha hb hbound hwrap himm hend (fun t => by simp only [vm_eval_op, h]) rfl
  · intro h
    refine ⟨?_, by omega, by omega⟩
    have := vm_eval_imm32_pair cfg s base a b imm32 op e (a + (4294967296 - u32 b))
      (fun a b => pure (a + (4294967296 - u32 b))) hc hs hm
      ha hb hbound hwrap himm hend (fun t => by simp only [vm_eval_op, h]) rfl
    rw [this, u32_of_lt hb]
    have e1 : u32 (a + (4294967296 - b)) = (a + 4294967296 - b) % 4294967296 := by
      unfold u32; congr 1; omega
    rw [e1]
  · intro h
    exact vm_eval_imm32_pair cfg s base a b imm32 op e (a * b) (fun a b => pure (a * b))
      hc hs hm ha hb hbound hwrap himm hend (fun t => by simp only [vm_eval_op, h]) rfl
  · intro h
    exact vm_eval_imm32_pair cfg s base a b imm32 op e (a &&& b) (fun a b => pure (a &&& b))
      hc hs hm ha hb hbound hwrap himm hend (fun t => by simp only [vm_eval_op, h]) rfl
  · intro h
    exact vm_eval_imm32_pair cfg s base a b imm32 op e (a ||| b) (fun a b => pure (a ||| b))
      hc hs hm ha hb hbound hwrap himm hend (fun t => by simp only [vm_eval_op, h]) rfl
  · intro h
    exact vm_eval_imm32_pair cfg s base a b imm32 op e (a ^^^ b) (fun a b => pure (a ^^^ b))
      hc hs hm ha hb hbound hwrap himm hend (fun t => by simp only [vm_eval_op, h]) rfl
  · intro t tb plus en tc ts tm tbound twrap h3 h4 hplus hen
    apply vm_eval_of_loop cfg 4 _ _ _ (by omega)
    simp only [mem_holds_cons] at tm
    obtain ⟨m0, m1, m2, m3, -⟩ := tm
    rw [vm_eval_loop_imm cfg 3 t tb t.ip.ptr 3 tc rfl
      (by rw [mem_holds_cons]; exact ⟨m0, mem_holds_nil _ _⟩) (by omega) (by omega) h3
      (by simp [ts, VM_STACK_SIZE])]
    rw [vm_eval_loop_imm cfg 2 _ tb (t.ip.ptr + 1) 4 (by simpa using tc) rfl
      (by rw [mem_holds_cons]; exact ⟨by simpa [Nat.add_assoc] using m1, mem_holds_nil _ _⟩)
      (by omega) (by omega) h4 (by simp [ts, VM_STACK_SIZE])]
    rw [vm_eval_loop_operator cfg 1 _ tb (t.ip.ptr + 1 + 1) plus 3 4 7 []
      (fun a b => pure (a + b)) (by simpa using tc) rfl
      (by rw [mem_holds_cons]; exact ⟨by simpa [Nat.add_assoc] using m2, mem_holds_nil _ _⟩)
      (by omega) (by omega) (fun t => by simp only [vm_eval_op, hplus])
      (by simp [ts, u32]) rfl (by simp [VM_STACK_SIZE])]
    rw [vm_eval_loop_end cfg 0 _ tb (t.ip.ptr + 1 + 1 + 1) en 7 (by simpa using tc) rfl
      (by rw [mem_holds_cons]; exact ⟨by simpa [Nat.add_assoc] using m3, mem_holds_nil _ _⟩)
      (by omega) (by omega) hen (by simp [u32])]
    have e4 : t.ip.ptr + 1 + 1 + 1 + 1 = t.ip.ptr + 4 := by omega
    simp only [set_stack_set_ip_ptr, set_ip_ptr_twice, set_stack_twice, e4]
    rw [← ts]
    rfl

/-- Witness for C1: `IMM32 5, IMM32 7, MINUS, END` evaluates to `2^32 - 2`, and
`IMM(3) IMM(4) PLUS END` to `7`. -/
theorem vm_eval_binary_arithmetic_witness :
    vm_eval example_title (example_machine [0xF2, 5, 0, 0, 0, 0xF2, 7, 0, 0, 0, 0xE1, 0xFF])
        = .ok (4294967294,
            (example_machine [0xF2, 5, 0, 0, 0, 0xF2, 7, 0, 0, 0, 0xE1, 0xFF]).set_ip_ptr 12) ∧
    vm_eval example_title (example_machine [3, 4, 0xE0, 0xFF])
        = .ok (7, (example_machine [3, 4, 0xE0, 0xFF]).set_ip_ptr 4) :=
  have h := vm_eval_binary_arithmetic example_title
    (example_machine [0xF2, 5, 0, 0, 0, 0xF2, 7, 0, 0, 0, 0xE1, 0xFF]) 0x1000 5 7 0xF2 0xE1 0xFF
    rfl rfl (by decide) (by decide) (by decide) (by decide) (by decide) rfl rfl
  ⟨(h.2.1 rfl).1,
   h.2.2.2.2.2.2 (example_machine [3, 4, 0xE0, 0xFF]) 0x1000 0xE0 0xFF rfl rfl (by decide)
     (by decide) (by decide) rfl rfl rfl rfl⟩

/-! ## C2: the result of an expression -/

theorem vm_eval_op_some (cfg : Config) (op : Nat) (s s' : Machine) (v : Nat)
    (h : vm_eval_op cfg op s = .ok (some v, s')) :
    cfg.mes_opcode_to_expr op = .MES_EXPR_END ∧ s.stack = [v] ∧ s' = s.set_stack [] := by
  cases hk : cfg.mes_opcode_to_expr op
  case MES_EXPR_END =>
    rw [vm_eval_op_end cfg op s hk] at h
    rcases hs : s.stack with _ | ⟨w, _ | ⟨w2, rest⟩⟩
    · simp [hs, VM_ERROR] at h
    · simp only [hs, Except.ok.injEq, Prod.mk.injEq, Option.some.injEq] at h
      exact ⟨rfl, by rw [h.1], h.2.symm⟩
    · simp [hs, VM_ERROR] at h
  all_goals
    exfalso
    simp only [vm_eval_op, hk, bind, Except.bind, pure, Except.pure] at h
    repeat' split at h
    all_goals simp_all

theorem vm_eval_passes_succ (cfg : Config) (n : Nat) (s s1 s2 : Machine) (op : Nat)
    (h1 : vm_read_byte cfg s = .ok (op, s1)) (h2 : vm_eval_op cfg op s1 = .ok (none, s2)) :
    vm_eval_passes cfg (n + 1) s = vm_eval_passes cfg n s2 := by
  simp only [vm_eval_passes, h1, h2]

/-- A run of the loop of `vm_eval` that returns has made some passes that returned
nothing and then a pass whose switch returned the value. -/
theorem vm_eval_loop_returns (cfg : Config) (f : Nat) :
    ∀ (s s' : Machine) (v : Nat), vm_eval_loop cfg f s = .ok (v, s') →
      ∃ (n : Nat) (t0 : Machine) (op : Nat) (t : Machine), n < f ∧
        vm_eval_passes cfg n s = some t0 ∧ vm_read_byte cfg t0 = .ok (op, t) ∧
        vm_eval_op cfg op t = .ok (some v, s') := by
  induction f with
  | zero => intro s s' v h; simp [vm_eval_loop] at h
  | succ f ih =>
    intro s s' v h
    rw [vm_eval_loop_succ] at h
    cases h1 : vm_read_byte cfg s with
    | error e => simp [h1, bind, Except.bind] at h
    | ok x =>
      simp only [h1, bind, Except.bind] at h
      cases h2 : vm_eval_op cfg x.1 x.2 with
      | error e => simp [h2] at h
      | ok y =>
        simp only [h2] at h
        obtain ⟨r, y2⟩ := y
        cases r with
        | some w =>
          simp only [pure, Except.pure, Except.ok.injEq, Prod.mk.injEq] at h
          exact ⟨0, s, x.1, x.2, by omega, rfl, h1, by rw [h2, h.1, h.2]⟩
        | none =>
          obtain ⟨n, t0, op, t, hn, hp, hr, ho⟩ := ih _ _ _ h
          exact ⟨n + 1, t0, op, t, by omega,
            by rw [vm_eval_passes_succ cfg n s x.2 y2 x.1 h1 h2]; exact hp, hr, ho⟩

/-- Passes that returned nothing use up as many units of the fuel of the loop. -/
theorem vm_eval_loop_passes (cfg : Config) (n : Nat) :
    ∀ (s t0 : Machine) (f : Nat), vm_eval_passes cfg n s = some t0 →
      vm_eval_loop cfg (n + f) s = vm_eval_loop cfg f t0 := by
  induction n with
  | zero =>
    intro s t0 f h
    simp only [vm_eval_passes, Option.some.injEq] at h
    rw [Nat.zero_add, h]
  | succ n ih =>
    intro s t0 f h
    simp only [vm_eval_passes] at h
    cases h1 : vm_read_byte cfg s with
    | error e => simp [h1] at h
    | ok x =>
      obtain ⟨op, s1⟩ := x
      simp only [h1] at h
      cases h2 : vm_eval_op cfg op s1 with
      | error e => simp [h2] at h
      | ok y =>
        obtain ⟨r, s2⟩ := y
        cases r with
        | some w => simp [h2] at h
        | none =>
          simp only [h2] at h
          have e : n + 1 + f = (n + f) + 1 := by omega
          rw [e, vm_eval_loop_step cfg (n + f) s s1 s2 op h1 h2]
          exact ih s2 t0 f h

/-- The run of `vm_eval` from `s` that reads an `END` opcode at `t` ends in the `END`
case of the switch on `t`. -/
theorem vm_eval_at_END (cfg : Config) (s t : Machine) (h : vm_eval_reads_END cfg s t) :
    vm_eval cfg s =
      match t.stack with
      | [] => VM_ERROR "Tried to pop from empty stack" []
      | [v] => .ok (v, t.set_stack [])
      | _ :: _ :: _ => VM_ERROR "Stack pointer is non-zero at end of expression" [] := by
  obtain ⟨n, t0, op, hn, hp, hr, hop⟩ := h
  have e : cfg.memory_size + 1 = n + ((cfg.memory_size - n) + 1) := by omega
  unfold vm_eval
  rw [e, vm_eval_loop_passes cfg n s t0 _ hp, vm_eval_loop_succ, hr]
  simp only [bind, Except.bind, vm_eval_op_end cfg op t hop]
  rcases t.stack with _ | ⟨v, _ | ⟨w, rest⟩⟩ <;> rfl

/-- C2. Whenever `vm_eval` returns a value, its run has read an `END` opcode, the
value is the one that was on top of the stack when that opcode was read (the only
value on it), and `vm.stack_ptr` is `0` afterwards.  If more than one value is on the
stack when the run reads `END`, `vm_eval` raises the fatal error "Stack pointer is
non-zero at end of expression" instead of returning; with exactly one value it
returns that value, and with none it raises "Tried to pop from empty stack". -/
theorem vm_eval_result_is_stack_top (cfg : Config) (s : Machine) :
    (∀ (v : Nat) (s' : Machine), vm_eval cfg s = .ok (v, s') →
      s'.stack_ptr = 0 ∧
      ∃ t, vm_eval_reads_END cfg s t ∧ t.stack.head? = some v ∧ t.stack = [v] ∧
        s' = t.set_stack []) ∧
    (∀ t, vm_eval_reads_END cfg s t →
      (2 ≤ t.stack_ptr →
        vm_eval cfg s = VM_ERROR "Stack pointer is non-zero at end of expression" []) ∧
      (∀ v, t.stack = [v] → vm_eval cfg s = .ok (v, t.set_stack [])) ∧
      (t.stack_ptr = 0 → vm_eval cfg s = VM_ERROR "Tried to pop from empty stack" [])) := by
  constructor
  · intro v s' h
    obtain ⟨n, t0, op, t, hn, hp, hr, ho⟩ := vm_eval_loop_returns cfg _ s s' v h
    obtain ⟨h1, h2, h3⟩ := vm_eval_op_some cfg op t s' v ho
    exact ⟨by rw [h3]; rfl, t, ⟨n, t0, op, by omega, hp, hr, h1⟩, by rw [h2]; rfl, h2, h3⟩
  · intro t ht
    have h := vm_eval_at_END cfg s t ht
    refine ⟨fun h2 => ?_, fun v hv => ?_, fun h0 => ?_⟩
    · rw [h]
      rcases hs : t.stack with _ | ⟨v, _ | ⟨w, rest⟩⟩
      · simp [Machine.stack_ptr, hs] at h2
      · simp [Machine.stack_ptr, hs] at h2
      · rfl
    · rw [h, hv]
    · rw [h, List.length_eq_zero.mp h0]

/-- Witness for C2: the expression `3 END` returns 3, the value on the stack when
`END` is read, with `vm.stack_ptr = 0`; the expression `3 4 END` reads `END` with the
stack `[4, 3]` and is fatal. -/
theorem vm_eval_result_is_stack_top_witness :
    vm_eval example_title (example_machine [3, 0xFF])
      = .ok (3, (example_machine [3, 0xFF]).set_ip_ptr 2) ∧
    (((example_machine [3, 0xFF]).set_ip_ptr 2).stack_ptr = 0 ∧
      ∃ t, vm_eval_reads_END example_title (example_machine [3, 0xFF]) t ∧
        t.stack.head? = some 3 ∧ t.stack = [3] ∧
        (example_machine [3, 0xFF]).set_ip_ptr 2 = t.set_stack []) ∧
    vm_eval_reads_END example_title (example_machine [3, 4, 0xFF])
      (((example_machine [3, 4, 0xFF]).set_ip_ptr 3).set_stack [4, 3]) ∧
    vm_eval example_title (example_machine [3, 4, 0xFF])
      = VM_ERROR "Stack pointer is non-zero at end of expression" [] :=
  ⟨rfl,
   (vm_eval_result_is_stack_top example_title (example_machine [3, 0xFF])).1 3
      ((example_machine [3, 0xFF]).set_ip_ptr 2) rfl,
   ⟨2, ((example_machine [3, 4, 0xFF]).set_ip_ptr 2).set_stack [4, 3], 0xFF, by decide, rfl,
      rfl, rfl⟩,
   ((vm_eval_result_is_stack_top example_title (example_machine [3, 4, 0xFF])).2
      (((example_machine [3, 4, 0xFF]).set_ip_ptr 3).set_stack [4, 3])
      ⟨2, ((example_machine [3, 4, 0xFF]).set_ip_ptr 2).set_stack [4, 3], 0xFF, by decide, rfl,
        rfl, rfl⟩).1 (by decide)⟩

/-! ## C3: `JZ` -/

/-- C3. For every expression value `val` and every 32-bit target `t`: after `stmt_jz`
the instruction pointer is `t` whenever `val` is not `1`, and it is the offset of
the byte after the 4-byte target when `val = 1`; nothing else changes after the
evaluation of the expression. -/
theorem stmt_jz_jumps_unless_one (cfg : Config) (s s1 : Machine) (base val t : Nat)
    (heval : vm_eval cfg s = .ok (val, s1))
    (hc : s1.ip.code = some base)
    (hm : mem_holds s1.memory (base + s1.ip.ptr) (le_bytes32 t)) (ht : t < 4294967296)
    (hb : base + s1.ip.ptr + 4 ≤ cfg.memory_size) (hw : s1.ip.ptr + 4 < 4294967296) :
    (val ≠ 1 → stmt_jz cfg s = .ok (s1.set_ip_ptr t)) ∧
    (val = 1 → stmt_jz cfg s = .ok (s1.set_ip_ptr (s1.ip.ptr + 4))) ∧
    ∃ s2, stmt_jz cfg s = .ok s2 ∧ s2.ip.ptr = (if val = 1 then s1.ip.ptr + 4 else t) ∧
      s2.ip.code = s1.ip.code ∧ s2.memory = s1.memory ∧ s2.stack = s1.stack := by
  have hj : stmt_jz cfg s =
      .ok (if val = 1 then s1.set_ip_ptr (s1.ip.ptr + 4) else s1.set_ip_ptr t) := by
    simp only [stmt_jz, heval, bind, Except.bind, vm_read_dword_eq cfg s1 base t hc hb ht hm,
      u32_of_lt hw, set_ip_ptr_twice, pure, Except.pure]
    split <;> rfl
  refine ⟨fun h => by rw [hj, if_neg h], fun h => by rw [hj, if_pos h], ?_⟩
  by_cases h : val = 1
  · exact ⟨s1.set_ip_ptr (s1.ip.ptr + 4), by rw [hj, if_pos h], by simp [h], rfl, rfl, rfl⟩
  · exact ⟨s1.set_ip_ptr t, by rw [hj, if_neg h], by simp [h], rfl, rfl, rfl⟩

/-- Witness for C3: `IMM(0) END` followed by the target `0x100` jumps to `0x100`. -/
theorem stmt_jz_jumps_unless_one_witness :
    stmt_jz example_title (example_machine [0, 0xFF, 0x00, 0x01, 0, 0])
      = .ok ((example_machine [0, 0xFF, 0x00, 0x01, 0, 0]).set_ip_ptr 0x100) :=
  (stmt_jz_jumps_unless_one example_title (example_machine [0, 0xFF, 0x00, 0x01, 0, 0])
    ((example_machine [0, 0xFF, 0x00, 0x01, 0, 0]).set_ip_ptr 2) 0x1000 0 0x100
    rfl rfl (by decide) (by decide) (by decide) (by decide)).1 (by decide)

/-! ## What the evaluator leaves alone -/

theorem same_image_refl (s : Machine) : same_image s s :=
  ⟨rfl, rfl, rfl, rfl, rfl, rfl, rfl, rfl⟩

theorem same_image_trans {a b c : Machine} (h1 : same_image a b) (h2 : same_image b c) :
    same_image a c := by
  obtain ⟨a1, a2, a3, a4, a5, a6, a7, a8⟩ := h1
  obtain ⟨b1, b2, b3, b4, b5, b6, b7, b8⟩ := h2
  exact ⟨b1.trans a1, b2.trans a2, b3.trans a3, b4.trans a4, b5.trans a5, b6.trans a6,
    b7.trans a7, b8.trans a8⟩

theorem same_image_set_ip_ptr (s : Machine) (p : Nat) : same_image s (s.set_ip_ptr p) :=
  ⟨rfl, rfl, rfl, rfl, rfl, rfl, rfl, rfl⟩

theorem same_image_set_stack (s : Machine) (st : List Nat) : same_image s (s.set_stack st) :=
  ⟨rfl, rfl, rfl, rfl, rfl, rfl, rfl, rfl⟩

theorem vm_read_byte_same (cfg : Config) (s : Machine) (x : Nat × Machine)
    (h : vm_read_byte cfg s = .ok x) : same_image s x.2 := by
  simp only [vm_read_byte, bind, Except.bind, pure, Except.pure] at h
  split at h
  · simp at h
  · simp only [Except.ok.injEq] at h
    rw [← h]; exact same_image_set_ip_ptr _ _

theorem vm_read_word_same (cfg : Config) (s : Machine) (x : Nat × Machine)
    (h : vm_read_word cfg s = .ok x) : same_image s x.2 := by
  simp only [vm_read_word, bind, Except.bind, pure, Except.pure] at h
  split at h
  · simp at h
  · simp only [Except.ok.injEq] at h
    rw [← h]; exact same_image_set_ip_ptr _ _

theorem vm_read_dword_same (cfg : Config) (s : Machine) (x : Nat × Machine)
    (h : vm_read_dword cfg s = .ok x) : same_image s x.2 := by
  simp only [vm_read_dword, bind, Except.bind, pure, Except.pure] at h
  split at h
  · simp at h
  · simp only [Except.ok.injEq] at h
    rw [← h]; exact same_image_set_ip_ptr _ _

theorem vm_stack_push_same (s s' : Machine) (v : Nat)
    (h : vm_stack_push s v = .ok s') : same_image s s' := by
  simp only [vm_stack_push] at h
  split at h
  · simp at h
  · split at h
    · simp [VM_ERROR] at h
    · simp only [Except.ok.injEq] at h
      rw [← h]; exact same_image_set_stack _ _

theorem vm_stack_pop_same (s : Machine) (x : Nat × Machine)
    (h : vm_stack_pop s = .ok x) : same_image s x.2 := by
  simp only [vm_stack_pop] at h
  split at h
  · simp [VM_ERROR] at h
  · simp only [Except.ok.injEq] at h
    rw [← h]; exact same_image_set_stack _ _

theorem host_call_same (cfg : Config) (fn : String) (args : List HostArg) (s : Machine) :
    same_image s (host_call cfg fn args s).2 :=
  ⟨rfl, rfl, rfl, rfl, rfl, rfl, rfl, rfl⟩

theorem same_image_trace (s : Machine) (tr : List HostCall) :
    same_image s { s with trace := tr } :=
  ⟨rfl, rfl, rfl, rfl, rfl, rfl, rfl, rfl⟩

theorem OPERATOR_same (f : Nat → Nat → Except Fault Nat) (s s' : Machine)
    (h : OPERATOR f s = .ok s') : same_image s s' := by
  simp only [OPERATOR, bind, Except.bind] at h
  cases h1 : vm_stack_pop s with
  | error e => simp [h1] at h
  | ok x =>
    simp only [h1] at h
    cases h2 : vm_stack_pop x.2 with
    | error e => simp [h2] at h
    | ok y =>
      simp only [h2] at h
      cases h3 : f y.1 x.1 with
      | error e => simp [h3] at h
      | ok r =>
        simp only [h3] at h
        exact same_image_trans (vm_stack_pop_same s x h1)
          (same_image_trans (vm_stack_pop_same x.2 y h2) (vm_stack_push_same _ _ _ h))

set_option maxHeartbeats 4000000 in
theorem vm_eval_op_same (cfg : Config) (op : Nat) (s : Machine) (x : Option Nat × Machine)
    (h : vm_eval_op cfg op s = .ok x) : same_image s x.2 := by
  cases hk : cfg.mes_opcode_to_expr op
  all_goals
    simp only [vm_eval_op, hk, bind, Except.bind, pure, Except.pure, host_call] at h
    repeat' split at h
    all_goals first
      | (exfalso; simp [VM_ERROR] at h; done)
      | (simp only [Except.ok.injEq] at h
         subst h
         first
          | exact vm_stack_push_same _ _ _ (by assumption)
          | exact OPERATOR_same _ _ _ (by assumption)
          | exact vm_stack_pop_same _ _ (by assumption)
          | exact same_image_trans (vm_read_byte_same _ _ _ (by assumption))
              (vm_stack_push_same _ _ _ (by assumption))
          | exact same_image_trans (vm_read_word_same _ _ _ (by assumption))
              (vm_stack_push_same _ _ _ (by assumption))
          | exact same_image_trans (vm_read_dword_same _ _ _ (by assumption))
              (vm_stack_push_same _ _ _ (by assumption))
          | exact same_image_trans (vm_stack_pop_same _ _ (by assumption))
              (vm_stack_push_same _ _ _ (by assumption))
          | exact same_image_trans (vm_stack_pop_same _ _ (by assumption))
              (same_image_trans (vm_read_byte_same _ _ _ (by assumption))
                (vm_stack_push_same _ _ _ (by assumption)))
          | exact same_image_trans (vm_read_word_same _ _ _ (by assumption))
              (same_image_trans (same_image_trace _ _) (vm_stack_push_same _ _ _ (by assumption)))
          | exact same_image_trans (vm_stack_pop_same _ _ (by assumption))
              (same_image_trans (same_image_trace _ _) (vm_stack_push_same _ _ _ (by assumption))))

theorem vm_eval_loop_same (cfg : Config) (f : Nat) :
    ∀ (s : Machine) (x : Nat × Machine), vm_eval_loop cfg f s = .ok x → same_image s x.2 := by
  induction f with
  | zero => intro s x h; simp [vm_eval_loop] at h
  | succ f ih =>
    intro s x h
    rw [vm_eval_loop_succ] at h
    cases h1 : vm_read_byte cfg s with
    | error e => simp [h1, bind, Except.bind] at h
    | ok a =>
      simp only [h1, bind, Except.bind] at h
      cases h2 : vm_eval_op cfg a.1 a.2 with
      | error e => simp [h2] at h
      | ok y =>
        simp only [h2] at h
        have k1 := vm_read_byte_same cfg s a h1
        have k2 := vm_eval_op_same cfg a.1 a.2 y h2
        obtain ⟨r, y2⟩ := y
        cases r with
        | some w =>
          simp only [pure, Except.pure, Except.ok.injEq] at h
          subst h
          exact same_image_trans k1 k2
        | none => exact same_image_trans k1 (same_image_trans k2 (ih _ _ h))

/-- The evaluator changes nothing but `vm.ip.ptr`, `vm.stack` and the trace. -/
theorem vm_eval_same (cfg : Config) (s : Machine) (x : Nat × Machine)
    (h : vm_eval cfg s = .ok x) : same_image s x.2 :=
  vm_eval_loop_same cfg _ s x h

/-! ## C5: `SETV` and `VAR` -/

theorem stmt_set_loop_succ (cfg : Config)
    (store : (Nat → Nat) → Nat → Nat → Except Fault (Nat → Nat)) (next : Nat → Nat)
    (fuel i : Nat) (s : Machine) :
    stmt_set_loop cfg store next (fuel + 1) i s =
      (vm_eval cfg s >>= fun x => store x.2.memory i x.1 >>= fun m =>
        vm_read_byte cfg (x.2.set_memory m) >>= fun y =>
          if y.1 ≠ 0 then stmt_set_loop cfg store next fuel (next i) y.2 else pure y.2) := by
  rfl

theorem mem_set16_get16 (cfg : Config) (m m' : Nat → Nat) (a v : Nat)
    (h : mem_set16 cfg m a v = .ok m') : mem_get16 cfg m' a = .ok (v % 65536) := by
  simp only [mem_set16] at h
  split at h
  · rename_i hb
    simp only [Except.ok.injEq] at h
    subst h
    simp only [mem_get16, hb, if_true, if_pos, Nat.mod_mod]
    have : a + 1 ≠ a := by omega
    simp only [this, if_false, Nat.mod_mod, if_true]
    congr 1
    omega
  · simp at h

theorem vm_eval_loop_var (cfg : Config) (fuel : Nat) (s : Machine) (base ptr op i v : Nat)
    (hc : s.ip.code = some base) (hp : s.ip.ptr = ptr)
    (hm : mem_holds s.memory (base + ptr) [op, i])
    (hb : base + ptr + 2 ≤ cfg.memory_size) (hw : ptr + 2 < 4294967296)
    (hop : cfg.mes_opcode_to_expr op = .MES_EXPR_VAR)
    (hv : mem_get16 cfg s.memory (var16_addr cfg i) = .ok v) (hv16 : v < 65536)
    (hl : s.stack.length + 1 < VM_STACK_SIZE) :
    vm_eval_loop cfg (fuel + 1) s =
      vm_eval_loop cfg fuel ((s.set_ip_ptr (ptr + 2)).set_stack (v :: s.stack)) := by
  subst hp
  simp only [mem_holds_cons] at hm
  have e1 : u32 (s.ip.ptr + 1) = s.ip.ptr + 1 := u32_of_lt (by omega)
  have e2 : u32 (s.ip.ptr + 1 + 1) = s.ip.ptr + 2 := u32_of_lt (by omega)
  have h2 : vm_eval_op cfg op (s.set_ip_ptr (u32 (s.ip.ptr + 1))) =
      .ok (none, (s.set_ip_ptr (s.ip.ptr + 2)).set_stack (v :: s.stack)) := by
    simp only [vm_eval_op, hop, bind, Except.bind]
    rw [vm_read_byte_eq cfg _ base i (by simpa using hc)
      (by simp only [set_ip_ptr_ptr, e1]; omega)
      (by simp only [set_ip_ptr_ptr, set_ip_ptr_memory, e1]; rw [← Nat.add_assoc]; exact hm.2.1)]
    simp only [set_ip_ptr_memory, set_ip_ptr_twice, hv, set_ip_ptr_ptr, e1, e2]
    rw [vm_stack_push_eq _ _ (by simpa using hl), u32_of_lt (n := v) (by omega)]
    rfl
  rw [vm_eval_loop_step cfg fuel s _ _ op
    (vm_read_byte_eq cfg s base op hc (by omega) hm.1) h2]

/-- C5. For every index `i` whose `var16` cell lies in the memory image and every
expression `e` (with value `v`), executing `SETV i; e` and then evaluating the
expression `VAR i` yields `v mod 2^16`. -/
theorem setv_then_var_reads_back (cfg : Config) (s s1 : Machine) (base i v : Nat)
    (hc : s.ip.code = some base) (hb : base + s.ip.ptr < cfg.memory_size)
    (hi : s.memory (base + s.ip.ptr) % 256 = i)
    (heval : vm_eval cfg (s.set_ip_ptr (u32 (s.ip.ptr + 1))) = .ok (v, s1))
    (hcell : var16_addr cfg i + 2 ≤ cfg.memory_size)
    (hb1 : base + s1.ip.ptr < cfg.memory_size)
    (hterm : s1.memory (base + s1.ip.ptr) % 256 = 0)
    (hsep : base + s1.ip.ptr < var16_addr cfg i ∨ var16_addr cfg i + 2 ≤ base + s1.ip.ptr) :
    ∃ s2, stmt_setv cfg s = .ok s2 ∧
      mem_get16 cfg s2.memory (var16_addr cfg i) = .ok (v % 65536) ∧
      ∀ (t : Machine) (tb var en : Nat), t.memory = s2.memory → t.ip.code = some tb →
        t.stack = [] → mem_holds t.memory (tb + t.ip.ptr) [var, i, en] →
        tb + t.ip.ptr + 3 ≤ cfg.memory_size → t.ip.ptr + 3 < 4294967296 →
        cfg.mes_opcode_to_expr var = .MES_EXPR_VAR → cfg.mes_opcode_to_expr en = .MES_EXPR_END →
        vm_eval cfg t = .ok (v % 65536, t.set_ip_ptr (t.ip.ptr + 3)) := by
  have hsame := vm_eval_same cfg _ _ heval
  have hc1 : s1.ip.code = some base := by rw [hsame.2.1]; exact hc
  obtain ⟨m', hm'⟩ : ∃ m', mem_set16 cfg s1.memory (var16_addr cfg i) (u16 v) = .ok m' := by
    simp only [mem_set16]
    rw [if_pos (by omega)]
    exact ⟨_, rfl⟩
  have hget := mem_set16_get16 cfg _ _ _ _ hm'
  have hv16 : u16 v % 65536 = v % 65536 := by simp [u16]
  rw [hv16] at hget
  have hterm' : m' (base + s1.ip.ptr) % 256 = 0 := by
    simp only [mem_set16] at hm'
    rw [if_pos (by omega)] at hm'
    simp only [Except.ok.injEq] at hm'
    subst hm'
    have n1 : base + s1.ip.ptr ≠ var16_addr cfg i := by omega
    have n2 : base + s1.ip.ptr ≠ var16_addr cfg i + 1 := by omega
    simp only [n1, n2, if_false]
    exact hterm
  have hset : stmt_setv cfg s = .ok ((s1.set_memory m').set_ip_ptr (u32 (s1.ip.ptr + 1))) := by
    simp only [stmt_setv, vm_read_byte_eq cfg s base i hc hb hi, bind, Except.bind]
    rw [stmt_set_loop_succ]
    simp only [heval, bind, Except.bind, hm']
    rw [vm_read_byte_eq cfg (s1.set_memory m') base 0 (by simpa using hc1) (by simpa using hb1)
      (by simpa using hterm')]
    simp [pure, Except.pure]
  refine ⟨_, hset, hget, ?_⟩
  intro t tb var en tmem tc ts tm tbound twrap hvar hen
  simp only [set_ip_ptr_memory, set_memory_memory] at tmem
  apply vm_eval_of_loop cfg 2 _ _ _ (by omega)
  have tm' := tm
  simp only [mem_holds_cons] at tm'
  rw [vm_eval_loop_var cfg 1 t tb t.ip.ptr var i (v % 65536) tc rfl
    (by
      rw [mem_holds_cons, mem_holds_cons]
      exact ⟨tm'.1, tm'.2.1, mem_holds_nil _ _⟩)
    (by omega) (by omega) hvar (by rw [tmem]; exact hget) (Nat.mod_lt _ (by decide))
    (by simp [ts, VM_STACK_SIZE])]
  rw [vm_eval_loop_end cfg 0 _ tb (t.ip.ptr + 2) en (v % 65536) (by simpa using tc) rfl
    (by
      rw [mem_holds_cons]
      refine ⟨?_, mem_holds_nil _ _⟩
      have := tm'.2.2.1
      simpa [Nat.add_assoc] using this)
    (by omega) (by omega) hen (by simp [ts])]
  have e3 : t.ip.ptr + 2 + 1 = t.ip.ptr + 3 := by omega
  simp only [set_stack_set_ip_ptr, set_ip_ptr_twice, set_stack_twice, e3]
  rw [← ts]
  rfl

/-- Witness for C5: `SETV 3; IMM32 0xABCDEF` followed by `VAR 3` reads `0xCDEF`. -/
theorem setv_then_var_reads_back_witness :
    ∃ s2, stmt_setv example_title
        (example_machine [3, 0xF2, 0xEF, 0xCD, 0xAB, 0x00, 0xFF, 0, 0x80, 3, 0xFF]) = .ok s2 ∧
      mem_get16 example_title s2.memory (var16_addr example_title 3) = .ok 0xCDEF ∧
      ∀ (t : Machine) (tb var en : Nat), t.memory = s2.memory → t.ip.code = some tb →
        t.stack = [] → mem_holds t.memory (tb + t.ip.ptr) [var, 3, en] →
        tb + t.ip.ptr + 3 ≤ example_title.memory_size → t.ip.ptr + 3 < 4294967296 →
        example_title.mes_opcode_to_expr var = .MES_EXPR_VAR →
        example_title.mes_opcode_to_expr en = .MES_EXPR_END →
        vm_eval example_title t = .ok (0xCDEF, t.set_ip_ptr (t.ip.ptr + 3)) :=
  setv_then_var_reads_back example_title
    (example_machine [3, 0xF2, 0xEF, 0xCD, 0xAB, 0x00, 0xFF, 0, 0x80, 3, 0xFF])
    ((example_machine [3, 0xF2, 0xEF, 0xCD, 0xAB, 0x00, 0xFF, 0, 0x80, 3, 0xFF]).set_ip_ptr 7)
    0x1000 3 0xABCDEF rfl (by decide) rfl rfl (by decide) (by decide) rfl (by decide)

/-! ## C4: `SETRBC` -/

@[simp] theorem set_memory_twice (s : Machine) (a b : Nat → Nat) :
    (s.set_memory a).set_memory b = s.set_memory b := rfl

@[simp] theorem set_ip_ptr_set_memory (s : Machine) (p : Nat) (m : Nat → Nat) :
    (s.set_ip_ptr p).set_memory m = (s.set_memory m).set_ip_ptr p := rfl

theorem pure_expr_imm (cfg : Config) (op en : Nat)
    (hop : cfg.mes_opcode_to_expr op = .MES_EXPR_IMM) (hlt : op < 256)
    (hen : cfg.mes_opcode_to_expr en = .MES_EXPR_END) : pure_expr cfg [op, en] op := by
  intro s base hc hs hm hb hw
  simp only [List.length_cons, List.length_nil] at hb hw
  apply vm_eval_of_loop cfg 2 _ _ _ (by omega)
  have hm' := hm
  simp only [mem_holds_cons] at hm'
  rw [vm_eval_loop_imm cfg 1 s base s.ip.ptr op hc rfl
    (by rw [mem_holds_cons]; exact ⟨hm'.1, mem_holds_nil _ _⟩) (by omega) (by omega) hop
    (by simp [hs, VM_STACK_SIZE])]
  rw [vm_eval_loop_end cfg 0 _ base (s.ip.ptr + 1) en (u32 op) (by simpa using hc) rfl
    (by
      rw [mem_holds_cons]
      exact ⟨by simpa [Nat.add_assoc] using hm'.2.1, mem_holds_nil _ _⟩)
    (by omega) (by omega) hen (by simp [hs])]
  have e2 : s.ip.ptr + 1 + 1 = s.ip.ptr + 2 := by omega
  simp only [set_stack_set_ip_ptr, set_ip_ptr_twice, set_stack_twice, e2, List.length_cons,
    List.length_nil, u32_of_lt (show op < 4294967296 by omega)]
  rw [← hs]
  rfl

theorem pure_expr_imm16 (cfg : Config) (op en v : Nat)
    (hop : cfg.mes_opcode_to_expr op = .MES_EXPR_IMM16) (hv : v < 65536)
    (hen : cfg.mes_opcode_to_expr en = .MES_EXPR_END) :
    pure_expr cfg ((op :: le_bytes16 v) ++ [en]) v := by
  intro s base hc hs hm hb hw
  simp only [List.length_cons, List.length_nil, List.length_append, le_bytes16] at hb hw
  apply vm_eval_of_loop cfg 2 _ _ _ (by omega)
  rw [mem_holds_append] at hm
  rw [vm_eval_loop_imm16 cfg 1 s base s.ip.ptr op v hc rfl hm.1 hv (by omega) (by omega) hop
    (by simp [hs, VM_STACK_SIZE])]
  rw [vm_eval_loop_end cfg 0 _ base (s.ip.ptr + 3) en v (by simpa using hc) rfl
    (by simpa [le_bytes16] using hm.2)
    (by omega) (by omega) hen (by simp [hs])]
  have e2 : s.ip.ptr + 3 + 1 = s.ip.ptr + 4 := by omega
  simp only [set_stack_set_ip_ptr, set_ip_ptr_twice, set_stack_twice, e2, List.length_cons,
    List.length_nil, List.length_append, le_bytes16]
  rw [← hs]
  rfl

theorem setrbc_memory_one (cfg : Config) (m : Nat → Nat) (i v : Nat) :
    (fun x => if x = var4_addr cfg i then (v &&& 15) % 256 else m x) =
      setrbc_memory cfg m i [v] := by
  funext x
  have hv : v &&& 15 = v % 16 := Nat.and_pow_two_sub_one_eq_mod v 4
  simp only [setrbc_memory, List.length_cons, List.length_nil, hv]
  by_cases h : x = var4_addr cfg i
  · subst h
    simp only [if_true, le_refl, Nat.lt_add_one, and_self, Nat.sub_self, List.getD_cons_zero]
    omega
  · rw [if_neg h, if_neg (by omega)]

theorem setrbc_memory_cons (cfg : Config) (m : Nat → Nat) (i v : Nat) (vals : List Nat) :
    setrbc_memory cfg (setrbc_memory cfg m i [v]) (i + 1) vals =
      setrbc_memory cfg m i (v :: vals) := by
  funext x
  simp only [setrbc_memory, var4_addr, List.length_cons, List.length_nil]
  by_cases h1 : cfg.var4_off + (i + 1) ≤ x ∧ x < cfg.var4_off + (i + 1) + vals.length
  · rw [if_pos h1, if_pos (by omega)]
    obtain ⟨k, hk⟩ : ∃ k, x - (cfg.var4_off + i) = k + 1 := ⟨x - (cfg.var4_off + i) - 1, by omega⟩
    have e : x - (cfg.var4_off + (i + 1)) = k := by omega
    rw [hk, e, List.getD_cons_succ]
  · rw [if_neg h1]
    by_cases h2 : x = cfg.var4_off + i
    · subst h2
      rw [if_pos (by omega), if_pos (by omega)]
      simp
    · rw [if_neg (by omega), if_neg (by omega)]

theorem stmt_setrbc_step (cfg : Config) (s : Machine) (base i val sep fuel : Nat)
    (enc : List Nat) (hpure : pure_expr cfg enc val)
    (hc : s.ip.code = some base) (hs : s.stack = [])
    (hm : mem_holds s.memory (base + s.ip.ptr) (enc ++ [sep]))
    (hb : base + s.ip.ptr + enc.length + 1 ≤ cfg.memory_size)
    (hw : s.ip.ptr + enc.length + 1 < 4294967296)
    (hcell : var4_addr cfg i < cfg.memory_size)
    (hdis : var4_addr cfg i ≠ base + s.ip.ptr + enc.length) :
    stmt_set_loop cfg (fun m i v => mem_set8 cfg m (var4_addr cfg i) (v &&& 0xf))
        (fun i => u16 (i + 1)) (fuel + 1) i s =
      if sep ≠ 0 then
        stmt_set_loop cfg (fun m i v => mem_set8 cfg m (var4_addr cfg i) (v &&& 0xf))
          (fun i => u16 (i + 1)) fuel (u16 (i + 1))
          ((s.set_memory (setrbc_memory cfg s.memory i [val])).set_ip_ptr
            (s.ip.ptr + enc.length + 1))
      else .ok ((s.set_memory (setrbc_memory cfg s.memory i [val])).set_ip_ptr
        (s.ip.ptr + enc.length + 1)) := by
  rw [mem_holds_append] at hm
  obtain ⟨hm1, hm2⟩ := hm
  simp only [mem_holds_cons] at hm2
  have hev := hpure s base hc hs hm1 (by omega) (by omega)
  rw [stmt_set_loop_succ]
  simp only [hev, bind, Except.bind, mem_set8, set_ip_ptr_memory, if_pos hcell]
  rw [setrbc_memory_one cfg s.memory i val]
  rw [vm_read_byte_eq cfg _ base sep (by simpa using hc) (by simp only [set_memory_ip, set_ip_ptr_ptr]; omega)
    (by
      simp only [set_memory_ip, set_ip_ptr_ptr, set_memory_memory, setrbc_memory,
        List.length_cons, List.length_nil]
      rw [if_neg (by omega), ← Nat.add_assoc]
      exact hm2.1)]
  simp only [set_memory_ip, set_ip_ptr_ptr, set_ip_ptr_set_memory, set_ip_ptr_twice,
    u32_of_lt hw, pure, Except.pure]

theorem stmt_setrbc_loop_run (cfg : Config) (base : Nat) :
    ∀ (items : List set_item) (i fuel : Nat) (s : Machine),
      set_items_ok cfg items → s.ip.code = some base → s.stack = [] →
      mem_holds s.memory (base + s.ip.ptr) (set_items_bytes items) →
      base + s.ip.ptr + (set_items_bytes items).length ≤ cfg.memory_size →
      s.ip.ptr + (set_items_bytes items).length < 4294967296 →
      i + items.length ≤ 65536 →
      var4_addr cfg i + items.length ≤ cfg.memory_size →
      (var4_addr cfg i + items.length ≤ base + s.ip.ptr ∨
        base + s.ip.ptr + (set_items_bytes items).length ≤ var4_addr cfg i) →
      items.length ≤ fuel →
      stmt_set_loop cfg (fun m i v => mem_set8 cfg m (var4_addr cfg i) (v &&& 0xf))
          (fun i => u16 (i + 1)) fuel i s =
        .ok ((s.set_memory (setrbc_memory cfg s.memory i (items.map (fun it => it.val)))).set_ip_ptr
          (s.ip.ptr + (set_items_bytes items).length)) := by
  intro items
  induction items with
  | nil => intro i fuel s hok; exact absurd hok (by simp [set_items_ok])
  | cons it rest ih =>
    intro i fuel s hok hc hs hm hb hw hi hcell hdis hfuel
    obtain ⟨f, rfl⟩ : ∃ f, fuel = f + 1 := ⟨fuel - 1, by simp only [List.length_cons] at hfuel; omega⟩
    simp only [set_items_bytes, List.length_append, List.length_cons, List.length_nil] at hb hw hdis hm
    simp only [List.length_cons] at hi hcell hdis hfuel
    have hcell' : var4_addr cfg i < cfg.memory_size := by omega
    simp only [var4_addr] at hdis hcell hcell'
    rw [mem_holds_append] at hm
    obtain ⟨hm1, hm2⟩ := hm
    cases rest with
    | nil =>
      simp only [set_items_ok] at hok
      obtain ⟨hpure, hsep⟩ := hok
      rw [stmt_setrbc_step cfg s base i it.val it.sep f it.enc hpure hc hs hm1 (by omega) (by omega)
        (by simp only [var4_addr]; omega) (by simp only [var4_addr]; omega)]
      simp only [hsep, ne_eq, not_true_eq_false, if_false, List.map_cons, List.map_nil,
        set_items_bytes, List.length_append, List.length_cons, List.length_nil]
      rfl
    | cons it2 r =>
      simp only [set_items_ok] at hok
      obtain ⟨hpure, hsep, -, hrest⟩ := hok
      have hlen : (it2 :: r).length = r.length + 1 := List.length_cons _ _
      rw [stmt_setrbc_step cfg s base i it.val it.sep f it.enc hpure hc hs hm1 (by omega) (by omega)
        (by simp only [var4_addr]; omega) (by simp only [var4_addr]; omega)]
      rw [if_pos hsep, u16_of_lt (show i + 1 < 65536 by omega)]
      simp only [List.length_append, List.length_cons, List.length_nil] at hm2
      rw [ih (i + 1) f _ hrest (by simpa using hc) (by simpa using hs)
        (by
          intro k hk
          simp only [set_ip_ptr_memory, set_memory_memory, set_ip_ptr_ptr, setrbc_memory,
            List.length_cons, List.length_nil, var4_addr]
          rw [if_neg (by omega)]
          have := hm2 k hk
          rw [← this]
          congr 2
          omega)
        (by simp only [set_ip_ptr_ptr]; omega) (by simp only [set_ip_ptr_ptr]; omega)
        (by simp only [List.length_cons] at hi ⊢; omega)
        (by simp only [var4_addr, List.length_cons] at hcell ⊢; omega)
        (by simp only [var4_addr, set_ip_ptr_ptr, List.length_cons] at hdis ⊢; omega)
        (by simp only [List.length_cons] at hfuel ⊢; omega)]
      simp only [set_ip_ptr_memory, set_memory_memory, set_ip_ptr_ptr, set_ip_ptr_set_memory,
        set_memory_twice, set_ip_ptr_twice, setrbc_memory_cons, List.map_cons]
      congr 2
      simp only [set_items_bytes, List.length_append, List.length_cons, List.length_nil]
      omega

/-- C4. For every start index `i` and every list of `n` values (each an expression,
separated by non-zero bytes and ended by a zero byte) with `i + n` within the var4
bank, `SETRBC` stores `v_k mod 16` in `var4[i + k]` for every `k < n` and leaves every
other cell of the memory image, hence every other var4 cell, unchanged. -/
theorem stmt_setrbc_writes_nibbles (cfg : Config) (s : Machine) (base i : Nat)
    (items : List set_item)
    (hc : s.ip.code = some base) (hs : s.stack = [])
    (hm : mem_holds s.memory (base + s.ip.ptr) (le_bytes16 i ++ set_items_bytes items))
    (hi16 : i < 65536) (hok : set_items_ok cfg items)
    (hbank : i + items.length ≤ cfg.var4_size) (hsize : cfg.var4_size ≤ 65536)
    (hbank_mem : cfg.var4_off + cfg.var4_size ≤ cfg.memory_size)
    (hb : base + s.ip.ptr + 2 + (set_items_bytes items).length ≤ cfg.memory_size)
    (hw : s.ip.ptr + 2 + (set_items_bytes items).length < 4294967296)
    (hdis : var4_addr cfg i + items.length ≤ base + s.ip.ptr ∨
      base + s.ip.ptr + 2 + (set_items_bytes items).length ≤ var4_addr cfg i) :
    ∃ s', stmt_setrbc cfg s = .ok s' ∧
      (∀ k, k < items.length →
        mem_get8 cfg s'.memory (var4_addr cfg (i + k))
          = .ok ((items.map (fun it => it.val)).getD k 0 % 16)) ∧
      (∀ j, j < i ∨ i + items.length ≤ j →
        s'.memory (var4_addr cfg j) = s.memory (var4_addr cfg j)) ∧
      (∀ a, a < var4_addr cfg i ∨ var4_addr cfg i + items.length ≤ a →
        s'.memory a = s.memory a) ∧
      s'.ip.ptr = s.ip.ptr + 2 + (set_items_bytes items).length ∧ s'.ip.code = s.ip.code := by
  rw [mem_holds_append] at hm
  obtain ⟨hm1, hm2⟩ := hm
  simp only [le_bytes16, List.length_cons, List.length_nil] at hm2
  have hrun : stmt_setrbc cfg s =
      .ok ((s.set_memory (setrbc_memory cfg s.memory i (items.map (fun it => it.val)))).set_ip_ptr
        (s.ip.ptr + 2 + (set_items_bytes items).length)) := by
    simp only [stmt_setrbc, bind, Except.bind,
      vm_read_word_eq cfg s base i hc (by omega) hi16 hm1, u32_of_lt (show s.ip.ptr + 2 < 4294967296 by omega)]
    rw [stmt_setrbc_loop_run cfg base items i _ _ hok (by simpa using hc) (by simpa using hs)
      (by simpa [Nat.add_assoc] using hm2) (by simp only [set_ip_ptr_ptr]; omega)
      (by simp only [set_ip_ptr_ptr]; omega) (by omega) (by simp only [var4_addr]; omega)
      (by simp only [var4_addr, set_ip_ptr_ptr] at hdis ⊢; omega) (by omega)]
    rfl
  refine ⟨_, hrun, ?_, ?_, ?_, rfl, rfl⟩
  · intro k hk
    simp only [mem_get8, set_ip_ptr_memory, set_memory_memory, setrbc_memory, var4_addr,
      List.length_map]
    rw [if_pos (by omega), if_pos (by omega)]
    have e : cfg.var4_off + (i + k) - (cfg.var4_off + i) = k := by omega
    rw [e]
    congr 1
    omega
  · intro j hj
    simp only [set_ip_ptr_memory, set_memory_memory, setrbc_memory, var4_addr, List.length_map]
    rw [if_neg (by omega)]
  · intro a ha
    simp only [set_ip_ptr_memory, set_memory_memory, setrbc_memory, List.length_map]
    rw [if_neg (by omega)]

/-- Witness for C4: from a zeroed bank, `SETRBC 5` with the values `0x13`, `0x1F`,
`0xFE` gives `var4[5..7] = {3, 0xF, 0xE}`. -/
theorem stmt_setrbc_writes_nibbles_witness :
    ∃ s', stmt_setrbc example_title
        (example_machine [5, 0, 0x13, 0xFF, 1, 0x1F, 0xFF, 1, 0xF1, 0xFE, 0x00, 0xFF, 0]) = .ok s' ∧
      mem_get8 example_title s'.memory (var4_addr example_title 5) = .ok 3 ∧
      mem_get8 example_title s'.memory (var4_addr example_title 6) = .ok 0xF ∧
      mem_get8 example_title s'.memory (var4_addr example_title 7) = .ok 0xE ∧
      s'.memory (var4_addr example_title 8) = 0 :=
  have h := stmt_setrbc_writes_nibbles example_title
    (example_machine [5, 0, 0x13, 0xFF, 1, 0x1F, 0xFF, 1, 0xF1, 0xFE, 0x00, 0xFF, 0]) 0x1000 5
    [⟨[0x13, 0xFF], 0x13, 1⟩, ⟨[0x1F, 0xFF], 0x1F, 1⟩, ⟨[0xF1, 0xFE, 0x00, 0xFF], 0xFE, 0⟩]
    rfl rfl (by decide) (by decide)
    ⟨pure_expr_imm example_title 0x13 0xFF rfl (by decide) rfl, by decide, by decide,
      pure_expr_imm example_title 0x1F 0xFF rfl (by decide) rfl, by decide, by decide,
      pure_expr_imm16 example_title 0xF1 0xFF 0xFE rfl (by decide) rfl, rfl⟩
    (by decide) (by decide) (by decide) (by decide) (by decide) (by decide)
  match h with
  | ⟨s', h1, h2, h3, _⟩ =>
    ⟨s', h1, h2 0 (by decide), h2 1 (by decide), h2 2 (by decide), h3 8 (by decide)⟩

/-! ## Running machine functions on a state -/

@[simp] theorem with_machine_scope_counter (s : State) (m : Machine) :
    (s.with_machine m).scope_counter = s.scope_counter := rfl
@[simp] theorem with_machine_mes_call_stack_ptr (s : State) (m : Machine) :
    (s.with_machine m).mes_call_stack_ptr = s.mes_call_stack_ptr := rfl
@[simp] theorem with_machine_mes_call_stack (s : State) (m : Machine) :
    (s.with_machine m).mes_call_stack = s.mes_call_stack := rfl
@[simp] theorem with_machine_procedures (s : State) (m : Machine) :
    (s.with_machine m).procedures = s.procedures := rfl
@[simp] theorem with_ip_ip (s : State) (p : vm_pointer) : (s.with_ip p).ip = p := rfl
@[simp] theorem with_ip_memory (s : State) (p : vm_pointer) : (s.with_ip p).memory = s.memory := rfl
@[simp] theorem with_ip_scope_counter (s : State) (p : vm_pointer) :
    (s.with_ip p).scope_counter = s.scope_counter := rfl
@[simp] theorem with_ip_mes_call_stack_ptr (s : State) (p : vm_pointer) :
    (s.with_ip p).mes_call_stack_ptr = s.mes_call_stack_ptr := rfl
@[simp] theorem with_ip_mes_call_stack (s : State) (p : vm_pointer) :
    (s.with_ip p).mes_call_stack = s.mes_call_stack := rfl
@[simp] theorem with_ip_procedures (s : State) (p : vm_pointer) :
    (s.with_ip p).procedures = s.procedures := rfl

theorem State.run_ok {α : Type} (s : State) (f : Machine → Except Fault (α × Machine))
    (r : α) (m : Machine) (h : f s.toMachine = .ok (r, m)) :
    s.run f = .ok (r, (s.with_machine m)) := by
  simp only [State.run, h]

theorem State.run__ok (s : State) (f : Machine → Except Fault Machine) (m : Machine)
    (h : f s.toMachine = .ok m) : s.run_ f = .ok (s.with_machine m) := by
  simp only [State.run_, h]

theorem State.run_inv {α : Type} (s s' : State) (f : Machine → Except Fault (α × Machine))
    (r : α) (h : s.run f = .ok (r, s')) :
    f s.toMachine = .ok (r, s'.toMachine) ∧ s' = (s.with_machine s'.toMachine) := by
  simp only [State.run] at h
  split at h
  · simp at h
  · rename_i r0 m0 heq
    simp only [Except.ok.injEq, Prod.mk.injEq] at h
    obtain ⟨rfl, rfl⟩ := h
    exact ⟨heq, rfl⟩

theorem State.run__inv (s s' : State) (f : Machine → Except Fault Machine)
    (h : s.run_ f = .ok s') :
    f s.toMachine = .ok s'.toMachine ∧ s' = (s.with_machine s'.toMachine) := by
  simp only [State.run_] at h
  split at h
  · simp at h
  · rename_i m0 heq
    simp only [Except.ok.injEq] at h
    subst h
    exact ⟨heq, rfl⟩

theorem State.run_fields {α : Type} (s s' : State) (f : Machine → Except Fault (α × Machine))
    (r : α) (h : s.run f = .ok (r, s')) :
    f s.toMachine = .ok (r, s'.toMachine) ∧ s'.scope_counter = s.scope_counter ∧
    s'.mes_call_stack_ptr = s.mes_call_stack_ptr ∧ s'.mes_call_stack = s.mes_call_stack ∧
    s'.procedures = s.procedures := by
  obtain ⟨h1, h2⟩ := State.run_inv s s' f r h
  refine ⟨h1, ?_, ?_, ?_, ?_⟩
  · have e := congrArg State.scope_counter h2
    exact e
  · have e := congrArg State.mes_call_stack_ptr h2
    exact e
  · have e := congrArg State.mes_call_stack h2
    exact e
  · have e := congrArg State.procedures h2
    exact e

theorem State.run__fields (s s' : State) (f : Machine → Except Fault Machine)
    (h : s.run_ f = .ok s') :
    f s.toMachine = .ok s'.toMachine ∧ s'.scope_counter = s.scope_counter ∧
    s'.mes_call_stack_ptr = s.mes_call_stack_ptr ∧ s'.mes_call_stack = s.mes_call_stack ∧
    s'.procedures = s.procedures := by
  obtain ⟨h1, h2⟩ := State.run__inv s s' f h
  refine ⟨h1, ?_, ?_, ?_, ?_⟩
  · have e := congrArg State.scope_counter h2
    exact e
  · have e := congrArg State.mes_call_stack_ptr h2
    exact e
  · have e := congrArg State.mes_call_stack h2
    exact e
  · have e := congrArg State.procedures h2
    exact e

/-! ## C8: `PROCD` -/

/-- The state after `stmt_procd` for an index `i < 150` and a 4-byte target `T`
stored where the index expression ends. -/
theorem stmt_procd_eq (cfg : Config) (s : State) (m1 : Machine) (base i T : Nat)
    (heval : vm_eval cfg s.toMachine = .ok (i, m1)) (hi : i < VM_MAX_PROCEDURES)
    (hc : m1.ip.code = some base)
    (hm : mem_holds m1.memory (base + m1.ip.ptr) (le_bytes32 T)) (hT : T < 4294967296)
    (hb : base + m1.ip.ptr + 4 ≤ cfg.memory_size) :
    stmt_procd cfg s = .ok
      { toMachine := m1.set_ip_ptr T
        scope_counter := s.scope_counter
        mes_call_stack_ptr := s.mes_call_stack_ptr
        mes_call_stack := s.mes_call_stack
        procedures := Function.update s.procedures i
          { ptr := u32 (m1.ip.ptr + 4), code := m1.ip.code } } := by
  have hrun := State.run_ok s (vm_eval cfg) i m1 heval
  have hnot : ¬ i ≥ VM_MAX_PROCEDURES := by omega
  have hrd := vm_read_dword_eq cfg m1 base T hc hb hT hm
  simp only [stmt_procd, hrun, bind, Except.bind, if_neg hnot]
  simp only [State.run, State.with_machine, hrd, pure, Except.pure, set_ip_ptr_twice]

/-- C8. For every procedure index `i < 150` and every target `T`: if the 4-byte target
of a `PROCD` statement is stored at offset `d` of the current code (the offset
reached after the index expression), then after `stmt_procd` the slot
`procedures[i]` is `(current code base, d + 4)`, `ip.ptr = T`, and every other
procedure slot is unchanged. -/
theorem stmt_procd_defines_slot (cfg : Config) (s : State) (m1 : Machine) (base i T : Nat)
    (heval : vm_eval cfg s.toMachine = .ok (i, m1)) (hi : i < VM_MAX_PROCEDURES)
    (hc : m1.ip.code = some base)
    (hm : mem_holds m1.memory (base + m1.ip.ptr) (le_bytes32 T)) (hT : T < 4294967296)
    (hb : base + m1.ip.ptr + 4 ≤ cfg.memory_size) (hw : m1.ip.ptr + 4 < 4294967296) :
    ∃ s', stmt_procd cfg s = .ok s' ∧
      s'.procedures i = { ptr := m1.ip.ptr + 4, code := some base } ∧
      s'.ip = { ptr := T, code := some base } ∧
      (∀ j, j ≠ i → s'.procedures j = s.procedures j) ∧
      s'.memory = m1.memory ∧ s'.mes_call_stack = s.mes_call_stack ∧
      s'.mes_call_stack_ptr = s.mes_call_stack_ptr ∧ s'.scope_counter = s.scope_counter := by
  have hpd := stmt_procd_eq cfg s m1 base i T heval hi hc hm hT hb
  refine ⟨_, hpd, ?_, ?_, ?_, rfl, rfl, rfl, rfl⟩
  · simp [u32_of_lt hw, hc]
  · simp [Machine.set_ip_ptr, hc]
  · intro j hj
    simp [Function.update, hj]

/-- Witness for C8: `PROCD 7` with target 9, the dword stored at offset 2. -/
theorem stmt_procd_defines_slot_witness :
    ∃ s', stmt_procd example_title (example_state [7, 0xFF, 9, 0, 0, 0]) = .ok s' ∧
      s'.procedures 7 = { ptr := 6, code := some 0x1000 } ∧
      s'.ip = { ptr := 9, code := some 0x1000 } ∧
      (∀ j, j ≠ 7 → s'.procedures j = (example_state [7, 0xFF, 9, 0, 0, 0]).procedures j) :=
  match stmt_procd_defines_slot example_title (example_state [7, 0xFF, 9, 0, 0, 0])
      ((example_machine [7, 0xFF, 9, 0, 0, 0]).set_ip_ptr 2) 0x1000 7 9 rfl (by decide) rfl
      (by decide) (by decide) (by decide) (by decide) with
  | ⟨s', h1, h2, h3, h4, _⟩ => ⟨s', h1, h2, h3, h4⟩

/-! ## C10: the range check on procedure numbers -/

theorem code_get8_error (cfg : Config) (s : Machine) (k : Nat) (e : Fault)
    (h : code_get8 cfg s k = .error e) : ∃ w, e = .undefined w := by
  simp only [code_get8, mem_get8] at h
  split at h
  · simp only [Except.error.injEq] at h
    exact ⟨_, h.symm⟩
  · split at h
    · simp at h
    · simp only [Except.error.injEq] at h
      exact ⟨_, h.symm⟩

theorem vm_read_dword_error (cfg : Config) (s : Machine) (e : Fault)
    (h : vm_read_dword cfg s = .error e) : ∃ w, e = .undefined w := by
  simp only [vm_read_dword, code_get32, bind, Except.bind, pure, Except.pure] at h
  cases h0 : code_get8 cfg s 0 with
  | error e0 =>
    simp only [h0, Except.error.injEq] at h
    exact h ▸ code_get8_error cfg s 0 e0 h0
  | ok b0 =>
    cases h1 : code_get8 cfg s 1 with
    | error e1 =>
      simp only [h0, h1, Except.error.injEq] at h
      exact h ▸ code_get8_error cfg s 1 e1 h1
    | ok b1 =>
      cases h2 : code_get8 cfg s 2 with
      | error e2 =>
        simp only [h0, h1, h2, Except.error.injEq] at h
        exact h ▸ code_get8_error cfg s 2 e2 h2
      | ok b2 =>
        cases h3 : code_get8 cfg s 3 with
        | error e3 =>
          simp only [h0, h1, h2, h3, Except.error.injEq] at h
          exact h ▸ code_get8_error cfg s 3 e3 h3
        | ok b3 => simp [h0, h1, h2, h3] at h

/-- C10. `PROC` (`vm_call_procedure`) and `PROCD` raise the fatal "Invalid procedure
number" error exactly when the index is at least 150: the check of
`vm_call_procedure` raises it for `no >= 150` whatever the procedure would do, and
for `no < 150` (slot 0 included) the call goes on to run the procedure; `stmt_procd`
raises it for an index `i >= 150`, and for `i < 150` it raises no VM error at all.
On the fatal path the globals at the `VM_ERROR` call are those the check found: the
ones `vm_call_procedure` was called with, and for `PROCD` the ones the index
expression left, which has the procedure table and the code base of before; so the
check has changed neither the procedure table nor `vm.ip`. -/
theorem procedure_number_range_check (cfg : Config) (exec : State → Except Fault State)
    (s : State) (no : Nat) :
    (VM_MAX_PROCEDURES ≤ no →
      vm_call_procedure exec no s = VM_ERROR "Invalid procedure number: %u" [(no : Int)] ∧
      vm_call_procedure_traced exec no s
        = VM_ERROR_at s "Invalid procedure number: %u" [(no : Int)]) ∧
    (forget_globals (vm_call_procedure_traced exec no s) = vm_call_procedure exec no s ∧
      forget_globals (stmt_procd_traced cfg s) = stmt_procd cfg s) ∧
    (no < VM_MAX_PROCEDURES →
      vm_call_procedure exec no s =
        (exec (s.with_ip (s.procedures no)) >>= fun s2 => pure (s2.with_ip s.ip))) ∧
    ((∀ t, exec t ≠ VM_ERROR "Invalid procedure number: %u" [(no : Int)]) →
      (vm_call_procedure exec no s = VM_ERROR "Invalid procedure number: %u" [(no : Int)]
        ↔ 150 ≤ no)) ∧
    (∀ (i : Nat) (s1 : State), s.run (vm_eval cfg) = .ok (i, s1) →
      s1.procedures = s.procedures ∧ s1.ip.code = s.ip.code ∧
      (VM_MAX_PROCEDURES ≤ i →
        stmt_procd cfg s = VM_ERROR "Invalid procedure number: %d" [i32 i] ∧
        stmt_procd_traced cfg s = VM_ERROR_at s1 "Invalid procedure number: %d" [i32 i]) ∧
      (i < VM_MAX_PROCEDURES →
        ∀ fmt args, stmt_procd cfg s ≠ VM_ERROR fmt args) ∧
      (stmt_procd cfg s = VM_ERROR "Invalid procedure number: %d" [i32 i] ↔ 150 ≤ i)) := by
  have h1 : VM_MAX_PROCEDURES ≤ no →
      vm_call_procedure exec no s = VM_ERROR "Invalid procedure number: %u" [(no : Int)] := by
    intro h
    simp only [vm_call_procedure, ge_iff_le, h, if_true]
  have h2 : no < VM_MAX_PROCEDURES →
      vm_call_procedure exec no s =
        (exec (s.with_ip (s.procedures no)) >>= fun s2 => pure (s2.with_ip s.ip)) := by
    intro h
    have : ¬ no ≥ VM_MAX_PROCEDURES := by omega
    simp only [vm_call_procedure, if_neg this]
  have h1t : VM_MAX_PROCEDURES ≤ no →
      vm_call_procedure_traced exec no s
        = VM_ERROR_at s "Invalid procedure number: %u" [(no : Int)] := by
    intro h
    simp only [vm_call_procedure_traced, ge_iff_le, h, if_true]
  refine ⟨fun h => ⟨h1 h, h1t h⟩,
    ⟨vm_call_procedure_traced_forget exec no s, stmt_procd_traced_forget cfg s⟩, h2, ?_, ?_⟩
  · intro hexec
    constructor
    · intro h
      by_contra hlt
      rw [h2 (by simp only [VM_MAX_PROCEDURES]; omega)] at h
      cases he : exec (s.with_ip (s.procedures no)) with
      | error e =>
        rw [he] at h
        exact hexec _ (by rw [he]; exact h)
      | ok t =>
        rw [he] at h
        simp [bind, Except.bind, pure, Except.pure, VM_ERROR] at h
    · intro h
      exact h1 h
  · intro i s1 hrun
    obtain ⟨hev, hs1⟩ := State.run_inv s s1 (vm_eval cfg) i hrun
    have hsame := vm_eval_same cfg _ _ hev
    have hge : VM_MAX_PROCEDURES ≤ i →
        stmt_procd cfg s = VM_ERROR "Invalid procedure number: %d" [i32 i] := by
      intro h
      simp only [stmt_procd, hrun, bind, Except.bind, ge_iff_le, h, if_true]
    have hlt : i < VM_MAX_PROCEDURES → ∀ fmt args, stmt_procd cfg s ≠ VM_ERROR fmt args := by
      intro h fmt args
      have hn : ¬ i ≥ VM_MAX_PROCEDURES := by omega
      simp only [stmt_procd, hrun, bind, Except.bind, if_neg hn]
      simp only [State.run]
      cases hrd : vm_read_dword cfg s1.toMachine with
      | error e =>
        obtain ⟨w, rfl⟩ := vm_read_dword_error cfg _ e hrd
        simp [VM_ERROR]
      | ok x => simp [VM_ERROR, pure, Except.pure]
    have hget : VM_MAX_PROCEDURES ≤ i →
        stmt_procd_traced cfg s = VM_ERROR_at s1 "Invalid procedure number: %d" [i32 i] := by
      intro h
      simp only [stmt_procd_traced, hrun, of_callee_ok, bind, Except.bind, ge_iff_le, h,
        if_true]
    refine ⟨by rw [hs1]; rfl, hsame.2.1, fun h => ⟨hge h, hget h⟩, hlt, ?_⟩
    constructor
    · intro h
      by_contra hc
      exact hlt (by simp only [VM_MAX_PROCEDURES]; omega) _ _ h
    · intro h
      exact hge h

/-- Witness for C10: procedure number 150 is refused, whatever the procedure does,
with the globals of the call at the error. -/
theorem procedure_number_range_check_witness :
    vm_call_procedure (vm_exec example_title 10) 150 (example_state [])
      = VM_ERROR "Invalid procedure number: %u" [150] ∧
    vm_call_procedure_traced (vm_exec example_title 10) 150 (example_state [])
      = VM_ERROR_at (example_state []) "Invalid procedure number: %u" [150] :=
  (procedure_number_range_check example_title (vm_exec example_title 10) (example_state []) 150).1
    (by decide)

/-! ## C9: calling a procedure -/

/-- C9. For every procedure number `no < 150`, `vm_call_procedure(no)` starts
`vm_exec` with `vm.ip` equal to `procedures[no]`; after `PROCD no -> T` that is the
byte after the 4-byte target of the `PROCD`.  Whenever that `vm_exec` returns,
`vm.ip` (code base and ptr) is again what it was immediately before the call; for
the `PROC` statement this is the byte after its parameter list. -/
theorem vm_call_procedure_enters_and_restores_ip (cfg : Config) (fuel : Nat) (s : State)
    (no : Nat) (hno : no < VM_MAX_PROCEDURES) :
    vm_call_procedure (vm_exec cfg fuel) no s =
        (vm_exec cfg fuel (s.with_ip (s.procedures no)) >>= fun s2 => pure (s2.with_ip s.ip)) ∧
    (s.with_ip (s.procedures no)).ip = s.procedures no ∧
    (∀ s2, vm_exec cfg fuel (s.with_ip (s.procedures no)) = .ok s2 →
      vm_call_procedure (vm_exec cfg fuel) no s = .ok (s2.with_ip s.ip) ∧
      (s2.with_ip s.ip).ip = s.ip) ∧
    (∀ s', vm_call_procedure (vm_exec cfg fuel) no s = .ok s' → s'.ip = s.ip) ∧
    (∀ (s0 : State) (m1 : Machine) (base T : Nat),
      vm_eval cfg s0.toMachine = .ok (no, m1) → m1.ip.code = some base →
      mem_holds m1.memory (base + m1.ip.ptr) (le_bytes32 T) → T < 4294967296 →
      base + m1.ip.ptr + 4 ≤ cfg.memory_size → m1.ip.ptr + 4 < 4294967296 →
      stmt_procd cfg s0 = .ok s →
      (s.with_ip (s.procedures no)).ip = { ptr := m1.ip.ptr + 4, code := some base }) ∧
    (∀ (c : State) (params : param_list) (c1 : State),
      c.run (read_params cfg) = .ok (params, c1) → check_expr_param cfg params 0 = .ok no →
      stmt_proc cfg (vm_exec cfg fuel) c = vm_call_procedure (vm_exec cfg fuel) no c1 ∧
      ∀ c', stmt_proc cfg (vm_exec cfg fuel) c = .ok c' → c'.ip = c1.ip) := by
  have hn : ¬ no ≥ VM_MAX_PROCEDURES := by omega
  have hdef : ∀ (t : State), vm_call_procedure (vm_exec cfg fuel) no t =
      (vm_exec cfg fuel (t.with_ip (t.procedures no)) >>= fun s2 => pure (s2.with_ip t.ip)) := by
    intro t
    simp only [vm_call_procedure, if_neg hn]
  have hret : ∀ (t t' : State), vm_call_procedure (vm_exec cfg fuel) no t = .ok t' →
      t'.ip = t.ip := by
    intro t t' h
    rw [hdef t] at h
    cases he : vm_exec cfg fuel (t.with_ip (t.procedures no)) with
    | error e => simp [he, bind, Except.bind] at h
    | ok s2 =>
      simp only [he, bind, Except.bind, pure, Except.pure, Except.ok.injEq] at h
      rw [← h]
      rfl
  refine ⟨hdef s, rfl, ?_, hret s, ?_, ?_⟩
  · intro s2 h
    exact ⟨by rw [hdef s, h]; rfl, rfl⟩
  · intro s0 m1 base T hev hc hm hT hb hw hpd
    have h1 := stmt_procd_eq cfg s0 m1 base no T hev hno hc hm hT hb
    rw [hpd] at h1
    simp only [Except.ok.injEq] at h1
    subst h1
    simp [u32_of_lt hw, hc]
  · intro c params c1 hp hc
    have hproc : stmt_proc cfg (vm_exec cfg fuel) c
        = vm_call_procedure (vm_exec cfg fuel) no c1 := by
      simp only [stmt_proc, hp, hc, bind, Except.bind]
    exact ⟨hproc, fun c' h => hret c1 c' (by rw [← hproc]; exact h)⟩

/-- Witness for C9: in `example_proc_code`, `PROC 7` runs the body at offset 7 (which
stores 42 in `var16[3]`) and comes back with `vm.ip` at offset 18 of the same code. -/
theorem vm_call_procedure_enters_and_restores_ip_witness :
    (∀ s', vm_call_procedure (vm_exec example_title 10) 7 example_proc_state = .ok s' →
      s'.ip = { ptr := 18, code := some 0x1000 }) ∧
    (example_proc_state.with_ip (example_proc_state.procedures 7)).ip
      = { ptr := 7, code := some 0x1000 } ∧
    (vm_call_procedure (vm_exec example_title 10) 7 example_proc_state).toOption.map
      (fun t => (t.ip, t.memory (var16_addr example_title 3), t.scope_counter))
      = some ({ ptr := 18, code := some 0x1000 }, 42, 1) :=
  ⟨(vm_call_procedure_enters_and_restores_ip example_title 10 example_proc_state 7
      (by decide)).2.2.2.1,
   (vm_call_procedure_enters_and_restores_ip example_title 10 example_proc_state 7
      (by decide)).2.1,
   by rfl⟩

/-! ## The CALL stack is kept by everything `vm_exec` runs -/

theorem call_stack_kept_refl (s : State) : call_stack_kept s s := ⟨rfl, fun _ _ => rfl⟩

theorem call_stack_kept_trans {a b c : State} (h1 : call_stack_kept a b)
    (h2 : call_stack_kept b c) : call_stack_kept a c :=
  ⟨h2.1.trans h1.1, fun j hj => (h2.2 j (by rw [h1.1]; exact hj)).trans (h1.2 j hj)⟩

theorem call_stack_kept_machine (s : State) (m : Machine) :
    call_stack_kept s (s.with_machine m) := ⟨rfl, fun _ _ => rfl⟩

theorem State.run_kept {α : Type} (s s' : State) (f : Machine → Except Fault (α × Machine))
    (r : α) (h : s.run f = .ok (r, s')) : call_stack_kept s s' := by
  obtain ⟨-, h2⟩ := State.run_inv s s' f r h
  rw [h2]
  exact call_stack_kept_machine s _

theorem State.run__kept (s s' : State) (f : Machine → Except Fault Machine)
    (h : s.run_ f = .ok s') : call_stack_kept s s' := by
  obtain ⟨-, h2⟩ := State.run__inv s s' f h
  rw [h2]
  exact call_stack_kept_machine s _

theorem vm_call_procedure_kept (exec : State → Except Fault State)
    (hexec : ∀ t t', exec t = .ok t' → call_stack_kept t t') (no : Nat) (s s' : State)
    (h : vm_call_procedure exec no s = .ok s') : call_stack_kept s s' := by
  simp only [vm_call_procedure] at h
  split at h
  · simp [VM_ERROR] at h
  · cases he : exec (s.with_ip (s.procedures no)) with
    | error e => simp [he, bind, Except.bind] at h
    | ok s2 =>
      simp only [he, bind, Except.bind, pure, Except.pure, Except.ok.injEq] at h
      subst h
      exact call_stack_kept_trans (call_stack_kept_machine s _)
        (call_stack_kept_trans (hexec _ _ he) (call_stack_kept_machine s2 _))

theorem stmt_sys_farcall_kept (cfg : Config) (exec : State → Except Fault State)
    (hexec : ∀ t t', exec t = .ok t' → call_stack_kept t t') (params : param_list)
    (s s' : State) (h : stmt_sys_farcall cfg exec params s = .ok s') : call_stack_kept s s' := by
  simp only [stmt_sys_farcall, bind, Except.bind] at h
  split at h
  · simp at h
  · split at h
    · simp [VM_ERROR] at h
    · cases he : exec (s.with_ip { ptr := 0, code := some ‹Nat› }) with
      | error e => simp [he] at h
      | ok s2 =>
        simp only [he, pure, Except.pure, Except.ok.injEq] at h
        subst h
        exact call_stack_kept_trans (call_stack_kept_machine s _)
          (call_stack_kept_trans (hexec _ _ he) (call_stack_kept_machine s2 _))

theorem stmt_proc_kept (cfg : Config) (exec : State → Except Fault State)
    (hexec : ∀ t t', exec t = .ok t' → call_stack_kept t t') (s s' : State)
    (h : stmt_proc cfg exec s = .ok s') : call_stack_kept s s' := by
  simp only [stmt_proc, bind, Except.bind] at h
  cases h1 : s.run (read_params cfg) with
  | error e => simp [h1] at h
  | ok x =>
    simp only [h1] at h
    split at h
    · simp at h
    · exact call_stack_kept_trans (State.run_kept s x.2 _ x.1 h1)
        (vm_call_procedure_kept exec hexec _ _ _ h)

theorem stmt_procd_kept (cfg : Config) (s s' : State) (h : stmt_procd cfg s = .ok s') :
    call_stack_kept s s' := by
  simp only [stmt_procd, bind, Except.bind] at h
  cases h1 : s.run (vm_eval cfg) with
  | error e => simp [h1] at h
  | ok x =>
    simp only [h1] at h
    split at h
    · simp [VM_ERROR] at h
    · split at h
      · simp at h
      · rename_i y hy
        simp only [pure, Except.pure, Except.ok.injEq] at h
        subst h
        have k1 := State.run_kept s x.2 _ x.1 h1
        have k2 := State.run_kept _ y.2 _ y.1 hy
        exact ⟨by
          simp only [with_machine_mes_call_stack_ptr]
          rw [← k1.1, k2.1], fun j hj => by
          have := k2.2 j (by simpa [k1.1] using hj)
          simp only [with_machine_mes_call_stack]
          rw [← k1.2 j hj, this]⟩

theorem stmt_util_wait_until_loop_kept (cfg : Config) (exec : State → Except Fault State)
    (hexec : ∀ t t', exec t = .ok t' → call_stack_kept t t') (stop_t : Nat) (fuel : Nat) :
    ∀ (t : Nat) (s s' : State),
      stmt_util_wait_until_loop cfg exec stop_t fuel t s = .ok s' → call_stack_kept s s' := by
  induction fuel with
  | zero => intro t s s' h; simp [stmt_util_wait_until_loop] at h
  | succ fuel ih =>
    intro t s s' h
    simp only [stmt_util_wait_until_loop] at h
    repeat' split at h
    all_goals first
      | exact call_stack_kept_trans (call_stack_kept_machine s _)
          (vm_call_procedure_kept exec hexec _ _ _ h)
      | exact call_stack_kept_trans (call_stack_kept_machine s _) (ih _ _ _ h)
      | (simp only [pure, Except.pure, Except.ok.injEq] at h
         subst h
         exact call_stack_kept_machine s _)

theorem stmt_util_wait_until_kept (cfg : Config) (exec : State → Except Fault State)
    (hexec : ∀ t t', exec t = .ok t' → call_stack_kept t t') (fuel : Nat)
    (params : param_list) (s s' : State)
    (h : stmt_util_wait_until cfg exec fuel params s = .ok s') : call_stack_kept s s' := by
  simp only [stmt_util_wait_until, bind, Except.bind] at h
  split at h
  · simp [VM_ERROR] at h
  · split at h
    · simp at h
    · exact call_stack_kept_trans (call_stack_kept_machine s _)
        (stmt_util_wait_until_loop_kept cfg exec hexec _ _ _ _ _ h)

theorem stmt_util_kept (cfg : Config) (exec : State → Except Fault State)
    (hexec : ∀ t t', exec t = .ok t' → call_stack_kept t t') (fuel : Nat) (s s' : State)
    (h : stmt_util cfg exec fuel s = .ok s') : call_stack_kept s s' := by
  simp only [stmt_util, bind, Except.bind] at h
  cases h1 : s.run (read_params cfg) with
  | error e => simp [h1] at h
  | ok x =>
    simp only [h1] at h
    have k1 := State.run_kept s x.2 _ x.1 h1
    split at h
    · simp at h
    · split at h
      all_goals first
        | exact call_stack_kept_trans k1 (State.run__kept _ _ _ h)
        | exact call_stack_kept_trans k1 (stmt_util_wait_until_kept cfg exec hexec _ _ _ _ h)
        | (exfalso; simp [VM_ERROR] at h)

theorem stmt_sys_kept (cfg : Config) (exec : State → Except Fault State)
    (hexec : ∀ t t', exec t = .ok t' → call_stack_kept t t') (fuel : Nat) (s s' : State)
    (h : stmt_sys cfg exec fuel s = .ok s') : call_stack_kept s s' := by
  simp only [stmt_sys, bind, Except.bind] at h
  cases h1 : s.run (vm_eval cfg) with
  | error e => simp [h1] at h
  | ok x =>
    simp only [h1] at h
    have k1 := State.run_kept s x.2 _ x.1 h1
    cases h2 : x.2.run (read_params cfg) with
    | error e => simp [h2] at h
    | ok y =>
      simp only [h2] at h
      have k2 := call_stack_kept_trans k1 (State.run_kept x.2 y.2 _ y.1 h2)
      split at h
      all_goals first
        | exact call_stack_kept_trans k2 (State.run__kept _ _ _ h)
        | exact call_stack_kept_trans k2 (stmt_sys_farcall_kept cfg exec hexec _ _ _ h)
        | (exfalso; simp [VM_ERROR] at h)

theorem stmt_call_save_inv (cfg : Config) (s s2 : State) (h : stmt_call_save cfg s = .ok s2) :
    s.mes_call_stack_ptr < VM_MES_CALL_STACK_SIZE ∧
    ∃ mes_name, saved_mes_name cfg s.memory = .ok mes_name ∧
      s2 = { s with
        mes_call_stack_ptr := s.mes_call_stack_ptr + 1
        mes_call_stack := Function.update s.mes_call_stack s.mes_call_stack_ptr
          { ip := s.ip, mes_name := mes_name, procedures := s.procedures } } := by
  simp only [stmt_call_save, bind, Except.bind] at h
  split at h
  · simp at h
  · rename_i hp
    cases hn : saved_mes_name cfg s.memory with
    | error e => simp [hn] at h
    | ok mes_name =>
      simp only [hn, pure, Except.pure, Except.ok.injEq] at h
      have hlt : s.mes_call_stack_ptr < VM_MES_CALL_STACK_SIZE := by omega
      refine ⟨hlt, mes_name, rfl, ?_⟩
      rw [← h, u16_of_lt (by simp only [VM_MES_CALL_STACK_SIZE] at hlt; omega)]

theorem stmt_call_restore_inv (cfg : Config) (s s' : State)
    (h : stmt_call_restore cfg s = .ok s') :
    s'.mes_call_stack_ptr = u16 (s.mes_call_stack_ptr + 65535) ∧
    ∀ j, j ≠ u16 (s.mes_call_stack_ptr + 65535) → s'.mes_call_stack j = s.mes_call_stack j := by
  simp only [stmt_call_restore, bind, Except.bind] at h
  split at h
  · simp at h
  · split at h
    · simp at h
    · split at h
      · split at h
        · simp at h
        · rename_i s3 h3
          simp only [pure, Except.pure, Except.ok.injEq] at h
          subst h
          obtain ⟨-, -, e3, e4, -⟩ := State.run__fields _ _ _ h3
          refine ⟨e3, ?_⟩
          intro j hj
          simp only [Function.update_noteq hj]
          exact congrFun e4 j
      · simp only [pure, Except.pure, Except.ok.injEq] at h
        subst h
        exact ⟨rfl, fun _ _ => rfl⟩

theorem stmt_call_kept (cfg : Config) (exec : State → Except Fault State)
    (hexec : ∀ t t', exec t = .ok t' → call_stack_kept t t') (s s' : State)
    (h : stmt_call cfg exec s = .ok s') : call_stack_kept s s' := by
  simp only [stmt_call, bind, Except.bind] at h
  cases h1 : s.run (read_params cfg) with
  | error e => simp [h1] at h
  | ok x =>
    simp only [h1] at h
    have k1 := State.run_kept s x.2 _ x.1 h1
    cases hn : check_string_param cfg x.1 0 with
    | error e => simp [hn] at h
    | ok name =>
      simp only [hn] at h
      cases h2 : stmt_call_save cfg x.2 with
      | error e => simp [h2] at h
      | ok s2 =>
        simp only [h2] at h
        obtain ⟨hp, nm, -, e2⟩ := stmt_call_save_inv cfg _ _ h2
        cases h4 : (s2.with_ip { ptr := 0, code := some cfg.file_data_off }).run_
            (vm_load_mes cfg name) with
        | error e => simp [h4] at h
        | ok s4 =>
          simp only [h4] at h
          obtain ⟨-, -, e4p, e4s, -⟩ := State.run__fields _ _ _ h4
          cases h5 : exec s4 with
          | error e => simp [h5] at h
          | ok s5 =>
            simp only [h5] at h
            have k5 := hexec _ _ h5
            obtain ⟨r1, r2⟩ := stmt_call_restore_inv cfg _ _ h
            have p4 : s4.mes_call_stack_ptr = x.2.mes_call_stack_ptr + 1 := by
              rw [e4p, e2]; rfl
            have p5 : s5.mes_call_stack_ptr = x.2.mes_call_stack_ptr + 1 := by
              rw [k5.1, p4]
            have hq : u16 (s5.mes_call_stack_ptr + 65535) = x.2.mes_call_stack_ptr := by
              rw [p5]
              simp only [u16, VM_MES_CALL_STACK_SIZE] at hp ⊢
              omega
            refine ⟨by rw [r1, hq, k1.1], ?_⟩
            intro j hj
            have hj' : j < x.2.mes_call_stack_ptr := by rw [k1.1]; exact hj
            rw [r2 j (by rw [hq]; omega), k5.2 j (by rw [p4]; omega), e4s, e2]
            simp only [with_ip_mes_call_stack]
            rw [Function.update_noteq (by omega)]
            exact k1.2 j hj

theorem vm_exec_stmt_op_kept (cfg : Config) (exec : State → Except Fault State)
    (hexec : ∀ t t', exec t = .ok t' → call_stack_kept t t') (fuel op : Nat) (s s' : State)
    (h : vm_exec_stmt_op cfg exec fuel op s = .ok s') : call_stack_kept s s' := by
  simp only [vm_exec_stmt_op] at h
  split at h
  all_goals first
    | exact State.run__kept _ _ _ h
    | exact stmt_sys_kept cfg exec hexec _ _ _ h
    | exact stmt_call_kept cfg exec hexec _ _ h
    | exact stmt_proc_kept cfg exec hexec _ _ h
    | exact stmt_util_kept cfg exec hexec _ _ _ h
    | exact stmt_procd_kept cfg _ _ h
    | (simp only [pure, Except.pure, Except.ok.injEq] at h
       subst h
       exact call_stack_kept_refl _)

theorem vm_exec_statement_kept (cfg : Config) (exec : State → Except Fault State)
    (hexec : ∀ t t', exec t = .ok t' → call_stack_kept t t') (fuel : Nat) (s : State)
    (x : Bool × State) (h : vm_exec_statement cfg exec fuel s = .ok x) :
    call_stack_kept s x.2 := by
  simp only [vm_exec_statement, bind, Except.bind] at h
  cases h1 : s.run (vm_read_byte cfg) with
  | error e => simp [h1] at h
  | ok y =>
    simp only [h1] at h
    have k1 := State.run_kept s y.2 _ y.1 h1
    split at h
    · simp only [pure, Except.pure, Except.ok.injEq] at h
      subst h
      exact k1
    · cases h2 : vm_exec_stmt_op cfg exec fuel y.1 y.2 with
      | error e => simp [h2] at h
      | ok s2 =>
        simp only [h2, pure, Except.pure, Except.ok.injEq] at h
        subst h
        exact call_stack_kept_trans k1 (vm_exec_stmt_op_kept cfg exec hexec _ _ _ _ h2)

theorem scope_enter_kept (s : State) : call_stack_kept s (scope_enter s) := by
  unfold scope_enter call_stack_kept
  exact ⟨rfl, fun _ _ => rfl⟩

theorem scope_leave_kept (s : State) : call_stack_kept s (scope_leave s) := by
  unfold scope_leave call_stack_kept
  exact ⟨rfl, fun _ _ => rfl⟩

theorem vm_exec_pass_kept (cfg : Config) (exec : State → Except Fault State)
    (hexec : ∀ t t', exec t = .ok t' → call_stack_kept t t') (fuel : Nat) (s : State)
    (x : Bool × State) (h : vm_exec_pass cfg exec fuel s = .ok x) : call_stack_kept s x.2 := by
  simp only [vm_exec_pass, bind, Except.bind] at h
  cases hf : vm_flag_is_on cfg s.toMachine VM_FLAG_RETURN with
  | error e => simp [hf] at h
  | ok ret =>
    simp only [hf] at h
    split at h
    · simp only [pure, Except.pure, Except.ok.injEq] at h
      subst h
      exact call_stack_kept_refl _
    · have tail : ∀ s1, call_stack_kept s s1 →
          (vm_exec_statement cfg exec fuel s1 >>= fun v =>
            if (!v.1) = true then (pure (false, v.2) : Except Fault (Bool × State))
              else pure (true, v.2.with_machine (vm_peek cfg v.2.toMachine))) = .ok x →
          call_stack_kept s x.2 := by
        intro s1 k1 h
        cases h2 : vm_exec_statement cfg exec fuel s1 with
        | error e => simp [h2, bind, Except.bind] at h
        | ok y =>
          simp only [h2, bind, Except.bind] at h
          have k2 := vm_exec_statement_kept cfg exec hexec _ _ _ h2
          split at h
          · simp only [pure, Except.pure, Except.ok.injEq] at h
            subst h
            exact call_stack_kept_trans k1 k2
          · simp only [pure, Except.pure, Except.ok.injEq] at h
            subst h
            exact call_stack_kept_trans k1 (call_stack_kept_trans k2
              (call_stack_kept_machine _ _))
      split at h
      · split at h
        · simp at h
        · rename_i s1 h1
          exact tail s1 (State.run__kept _ _ _ h1) h
      · simp only [pure, Except.pure] at h
        exact tail s (call_stack_kept_refl _) h

theorem vm_exec_loop_succ (cfg : Config) (fuel : Nat) (s : State) :
    vm_exec_loop cfg (fuel + 1) s =
      (vm_exec_pass cfg (vm_exec cfg fuel) fuel s >>= fun x =>
        if x.1 then vm_exec_loop cfg fuel x.2 else pure x.2) := by
  rfl

theorem vm_exec_loop_kept (cfg : Config) (fuel : Nat) :
    ∀ (s s' : State), vm_exec_loop cfg fuel s = .ok s' → call_stack_kept s s' := by
  induction fuel with
  | zero => intro s s' h; simp [vm_exec_loop] at h
  | succ fuel ih =>
    have hexec : ∀ t t', vm_exec cfg fuel t = .ok t' → call_stack_kept t t' := by
      intro t t' h
      simp only [vm_exec, bind, Except.bind] at h
      cases h1 : vm_exec_loop cfg fuel (scope_enter t) with
      | error e => simp [h1] at h
      | ok t1 =>
        simp only [h1, pure, Except.pure, Except.ok.injEq] at h
        subst h
        exact call_stack_kept_trans (scope_enter_kept t)
          (call_stack_kept_trans (ih _ _ h1) (scope_leave_kept t1))
    intro s s' h
    rw [vm_exec_loop_succ] at h
    simp only [bind, Except.bind] at h
    cases h1 : vm_exec_pass cfg (vm_exec cfg fuel) fuel s with
    | error e => simp [h1] at h
    | ok x =>
      simp only [h1] at h
      have k1 := vm_exec_pass_kept cfg _ hexec _ _ _ h1
      split at h
      · exact call_stack_kept_trans k1 (ih _ _ h)
      · simp only [pure, Except.pure, Except.ok.injEq] at h
        subst h
        exact k1

/-- A `vm_exec` that returns leaves the CALL stack as deep as it found it, with the
same frames below that depth. -/
theorem vm_exec_kept (cfg : Config) (fuel : Nat) (s s' : State)
    (h : vm_exec cfg fuel s = .ok s') : call_stack_kept s s' := by
  simp only [vm_exec, bind, Except.bind] at h
  cases h1 : vm_exec_loop cfg fuel (scope_enter s) with
  | error e => simp [h1] at h
  | ok t1 =>
    simp only [h1, pure, Except.pure, Except.ok.injEq] at h
    subst h
    exact call_stack_kept_trans (scope_enter_kept s)
      (call_stack_kept_trans (vm_exec_loop_kept cfg fuel _ _ h1) (scope_leave_kept t1))

/-! ## Loading a MES file under a well-formed name -/

theorem vm_load_mes_toupper_fixed (cfg : Config) (m : Nat → Nat) (n : Nat)
    (hn : n < cfg.memory_size) (h0 : m n % 256 = 0) :
    ∀ (fuel i : Nat), i ≤ n → n - i < fuel →
      (∀ k, i ≤ k → k < n → m k ≠ 0 ∧ m k < 256 ∧ toupper (m k) = m k) →
      vm_load_mes_toupper cfg fuel i m = .ok m := by
  intro fuel
  induction fuel with
  | zero => intro i _ h; omega
  | succ fuel ih =>
    intro i hi hf hk
    have hget : mem_get8 cfg m i = .ok (m i % 256) := by
      simp only [mem_get8]
      rw [if_pos (by omega)]
    simp only [vm_load_mes_toupper, hget, bind, Except.bind]
    by_cases hin : i = n
    · subst hin
      rw [if_pos h0]
      rfl
    · obtain ⟨k1, k2, k3⟩ := hk i (le_refl _) (by omega)
      have hm : m i % 256 = m i := Nat.mod_eq_of_lt k2
      rw [hm, if_neg k1]
      have hset : mem_set8 cfg m i (toupper (m i)) = .ok m := by
        simp only [mem_set8]
        rw [if_pos (by omega)]
        congr 1
        funext x
        by_cases hx : x = i
        · subst hx
          rw [if_pos rfl, k3, hm]
        · rw [if_neg hx]
      simp only [hset]
      exact ih (i + 1) (by omega) (by omega) (fun k a b => hk k (by omega) b)

theorem c_string_saved (m : Nat → Nat) (name : List Nat) (h : mes_name_is m name) :
    c_string ((List.range 12).map (fun k => m k % 256) ++ [0]) = name := by
  obtain ⟨hlen, hup, hm⟩ := h
  have e1 : (List.range name.length).map (fun k => m k % 256) = name := by
    apply List.ext_getElem (by simp)
    intro n h1 h2
    simp only [List.getElem_map, List.getElem_range]
    have := hm n (by simp only [List.length_append, List.length_singleton]; omega)
    rw [Nat.zero_add] at this
    rw [this, List.getD_append _ _ _ _ h2, List.getD_eq_getElem _ _ h2]
  have e0 : m name.length % 256 = 0 := by
    have := hm name.length (by simp)
    rw [Nat.zero_add] at this
    rw [this, List.getD_append_right _ _ _ _ (le_refl _)]
    simp
  have e2 : List.range 12 =
      List.range name.length ++ List.range' name.length (12 - name.length) := by
    have := List.range'_append 0 name.length (12 - name.length) 1
    simp only [Nat.zero_add, Nat.one_mul] at this
    rw [List.range_eq_range', List.range_eq_range', this]
    congr 1
    omega
  unfold c_string
  rw [e2, List.map_append, e1, List.append_assoc,
    List.takeWhile_append_of_pos (fun a ha => by simp [(hup a ha).1])]
  cases hk : 12 - name.length with
  | zero => simp [List.takeWhile]
  | succ j =>
    rw [List.range'_succ]
    simp [List.takeWhile_cons, e0]

theorem vm_load_mes_named (cfg : Config) (name data : List Nat) (s : Machine)
    (hlen : name.length ≤ 12) (hup : ∀ c ∈ name, c ≠ 0 ∧ c < 256 ∧ toupper c = c)
    (hfile : cfg.asset_mes_load name = some data)
    (hfit : cfg.file_data_off + data.length ≤ cfg.memory_size)
    (hoff : 13 ≤ cfg.file_data_off) :
    ∃ m, vm_load_mes cfg name s = .ok m ∧ m.ip = s.ip ∧ mes_name_is m.memory name := by
  have hl : (name ++ [0]).length = name.length + 1 := by simp
  have hcopy : mem_copy cfg s.memory 0 (name ++ [0]) =
      .ok (fun x => if 0 ≤ x ∧ x < 0 + (name ++ [0]).length
        then (name ++ [0]).getD (x - 0) 0 % 256 else s.memory x) := by
    simp only [mem_copy]
    rw [if_pos (by rw [hl]; omega)]
  have hval : ∀ k, k < name.length →
      (name ++ [0]).getD k 0 ∈ name := by
    intro k hk
    rw [List.getD_append _ _ _ _ hk, List.getD_eq_getElem _ _ hk]
    exact List.getElem_mem hk
  have hz : (name ++ [0]).getD name.length 0 = 0 := by
    rw [List.getD_append_right _ _ _ _ (le_refl _)]
    simp
  have hup2 := vm_load_mes_toupper_fixed cfg
    (fun x => if 0 ≤ x ∧ x < 0 + (name ++ [0]).length
        then (name ++ [0]).getD (x - 0) 0 % 256 else s.memory x) name.length (by omega)
    (by
      show (if 0 ≤ name.length ∧ name.length < 0 + (name ++ [0]).length
        then (name ++ [0]).getD (name.length - 0) 0 % 256 else s.memory name.length) % 256 = 0
      rw [if_pos (by rw [hl]; omega), Nat.sub_zero, hz])
    (cfg.memory_size + 1) 0 (Nat.zero_le _) (by omega)
    (by
      intro k _ hk
      show (if 0 ≤ k ∧ k < 0 + (name ++ [0]).length
        then (name ++ [0]).getD (k - 0) 0 % 256 else s.memory k) ≠ 0 ∧ _ ∧ _
      simp only []
      rw [if_pos (by rw [hl]; omega), Nat.sub_zero]
      obtain ⟨k1, k2, k3⟩ := hup _ (hval k hk)
      rw [Nat.mod_eq_of_lt k2]
      exact ⟨k1, k2, k3⟩)
  have hdata : ∀ (t : Machine), mem_copy cfg t.memory cfg.file_data_off data =
      .ok (fun x => if cfg.file_data_off ≤ x ∧ x < cfg.file_data_off + data.length
        then data.getD (x - cfg.file_data_off) 0 % 256 else t.memory x) := by
    intro t
    simp only [mem_copy]
    rw [if_pos hfit]
  simp only [vm_load_mes, hcopy, hup2, hfile, hdata, bind, Except.bind, pure, Except.pure]
  refine ⟨_, rfl, rfl, hlen, hup, ?_⟩
  intro k hk
  rw [hl] at hk
  simp only [Machine.set_memory, host_do, host_call]
  rw [if_neg (by omega), if_pos (by rw [hl]; omega), Nat.zero_add, Nat.sub_zero, Nat.mod_mod]
  by_cases hkn : k < name.length
  · exact Nat.mod_eq_of_lt (hup _ (hval k hkn)).2.1
  · have : k = name.length := by omega
    subst this
    rw [hz]

/-! ## CALL: the caller's context after the callee ends -/

theorem State.run__vm_load_mes (cfg : Config) (name data : List Nat)
    (hlen : name.length ≤ 12) (hup : ∀ c ∈ name, c ≠ 0 ∧ c < 256 ∧ toupper c = c)
    (hfile : cfg.asset_mes_load name = some data)
    (hfit : cfg.file_data_off + data.length ≤ cfg.memory_size)
    (hoff : 13 ≤ cfg.file_data_off) (t : State) :
    ∃ t', t.run_ (vm_load_mes cfg name) = .ok t' ∧ t'.ip = t.ip ∧
      mes_name_is t'.memory name ∧ t'.procedures = t.procedures := by
  obtain ⟨m, hm, hmip, hmn⟩ := vm_load_mes_named cfg name data t.toMachine hlen hup hfile hfit hoff
  exact ⟨t.with_machine m, State.run__ok _ _ _ hm, hmip, hmn, rfl⟩

theorem stmt_call_restore_clear (cfg : Config) (s : State) (q : Nat) (frame : vm_mes_call)
    (caller data : List Nat)
    (hq : u16 (s.mes_call_stack_ptr + 65535) = q) (hlt : q < VM_MES_CALL_STACK_SIZE)
    (hframe : s.mes_call_stack q = frame)
    (hret : vm_flag_is_on cfg s.toMachine VM_FLAG_RETURN = .ok false)
    (hcs : c_string frame.mes_name = caller)
    (hlen : caller.length ≤ 12) (hup : ∀ c ∈ caller, c ≠ 0 ∧ c < 256 ∧ toupper c = c)
    (hfile : cfg.asset_mes_load caller = some data)
    (hfit : cfg.file_data_off + data.length ≤ cfg.memory_size)
    (hoff : 13 ≤ cfg.file_data_off) :
    ∃ s', stmt_call_restore cfg s = .ok s' ∧ s'.ip = frame.ip ∧
      s'.procedures = frame.procedures ∧ mes_name_is s'.memory caller ∧
      s'.mes_call_stack_ptr = q := by
  have hflag : ∀ (t : Machine), t.memory = s.memory →
      vm_flag_is_on cfg t VM_FLAG_RETURN = .ok false := by
    intro t ht
    have h := hret
    simp only [vm_flag_is_on] at h ⊢
    rw [ht]
    exact h
  have hrun := State.run__vm_load_mes cfg caller data hlen hup hfile hfit hoff
  simp only [stmt_call_restore, hq, hframe, hcs, bind, Except.bind]
  rw [if_neg (by omega),
    hflag (s.with_ip { ptr := s.ip.ptr, code := frame.ip.code }).toMachine rfl]
  simp only [Bool.not_false, if_true]
  split
  · rename_i e heq
    exact (hrun _).elim (fun t' ht' => by rw [ht'.1] at heq; cases heq)
  · rename_i s3 heq
    have hinv : ∀ (t t' : State), t.run_ (vm_load_mes cfg caller) = .ok t' →
        t'.ip = t.ip ∧ mes_name_is t'.memory caller := by
      intro t t' h
      obtain ⟨t2, h1, h2, h3, -⟩ := hrun t
      rw [h] at h1
      cases h1
      exact ⟨h2, h3⟩
    obtain ⟨h1, h2⟩ := hinv _ _ heq
    obtain ⟨-, -, e3, -, e5⟩ := State.run__fields _ _ _ heq
    exact ⟨_, rfl, h1, e5, h2, e3⟩

theorem saved_mes_name_c_string (cfg : Config) (m : Nat → Nat) (nm caller : List Nat)
    (hnm : saved_mes_name cfg m = .ok nm) (hcaller : mes_name_is m caller) :
    c_string nm = caller := by
  simp only [saved_mes_name] at hnm
  split at hnm
  · simp only [pure, Except.pure, Except.ok.injEq] at hnm
    rw [← hnm]
    exact c_string_saved _ _ hcaller
  · simp at hnm

/-- The frame that `stmt_call` pops: when the `vm_exec` of the callee returns, the
slot below `mes_call_stack_ptr` is the slot that was pushed, and it still holds the
`vm.ip`, the MES name and the procedure table of the call site. -/
theorem stmt_call_frame (cfg : Config) (fuel : Nat) (s s1 s2 s4 s5 : State)
    (params : param_list) (name : List Nat)
    (hparams : s.run (read_params cfg) = .ok (params, s1))
    (hsave : stmt_call_save cfg s1 = .ok s2)
    (hload : (s2.with_ip { ptr := 0, code := some cfg.file_data_off }).run_
      (vm_load_mes cfg name) = .ok s4)
    (hexec : vm_exec cfg fuel s4 = .ok s5) :
    ∃ nm, saved_mes_name cfg s1.memory = .ok nm ∧
      s1.mes_call_stack_ptr < VM_MES_CALL_STACK_SIZE ∧
      u16 (s5.mes_call_stack_ptr + 65535) = s1.mes_call_stack_ptr ∧
      s5.mes_call_stack s1.mes_call_stack_ptr =
        { ip := s1.ip, mes_name := nm, procedures := s1.procedures } ∧
      s1.mes_call_stack_ptr = s.mes_call_stack_ptr := by
  obtain ⟨hp, nm, hnm, e2⟩ := stmt_call_save_inv cfg _ _ hsave
  obtain ⟨-, -, e4p, e4s, -⟩ := State.run__fields _ _ _ hload
  obtain ⟨-, -, e1p, -, -⟩ := State.run_fields _ _ _ _ hparams
  have k5 := vm_exec_kept cfg fuel _ _ hexec
  have p4 : s4.mes_call_stack_ptr = s1.mes_call_stack_ptr + 1 := by
    rw [e4p, e2]
    rfl
  have p5 : s5.mes_call_stack_ptr = s1.mes_call_stack_ptr + 1 := by
    rw [k5.1, p4]
  refine ⟨nm, hnm, hp, ?_, ?_, e1p⟩
  · rw [p5]
    simp only [u16, VM_MES_CALL_STACK_SIZE] at hp ⊢
    omega
  · rw [k5.2 _ (by rw [p4]; omega), e4s, e2]
    simp only [with_ip_mes_call_stack]
    exact Function.update_same _ _ _

theorem stmt_call_eq (cfg : Config) (exec : State → Except Fault State) (s s1 s2 s4 s5 : State)
    (params : param_list) (name : List Nat)
    (hparams : s.run (read_params cfg) = .ok (params, s1))
    (hname : check_string_param cfg params 0 = .ok name)
    (hsave : stmt_call_save cfg s1 = .ok s2)
    (hload : (s2.with_ip { ptr := 0, code := some cfg.file_data_off }).run_
      (vm_load_mes cfg name) = .ok s4)
    (hexec : exec s4 = .ok s5) :
    stmt_call cfg exec s = stmt_call_restore cfg s5 := by
  simp only [stmt_call, hparams, hname, hsave, hload, hexec, bind, Except.bind]

/-- C6. If the `vm_exec` of the callee inside `stmt_call` returns with the RETURN
flag clear, then `stmt_call` returns and afterwards `vm.ip` (code base and ptr) is the
`vm.ip` of the call site, just past the parameter list of the `CALL`; the procedure
table is the table of the call site, whatever slots the callee redefined; the MES
name slot holds the name of the caller again; and `mes_call_stack_ptr` has the value
it had before the `CALL`.  The name of the caller is a C string of at most 12
upper-cased characters in the MES name slot, which ends below the file-data region,
and the MES file of that name can be loaded again. -/
theorem stmt_call_restores_caller (cfg : Config) (fuel : Nat) (s s1 s2 s4 s5 : State)
    (params : param_list) (name caller data : List Nat)
    (hparams : s.run (read_params cfg) = .ok (params, s1))
    (hname : check_string_param cfg params 0 = .ok name)
    (hsave : stmt_call_save cfg s1 = .ok s2)
    (hload : (s2.with_ip { ptr := 0, code := some cfg.file_data_off }).run_
      (vm_load_mes cfg name) = .ok s4)
    (hexec : vm_exec cfg fuel s4 = .ok s5)
    (hret : vm_flag_is_on cfg s5.toMachine VM_FLAG_RETURN = .ok false)
    (hcaller : mes_name_is s1.memory caller)
    (hfile : cfg.asset_mes_load caller = some data)
    (hfit : cfg.file_data_off + data.length ≤ cfg.memory_size)
    (hoff : 13 ≤ cfg.file_data_off) :
    ∃ s', stmt_call cfg (vm_exec cfg fuel) s = .ok s' ∧ s'.ip = s1.ip ∧
      s'.procedures = s1.procedures ∧ mes_name_is s'.memory caller ∧
      s'.mes_call_stack_ptr = s.mes_call_stack_ptr := by
  obtain ⟨nm, hnm, hp, hq, hframe, e1p⟩ :=
    stmt_call_frame cfg fuel s s1 s2 s4 s5 params name hparams hsave hload hexec
  obtain ⟨s', h1, h2, h3, h4, h5⟩ := stmt_call_restore_clear cfg s5 s1.mes_call_stack_ptr
    { ip := s1.ip, mes_name := nm, procedures := s1.procedures } caller data hq hp hframe hret
    (saved_mes_name_c_string cfg _ _ _ hnm hcaller) hcaller.1 hcaller.2.1 hfile hfit hoff
  refine ⟨s', ?_, h2, h3, h4, by rw [h5, e1p]⟩
  rw [stmt_call_eq cfg _ s s1 s2 s4 s5 params name hparams hname hsave hload hexec]
  exact h1

theorem example_call_site_name : mes_name_is example_call_site.memory [65] := by
  refine ⟨by decide, by decide, ?_⟩
  intro k hk
  have hk2 : k < 2 := hk
  interval_cases k <;> rfl

/-- Witness for C6: the file `A` defines procedure 7 and executes `CALL "B"`; the
file `B` redefines procedure 7 and ends.  After the `CALL`, `vm.ip` is at offset 14
of the code of `A`, procedure 7 is the one of `A`, the MES name slot holds `A` and
the CALL stack is empty. -/
theorem stmt_call_restores_caller_witness :
    example_call_done.procedures 7 = { ptr := 12, code := some 0x1000 } ∧
    ∃ s', stmt_call example_call_title (vm_exec example_call_title 10) example_call_state
        = .ok s' ∧
      s'.ip = { ptr := 14, code := some 0x1000 } ∧
      s'.procedures 7 = { ptr := 7, code := some 0x1000 } ∧
      mes_name_is s'.memory [65] ∧ s'.mes_call_stack_ptr = 0 :=
  ⟨by rfl,
   match stmt_call_restores_caller example_call_title 10 example_call_state
      example_call_site example_call_saved example_call_loaded example_call_done
      example_call_params [66] [65] example_caller_code rfl rfl rfl rfl rfl rfl
      example_call_site_name rfl (by decide) (by decide) with
   | ⟨s', h1, h2, h3, h4, h5⟩ => ⟨s', h1, h2, by rw [h3]; rfl, h4, h5⟩⟩

/-! ## C7: CALL and the procedure table -/

/-- After a `CALL` whose callee returns with the RETURN flag clear, the procedure
table is the table of the call site. -/
theorem stmt_call_restores_table (cfg : Config) (fuel : Nat)
    (s s1 s2 s4 s5 : State) (params : param_list) (name caller data : List Nat)
    (hparams : s.run (read_params cfg) = .ok (params, s1))
    (hname : check_string_param cfg params 0 = .ok name)
    (hsave : stmt_call_save cfg s1 = .ok s2)
    (hload : (s2.with_ip { ptr := 0, code := some cfg.file_data_off }).run_
      (vm_load_mes cfg name) = .ok s4)
    (hexec : vm_exec cfg fuel s4 = .ok s5)
    (hret : vm_flag_is_on cfg s5.toMachine VM_FLAG_RETURN = .ok false)
    (hcaller : mes_name_is s1.memory caller)
    (hfile : cfg.asset_mes_load caller = some data)
    (hfit : cfg.file_data_off + data.length ≤ cfg.memory_size)
    (hoff : 13 ≤ cfg.file_data_off) :
    ∃ s', stmt_call cfg (vm_exec cfg fuel) s = .ok s' ∧ s'.procedures = s1.procedures := by
  obtain ⟨nm, hnm, hp, hq, hframe, -⟩ :=
    stmt_call_frame cfg fuel s s1 s2 s4 s5 params name hparams hsave hload hexec
  obtain ⟨s', h1, -, h3, -, -⟩ := stmt_call_restore_clear cfg s5 s1.mes_call_stack_ptr
    { ip := s1.ip, mes_name := nm, procedures := s1.procedures } caller data hq hp hframe hret
    (saved_mes_name_c_string cfg _ _ _ hnm hcaller) hcaller.1 hcaller.2.1 hfile hfit hoff
  refine ⟨s', ?_, h3⟩
  rw [stmt_call_eq cfg _ s s1 s2 s4 s5 params name hparams hname hsave hload hexec]
  exact h1

/-- C7 does not hold: under `example_call_title`, whose `call_saves_procedures` is
clear, the file `A` defines procedure 7 at offset 7 and executes `CALL "B"`; the file
`B` redefines procedure 7 at offset 12 and ends with the RETURN flag clear.  After
the `CALL`, procedure 7 is at offset 7 again, not at the offset 12 of the callee. -/
theorem stmt_call_restores_redefined_slot :
    example_call_title.call_saves_procedures = false ∧
    example_call_site.procedures 7 = { ptr := 7, code := some 0x1000 } ∧
    vm_exec example_call_title 10 example_call_loaded = .ok example_call_done ∧
    example_call_done.procedures 7 = { ptr := 12, code := some 0x1000 } ∧
    vm_flag_is_on example_call_title example_call_done.toMachine VM_FLAG_RETURN = .ok false ∧
    ∃ s', stmt_call example_call_title (vm_exec example_call_title 10) example_call_state
        = .ok s' ∧
      s'.procedures 7 = { ptr := 7, code := some 0x1000 } ∧
      s'.procedures 7 ≠ example_call_done.procedures 7 :=
  ⟨rfl, by rfl, rfl, by rfl, rfl,
   match stmt_call_restores_table example_call_title 10 example_call_state
      example_call_site example_call_saved example_call_loaded example_call_done
      example_call_params [66] [65] example_caller_code rfl rfl rfl rfl rfl rfl
      example_call_site_name rfl (by decide) (by decide) with
   | ⟨s', h1, h2⟩ =>
     ⟨s', h1, by rw [h2]; rfl, by
       have e : example_call_done.procedures 7 = { ptr := 12, code := some 0x1000 } := by rfl
       have e1 : example_call_site.procedures 7 = { ptr := 7, code := some 0x1000 } := by rfl
       rw [h2, e, e1]
       decide⟩⟩

/-- C7 as the code has it: `stmt_call` has no flag to read.  For every title it
copies the procedure table into the frame, and when the `vm_exec` of the callee
returns with the RETURN flag clear it copies the table back: the table after the
`CALL` is the table of the call site, so a slot `i` that the callee defined or
redefined holds the definition of the caller again and not the one of the callee. -/
theorem stmt_call_ignores_call_saves_procedures (cfg : Config) (fuel : Nat)
    (s s1 s2 s4 s5 : State) (params : param_list) (name caller data : List Nat) (i : Nat)
    (hparams : s.run (read_params cfg) = .ok (params, s1))
    (hname : check_string_param cfg params 0 = .ok name)
    (hsave : stmt_call_save cfg s1 = .ok s2)
    (hload : (s2.with_ip { ptr := 0, code := some cfg.file_data_off }).run_
      (vm_load_mes cfg name) = .ok s4)
    (hexec : vm_exec cfg fuel s4 = .ok s5)
    (hret : vm_flag_is_on cfg s5.toMachine VM_FLAG_RETURN = .ok false)
    (hredef : s5.procedures i ≠ s1.procedures i)
    (hcaller : mes_name_is s1.memory caller)
    (hfile : cfg.asset_mes_load caller = some data)
    (hfit : cfg.file_data_off + data.length ≤ cfg.memory_size)
    (hoff : 13 ≤ cfg.file_data_off) :
    ∃ s', stmt_call cfg (vm_exec cfg fuel) s = .ok s' ∧
      s'.procedures = s1.procedures ∧
      s'.procedures i = s1.procedures i ∧ s'.procedures i ≠ s5.procedures i := by
  obtain ⟨s', h1, h3⟩ := stmt_call_restores_table cfg fuel s s1 s2 s4 s5 params name caller
    data hparams hname hsave hload hexec hret hcaller hfile hfit hoff
  have h3i : s'.procedures i = s1.procedures i := by rw [h3]
  refine ⟨s', h1, h3, h3i, ?_⟩
  rw [h3i]
  exact fun h => hredef h.symm

/-- Witness for C7 as the code has it: the file `A` defines procedure 7 at offset 7
and executes `CALL "B"`; the file `B` redefines procedure 7 at offset 12 and ends
with the RETURN flag clear.  After the `CALL`, procedure 7 is at offset 7 again. -/
theorem stmt_call_ignores_call_saves_procedures_witness :
    example_call_site.procedures 7 = { ptr := 7, code := some 0x1000 } ∧
    example_call_done.procedures 7 = { ptr := 12, code := some 0x1000 } ∧
    ∃ s', stmt_call example_call_title (vm_exec example_call_title 10) example_call_state
        = .ok s' ∧
      s'.procedures 7 = { ptr := 7, code := some 0x1000 } ∧
      s'.procedures 7 ≠ { ptr := 12, code := some 0x1000 } :=
  ⟨by rfl, by rfl,
   match stmt_call_ignores_call_saves_procedures example_call_title 10 example_call_state
      example_call_site example_call_saved example_call_loaded example_call_done
      example_call_params [66] [65] example_caller_code 7 rfl rfl rfl rfl rfl rfl
      (by
        have h1 : example_call_done.procedures 7 = { ptr := 12, code := some 0x1000 } := by rfl
        have h2 : example_call_site.procedures 7 = { ptr := 7, code := some 0x1000 } := by rfl
        rw [h1, h2]
        decide)
      example_call_site_name rfl (by decide) (by decide) with
   | ⟨s', h1, _, h2, h3⟩ =>
     ⟨s', h1, by rw [h2]; rfl, by
       have e : example_call_done.procedures 7 = { ptr := 12, code := some 0x1000 } := by rfl
       rw [← e]
       exact h3⟩⟩

/-! ## C11: `FARCALL` -/

theorem farcall_addr_valid_iff (cfg : Config) (addr : Nat) :
    farcall_addr_valid cfg addr = true ↔ in_file_data cfg addr := by
  simp [farcall_addr_valid, in_file_data]

/-- C11. `stmt_sys_farcall` raises the fatal error "Tried to farcall to invalid
address" for every target outside `[file_data, file_data + MEMORY_FILE_DATA_SIZE)`,
before anything is assigned; for every target `addr` inside the region it runs
`vm_exec` with the code base at `addr` and `ptr = 0` and then assigns the saved
`vm.ip` back.  The error is raised exactly for the targets outside the region when
the code that is called does not itself raise it. -/
theorem stmt_sys_farcall_address_check (cfg : Config) (exec : State → Except Fault State)
    (params : param_list) (s : State) (addr : Nat)
    (haddr : check_expr_param cfg params 0 = .ok addr) :
    (¬ in_file_data cfg addr →
      stmt_sys_farcall cfg exec params s = VM_ERROR "Tried to farcall to invalid address" []) ∧
    (in_file_data cfg addr →
      stmt_sys_farcall cfg exec params s =
        (exec (s.with_ip { ptr := 0, code := some addr }) >>= fun s2 => pure (s2.with_ip s.ip)) ∧
      (s.with_ip { ptr := 0, code := some addr }).ip = { ptr := 0, code := some addr } ∧
      ∀ s2, exec (s.with_ip { ptr := 0, code := some addr }) = .ok s2 →
        stmt_sys_farcall cfg exec params s = .ok (s2.with_ip s.ip) ∧
        (s2.with_ip s.ip).ip = s.ip) ∧
    ((∀ t, exec t ≠ VM_ERROR "Tried to farcall to invalid address" []) →
      (stmt_sys_farcall cfg exec params s = VM_ERROR "Tried to farcall to invalid address" []
        ↔ ¬ in_file_data cfg addr)) := by
  have hbad : ¬ in_file_data cfg addr →
      stmt_sys_farcall cfg exec params s
        = VM_ERROR "Tried to farcall to invalid address" [] := by
    intro h
    have hv : farcall_addr_valid cfg addr = false := by
      cases hb : farcall_addr_valid cfg addr with
      | false => rfl
      | true => exact absurd ((farcall_addr_valid_iff cfg addr).mp hb) h
    simp [stmt_sys_farcall, haddr, hv, bind, Except.bind]
  have hgood : in_file_data cfg addr →
      stmt_sys_farcall cfg exec params s =
        (exec (s.with_ip { ptr := 0, code := some addr }) >>= fun s2 =>
          pure (s2.with_ip s.ip)) := by
    intro h
    have hv := (farcall_addr_valid_iff cfg addr).mpr h
    simp only [stmt_sys_farcall, haddr, hv, bind, Except.bind]
    rfl
  refine ⟨hbad, fun h => ⟨hgood h, rfl, ?_⟩, ?_⟩
  · intro s2 h2
    rw [hgood h, h2]
    exact ⟨rfl, rfl⟩
  · intro hexec
    refine ⟨fun herr => ?_, hbad⟩
    intro hin
    rw [hgood hin] at herr
    cases he : exec (s.with_ip { ptr := 0, code := some addr }) with
    | error e =>
      rw [he] at herr
      exact hexec _ (he.trans herr)
    | ok s2 =>
      rw [he] at herr
      simp [bind, Except.bind, pure, Except.pure, VM_ERROR] at herr

/-- Witness for C11: the target 0 lies below the file-data region at `0x1000` and is
refused; the target `0x1000`, where an `END` is stored, is called and `vm.ip` is
restored. -/
theorem stmt_sys_farcall_address_check_witness :
    stmt_sys_farcall example_title (vm_exec example_title 10) (example_params_expr 0)
        (example_state [0x00])
      = VM_ERROR "Tried to farcall to invalid address" [] ∧
    ((stmt_sys_farcall example_title (vm_exec example_title 10) (example_params_expr 0x1000)
        ((example_state [0x00]).with_ip { ptr := 7, code := some 0x1000 })).toOption.map
      (fun t => t.ip)) = some { ptr := 7, code := some 0x1000 } :=
  ⟨(stmt_sys_farcall_address_check example_title (vm_exec example_title 10)
      (example_params_expr 0) (example_state [0x00]) 0 rfl).1 (by decide),
   by
    rw [((stmt_sys_farcall_address_check example_title (vm_exec example_title 10)
      (example_params_expr 0x1000)
      ((example_state [0x00]).with_ip { ptr := 7, code := some 0x1000 }) 0x1000 rfl).2.1
        (by decide)).1]
    rfl⟩

/-! ## Reading a parameter list leaves the memory image alone -/

theorem mem_get16_lt (cfg : Config) (m : Nat → Nat) (a v : Nat)
    (h : mem_get16 cfg m a = .ok v) : v < 65536 := by
  simp only [mem_get16] at h
  split at h
  · simp only [Except.ok.injEq] at h
    omega
  · simp at h

theorem mem_set16_other (cfg : Config) (m m' : Nat → Nat) (a v x : Nat)
    (h : mem_set16 cfg m a v = .ok m') (hx0 : x ≠ a) (hx1 : x ≠ a + 1) : m' x = m x := by
  simp only [mem_set16] at h
  split at h
  · simp only [Except.ok.injEq] at h
    subst h
    simp only [if_neg hx0, if_neg hx1]
  · simp at h

theorem mem_set16_ok (cfg : Config) (m : Nat → Nat) (a v : Nat) (h : a + 2 ≤ cfg.memory_size) :
    ∃ m', mem_set16 cfg m a v = .ok m' := by
  simp only [mem_set16]
  rw [if_pos (by omega)]
  exact ⟨_, rfl⟩

theorem and_not_16_and_16 (f : Nat) : (f &&& 65519) &&& 16 = 0 := by
  rw [Nat.and_assoc]
  have h : (65519 : Nat) &&& 16 = 0 := by decide
  rw [h, Nat.and_zero]

/-- The C function `vm_flag_off(VM_FLAG_RETURN)` succeeds wherever `vm_flag_is_on`
does, and the flag is off afterwards. -/
theorem vm_flag_off_return (cfg : Config) (s : Machine) (b : Bool)
    (h : vm_flag_is_on cfg s VM_FLAG_RETURN = .ok b) :
    ∃ m, vm_flag_off cfg s VM_FLAG_RETURN = .ok m ∧
      vm_flag_is_on cfg m VM_FLAG_RETURN = .ok false ∧ m.ip = s.ip ∧ m.stack = s.stack := by
  simp only [vm_flag_is_on, bind, Except.bind] at h
  cases hg : mem_get16 cfg s.memory (system_var16_addr cfg cfg.MES_SYS_VAR_FLAGS) with
  | error e => simp [hg] at h
  | ok f =>
    have hb : system_var16_addr cfg cfg.MES_SYS_VAR_FLAGS + 2 ≤ cfg.memory_size := by
      simp only [mem_get16] at hg
      split at hg
      · omega
      · simp at hg
    obtain ⟨m', hm'⟩ := mem_set16_ok cfg s.memory
      (system_var16_addr cfg cfg.MES_SYS_VAR_FLAGS) (f &&& (65535 - u16 VM_FLAG_RETURN)) hb
    have hu : 65535 - u16 VM_FLAG_RETURN = 65519 := by decide
    refine ⟨s.set_memory m', ?_, ?_, rfl, rfl⟩
    · simp only [vm_flag_off, hg, hm', bind, Except.bind, pure, Except.pure]
    · have hr := mem_set16_get16 cfg _ _ _ _ hm'
      rw [hu] at hr
      have hle : f &&& 65519 ≤ 65519 := Nat.and_le_right
      rw [Nat.mod_eq_of_lt (by omega)] at hr
      simp only [vm_flag_is_on, set_memory_memory, hr, bind, Except.bind, pure, Except.pure,
        VM_FLAG_RETURN, and_not_16_and_16]
      rfl

/-- C13. In `vm_exec`, when the RETURN flag is found set at the top of the loop: with
`scope_counter != 1` the loop ends at once, no statement is executed and the state,
the RETURN flag included, is what it was, so a nested `vm_exec` entered with the flag
set returns with the flag set and every enclosing nested scope ends the same way;
with `scope_counter = 1` the flag is cleared, `ip.ptr` is set to 0 and the pass goes
on with the statement found there. -/
theorem vm_exec_return_flag (cfg : Config) (exec : State → Except Fault State) (fuel : Nat)
    (s : State) (hret : vm_flag_is_on cfg s.toMachine VM_FLAG_RETURN = .ok true) :
    (s.scope_counter ≠ 1 →
      vm_exec_pass cfg exec fuel s = .ok (false, s) ∧
      vm_exec_loop cfg (fuel + 1) s = .ok s ∧
      ∀ t : State, scope_enter t = s →
        vm_exec cfg (fuel + 1) t = .ok (scope_leave s) ∧
        vm_flag_is_on cfg (scope_leave s).toMachine VM_FLAG_RETURN = .ok true) ∧
    (s.scope_counter = 1 →
      ∃ m, vm_flag_off cfg s.toMachine VM_FLAG_RETURN = .ok m ∧
        vm_flag_is_on cfg m VM_FLAG_RETURN = .ok false ∧
        (s.with_machine (m.set_ip_ptr 0)).ip.ptr = 0 ∧
        (s.with_machine (m.set_ip_ptr 0)).ip.code = s.ip.code ∧
        vm_exec_pass cfg exec fuel s =
          (vm_exec_statement cfg exec fuel (s.with_machine (m.set_ip_ptr 0)) >>= fun x =>
            if !x.1 then pure (false, x.2)
            else pure (true, x.2.with_machine (vm_peek cfg x.2.toMachine)))) := by
  have hpass : ∀ ex, s.scope_counter ≠ 1 → vm_exec_pass cfg ex fuel s = .ok (false, s) := by
    intro ex h1
    have hne : (s.scope_counter != 1) = true := by simpa using h1
    simp only [vm_exec_pass, hret, hne, bind, Except.bind, Bool.and_self, if_true]
    rfl
  have hloop : s.scope_counter ≠ 1 → vm_exec_loop cfg (fuel + 1) s = .ok s := by
    intro h1
    rw [vm_exec_loop_succ, hpass _ h1]
    rfl
  refine ⟨fun h1 => ⟨hpass _ h1, hloop h1, ?_⟩, ?_⟩
  · intro t ht
    refine ⟨?_, ?_⟩
    · simp only [vm_exec, ht, hloop h1, bind, Except.bind, pure, Except.pure]
    · unfold scope_leave
      dsimp only
      exact hret
  · intro h1
    obtain ⟨m, hm, hoff, hip, -⟩ := vm_flag_off_return cfg s.toMachine true hret
    refine ⟨m, hm, hoff, rfl, ?_, ?_⟩
    · show (m.set_ip_ptr 0).ip.code = s.ip.code
      rw [set_ip_ptr_code, hip]
    · have hne : (s.scope_counter != 1) = false := by simp [h1]
      simp only [vm_exec_pass, hret, hne, bind, Except.bind, Bool.and_false, State.run_, hm,
        pure, Except.pure, if_true, Bool.false_eq_true, if_false]

/-- Witness for C13: at nesting depth 2 with the RETURN flag set the loop ends at
once and the state is what it was.  And a run through `vm_exec`: the file `B`, entered
by `CALL "B"`, executes `GOTO "C"`; both scopes end, the outermost scope clears the
flag and executes the `END` of `C` from offset 0, and the CALL stack is empty. -/
theorem vm_exec_return_flag_witness :
    vm_exec_loop example_title 1 example_return_state = .ok example_return_state ∧
    (vm_exec example_unwind_title 10 (example_state [0x0F, 1, 66, 0, 0, 0x00])).toOption.map
      (fun t => (t.mes_call_stack_ptr, t.scope_counter, t.memory 0, t.ip.ptr,
        (vm_flag_is_on example_unwind_title t.toMachine VM_FLAG_RETURN).toOption))
      = some (0, 0, 67, 1, some false) :=
  ⟨((vm_exec_return_flag example_title (vm_exec example_title 0) 0 example_return_state
      rfl).1 (by decide)).2.1,
   by rfl⟩

/-! ## An operator that fails -/

theorem OPERATOR_error (op : Nat → Nat → Except Fault Nat) (s : Machine) (a b : Nat)
    (rest : List Nat) (e : Fault) (hs : s.stack = b :: a :: rest) (hr : op a b = .error e) :
    OPERATOR op s = .error e := by
  simp only [OPERATOR, vm_stack_pop_eq s b (a :: rest) hs, bind, Except.bind,
    vm_stack_pop_eq (s.set_stack (a :: rest)) a rest rfl, hr]

theorem vm_eval_loop_fail (cfg : Config) (fuel : Nat) (s s1 : Machine) (op : Nat) (e : Fault)
    (h1 : vm_read_byte cfg s = .ok (op, s1)) (h2 : vm_eval_op cfg op s1 = .error e) :
    vm_eval_loop cfg (fuel + 1) s = .error e := by
  rw [vm_eval_loop_succ, h1]
  simp only [bind, Except.bind, h2]

/-- Evaluation of `IMM32 a, IMM32 b, op, END` for an operator `op` of the `OPERATOR`
family that fails on `a` and `b`. -/
theorem vm_eval_imm32_pair_error (cfg : Config) (s : Machine) (base a b imm32 op : Nat)
    (rest : List Nat) (err : Fault) (f : Nat → Nat → Except Fault Nat)
    (hc : s.ip.code = some base) (hs : s.stack = [])
    (hm : mem_holds s.memory (base + s.ip.ptr)
      ((imm32 :: le_bytes32 a) ++ (imm32 :: le_bytes32 b) ++ (op :: rest)))
    (ha : a < 4294967296) (hb : b < 4294967296)
    (hbound : base + s.ip.ptr + 11 ≤ cfg.memory_size) (hwrap : s.ip.ptr + 11 < 4294967296)
    (himm : cfg.mes_opcode_to_expr imm32 = .MES_EXPR_IMM32)
    (hop : ∀ t : Machine, vm_eval_op cfg op t = (OPERATOR f t >>= fun t1 => pure (none, t1)))
    (hr : f a b = .error err) :
    vm_eval cfg s = .error err := by
  obtain ⟨g, hg⟩ : ∃ g, cfg.memory_size + 1 = g + 1 + 1 + 1 := ⟨cfg.memory_size - 2, by omega⟩
  simp only [mem_holds_append, List.length_cons, le_bytes32, List.length_nil] at hm
  obtain ⟨⟨h1, h2⟩, h3⟩ := hm
  rw [mem_holds_cons] at h3
  unfold vm_eval
  rw [hg]
  rw [vm_eval_loop_imm32 cfg (g + 1 + 1) s base s.ip.ptr imm32 a hc rfl h1 ha (by omega) (by omega)
    himm (by simp [hs, VM_STACK_SIZE])]
  rw [vm_eval_loop_imm32 cfg (g + 1) _ base (s.ip.ptr + 5) imm32 b (by simpa using hc) rfl
    (by simpa [Nat.add_assoc] using h2) hb (by omega) (by omega) himm
    (by simp [hs, VM_STACK_SIZE])]
  have hbyte : ((s.set_ip_ptr (s.ip.ptr + 5)).set_stack (a :: s.stack)).memory
      (base + (s.ip.ptr + 5 + 5)) % 256 = op := by
    simpa [Nat.add_assoc] using h3.1
  refine vm_eval_loop_fail cfg g _ _ op err
    (vm_read_byte_eq cfg _ base op (by simpa using hc) (by simp; omega) (by simpa using hbyte)) ?_
  rw [hop, OPERATOR_error f _ a b [] err (by simp [hs]) hr]
  rfl

/-! ## C14: `DIV` and `MOD` -/

/-- C14 does not hold for a zero divisor: `IMM32 6, IMM32 0, DIV, END` does not raise
a VM error.
`vm_eval` has no check of the divisor, so the C division `6 / 0` is executed, which
is undefined. -/
theorem vm_eval_div_by_zero_no_vm_error :
    is_vm_error (vm_eval example_title (example_machine (example_pair_expr 6 0 0xE3))) = false ∧
    vm_eval example_title (example_machine (example_pair_expr 6 0 0xE3))
      = .error (.undefined "division by zero") :=
  ⟨by rfl, by rfl⟩

/-- C14 with the zero divisor as the code has it. For all 32-bit values `a` and `b`,
`vm_eval` of
`IMM32 a, IMM32 b, OP, END`: with `b != 0`, `DIV` yields `floor(a / b)` and `MOD`
yields `a mod b`; with `b = 0` neither raises a VM error: `vm_eval` checks no divisor
and executes the C division by zero, which is undefined. -/
theorem vm_eval_div_mod (cfg : Config) (s : Machine) (base a b imm32 op e : Nat)
    (hc : s.ip.code = some base) (hs : s.stack = [])
    (hm : mem_holds s.memory (base + s.ip.ptr)
      ((imm32 :: le_bytes32 a) ++ (imm32 :: le_bytes32 b) ++ [op, e]))
    (ha : a < 4294967296) (hb : b < 4294967296)
    (hbound : base + s.ip.ptr + 12 ≤ cfg.memory_size) (hwrap : s.ip.ptr + 12 < 4294967296)
    (himm : cfg.mes_opcode_to_expr imm32 = .MES_EXPR_IMM32)
    (hend : cfg.mes_opcode_to_expr e = .MES_EXPR_END) :
    (cfg.mes_opcode_to_expr op = .MES_EXPR_DIV →
      (b ≠ 0 → vm_eval cfg s = .ok (a / b, s.set_ip_ptr (s.ip.ptr + 12))) ∧
      (b = 0 → vm_eval cfg s = .error (.undefined "division by zero") ∧
        is_vm_error (vm_eval cfg s) = false)) ∧
    (cfg.mes_opcode_to_expr op = .MES_EXPR_MOD →
      (b ≠ 0 → vm_eval cfg s = .ok (a % b, s.set_ip_ptr (s.ip.ptr + 12))) ∧
      (b = 0 → vm_eval cfg s = .error (.undefined "division by zero") ∧
        is_vm_error (vm_eval cfg s) = false)) := by
  have hzero : ∀ (f : Nat → Nat → Except Fault Nat),
      (∀ t : Machine, vm_eval_op cfg op t = (OPERATOR f t >>= fun t1 => pure (none, t1))) →
      f a b = .error (.undefined "division by zero") →
      vm_eval cfg s = .error (.undefined "division by zero") ∧
        is_vm_error (vm_eval cfg s) = false := by
    intro f hop hr
    have h := vm_eval_imm32_pair_error cfg s base a b imm32 op [e] _ f hc hs hm ha hb
      (by omega) (by omega) himm hop hr
    exact ⟨h, by rw [h]; rfl⟩
  refine ⟨fun h => ⟨fun hb0 => ?_, fun hb0 => ?_⟩, fun h => ⟨fun hb0 => ?_, fun hb0 => ?_⟩⟩
  · have := vm_eval_imm32_pair cfg s base a b imm32 op e (a / b)
      (fun a b => if b = 0 then .error (.undefined "division by zero") else pure (a / b))
      hc hs hm ha hb hbound hwrap himm hend (fun t => by simp only [vm_eval_op, h])
      (by simp only [if_neg hb0]; rfl)
    rw [this, u32_of_lt (lt_of_le_of_lt (Nat.div_le_self a b) ha)]
  · exact hzero
      (fun a b => if b = 0 then .error (.undefined "division by zero") else pure (a / b))
      (fun t => by simp only [vm_eval_op, h]) (by simp only [if_pos hb0])
  · have := vm_eval_imm32_pair cfg s base a b imm32 op e (a % b)
      (fun a b => if b = 0 then .error (.undefined "division by zero") else pure (a % b))
      hc hs hm ha hb hbound hwrap himm hend (fun t => by simp only [vm_eval_op, h])
      (by simp only [if_neg hb0]; rfl)
    rw [this, u32_of_lt (lt_of_le_of_lt (Nat.mod_le a b) ha)]
  · exact hzero
      (fun a b => if b = 0 then .error (.undefined "division by zero") else pure (a % b))
      (fun t => by simp only [vm_eval_op, h]) (by simp only [if_pos hb0])

/-- Witness for C14: `7 / 2` is 3, `7 mod 2` is 1, and `6 mod 0` raises no VM
error. -/
theorem vm_eval_div_mod_witness :
    vm_eval example_title (example_machine (example_pair_expr 7 2 0xE3))
      = .ok (3, (example_machine (example_pair_expr 7 2 0xE3)).set_ip_ptr 12) ∧
    vm_eval example_title (example_machine (example_pair_expr 7 2 0xE4))
      = .ok (1, (example_machine (example_pair_expr 7 2 0xE4)).set_ip_ptr 12) ∧
    is_vm_error (vm_eval example_title (example_machine (example_pair_expr 6 0 0xE4))) = false :=
  ⟨((vm_eval_div_mod example_title (example_machine (example_pair_expr 7 2 0xE3)) 0x1000 7 2
      0xF2 0xE3 0xFF rfl rfl (by decide) (by decide) (by decide) (by decide) (by decide)
      rfl rfl).1 rfl).1 (by decide),
   ((vm_eval_div_mod example_title (example_machine (example_pair_expr 7 2 0xE4)) 0x1000 7 2
      0xF2 0xE4 0xFF rfl rfl (by decide) (by decide) (by decide) (by decide) (by decide)
      rfl rfl).2 rfl).1 (by decide),
   (((vm_eval_div_mod example_title (example_machine (example_pair_expr 6 0 0xE4)) 0x1000 6 0
      0xF2 0xE4 0xFF rfl rfl (by decide) (by decide) (by decide) (by decide) (by decide)
      rfl rfl).2 rfl).2 rfl).2⟩

/-! ## An expression that fills the stack -/

theorem vm_stack_push_at_1023 (s : Machine) (val : Nat) (h : s.stack.length = 1023) :
    vm_stack_push s val = VM_ERROR "Stack overflow" [] := by
  simp only [vm_stack_push, stack_ptr_eq, set_stack_stack, List.length_cons, VM_STACK_SIZE]
  rw [if_neg (by omega), if_pos (by omega)]

/-- A run of `n` immediates `c` is pushed one by one. -/
theorem vm_eval_loop_imms (cfg : Config) (c : Nat)
    (hop : cfg.mes_opcode_to_expr c = .MES_EXPR_IMM) :
    ∀ (n fuel : Nat) (s : Machine) (base : Nat), s.ip.code = some base →
      (∀ k, k < n → s.memory (base + s.ip.ptr + k) % 256 = c) →
      base + s.ip.ptr + n ≤ cfg.memory_size → s.ip.ptr + n < 4294967296 →
      s.stack.length + n < VM_STACK_SIZE →
      ∃ t, vm_eval_loop cfg (fuel + n) s = vm_eval_loop cfg fuel t ∧ t.memory = s.memory ∧
        t.ip = { ptr := s.ip.ptr + n, code := some base } ∧
        t.stack.length = s.stack.length + n := by
  intro n
  induction n with
  | zero =>
    intro fuel s base hc _ _ _ _
    refine ⟨s, rfl, rfl, ?_, rfl⟩
    rw [← hc, Nat.add_zero]
  | succ n ih =>
    intro fuel s base hc hm hb hw hl
    have h0 := hm 0 (by omega)
    rw [Nat.add_zero] at h0
    have hstep := vm_eval_loop_imm cfg (fuel + n) s base s.ip.ptr c hc rfl
      (by rw [mem_holds_cons]; exact ⟨h0, mem_holds_nil _ _⟩) (by omega) (by omega) hop
      (by omega)
    obtain ⟨t, ht, htm, hti, hts⟩ := ih fuel
      ((s.set_ip_ptr (s.ip.ptr + 1)).set_stack (u32 c :: s.stack)) base
      (by simpa using hc)
      (fun k hk => by
        have := hm (k + 1) (by omega)
        simpa [Nat.add_assoc, Nat.add_comm 1 k] using this)
      (by simp only [set_stack_ip, set_ip_ptr_ptr]; omega)
      (by simp only [set_stack_ip, set_ip_ptr_ptr]; omega)
      (by simp only [set_stack_stack, List.length_cons]; omega)
    refine ⟨t, ?_, ?_, ?_, ?_⟩
    · rw [← ht, ← hstep]
      rfl
    · rw [htm]
      rfl
    · rw [hti]
      simp only [set_stack_ip, set_ip_ptr_ptr, Nat.add_assoc, Nat.add_comm 1 n]
    · rw [hts]
      simp only [set_stack_stack, List.length_cons]
      omega

/-- An expression that starts with 1024 immediates raises "Stack overflow" at the
1024th of them. -/
theorem vm_eval_1024_imms (cfg : Config) (c : Nat) (s : Machine) (base : Nat)
    (hop : cfg.mes_opcode_to_expr c = .MES_EXPR_IMM)
    (hc : s.ip.code = some base) (hs : s.stack = [])
    (hm : ∀ k, k < 1024 → s.memory (base + s.ip.ptr + k) % 256 = c)
    (hb : base + s.ip.ptr + 1024 ≤ cfg.memory_size) (hw : s.ip.ptr + 1024 < 4294967296) :
    vm_eval cfg s = VM_ERROR "Stack overflow" [] := by
  obtain ⟨g, hg⟩ : ∃ g, cfg.memory_size + 1 = g + 1 + 1023 := ⟨cfg.memory_size - 1023, by omega⟩
  obtain ⟨t, ht, htm, hti, hts⟩ := vm_eval_loop_imms cfg c hop 1023 (g + 1) s base hc
    (fun k hk => hm k (by omega)) (by omega) (by omega) (by simp [hs, VM_STACK_SIZE])
  unfold vm_eval
  rw [hg, ht]
  have htc : t.ip.code = some base := by rw [hti]
  have htp : t.ip.ptr = s.ip.ptr + 1023 := by rw [hti]
  refine vm_eval_loop_fail cfg g t _ c _
    (vm_read_byte_eq cfg t base c htc (by rw [htp]; omega)
      (by rw [htp, htm, ← Nat.add_assoc]; exact hm 1023 (by omega))) ?_
  simp only [vm_eval_op, hop, bind, Except.bind]
  rw [vm_stack_push_at_1023 _ _ (by simp only [set_ip_ptr_stack, hts, hs, List.length_nil])]
  rfl

/-! ## C15: the capacity of the expression stack -/

/-- C15 does not hold at 1023 values: on a stack that holds 1023 values, fewer than
1024, the push raises "Stack overflow". -/
theorem vm_stack_push_fails_below_1024 :
    ((example_machine []).set_stack (List.replicate 1023 0)).stack_ptr = 1023 ∧
    vm_stack_push ((example_machine []).set_stack (List.replicate 1023 0)) 5
      = VM_ERROR "Stack overflow" [] :=
  have h : ((example_machine []).set_stack (List.replicate 1023 0)).stack.length = 1023 := by
    show (List.replicate 1023 0).length = 1023
    rw [List.length_replicate]
  ⟨h, vm_stack_push_at_1023 _ 5 h⟩

/-- C15 with the bound the code has. The expression stack is an array of 1024
elements of which at most 1023 are in use: `vm_stack_push` stores the value,
increments `vm.stack_ptr` and raises "Stack overflow" when the result is
`VM_STACK_SIZE` or more.  A push succeeds whenever fewer than 1023 values are on the
stack; on a stack that holds 1023 values it raises the error, the value being stored
in the last element of the array; after a push that succeeds `vm.stack_ptr` is below
1024.  An expression that starts with 1024 immediates meets the error at the
1024th. -/
theorem vm_stack_push_overflow_at_1023 (s : Machine) (val : Nat) :
    (s.stack_ptr < 1023 → vm_stack_push s val = .ok (s.set_stack (u32 val :: s.stack))) ∧
    (s.stack_ptr = 1023 → vm_stack_push s val = VM_ERROR "Stack overflow" []) ∧
    (∀ s', vm_stack_push s val = .ok s' → s'.stack_ptr < 1024) ∧
    (∀ (cfg : Config) (c base : Nat), cfg.mes_opcode_to_expr c = .MES_EXPR_IMM →
      s.ip.code = some base → s.stack = [] →
      (∀ k, k < 1024 → s.memory (base + s.ip.ptr + k) % 256 = c) →
      base + s.ip.ptr + 1024 ≤ cfg.memory_size → s.ip.ptr + 1024 < 4294967296 →
      vm_eval cfg s = VM_ERROR "Stack overflow" []) := by
  refine ⟨fun h => ?_, fun h => ?_, fun s' h => ?_,
    fun cfg c base hop hc hs hm hb hw => vm_eval_1024_imms cfg c s base hop hc hs hm hb hw⟩
  · exact vm_stack_push_eq s val (by simp only [Machine.stack_ptr] at h; simp [VM_STACK_SIZE]; omega)
  · exact vm_stack_push_at_1023 s val h
  · simp only [vm_stack_push, stack_ptr_eq, set_stack_stack, List.length_cons,
      VM_STACK_SIZE] at h
    split at h
    · simp at h
    · split at h
      · simp [VM_ERROR] at h
      · simp only [Except.ok.injEq] at h
        subst h
        simp only [stack_ptr_eq, set_stack_stack, List.length_cons]
        omega

theorem example_imms_memory (k : Nat) (hk : k < 1024) :
    (example_machine (List.replicate 1024 1 ++ [0xFF])).memory (0x1000 + 0 + k) % 256 = 1 := by
  simp only [example_machine, example_memory]
  have hlen : k < (List.replicate 1024 1).length := by
    rw [List.length_replicate]
    exact hk
  rw [if_pos (by omega), Nat.add_zero, Nat.add_sub_cancel_left, List.getD_append _ _ _ _ hlen,
    List.getD_eq_getElem _ _ hlen, List.getElem_replicate]

/-- Witness for C15: the 1023rd value is pushed, the push of the 1024th value raises
"Stack overflow", and so does the expression `1, 1, ..., 1, END` of 1024
immediates. -/
theorem vm_stack_push_overflow_at_1023_witness :
    vm_stack_push ((example_machine []).set_stack (List.replicate 1022 0)) 5
      = .ok ((example_machine []).set_stack (5 :: List.replicate 1022 0)) ∧
    vm_stack_push ((example_machine []).set_stack (List.replicate 1023 0)) 5
      = VM_ERROR "Stack overflow" [] ∧
    vm_eval example_title (example_machine (List.replicate 1024 1 ++ [0xFF]))
      = VM_ERROR "Stack overflow" [] :=
  ⟨(vm_stack_push_overflow_at_1023 ((example_machine []).set_stack (List.replicate 1022 0)) 5).1
      (by
        show (List.replicate 1022 0).length < 1023
        rw [List.length_replicate]
        omega),
   (vm_stack_push_overflow_at_1023 ((example_machine []).set_stack (List.replicate 1023 0))
      5).2.1 (by
        show (List.replicate 1023 0).length = 1023
        rw [List.length_replicate]),
   (vm_stack_push_overflow_at_1023 (example_machine (List.replicate 1024 1 ++ [0xFF]))
      0).2.2.2 example_title 1 0x1000 rfl rfl rfl example_imms_memory (by decide) (by decide)⟩

/-! ## C16: popping from an empty stack -/

theorem OPERATOR_underflow (f : Nat → Nat → Except Fault Nat) (s : Machine)
    (h : s.stack.length < 2) : OPERATOR f s = VM_ERROR "Tried to pop from empty stack" [] := by
  cases hs : s.stack with
  | nil => simp [OPERATOR, vm_stack_pop, hs, bind, Except.bind, VM_ERROR]
  | cons b rest =>
    cases hr : rest with
    | nil =>
      simp [OPERATOR, vm_stack_pop, hs, hr, bind, Except.bind, VM_ERROR, Machine.set_stack]
    | cons a rest2 =>
      rw [hs, hr] at h
      simp only [List.length_cons] at h
      omega

/-- C16. `vm_stack_pop` on an empty stack raises the fatal error "Tried to pop from
empty stack", and the globals at the `VM_ERROR` call are the globals it was called
with: the check comes before the decrement, so `vm.stack_ptr` is still 0 and nothing
else has changed.  Hence, whatever the opcode table and the bytecode, a binary
operator met with fewer than two values on the stack is fatal, and so is `END` met
with an empty stack, in the switch of `vm_eval`, in its loop and in `vm_eval`
itself. -/
theorem vm_stack_pop_empty_is_fatal (cfg : Config) (s : Machine) :
    (s.stack_ptr = 0 →
      vm_stack_pop_traced s = VM_ERROR_at s "Tried to pop from empty stack" [] ∧
      vm_stack_pop s = VM_ERROR "Tried to pop from empty stack" []) ∧
    forget_globals (vm_stack_pop_traced s) = vm_stack_pop s ∧
    (∀ op, is_binary_operator (cfg.mes_opcode_to_expr op) = true → s.stack_ptr < 2 →
      vm_eval_op cfg op s = VM_ERROR "Tried to pop from empty stack" []) ∧
    (∀ op, cfg.mes_opcode_to_expr op = .MES_EXPR_END → s.stack_ptr = 0 →
      vm_eval_op cfg op s = VM_ERROR "Tried to pop from empty stack" []) ∧
    (∀ (op : Nat) (s0 : Machine) (fuel : Nat), vm_read_byte cfg s0 = .ok (op, s) →
      (is_binary_operator (cfg.mes_opcode_to_expr op) = true ∧ s.stack_ptr < 2) ∨
        (cfg.mes_opcode_to_expr op = .MES_EXPR_END ∧ s.stack_ptr = 0) →
      vm_eval_loop cfg (fuel + 1) s0 = VM_ERROR "Tried to pop from empty stack" [] ∧
      vm_eval cfg s0 = VM_ERROR "Tried to pop from empty stack" []) := by
  have hpop : s.stack_ptr = 0 →
      vm_stack_pop s = VM_ERROR "Tried to pop from empty stack" [] := by
    intro h
    have hs : s.stack = [] := List.length_eq_zero.mp h
    simp [vm_stack_pop, hs]
  have hbin : ∀ op, is_binary_operator (cfg.mes_opcode_to_expr op) = true → s.stack_ptr < 2 →
      vm_eval_op cfg op s = VM_ERROR "Tried to pop from empty stack" [] := by
    intro op hb hl
    have hu := fun f => OPERATOR_underflow f s hl
    cases hop : cfg.mes_opcode_to_expr op <;> rw [hop] at hb <;>
      first
      | exact absurd hb (by decide)
      | (simp only [vm_eval_op, hop, hu, bind, Except.bind, VM_ERROR])
  have hend : ∀ op, cfg.mes_opcode_to_expr op = .MES_EXPR_END → s.stack_ptr = 0 →
      vm_eval_op cfg op s = VM_ERROR "Tried to pop from empty stack" [] := by
    intro op hop h
    simp only [vm_eval_op, hop, hpop h, bind, Except.bind, VM_ERROR]
  have hpop_traced : s.stack_ptr = 0 →
      vm_stack_pop_traced s = VM_ERROR_at s "Tried to pop from empty stack" [] := by
    intro h
    have hs : s.stack = [] := List.length_eq_zero.mp h
    simp only [vm_stack_pop_traced, hs]
  refine ⟨fun h => ⟨hpop_traced h, hpop h⟩, vm_stack_pop_traced_forget s, hbin, hend, ?_⟩
  intro op s0 fuel hread h
  have hop : vm_eval_op cfg op s = VM_ERROR "Tried to pop from empty stack" [] := by
    rcases h with ⟨h1, h2⟩ | ⟨h1, h2⟩
    · exact hbin op h1 h2
    · exact hend op h1 h2
  exact ⟨vm_eval_loop_fail cfg fuel s0 s op _ hread hop,
    vm_eval_loop_fail cfg cfg.memory_size s0 s op _ hread hop⟩

/-- Witness for C16: a pop from the empty stack of `example_machine []` is fatal
with that machine as the globals at the error; `PLUS` with the one value 3 on the
stack and `END` with no value are fatal. -/
theorem vm_stack_pop_empty_is_fatal_witness :
    vm_stack_pop_traced (example_machine [])
      = VM_ERROR_at (example_machine []) "Tried to pop from empty stack" [] ∧
    vm_eval example_title (example_machine [3, 0xE0, 0xFF])
      = VM_ERROR "Tried to pop from empty stack" [] ∧
    vm_eval example_title (example_machine [0xFF])
      = VM_ERROR "Tried to pop from empty stack" [] ∧
    vm_eval_op example_title 0xE0 ((example_machine []).set_stack [3])
      = VM_ERROR "Tried to pop from empty stack" [] :=
  ⟨((vm_stack_pop_empty_is_fatal example_title (example_machine [])).1 rfl).1,
   by rfl,
   ((vm_stack_pop_empty_is_fatal example_title ((example_machine [0xFF]).set_ip_ptr 1)).2.2.2.2
      0xFF (example_machine [0xFF]) 0 rfl (Or.inr ⟨rfl, rfl⟩)).2,
   (vm_stack_pop_empty_is_fatal example_title ((example_machine []).set_stack [3])).2.2.1 0xE0
      rfl (by decide)⟩

/-! ## C17: comparison operators -/

theorem u32_c_bool (p : Bool) : u32 (c_bool p) = c_bool p := by
  cases p <;> rfl

theorem c_bool_decide (p : Prop) [Decidable p] : c_bool (decide p) = if p then 1 else 0 := by
  by_cases h : p <;> simp [c_bool, h]

/-- C17. For all 32-bit values `a` (pushed first) and `b`, `vm_eval` of
`IMM32 a, IMM32 b, OP, END` with `OP` among LT, GT, LTE, GTE, EQ, NEQ returns 1 when
the relation holds between `a` and `b` as unsigned 32-bit integers and 0 otherwise;
the result is never another value. -/
theorem vm_eval_comparison (cfg : Config) (s : Machine) (base a b imm32 op e : Nat)
    (hc : s.ip.code = some base) (hs : s.stack = [])
    (hm : mem_holds s.memory (base + s.ip.ptr)
      ((imm32 :: le_bytes32 a) ++ (imm32 :: le_bytes32 b) ++ [op, e]))
    (ha : a < 4294967296) (hb : b < 4294967296)
    (hbound : base + s.ip.ptr + 12 ≤ cfg.memory_size) (hwrap : s.ip.ptr + 12 < 4294967296)
    (himm : cfg.mes_opcode_to_expr imm32 = .MES_EXPR_IMM32)
    (hend : cfg.mes_opcode_to_expr e = .MES_EXPR_END) :
    (cfg.mes_opcode_to_expr op = .MES_EXPR_LT →
      vm_eval cfg s = .ok (if a < b then 1 else 0, s.set_ip_ptr (s.ip.ptr + 12))) ∧
    (cfg.mes_opcode_to_expr op = .MES_EXPR_GT →
      vm_eval cfg s = .ok (if a > b then 1 else 0, s.set_ip_ptr (s.ip.ptr + 12))) ∧
    (cfg.mes_opcode_to_expr op = .MES_EXPR_LTE →
      vm_eval cfg s = .ok (if a ≤ b then 1 else 0, s.set_ip_ptr (s.ip.ptr + 12))) ∧
    (cfg.mes_opcode_to_expr op = .MES_EXPR_GTE →
      vm_eval cfg s = .ok (if a ≥ b then 1 else 0, s.set_ip_ptr (s.ip.ptr + 12))) ∧
    (cfg.mes_opcode_to_expr op = .MES_EXPR_EQ →
      vm_eval cfg s = .ok (if a = b then 1 else 0, s.set_ip_ptr (s.ip.ptr + 12))) ∧
    (cfg.mes_opcode_to_expr op = .MES_EXPR_NEQ →
      vm_eval cfg s = .ok (if a ≠ b then 1 else 0, s.set_ip_ptr (s.ip.ptr + 12))) ∧
    (cfg.mes_opcode_to_expr op ∈ [.MES_EXPR_LT, .MES_EXPR_GT, .MES_EXPR_LTE, .MES_EXPR_GTE,
        .MES_EXPR_EQ, .MES_EXPR_NEQ] →
      ∃ r, vm_eval cfg s = .ok (r, s.set_ip_ptr (s.ip.ptr + 12)) ∧ (r = 0 ∨ r = 1)) := by
  have key : ∀ (p : Nat → Nat → Bool),
      (∀ t : Machine, vm_eval_op cfg op t =
        (OPERATOR (fun a b => pure (c_bool (p a b))) t >>= fun t1 => pure (none, t1))) →
      vm_eval cfg s = .ok (c_bool (p a b), s.set_ip_ptr (s.ip.ptr + 12)) := by
    intro p hop
    have := vm_eval_imm32_pair cfg s base a b imm32 op e (c_bool (p a b))
      (fun a b => pure (c_bool (p a b))) hc hs hm ha hb hbound hwrap himm hend hop rfl
    rw [this, u32_c_bool]
  have hlt : cfg.mes_opcode_to_expr op = .MES_EXPR_LT →
      vm_eval cfg s = .ok (if a < b then 1 else 0, s.set_ip_ptr (s.ip.ptr + 12)) := by
    intro h
    rw [key (fun a b => decide (a < b)) (fun t => by simp only [vm_eval_op, h]), c_bool_decide]
  have hgt : cfg.mes_opcode_to_expr op = .MES_EXPR_GT →
      vm_eval cfg s = .ok (if a > b then 1 else 0, s.set_ip_ptr (s.ip.ptr + 12)) := by
    intro h
    rw [key (fun a b => decide (a > b)) (fun t => by simp only [vm_eval_op, h]), c_bool_decide]
  have hle : cfg.mes_opcode_to_expr op = .MES_EXPR_LTE →
      vm_eval cfg s = .ok (if a ≤ b then 1 else 0, s.set_ip_ptr (s.ip.ptr + 12)) := by
    intro h
    rw [key (fun a b => decide (a ≤ b)) (fun t => by simp only [vm_eval_op, h]), c_bool_decide]
  have hge : cfg.mes_opcode_to_expr op = .MES_EXPR_GTE →
      vm_eval cfg s = .ok (if a ≥ b then 1 else 0, s.set_ip_ptr (s.ip.ptr + 12)) := by
    intro h
    rw [key (fun a b => decide (a ≥ b)) (fun t => by simp only [vm_eval_op, h]), c_bool_decide]
  have heq : cfg.mes_opcode_to_expr op = .MES_EXPR_EQ →
      vm_eval cfg s = .ok (if a = b then 1 else 0, s.set_ip_ptr (s.ip.ptr + 12)) := by
    intro h
    rw [key (fun a b => a == b) (fun t => by simp only [vm_eval_op, h])]
    by_cases hab : a = b <;> simp [c_bool, hab]
  have hne : cfg.mes_opcode_to_expr op = .MES_EXPR_NEQ →
      vm_eval cfg s = .ok (if a ≠ b then 1 else 0, s.set_ip_ptr (s.ip.ptr + 12)) := by
    intro h
    rw [key (fun a b => a != b) (fun t => by simp only [vm_eval_op, h])]
    by_cases hab : a = b <;> simp [c_bool, hab]
  refine ⟨hlt, hgt, hle, hge, heq, hne, ?_⟩
  intro hmem
  simp only [List.mem_cons, List.mem_singleton, List.not_mem_nil, or_false] at hmem
  rcases hmem with h | h | h | h | h | h
  · exact ⟨_, hlt h, by split <;> simp⟩
  · exact ⟨_, hgt h, by split <;> simp⟩
  · exact ⟨_, hle h, by split <;> simp⟩
  · exact ⟨_, hge h, by split <;> simp⟩
  · exact ⟨_, heq h, by split <;> simp⟩
  · exact ⟨_, hne h, by split <;> simp⟩

/-- Witness for C17: `0xFFFFFFFF GT 1` yields 1, and `0xFFFFFFFF LT 1` yields 0. -/
theorem vm_eval_comparison_witness :
    vm_eval example_title (example_machine (example_pair_expr 0xFFFFFFFF 1 0xEC))
      = .ok (1, (example_machine (example_pair_expr 0xFFFFFFFF 1 0xEC)).set_ip_ptr 12) ∧
    vm_eval example_title (example_machine (example_pair_expr 0xFFFFFFFF 1 0xEB))
      = .ok (0, (example_machine (example_pair_expr 0xFFFFFFFF 1 0xEB)).set_ip_ptr 12) :=
  ⟨(vm_eval_comparison example_title (example_machine (example_pair_expr 0xFFFFFFFF 1 0xEC))
      0x1000 0xFFFFFFFF 1 0xF2 0xEC 0xFF rfl rfl (by decide) (by decide) (by decide)
      (by decide) (by decide) rfl rfl).2.1 rfl,
   (vm_eval_comparison example_title (example_machine (example_pair_expr 0xFFFFFFFF 1 0xEB))
      0x1000 0xFFFFFFFF 1 0xF2 0xEB 0xFF rfl rfl (by decide) (by decide) (by decide)
      (by decide) (by decide) rfl rfl).1 rfl⟩

/-! ## Array reads: one case of the switch of `vm_eval` -/

theorem mem_get32_lt (cfg : Config) (m : Nat → Nat) (a v : Nat)
    (h : mem_get32 cfg m a = .ok v) : v < 4294967296 := by
  simp only [mem_get32] at h
  split at h
  · simp only [Except.ok.injEq] at h
    omega
  · simp at h

theorem mem_get8_lt (cfg : Config) (m : Nat → Nat) (a v : Nat)
    (h : mem_get8 cfg m a = .ok v) : v < 256 := by
  simp only [mem_get8] at h
  split at h
  · simp only [Except.ok.injEq] at h
    omega
  · simp at h

/-- The start of an array read: the index is popped and the variable byte is read. -/
theorem array_read_start (cfg : Config) (s : Machine) (base i var : Nat) (rest : List Nat)
    (hc : s.ip.code = some base) (hb : base + s.ip.ptr < cfg.memory_size)
    (hvar : s.memory (base + s.ip.ptr) % 256 = var) (hs : s.stack = i :: rest) :
    vm_stack_pop s = .ok (i, s.set_stack rest) ∧
    vm_read_byte cfg (s.set_stack rest) =
      .ok (var, (s.set_stack rest).set_ip_ptr (u32 (s.ip.ptr + 1))) ∧
    ((s.set_stack rest).set_ip_ptr (u32 (s.ip.ptr + 1))).memory = s.memory := by
  refine ⟨vm_stack_pop_eq s i rest hs, ?_, rfl⟩
  exact vm_read_byte_eq cfg (s.set_stack rest) base var (by simpa using hc)
    (by simpa using hb) (by simpa using hvar)

/-- The end of an array read: the value is pushed where the index was. -/
theorem array_read_push (s : Machine) (i v p : Nat) (rest : List Nat)
    (hs : s.stack = i :: rest) (hl : s.stack_ptr < VM_STACK_SIZE) (hv : v < 4294967296) :
    vm_stack_push ((s.set_stack rest).set_ip_ptr p) v =
      .ok (((s.set_stack rest).set_ip_ptr p).set_stack (v :: rest)) := by
  have hlen : rest.length + 1 < VM_STACK_SIZE := by
    simp only [Machine.stack_ptr, hs, List.length_cons] at hl
    exact hl
  rw [vm_stack_push_eq _ _ (by simpa using hlen), u32_of_lt hv]
  simp

/-! ## C18: `ARRAY16_GET16` and `ARRAY32_GET32` -/

/-- C18. For every popped index `i` and variable byte `var`: `ARRAY16_GET16` pushes
`system_var16[i]` when `var = 0` and otherwise the `i`-th `uint16_t` of the array
that starts at the memory offset held by `var16[var - 1]`; `ARRAY32_GET32` pushes
`system_var32[i]` when `var = 0` and otherwise the `i`-th `uint32_t` of the array
that starts at the memory offset held by `var32[var - 1]`. -/
theorem array_get16_get32 (cfg : Config) (s : Machine) (base i var op : Nat)
    (rest : List Nat)
    (hc : s.ip.code = some base) (hb : base + s.ip.ptr < cfg.memory_size)
    (hvar : s.memory (base + s.ip.ptr) % 256 = var) (hs : s.stack = i :: rest)
    (hl : s.stack_ptr < VM_STACK_SIZE) :
    (cfg.mes_opcode_to_expr op = .MES_EXPR_ARRAY16_GET16 →
      (var = 0 → ∀ v, mem_get16 cfg s.memory (system_var16_addr cfg i) = .ok v →
        array_read_pushes cfg op s v rest) ∧
      (var ≠ 0 → ∀ off v, mem_get16 cfg s.memory (var16_addr cfg (var - 1)) = .ok off →
        mem_get16 cfg s.memory (off + 2 * i) = .ok v →
        array_read_pushes cfg op s v rest)) ∧
    (cfg.mes_opcode_to_expr op = .MES_EXPR_ARRAY32_GET32 →
      (var = 0 → ∀ v, mem_get32 cfg s.memory (system_var32_addr cfg i) = .ok v →
        array_read_pushes cfg op s v rest) ∧
      (var ≠ 0 → ∀ off v, mem_get32 cfg s.memory (var32_addr cfg (var - 1)) = .ok off →
        mem_get32 cfg s.memory (off + 4 * i) = .ok v →
        array_read_pushes cfg op s v rest)) := by
  obtain ⟨hpop, hread, hmem⟩ := array_read_start cfg s base i var rest hc hb hvar hs
  have hpush := fun v hv => array_read_push s i v (u32 (s.ip.ptr + 1)) rest hs hl hv
  refine ⟨fun hop => ⟨?_, ?_⟩, fun hop => ⟨?_, ?_⟩⟩
  · intro h0 v hv
    refine ⟨((s.set_stack rest).set_ip_ptr (u32 (s.ip.ptr + 1))).set_stack (v :: rest),
      ?_, rfl, rfl, rfl⟩
    simp only [system_var16_addr] at hv
    simp only [vm_eval_op, hop, hpop, hread, hmem, h0, if_true, hv,
      hpush v (by have := mem_get16_lt cfg _ _ _ hv; omega), bind, Except.bind, pure,
      Except.pure]
  · intro h0 off v hoff hv
    refine ⟨((s.set_stack rest).set_ip_ptr (u32 (s.ip.ptr + 1))).set_stack (v :: rest),
      ?_, rfl, rfl, rfl⟩
    simp only [vm_eval_op, hop, hpop, hread, hmem, if_neg h0, hoff, hv,
      hpush v (by have := mem_get16_lt cfg _ _ _ hv; omega), bind, Except.bind, pure,
      Except.pure]
  · intro h0 v hv
    refine ⟨((s.set_stack rest).set_ip_ptr (u32 (s.ip.ptr + 1))).set_stack (v :: rest),
      ?_, rfl, rfl, rfl⟩
    simp only [system_var32_addr] at hv
    simp only [vm_eval_op, hop, hpop, hread, hmem, h0, if_true, hv,
      hpush v (mem_get32_lt cfg _ _ _ hv), bind, Except.bind, pure, Except.pure]
  · intro h0 off v hoff hv
    refine ⟨((s.set_stack rest).set_ip_ptr (u32 (s.ip.ptr + 1))).set_stack (v :: rest),
      ?_, rfl, rfl, rfl⟩
    simp only [vm_eval_op, hop, hpop, hread, hmem, if_neg h0, hoff, hv,
      hpush v (mem_get32_lt cfg _ _ _ hv), bind, Except.bind, pure, Except.pure]

/-- Witness for C18, on `example_bank_machine`: `ARRAY16_GET16` with `var = 0` and
index 2 pushes `sys_var16[2] = 0x1234`, with `var = 3` and index 1 the second
`uint16_t` of the array at `usr_var16[2] = 0x2000`; `ARRAY32_GET32` with `var = 0`
and index 1 pushes `sys_var32[1] = 0x12345678`, with `var = 2` and index 1 the second
`uint32_t` of the array at `usr_var32[1] = 0x3000`. -/
theorem array_get16_get32_witness :
    array_read_pushes example_title 0xA0 (example_bank_machine [0] [2]) 0x1234 [] ∧
    array_read_pushes example_title 0xA0 (example_bank_machine [3] [1]) 0xABCD [] ∧
    array_read_pushes example_title 0xF5 (example_bank_machine [0] [1]) 0x12345678 [] ∧
    array_read_pushes example_title 0xF5 (example_bank_machine [2] [1]) 0xDEADBEEF [] :=
  ⟨((array_get16_get32 example_title (example_bank_machine [0] [2]) 0x1000 2 0 0xA0 [] rfl
      (by decide) rfl rfl (by decide)).1 rfl).1 rfl 0x1234 rfl,
   ((array_get16_get32 example_title (example_bank_machine [3] [1]) 0x1000 1 3 0xA0 [] rfl
      (by decide) rfl rfl (by decide)).1 rfl).2 (by decide) 0x2000 0xABCD rfl rfl,
   ((array_get16_get32 example_title (example_bank_machine [0] [1]) 0x1000 1 0 0xF5 [] rfl
      (by decide) rfl rfl (by decide)).2 rfl).1 rfl 0x12345678 rfl,
   ((array_get16_get32 example_title (example_bank_machine [2] [1]) 0x1000 1 2 0xF5 [] rfl
      (by decide) rfl rfl (by decide)).2 rfl).2 (by decide) 0x3000 0xDEADBEEF rfl rfl⟩

/-! ## C19: `ARRAY16_GET8` -/

/-- C19, what the code does: for every popped index `i` and variable byte `var`,
`ARRAY16_GET8` pushes the byte at offset `i` from the memory offset held by
`var16[var]`: the case has no branch for `var = 0`, which `ARRAY16_GET16` has, and
it indexes the bank with `var`, not with `var - 1`. -/
theorem array16_get8_reads_var16_var (cfg : Config) (s : Machine) (base i var op : Nat)
    (rest : List Nat)
    (hc : s.ip.code = some base) (hb : base + s.ip.ptr < cfg.memory_size)
    (hvar : s.memory (base + s.ip.ptr) % 256 = var) (hs : s.stack = i :: rest)
    (hl : s.stack_ptr < VM_STACK_SIZE)
    (hop : cfg.mes_opcode_to_expr op = .MES_EXPR_ARRAY16_GET8) :
    ∀ off v, mem_get16 cfg s.memory (var16_addr cfg var) = .ok off →
      mem_get8 cfg s.memory (off + i) = .ok v → array_read_pushes cfg op s v rest := by
  obtain ⟨hpop, hread, hmem⟩ := array_read_start cfg s base i var rest hc hb hvar hs
  intro off v hoff hv
  refine ⟨((s.set_stack rest).set_ip_ptr (u32 (s.ip.ptr + 1))).set_stack (v :: rest),
    ?_, rfl, rfl, rfl⟩
  simp only [vm_eval_op, hop, hpop, hread, hmem, hoff, hv,
    array_read_push s i v (u32 (s.ip.ptr + 1)) rest hs hl
      (by have := mem_get8_lt cfg _ _ _ hv; omega),
    bind, Except.bind, pure, Except.pure]

/-- Witness for C19, on `example_bank_machine`: with `var = 0` and index 1 the byte
pushed is `0xBB`, found at `usr_var16[0] + 1 = 0x2101`, while byte 1 of the
`system_var16` bank is `0xAA`; with `var = 3` and index 1 it is `0xCC`, found at
`usr_var16[3] + 1 = 0x2201`, while the byte at `usr_var16[2] + 1 = 0x2001` is
`0x99`. -/
theorem array16_get8_reads_var16_var_witness :
    array_read_pushes example_title 0xC0 (example_bank_machine [0] [1]) 0xBB [] ∧
    mem_get8 example_title (example_bank_machine [0] [1]).memory
      (example_title.system_var16_off + 1) = .ok 0xAA ∧
    array_read_pushes example_title 0xC0 (example_bank_machine [3] [1]) 0xCC [] ∧
    mem_get8 example_title (example_bank_machine [3] [1]).memory (0x2000 + 1) = .ok 0x99 :=
  ⟨array16_get8_reads_var16_var example_title (example_bank_machine [0] [1]) 0x1000 1 0 0xC0 []
      rfl (by decide) rfl rfl (by decide) rfl 0x2100 0xBB rfl rfl,
   rfl,
   array16_get8_reads_var16_var example_title (example_bank_machine [3] [1]) 0x1000 1 3 0xC0 []
      rfl (by decide) rfl rfl (by decide) rfl 0x2200 0xCC rfl rfl,
   rfl⟩

/-! ## C20: `ARRAY32_GET16` and `ARRAY32_GET8` -/

/-- C20, what the code does: for every popped index `i` and variable byte `var`,
`ARRAY32_GET16` and `ARRAY32_GET8` read element `i` (`uint16_t`, resp. `uint8_t`)
from the memory offset held by `usr_var32[var - 1]`.  For `var != 0` that is a cell
of the bank.  The cases have no branch for `var = 0`, which `ARRAY32_GET32` has:
with `var = 0` the offset is taken from the four bytes in front of the `var32` bank,
not from the `system_var32` bank. -/
theorem array32_get16_get8_read_var32_pred (cfg : Config) (s : Machine)
    (base i var op : Nat) (rest : List Nat)
    (hc : s.ip.code = some base) (hb : base + s.ip.ptr < cfg.memory_size)
    (hvar : s.memory (base + s.ip.ptr) % 256 = var) (hs : s.stack = i :: rest)
    (hl : s.stack_ptr < VM_STACK_SIZE) (hbank : 4 ≤ cfg.var32_off) :
    (cfg.mes_opcode_to_expr op = .MES_EXPR_ARRAY32_GET16 →
      ∀ off v, mem_get32 cfg s.memory (cfg.var32_off + 4 * var - 4) = .ok off →
        mem_get16 cfg s.memory (off + 2 * i) = .ok v → array_read_pushes cfg op s v rest) ∧
    (cfg.mes_opcode_to_expr op = .MES_EXPR_ARRAY32_GET8 →
      ∀ off v, mem_get32 cfg s.memory (cfg.var32_off + 4 * var - 4) = .ok off →
        mem_get8 cfg s.memory (off + i) = .ok v → array_read_pushes cfg op s v rest) ∧
    (var ≠ 0 → cfg.var32_off + 4 * var - 4 = var32_addr cfg (var - 1)) ∧
    (var = 0 → cfg.var32_off + 4 * var - 4 = cfg.var32_off - 4 ∧
      cfg.var32_off + 4 * var - 4 < var32_addr cfg 0) := by
  obtain ⟨hpop, hread, hmem⟩ := array_read_start cfg s base i var rest hc hb hvar hs
  have hpush := fun v hv => array_read_push s i v (u32 (s.ip.ptr + 1)) rest hs hl hv
  have hpred : ∀ off, mem_get32 cfg s.memory (cfg.var32_off + 4 * var - 4) = .ok off →
      var32_pred cfg s.memory var = .ok off := by
    intro off h
    simp only [var32_pred]
    rw [if_pos (by omega)]
    exact h
  refine ⟨fun hop off v hoff hv => ?_, fun hop off v hoff hv => ?_, fun h0 => ?_, fun h0 => ?_⟩
  · refine ⟨((s.set_stack rest).set_ip_ptr (u32 (s.ip.ptr + 1))).set_stack (v :: rest),
      ?_, rfl, rfl, rfl⟩
    simp only [vm_eval_op, hop, hpop, hread, hmem, hpred off hoff, hv,
      hpush v (by have := mem_get16_lt cfg _ _ _ hv; omega), bind, Except.bind, pure,
      Except.pure]
  · refine ⟨((s.set_stack rest).set_ip_ptr (u32 (s.ip.ptr + 1))).set_stack (v :: rest),
      ?_, rfl, rfl, rfl⟩
    simp only [vm_eval_op, hop, hpop, hread, hmem, hpred off hoff, hv,
      hpush v (by have := mem_get8_lt cfg _ _ _ hv; omega), bind, Except.bind, pure,
      Except.pure]
  · simp only [var32_addr]
    omega
  · subst h0
    simp only [var32_addr]
    omega

/-- Witness for C20, on `example_bank_machine`: with `var = 0` and index 1 the four
bytes in front of `usr_var32` (`0x3100`) give the base: `ARRAY32_GET16` pushes
`0x5555` and `ARRAY32_GET8` pushes `0xA5`, while the second `uint16_t` of the
`system_var32` bank is `0x7766` and its second byte is `0x55`.  With `var = 2` the
base is `usr_var32[1] = 0x3000`. -/
theorem array32_get16_get8_read_var32_pred_witness :
    array_read_pushes example_title 0xF6 (example_bank_machine [0] [1]) 0x5555 [] ∧
    array_read_pushes example_title 0xF7 (example_bank_machine [0] [1]) 0xA5 [] ∧
    mem_get16 example_title (example_bank_machine [0] [1]).memory
      (example_title.system_var32_off + 2 * 1) = .ok 0x7766 ∧
    mem_get8 example_title (example_bank_machine [0] [1]).memory
      (example_title.system_var32_off + 1) = .ok 0x55 ∧
    array_read_pushes example_title 0xF6 (example_bank_machine [2] [1]) 0xF00D [] ∧
    array_read_pushes example_title 0xF7 (example_bank_machine [2] [1]) 0x5A [] :=
  ⟨(array32_get16_get8_read_var32_pred example_title (example_bank_machine [0] [1]) 0x1000 1 0
      0xF6 [] rfl (by decide) rfl rfl (by decide) (by decide)).1 rfl 0x3100 0x5555 rfl rfl,
   (array32_get16_get8_read_var32_pred example_title (example_bank_machine [0] [1]) 0x1000 1 0
      0xF7 [] rfl (by decide) rfl rfl (by decide) (by decide)).2.1 rfl 0x3100 0xA5 rfl rfl,
   rfl, rfl,
   (array32_get16_get8_read_var32_pred example_title (example_bank_machine [2] [1]) 0x1000 1 2
      0xF6 [] rfl (by decide) rfl rfl (by decide) (by decide)).1 rfl 0x3000 0xF00D rfl rfl,
   (array32_get16_get8_read_var32_pred example_title (example_bank_machine [2] [1]) 0x1000 1 2
      0xF7 [] rfl (by decide) rfl rfl (by decide) (by decide)).2.1 rfl 0x3000 0x5A rfl rfl⟩

/-! ## C24: `SYS` with a group number that has no handler -/

/-- C24. For every evaluated group number outside
`{0, 2, 3, 4, 5, 7, 8, 9, 10, 11, 12, 13, 14, 15, 18, 23}`, negative values of the
`int32_t` included, `stmt_sys` reads the parameter list and then raises the fatal
error "System.function[%d] not implemented" with that number as its argument.  The
globals at the `VM_ERROR` call are the globals `read_params` left, with the
collaborator trace of that moment: the `default` case of the switch is taken and no
handler has run. -/
theorem stmt_sys_unknown_group (cfg : Config) (exec : State → Except Fault State)
    (fuel : Nat) (s s1 s2 : State) (no : Nat) (params : param_list)
    (h1 : s.run (vm_eval cfg) = .ok (no, s1))
    (h2 : s1.run (read_params cfg) = .ok (params, s2))
    (hno : no ∉ [0, 2, 3, 4, 5, 7, 8, 9, 10, 11, 12, 13, 14, 15, 18, 23]) :
    stmt_sys cfg exec fuel s = VM_ERROR "System.function[%d] not implemented" [i32 no] ∧
    stmt_sys_traced cfg exec fuel s
      = VM_ERROR_at s2 "System.function[%d] not implemented" [i32 no] ∧
    forget_globals (stmt_sys_traced cfg exec fuel s) = stmt_sys cfg exec fuel s := by
  refine ⟨?_, ?_, stmt_sys_traced_forget cfg exec fuel s⟩
  · simp only [stmt_sys, h1, h2, bind, Except.bind]
    simp only [List.mem_cons, List.mem_singleton, List.not_mem_nil, or_false, not_or] at hno
    obtain ⟨h0, h2, h3, h4, h5, h7, h8, h9, h10, h11, h12, h13, h14, h15, h18, h23⟩ := hno
    split <;> first
      | contradiction
      | rfl
  · simp only [stmt_sys_traced, h1, h2, of_callee_ok, bind, Except.bind]
    simp only [List.mem_cons, List.mem_singleton, List.not_mem_nil, or_false, not_or] at hno
    obtain ⟨h0, h2, h3, h4, h5, h7, h8, h9, h10, h11, h12, h13, h14, h15, h18, h23⟩ := hno
    split <;> first
      | contradiction
      | rfl

/-- Witness for C24: `SYS 1` and `SYS -1` with an empty parameter list; at the error
of `SYS 1` the globals are those after the parameter list was read, with `vm.ip.ptr`
at 3. -/
theorem stmt_sys_unknown_group_witness :
    stmt_sys example_title (vm_exec example_title 5) 5 (example_state [1, 0xFF, 0])
      = VM_ERROR "System.function[%d] not implemented" [1] ∧
    stmt_sys_traced example_title (vm_exec example_title 5) 5 (example_state [1, 0xFF, 0])
      = VM_ERROR_at ((example_state [1, 0xFF, 0]).with_ip { ptr := 3, code := some 0x1000 })
          "System.function[%d] not implemented" [1] ∧
    stmt_sys example_title (vm_exec example_title 5) 5
        (example_state [0xF2, 0xFF, 0xFF, 0xFF, 0xFF, 0xFF, 0])
      = VM_ERROR "System.function[%d] not implemented" [-1] :=
  ⟨(stmt_sys_unknown_group example_title (vm_exec example_title 5) 5
      (example_state [1, 0xFF, 0])
      ((example_state [1, 0xFF, 0]).with_ip { ptr := 2, code := some 0x1000 })
      ((example_state [1, 0xFF, 0]).with_ip { ptr := 3, code := some 0x1000 })
      1 param_list_zero rfl rfl (by decide)).1,
   (stmt_sys_unknown_group example_title (vm_exec example_title 5) 5
      (example_state [1, 0xFF, 0])
      ((example_state [1, 0xFF, 0]).with_ip { ptr := 2, code := some 0x1000 })
      ((example_state [1, 0xFF, 0]).with_ip { ptr := 3, code := some 0x1000 })
      1 param_list_zero rfl rfl (by decide)).2.1,
   (stmt_sys_unknown_group example_title (vm_exec example_title 5) 5
      (example_state [0xF2, 0xFF, 0xFF, 0xFF, 0xFF, 0xFF, 0])
      ((example_state [0xF2, 0xFF, 0xFF, 0xFF, 0xFF, 0xFF, 0]).with_ip
        { ptr := 6, code := some 0x1000 })
      ((example_state [0xF2, 0xFF, 0xFF, 0xFF, 0xFF, 0xFF, 0]).with_ip
        { ptr := 7, code := some 0x1000 })
      0xFFFFFFFF param_list_zero rfl rfl (by decide)).1⟩

/-! ## C25: savedata slot names -/

/-- The alpha of a glyph pixel with a non-zero mask, without the conversions. -/
theorem glyph_alpha_eq (msk : Nat) (h : 1 ≤ msk) : glyph_alpha msk = min msk 15 * 16 - 8 := by
  rcases Nat.lt_or_ge msk 15 with h15 | h15
  · interval_cases msk <;> rfl
  · have hmin : min msk 15 = 15 := Nat.min_eq_right h15
    unfold glyph_alpha
    rw [hmin]
    rfl

/-- The alpha of a glyph pixel is a `uint8_t`. -/
theorem glyph_alpha_lt (msk : Nat) : glyph_alpha msk < 256 := by
  rcases Nat.lt_or_ge msk 15 with h15 | h15
  · interval_cases msk <;> decide
  · have hmin : min msk 15 = 15 := Nat.min_eq_right h15
    unfold glyph_alpha
    rw [hmin]
    decide

/-- One channel of `alpha_blend_rgb_mono` and `alpha_blend_rgb_bgr`: the `uint32_t`
arithmetic does not wrap and the result fits a byte before the conversion. -/
theorem blend_channel (alpha fg c : Nat) (ha : alpha < 256) :
    u8 (u32 (u32 (u8 alpha + 1) * (fg % 256) + u32 (256 - u8 alpha) * (c % 256)) / 256)
      = ((alpha + 1) * (fg % 256) + (256 - alpha) * (c % 256)) / 256 := by
  have hf : fg % 256 < 256 := Nat.mod_lt _ (by decide)
  have hc : c % 256 < 256 := Nat.mod_lt _ (by decide)
  have h1 : (alpha + 1) * (fg % 256) ≤ (alpha + 1) * 255 := Nat.mul_le_mul_left _ (by omega)
  have h2 : (256 - alpha) * (c % 256) ≤ (256 - alpha) * 255 := Nat.mul_le_mul_left _ (by omega)
  have ea : u32 (u8 alpha + 1) = alpha + 1 := by unfold u32 u8; omega
  have ei : u32 (256 - u8 alpha) = 256 - alpha := by unfold u32 u8; omega
  rw [ea, ei]
  unfold u8 u32
  omega

/-- One channel store of the blend functions, byte by byte. -/
theorem blend_store_eq (bg : Nat → Nat) (k alpha fg : Nat) (ha : alpha < 256) (y : Nat) :
    blend_store bg k (u32 (u8 alpha + 1)) (u32 (256 - u8 alpha)) (u8 fg) y
      = if y = k then ((alpha + 1) * (fg % 256) + (256 - alpha) * (bg k % 256)) / 256
        else bg y := by
  have e := blend_channel alpha fg (bg k) ha
  have hlt : u8 (u32 (u32 (u8 alpha + 1) * (fg % 256) + u32 (256 - u8 alpha) * (bg k % 256))
      / 256) < 256 := Nat.mod_lt _ (by decide)
  unfold blend_store buf_set
  show (if y = k then u8 (u32 (u32 (u8 alpha + 1) * (fg % 256)
    + u32 (256 - u8 alpha) * (bg k % 256)) / 256) % 256 else bg y) = _
  by_cases hy : y = k
  · rw [if_pos hy, if_pos hy, Nat.mod_eq_of_lt hlt, e]
  · rw [if_neg hy, if_neg hy]

/-- The buffer after `alpha_blend_rgb_mono`, byte by byte. -/
theorem alpha_blend_rgb_mono_eq (bg : Nat → Nat) (p fg alpha : Nat) (ha : alpha < 256)
    (x : Nat) :
    alpha_blend_rgb_mono bg p fg alpha x =
      if p ≤ x ∧ x < p + 3 then
        ((alpha + 1) * (fg % 256) + (256 - alpha) * (bg x % 256)) / 256
      else bg x := by
  simp only [alpha_blend_rgb_mono, blend_store_eq _ _ alpha fg ha]
  split_ifs <;> first
    | rfl
    | omega
    | (subst_vars; rfl)

/-- Three byte stores at a pixel, byte by byte. -/
theorem buf_set_pixel (dst : Nat → Nat) (d v : Nat) (x : Nat) :
    buf_set (buf_set (buf_set dst d v) (d + 1) v) (d + 2) v x
      = if d ≤ x ∧ x < d + 3 then v % 256 else dst x := by
  unfold buf_set
  split_ifs <;> first
    | rfl
    | omega

/-- The inner loop body of `render_char_merged` without a palette, byte by byte. -/
theorem render_char_merged_pixel_eq (dst fnt msk : Nat → Nat) (d g x : Nat) :
    render_char_merged_pixel dst fnt msk none d g x
      = if d ≤ x ∧ x < d + 3 then merged_mono_channel (fnt g) (msk g) (dst x) else dst x := by
  unfold render_char_merged_pixel merged_mono_channel
  by_cases h0 : msk g % 256 = 0
  · rw [if_pos h0, if_pos h0]
    split_ifs <;> rfl
  · rw [if_neg h0, if_neg h0]
    dsimp only
    by_cases h15 : msk g % 256 > 15
    · rw [if_pos h15, if_pos h15, buf_set_pixel]
    · rw [if_neg h15, if_neg h15,
        alpha_blend_rgb_mono_eq dst d (fnt g) _ (glyph_alpha_lt _),
        glyph_alpha_eq _ (by omega), Nat.min_eq_left (by omega)]

/-- A row of glyph pixels: if the loop body changes the three bytes of its pixel only,
and each byte as a function `chan` of the glyph index, the channel and the old byte,
then so does the inner loop for every pixel of the row. -/
theorem render_row_eq (step : (Nat → Nat) → Nat → Nat → Nat → Nat)
    (chan : Nat → Nat → Nat → Nat)
    (hstep : ∀ dst d g x, step dst d g x
      = if d ≤ x ∧ x < d + 3 then chan g (x - d) (dst x) else dst x)
    (d g0 : Nat) (w : Nat) (dst : Nat → Nat) (x : Nat) :
    (List.range w).foldl (fun dst col => step dst (d + 3 * col) (g0 + col)) dst x
      = if d ≤ x ∧ x < d + 3 * w then chan (g0 + (x - d) / 3) ((x - d) % 3) (dst x)
        else dst x := by
  induction w generalizing x with
  | zero =>
    rw [List.range_zero, List.foldl_nil, if_neg (by omega)]
  | succ w ih =>
    rw [List.range_succ, List.foldl_append, List.foldl_cons, List.foldl_nil, hstep, ih]
    by_cases hx : d + 3 * w ≤ x ∧ x < d + 3 * w + 3
    · have e1 : (x - d) / 3 = w := by omega
      have e2 : (x - d) % 3 = x - (d + 3 * w) := by omega
      rw [if_pos hx, if_neg (by omega), if_pos (by omega), e1, e2]
    · rw [if_neg hx]
      by_cases hx2 : d ≤ x ∧ x < d + 3 * w
      · rw [if_pos hx2, if_pos (by omega)]
      · rw [if_neg hx2, if_neg (by omega)]

/-- A glyph: with rows that do not overlap (`3 * w <= stride`), the two loops change
each byte of the `w` by `h` rectangle as `chan` says and no other byte. -/
theorem render_rows_eq (step : (Nat → Nat) → Nat → Nat → Nat → Nat)
    (chan : Nat → Nat → Nat → Nat)
    (hstep : ∀ dst d g x, step dst d g x
      = if d ≤ x ∧ x < d + 3 then chan g (x - d) (dst x) else dst x)
    (w stride : Nat) (hs : 3 * w ≤ stride) (dst : Nat → Nat) (h : Nat) :
    (∀ row col k, row < h → col < w → k < 3 →
      (List.range h).foldl (fun dst row =>
        (List.range w).foldl (fun dst col =>
          step dst (row * stride + 3 * col) (w * row + col)) dst) dst
        (row * stride + 3 * col + k)
      = chan (w * row + col) k (dst (row * stride + 3 * col + k))) ∧
    (∀ x, (∀ row col k, row < h → col < w → k < 3 → x ≠ row * stride + 3 * col + k) →
      (List.range h).foldl (fun dst row =>
        (List.range w).foldl (fun dst col =>
          step dst (row * stride + 3 * col) (w * row + col)) dst) dst x
      = dst x) := by
  induction h with
  | zero =>
    exact ⟨fun row col k hr => absurd hr (Nat.not_lt_zero _), fun x _ => rfl⟩
  | succ h ih =>
    obtain ⟨ihA, ihB⟩ := ih
    have hrow : ∀ r, r < h → r * stride + stride ≤ h * stride := fun r hr => by
      have := Nat.mul_le_mul_right stride (Nat.succ_le_of_lt hr)
      rw [Nat.succ_mul] at this
      exact this
    constructor
    · intro row col k hr hc hk
      rw [List.range_succ, List.foldl_append, List.foldl_cons, List.foldl_nil,
        render_row_eq step chan hstep]
      by_cases hrh : row = h
      · subst hrh
        have e1 : (row * stride + 3 * col + k - row * stride) / 3 = col := by omega
        have e2 : (row * stride + 3 * col + k - row * stride) % 3 = k := by omega
        rw [if_pos (by omega), e1, e2, ihB]
        intro r c j hr2 hc2 hj
        have := hrow r hr2
        omega
      · have hlt : row < h := by omega
        have := hrow row hlt
        rw [if_neg (by omega)]
        exact ihA row col k hlt hc hk
    · intro x hx
      rw [List.range_succ, List.foldl_append, List.foldl_cons, List.foldl_nil,
        render_row_eq step chan hstep]
      by_cases hin : h * stride ≤ x ∧ x < h * stride + 3 * w
      · exfalso
        refine hx h ((x - h * stride) / 3) ((x - h * stride) % 3) (Nat.lt_succ_self h)
          (by omega) (Nat.mod_lt _ (by decide)) ?_
        omega
      · rw [if_neg hin]
        exact ihB x (fun row col k hr hc hk => hx row col k (Nat.lt_succ_of_lt hr) hc hk)

/-! ## C29: the alpha of the text blend modes -/

/-- C29 does not hold for the saturation value: for the mask value 15 the alpha is
`15 * 16 - 8 = 232`, not 247, and a white glyph pixel blended over black with it
gives 232 in every channel, where alpha 247 would give 247. -/
theorem glyph_alpha_saturates_below_247 :
    glyph_alpha 15 = 232 ∧ glyph_alpha 15 ≠ 247 ∧ glyph_alpha 255 = 232 ∧
    render_char_merged_pixel (fun _ => 0) (fun _ => 255) (fun _ => 15) none 0 0 0 = 232 ∧
    alpha_blend_rgb_mono (fun _ => 0) 0 255 247 0 = 247 := by
  refine ⟨rfl, by decide, rfl, rfl, rfl⟩

/-- C29 with the saturation value the formula gives. For every mask value
`msk >= 1` the alpha used by the text blend modes is `min(msk, 15) * 16 - 8`, and it
saturates at 232 for every `msk >= 15`: this is the alpha `render_char_merged` passes
to `alpha_blend_rgb_bgr` with a palette and to `alpha_blend_rgb_mono` without one,
and the alpha `render_char_redscale` passes to `alpha_blend_rgb_mono` (the last two
blend for `msk <= 15` only). -/
theorem glyph_alpha_formula (dst fnt msk pal : Nat → Nat) (d g : Nat)
    (h : 1 ≤ msk g % 256) :
    glyph_alpha (msk g % 256) = min (msk g % 256) 15 * 16 - 8 ∧
    (15 ≤ msk g % 256 → glyph_alpha (msk g % 256) = 232) ∧
    render_char_merged_pixel dst fnt msk (some pal) d g
      = alpha_blend_rgb_bgr dst d pal (fnt g % 256 * 3) (min (msk g % 256) 15 * 16 - 8) ∧
    (msk g % 256 ≤ 15 → render_char_merged_pixel dst fnt msk none d g
      = alpha_blend_rgb_mono dst d (fnt g) (min (msk g % 256) 15 * 16 - 8)) ∧
    (msk g % 256 ≤ 15 → render_char_redscale_pixel dst fnt msk d g
      = buf_set (buf_set
          (alpha_blend_rgb_mono dst d (fnt g) (min (msk g % 256) 15 * 16 - 8)) (d + 1) 0)
          (d + 2) 0) := by
  have h0 : ¬ msk g % 256 = 0 := by omega
  have ha := glyph_alpha_eq (msk g % 256) h
  refine ⟨ha, fun h15 => ?_, ?_, fun h15 => ?_, fun h15 => ?_⟩
  · rw [ha, Nat.min_eq_right h15]
  · unfold render_char_merged_pixel
    rw [if_neg h0, ha]
  · unfold render_char_merged_pixel
    rw [if_neg h0, ha]
    dsimp only
    rw [if_neg (by omega)]
  · unfold render_char_redscale_pixel
    rw [if_neg h0, ha]
    dsimp only
    rw [if_neg (by omega)]

/-- Witness for C29: the mask values 8 and 15 of the example glyph give the alphas
120 and 232. -/
theorem glyph_alpha_formula_witness :
    glyph_alpha (example_glyph_msk 1 % 256) = 120 ∧
    glyph_alpha (example_glyph_msk 2 % 256) = 232 :=
  ⟨(glyph_alpha_formula example_surface example_glyph_fnt example_glyph_msk example_glyph_fnt
      0 1 (by decide)).1,
   (glyph_alpha_formula example_surface example_glyph_fnt example_glyph_msk example_glyph_fnt
      0 2 (by decide)).2.1 (by decide)⟩

/-! ## C30: `render_char_merged` without a palette -/

/-- C30. `render_char_merged` without a palette, on a surface whose rows are at
least as long as a glyph row (`3 * char_w <= stride`): for the glyph pixel in row
`row` and column `col`, with grey value `g` and mask `m`, and each of the three
channels of its destination pixel, holding `c`: `m = 0` leaves the channel as it is,
`m > 15` sets it to `g`, and `1 <= m <= 15` sets it to
`((alpha + 1) * g + (256 - alpha) * c) >> 8` with `alpha = m * 16 - 8`; no byte
outside the `char_w` by `char_h` rectangle of pixels is modified. -/
theorem render_char_merged_no_palette (dst fnt msk : Nat → Nat)
    (char_w char_h stride : Nat) (hs : 3 * char_w ≤ stride) :
    (∀ row col k, row < char_h → col < char_w → k < 3 →
      (msk (char_w * row + col) % 256 = 0 →
        render_char_merged dst fnt msk none char_w char_h stride (row * stride + 3 * col + k)
          = dst (row * stride + 3 * col + k)) ∧
      (msk (char_w * row + col) % 256 > 15 →
        render_char_merged dst fnt msk none char_w char_h stride (row * stride + 3 * col + k)
          = fnt (char_w * row + col) % 256) ∧
      (1 ≤ msk (char_w * row + col) % 256 → msk (char_w * row + col) % 256 ≤ 15 →
        render_char_merged dst fnt msk none char_w char_h stride (row * stride + 3 * col + k)
          = ((msk (char_w * row + col) % 256 * 16 - 8 + 1) * (fnt (char_w * row + col) % 256)
              + (256 - (msk (char_w * row + col) % 256 * 16 - 8))
                * (dst (row * stride + 3 * col + k) % 256)) / 256)) ∧
    (∀ x, (∀ row col k, row < char_h → col < char_w → k < 3 →
        x ≠ row * stride + 3 * col + k) →
      render_char_merged dst fnt msk none char_w char_h stride x = dst x) := by
  obtain ⟨hA, hB⟩ := render_rows_eq
    (fun dst d g => render_char_merged_pixel dst fnt msk none d g)
    (fun g _ c => merged_mono_channel (fnt g) (msk g) c)
    (fun dst d g x => render_char_merged_pixel_eq dst fnt msk d g x)
    char_w stride hs dst char_h
  refine ⟨fun row col k hr hc hk => ?_, fun x hx => hB x hx⟩
  have e : render_char_merged dst fnt msk none char_w char_h stride (row * stride + 3 * col + k)
      = merged_mono_channel (fnt (char_w * row + col)) (msk (char_w * row + col))
          (dst (row * stride + 3 * col + k)) := hA row col k hr hc hk
  rw [e]
  unfold merged_mono_channel
  refine ⟨fun h0 => by rw [if_pos h0], fun h15 => ?_, fun h1 h15 => ?_⟩
  · rw [if_neg (by omega), if_pos h15]
  · rw [if_neg (by omega), if_neg (by omega)]

/-- Witness for C30: the 2 by 2 example glyph on a surface of 8 bytes per row.  The
transparent pixel keeps 100, the pixel with mask 8 blends 200 over 100 to 147, the
opaque pixel becomes 255, and the two bytes after each row keep 100. -/
theorem render_char_merged_no_palette_witness :
    3 * 2 ≤ 8 ∧
    render_char_merged example_surface example_glyph_fnt example_glyph_msk none 2 2 8 0 = 100 ∧
    render_char_merged example_surface example_glyph_fnt example_glyph_msk none 2 2 8 3 = 147 ∧
    render_char_merged example_surface example_glyph_fnt example_glyph_msk none 2 2 8 13 = 255 ∧
    render_char_merged example_surface example_glyph_fnt example_glyph_msk none 2 2 8 6 = 100 :=
  ⟨by decide,
   ((render_char_merged_no_palette example_surface example_glyph_fnt example_glyph_msk
      2 2 8 (by decide)).1 0 0 0 (by decide) (by decide) (by decide)).1 (by decide),
   ((render_char_merged_no_palette example_surface example_glyph_fnt example_glyph_msk
      2 2 8 (by decide)).1 0 1 0 (by decide) (by decide) (by decide)).2.2 (by decide) (by decide),
   ((render_char_merged_no_palette example_surface example_glyph_fnt example_glyph_msk
      2 2 8 (by decide)).1 1 1 2 (by decide) (by decide) (by decide)).2.1 (by decide),
   (render_char_merged_no_palette example_surface example_glyph_fnt example_glyph_msk
      2 2 8 (by decide)).2 6 (by
        intro row col k hr hc hk
        interval_cases row <;> interval_cases col <;> omega)⟩

/-! ## C28: jump targets -/

/-- The dword `le_get32(vm.ip.code, vm.ip.ptr)` when the 4 bytes of `v` are stored
there. -/
theorem code_get32_eq (cfg : Config) (s : Machine) (base v : Nat) (hc : s.ip.code = some base)
    (hb : base + s.ip.ptr + 4 ≤ cfg.memory_size) (hv : v < 4294967296)
    (hm : mem_holds s.memory (base + s.ip.ptr) (le_bytes32 v)) :
    code_get32 cfg s = .ok v := by
  have h0 := code_get8_eq cfg s base 0 hc (by omega)
  have h1 := code_get8_eq cfg s base 1 hc (by omega)
  have h2 := code_get8_eq cfg s base 2 hc (by omega)
  have h3 := code_get8_eq cfg s base 3 hc (by omega)
  simp only [le_bytes32, mem_holds_cons, Nat.add_zero] at hm h0
  obtain ⟨e0, e1, e2, e3, -⟩ := hm
  simp only [code_get32, h0, h1, h2, h3, bind, Except.bind, pure, Except.pure,
    e0, e1, e2, e3, le_bytes32_sum hv]

/-- C28 does not hold: `JMP` with the target `0xFFFFFFFF` returns with
`ip.ptr = 0xFFFFFFFF`, which is outside the memory image (and so outside the buffer
`ip.code` points into); the next fetch reads outside the image. -/
theorem stmt_jmp_installs_target_outside_buffer :
    stmt_jmp example_title (example_machine [0xFF, 0xFF, 0xFF, 0xFF])
      = .ok ((example_machine [0xFF, 0xFF, 0xFF, 0xFF]).set_ip_ptr 0xFFFFFFFF) ∧
    ¬ (0x1000 + 0xFFFFFFFF < example_title.memory_size) ∧
    vm_read_byte example_title ((example_machine [0xFF, 0xFF, 0xFF, 0xFF]).set_ip_ptr 0xFFFFFFFF)
      = .error (.undefined "read outside the memory image") := by
  refine ⟨rfl, by decide, rfl⟩

/-- C28 as the code has it: no instruction-pointer move is checked against the
buffer.  For every dword target `T`, inside the buffer `ip.code` points into or not:
after `JZ` with a value other than 1, after `JMP`, after `MENUI` and after `PROCD`
the instruction pointer is `T`; the procedure entry `PROCD` records is the offset
just past its own target dword. -/
theorem jump_target_installed_unchecked (cfg : Config) (T : Nat) (hT : T < 4294967296) :
    (∀ (s s1 : Machine) (base val : Nat), vm_eval cfg s = .ok (val, s1) →
      s1.ip.code = some base → mem_holds s1.memory (base + s1.ip.ptr) (le_bytes32 T) →
      base + s1.ip.ptr + 4 ≤ cfg.memory_size → val ≠ 1 →
      stmt_jz cfg s = .ok (s1.set_ip_ptr T)) ∧
    (∀ (s : Machine) (base : Nat),
      s.ip.code = some base → mem_holds s.memory (base + s.ip.ptr) (le_bytes32 T) →
      base + s.ip.ptr + 4 ≤ cfg.memory_size →
      stmt_jmp cfg s = .ok (s.set_ip_ptr T)) ∧
    (∀ (s s1 : Machine) (params : param_list) (base n : Nat),
      read_params cfg s = .ok (params, s1) →
      s1.ip.code = some base → mem_holds s1.memory (base + s1.ip.ptr) (le_bytes32 T) →
      base + s1.ip.ptr + 4 ≤ cfg.memory_size → check_expr_param cfg params 0 = .ok n →
      ∃ s', stmt_menui cfg s = .ok s' ∧ s'.ip = { ptr := T, code := some base }) ∧
    (∀ (s : State) (m1 : Machine) (base i : Nat), vm_eval cfg s.toMachine = .ok (i, m1) →
      i < VM_MAX_PROCEDURES →
      m1.ip.code = some base → mem_holds m1.memory (base + m1.ip.ptr) (le_bytes32 T) →
      base + m1.ip.ptr + 4 ≤ cfg.memory_size →
      ∃ s', stmt_procd cfg s = .ok s' ∧ s'.ip = { ptr := T, code := some base } ∧
        s'.procedures i = { ptr := u32 (m1.ip.ptr + 4), code := some base }) := by
  refine ⟨?_, ?_, ?_, ?_⟩
  · intro s s1 base val heval hc hm hb hval
    simp only [stmt_jz, heval, bind, Except.bind, vm_read_dword_eq cfg s1 base T hc hb hT hm,
      set_ip_ptr_twice, pure, Except.pure, if_neg hval]
  · intro s base hc hm hb
    simp only [stmt_jmp, code_get32_eq cfg s base T hc hb hT hm, bind, Except.bind, pure,
      Except.pure]
  · intro s s1 params base n hp hc hm hb hn
    simp only [stmt_menui, hp, bind, Except.bind, vm_read_dword_eq cfg s1 base T hc hb hT hm,
      hn, pure, Except.pure]
    refine ⟨_, rfl, ?_⟩
    simp only [Machine.set_ip_ptr, host_mem_call, hc]
  · intro s m1 base i heval hi hc hm hb
    rw [stmt_procd_eq cfg s m1 base i T heval hi hc hm hT hb]
    refine ⟨_, rfl, ?_, ?_⟩
    · simp only [Machine.set_ip_ptr, hc]
    · simp only [Function.update_same, hc]

/-- Witness for C28 as the code has it: the target `0xFFFFFFFF` is installed by `JMP`
and by `JZ` on the value 0. -/
theorem jump_target_installed_unchecked_witness :
    stmt_jmp example_title (example_machine [0xFF, 0xFF, 0xFF, 0xFF])
      = .ok ((example_machine [0xFF, 0xFF, 0xFF, 0xFF]).set_ip_ptr 0xFFFFFFFF) ∧
    stmt_jz example_title (example_machine [0, 0xFF, 0xFF, 0xFF, 0xFF, 0xFF])
      = .ok (((example_machine [0, 0xFF, 0xFF, 0xFF, 0xFF, 0xFF]).set_ip_ptr 2).set_ip_ptr
          0xFFFFFFFF) :=
  ⟨(jump_target_installed_unchecked example_title 0xFFFFFFFF (by decide)).2.1
      (example_machine [0xFF, 0xFF, 0xFF, 0xFF]) 0x1000 rfl (by decide) (by decide),
   (jump_target_installed_unchecked example_title 0xFFFFFFFF (by decide)).1
      (example_machine [0, 0xFF, 0xFF, 0xFF, 0xFF, 0xFF])
      ((example_machine [0, 0xFF, 0xFF, 0xFF, 0xFF, 0xFF]).set_ip_ptr 2) 0x1000 0
      rfl rfl (by decide) (by decide) (by decide)⟩

/-! ## The loop of the assignment statements over consecutive cells -/

theorem cells_memory_outside (w : Nat) (m : Nat → Nat) (a : Nat) (vals : List Nat) (x : Nat)
    (h : x < a ∨ a + w * vals.length ≤ x) : cells_memory w m a vals x = m x := by
  unfold cells_memory
  rw [if_neg (by omega)]

theorem cells_memory_cons (w : Nat) (hw : 0 < w) (m : Nat → Nat) (a v : Nat)
    (vals : List Nat) :
    cells_memory w (cells_memory w m a [v]) (a + w) vals = cells_memory w m a (v :: vals) := by
  funext x
  simp only [cells_memory, List.length_cons, List.length_nil, Nat.zero_add, Nat.mul_one,
    Nat.mul_succ, Nat.mul_zero]
  by_cases h1 : a + w ≤ x ∧ x < a + w + w * vals.length
  · rw [if_pos h1, if_pos (by omega)]
    have e : x - a = x - (a + w) + w := by omega
    rw [e, Nat.add_div_right _ hw, Nat.add_mod_right, List.getD_cons_succ]
  · rw [if_neg h1]
    by_cases h2 : a ≤ x ∧ x < a + w
    · have e0 : (x - a) / w = 0 := Nat.div_eq_of_lt (by omega)
      rw [if_pos h2, if_pos (by omega), e0]
      rfl
    · rw [if_neg h2, if_neg (by omega)]

/-- The bytes of cell `k` after the stores. -/
theorem cells_memory_cell (w : Nat) (m : Nat → Nat) (a : Nat) (vals : List Nat)
    (k j : Nat) (hk : k < vals.length) (hj : j < w) :
    cells_memory w m a vals (a + w * k + j) = vals.getD k 0 / 256 ^ j % 256 := by
  have hw : 0 < w := by omega
  have h1 : w * k + w ≤ w * vals.length := by
    have := Nat.mul_le_mul_left w (Nat.succ_le_of_lt hk)
    rw [Nat.mul_succ] at this
    exact this
  have e : a + w * k + j - a = w * k + j := by omega
  unfold cells_memory
  rw [if_pos (by omega), e, Nat.mul_add_div hw, Nat.mul_add_mod, Nat.div_eq_of_lt hj,
    Nat.mod_eq_of_lt hj, Nat.add_zero]

/-- One pass of the loop of an assignment statement whose store succeeds. -/
theorem stmt_set_loop_step (cfg : Config)
    (store : (Nat → Nat) → Nat → Nat → Except Fault (Nat → Nat)) (next : Nat → Nat)
    (s : Machine) (base i val sep fuel : Nat) (enc : List Nat) (m' : Nat → Nat)
    (hpure : pure_expr cfg enc val)
    (hc : s.ip.code = some base) (hs : s.stack = [])
    (hm : mem_holds s.memory (base + s.ip.ptr) enc)
    (hb : base + s.ip.ptr + enc.length + 1 ≤ cfg.memory_size)
    (hw : s.ip.ptr + enc.length + 1 < 4294967296)
    (hstore : store s.memory i val = .ok m')
    (hsep : m' (base + s.ip.ptr + enc.length) % 256 = sep) :
    stmt_set_loop cfg store next (fuel + 1) i s =
      if sep ≠ 0 then
        stmt_set_loop cfg store next fuel (next i)
          ((s.set_memory m').set_ip_ptr (s.ip.ptr + enc.length + 1))
      else .ok ((s.set_memory m').set_ip_ptr (s.ip.ptr + enc.length + 1)) := by
  have hev := hpure s base hc hs hm (by omega) (by omega)
  rw [stmt_set_loop_succ]
  simp only [hev, bind, Except.bind, set_ip_ptr_memory, hstore]
  rw [vm_read_byte_eq cfg _ base sep (by simpa using hc)
    (by simp only [set_memory_ip, set_ip_ptr_ptr]; omega)
    (by
      simp only [set_memory_ip, set_ip_ptr_ptr, set_memory_memory]
      rw [← Nat.add_assoc]
      exact hsep)]
  simp only [set_memory_ip, set_ip_ptr_ptr, set_ip_ptr_set_memory, set_ip_ptr_twice,
    u32_of_lt hw, pure, Except.pure]

/-- One pass of the loop of an assignment statement whose store fails. -/
theorem stmt_set_loop_store_fails (cfg : Config)
    (store : (Nat → Nat) → Nat → Nat → Except Fault (Nat → Nat)) (next : Nat → Nat)
    (s : Machine) (base i val fuel : Nat) (enc : List Nat) (e : Fault)
    (hpure : pure_expr cfg enc val)
    (hc : s.ip.code = some base) (hs : s.stack = [])
    (hm : mem_holds s.memory (base + s.ip.ptr) enc)
    (hb : base + s.ip.ptr + enc.length ≤ cfg.memory_size)
    (hw : s.ip.ptr + enc.length < 4294967296)
    (hstore : store s.memory i val = .error e) :
    stmt_set_loop cfg store next (fuel + 1) i s = .error e := by
  have hev := hpure s base hc hs hm hb hw
  rw [stmt_set_loop_succ]
  simp only [hev, bind, Except.bind, set_ip_ptr_memory, hstore]

/-- The loop of an assignment statement over a well-formed value list whose cells all
lie in the memory image, apart from the bytecode of the list. -/
theorem stmt_set_loop_cells (cfg : Config) (base w : Nat)
    (store : (Nat → Nat) → Nat → Nat → Except Fault (Nat → Nat)) (hw0 : 0 < w)
    (hok : ∀ m a v, a + w ≤ cfg.memory_size → store m a v = .ok (cells_memory w m a [v])) :
    ∀ (items : List set_item) (a fuel : Nat) (s : Machine),
      set_items_ok cfg items → s.ip.code = some base → s.stack = [] →
      mem_holds s.memory (base + s.ip.ptr) (set_items_bytes items) →
      base + s.ip.ptr + (set_items_bytes items).length ≤ cfg.memory_size →
      s.ip.ptr + (set_items_bytes items).length < 4294967296 →
      a + w * items.length ≤ cfg.memory_size →
      (a + w * items.length ≤ base + s.ip.ptr ∨
        base + s.ip.ptr + (set_items_bytes items).length ≤ a) →
      items.length ≤ fuel →
      stmt_set_loop cfg store (fun a => a + w) fuel a s =
        .ok ((s.set_memory (cells_memory w s.memory a (items.map (fun it => it.val)))).set_ip_ptr
          (s.ip.ptr + (set_items_bytes items).length)) := by
  intro items
  induction items with
  | nil => intro a fuel s hok; exact absurd hok (by simp [set_items_ok])
  | cons it rest ih =>
    intro a fuel s hitems hc hs hm hb hw hcell hdis hfuel
    obtain ⟨f, rfl⟩ : ∃ f, fuel = f + 1 :=
      ⟨fuel - 1, by simp only [List.length_cons] at hfuel; omega⟩
    simp only [set_items_bytes, List.length_append, List.length_cons, List.length_nil]
      at hb hw hdis hm
    simp only [List.length_cons, Nat.mul_succ] at hcell hdis hfuel
    rw [mem_holds_append, mem_holds_append] at hm
    obtain ⟨⟨hm1, hm1s⟩, hm2⟩ := hm
    simp only [mem_holds_cons] at hm1s
    have hst := hok s.memory a it.val (by omega)
    have hsep : cells_memory w s.memory a [it.val] (base + s.ip.ptr + it.enc.length) % 256
        = it.sep := by
      rw [cells_memory_outside _ _ _ _ _
        (by simp only [List.length_cons, List.length_nil, Nat.zero_add, Nat.mul_one]; omega)]
      exact hm1s.1
    have hstep := stmt_set_loop_step cfg store (fun a => a + w) s base a it.val it.sep f it.enc
      _ (by cases rest <;> simp only [set_items_ok] at hitems <;> exact hitems.1)
      hc hs hm1 (by omega) (by omega) hst hsep
    rw [hstep]
    cases rest with
    | nil =>
      simp only [set_items_ok] at hitems
      simp only [hitems.2, ne_eq, not_true_eq_false, if_false, List.map_cons, List.map_nil,
        set_items_bytes, List.length_append, List.length_cons, List.length_nil]
      rfl
    | cons it2 r =>
      simp only [set_items_ok] at hitems
      obtain ⟨-, hsep0, -, hrest⟩ := hitems
      rw [if_pos hsep0]
      simp only [List.length_append, List.length_cons, List.length_nil] at hm2
      rw [ih (a + w) f _ hrest (by simpa using hc) (by simpa using hs)
        (by
          intro k hk
          simp only [set_ip_ptr_memory, set_memory_memory, set_ip_ptr_ptr]
          rw [cells_memory_outside _ _ _ _ _
            (by simp only [List.length_cons, List.length_nil, Nat.zero_add, Nat.mul_one]; omega)]
          have := hm2 k hk
          rw [← this]
          congr 2
          omega)
        (by simp only [set_ip_ptr_ptr]; omega) (by simp only [set_ip_ptr_ptr]; omega)
        (by omega)
        (by simp only [set_ip_ptr_ptr]; omega)
        (by omega)]
      simp only [set_ip_ptr_memory, set_memory_memory, set_ip_ptr_ptr, set_ip_ptr_set_memory,
        set_memory_twice, set_ip_ptr_twice, cells_memory_cons w hw0, List.map_cons]
      congr 2
      simp only [set_items_bytes, List.length_append, List.length_cons, List.length_nil]
      omega

/-- The loop of an assignment statement when the cell of one of its values lies
beyond the end of the memory image: the values before it are stored, and the store of
that value is outside the image. -/
theorem stmt_set_loop_cells_fail (cfg : Config) (base w : Nat)
    (store : (Nat → Nat) → Nat → Nat → Except Fault (Nat → Nat))
    (hok : ∀ m a v, a + w ≤ cfg.memory_size → store m a v = .ok (cells_memory w m a [v]))
    (herr : ∀ m a v, cfg.memory_size < a + w →
      store m a v = .error (.undefined "write outside the memory image"))
    (enc : List Nat) (val : Nat) (hpure : pure_expr cfg enc val) :
    ∀ (pre : List set_item) (a fuel : Nat) (s : Machine),
      set_items_open cfg pre → s.ip.code = some base → s.stack = [] →
      mem_holds s.memory (base + s.ip.ptr) (set_items_bytes pre ++ enc) →
      base + s.ip.ptr + (set_items_bytes pre).length + enc.length ≤ cfg.memory_size →
      s.ip.ptr + (set_items_bytes pre).length + enc.length < 4294967296 →
      a + w * pre.length ≤ cfg.memory_size →
      cfg.memory_size < a + w * pre.length + w →
      (a + w * pre.length ≤ base + s.ip.ptr ∨
        base + s.ip.ptr + (set_items_bytes pre).length + enc.length ≤ a) →
      pre.length < fuel →
      stmt_set_loop cfg store (fun a => a + w) fuel a s =
        .error (.undefined "write outside the memory image") := by
  intro pre
  induction pre with
  | nil =>
    intro a fuel s _ hc hs hm hb hw hcell hout hdis hfuel
    obtain ⟨f, rfl⟩ : ∃ f, fuel = f + 1 := ⟨fuel - 1, by omega⟩
    simp only [set_items_bytes, List.nil_append, List.length_nil, Nat.add_zero, Nat.mul_zero]
      at hm hb hw hout
    exact stmt_set_loop_store_fails cfg store _ s base a val f enc _ hpure hc hs hm hb hw
      (herr s.memory a val hout)
  | cons it rest ih =>
    intro a fuel s hopen hc hs hm hb hw hcell hout hdis hfuel
    obtain ⟨f, rfl⟩ : ∃ f, fuel = f + 1 := ⟨fuel - 1, by omega⟩
    simp only [set_items_bytes, List.length_append, List.length_cons, List.length_nil]
      at hb hw hdis hm
    simp only [List.length_cons, Nat.mul_succ] at hcell hout hdis hfuel
    rw [List.append_assoc, mem_holds_append, mem_holds_append] at hm
    obtain ⟨⟨hm1, hm1s⟩, hm2⟩ := hm
    simp only [mem_holds_cons] at hm1s
    simp only [List.length_append, List.length_cons, List.length_nil] at hm2
    obtain ⟨hp, hsep0, -⟩ := hopen it (List.mem_cons_self _ _)
    have hst := hok s.memory a it.val (by omega)
    have hsep : cells_memory w s.memory a [it.val] (base + s.ip.ptr + it.enc.length) % 256
        = it.sep := by
      rw [cells_memory_outside _ _ _ _ _
        (by simp only [List.length_cons, List.length_nil, Nat.zero_add, Nat.mul_one]; omega)]
      exact hm1s.1
    rw [stmt_set_loop_step cfg store (fun a => a + w) s base a it.val it.sep f it.enc
      _ hp hc hs hm1 (by omega) (by omega) hst hsep, if_pos hsep0]
    exact ih (a + w) f _ (fun x hx => hopen x (List.mem_cons_of_mem _ hx))
      (by simpa using hc) (by simpa using hs)
      (by
        intro k hk
        simp only [set_ip_ptr_memory, set_memory_memory, set_ip_ptr_ptr]
        rw [cells_memory_outside _ _ _ _ _
          (by
            simp only [List.length_cons, List.length_nil, Nat.zero_add, Nat.mul_one,
              List.length_append] at hk ⊢
            omega)]
        have := hm2 k hk
        rw [← this]
        congr 2
        omega)
      (by simp only [set_ip_ptr_ptr]; omega) (by simp only [set_ip_ptr_ptr]; omega)
      (by omega) (by omega)
      (by simp only [set_ip_ptr_ptr]; omega)
      (by omega)

/-! ## The stores of the array assignment statements -/

theorem mem_set8_cells (cfg : Config) (m : Nat → Nat) (a v : Nat)
    (h : a + 1 ≤ cfg.memory_size) :
    mem_set8 cfg m a (u8 v) = .ok (cells_memory 1 m a [v]) := by
  unfold mem_set8
  rw [if_pos (by omega)]
  congr 1
  funext x
  simp only [cells_memory, List.length_cons, List.length_nil, Nat.zero_add, Nat.mul_one, u8]
  by_cases hx : x = a
  · subst hx
    rw [if_pos rfl, if_pos (by omega)]
    simp
  · rw [if_neg hx, if_neg (by omega)]

theorem mem_set8_outside (cfg : Config) (m : Nat → Nat) (a v : Nat)
    (h : cfg.memory_size < a + 1) :
    mem_set8 cfg m a (u8 v) = .error (.undefined "write outside the memory image") := by
  unfold mem_set8
  rw [if_neg (by omega)]

theorem mem_set16_cells (cfg : Config) (m : Nat → Nat) (a v : Nat)
    (h : a + 2 ≤ cfg.memory_size) :
    mem_set16 cfg m a (u16 v) = .ok (cells_memory 2 m a [v]) := by
  unfold mem_set16
  rw [if_pos (by omega)]
  congr 1
  funext x
  simp only [cells_memory, List.length_cons, List.length_nil, Nat.zero_add, Nat.mul_one, u16]
  by_cases hx : x = a
  · subst hx
    rw [if_pos rfl, if_pos (by omega)]
    simp
    omega
  · rw [if_neg hx]
    by_cases hx1 : x = a + 1
    · subst hx1
      rw [if_pos rfl, if_pos (by omega)]
      have e : a + 1 - a = 1 := by omega
      rw [e]
      simp
      omega
    · rw [if_neg hx1, if_neg (by omega)]

theorem mem_set16_outside (cfg : Config) (m : Nat → Nat) (a v : Nat)
    (h : cfg.memory_size < a + 2) :
    mem_set16 cfg m a (u16 v) = .error (.undefined "write outside the memory image") := by
  unfold mem_set16
  rw [if_neg (by omega)]

theorem mem_set32_cells (cfg : Config) (m : Nat → Nat) (a v : Nat)
    (h : a + 4 ≤ cfg.memory_size) :
    mem_set32 cfg m a (u32 v) = .ok (cells_memory 4 m a [v]) := by
  unfold mem_set32
  rw [if_pos (by omega)]
  congr 1
  funext x
  simp only [cells_memory, List.length_cons, List.length_nil, Nat.zero_add, Nat.mul_one, u32]
  by_cases hx : x = a
  · subst hx
    rw [if_pos rfl, if_pos (by omega)]
    simp
    omega
  · rw [if_neg hx]
    by_cases hx1 : x = a + 1
    · subst hx1
      rw [if_pos rfl, if_pos (by omega)]
      have e : a + 1 - a = 1 := by omega
      rw [e]
      simp
      omega
    · rw [if_neg hx1]
      by_cases hx2 : x = a + 2
      · subst hx2
        rw [if_pos rfl, if_pos (by omega)]
        have e : a + 2 - a = 2 := by omega
        rw [e]
        simp
        omega
      · rw [if_neg hx2]
        by_cases hx3 : x = a + 3
        · subst hx3
          rw [if_pos rfl, if_pos (by omega)]
          have e : a + 3 - a = 3 := by omega
          rw [e]
          simp
          omega
        · rw [if_neg hx3, if_neg (by omega)]

theorem mem_set32_outside (cfg : Config) (m : Nat → Nat) (a v : Nat)
    (h : cfg.memory_size < a + 4) :
    mem_set32 cfg m a (u32 v) = .error (.undefined "write outside the memory image") := by
  unfold mem_set32
  rw [if_neg (by omega)]

/-! ## The array assignment statements up to their loop -/

/-- The index expression and the variable byte that open an array assignment
statement. -/
theorem set_array_head (cfg : Config) (s : Machine) (base i var : Nat) (enc : List Nat)
    (hpure : pure_expr cfg enc i) (hc : s.ip.code = some base) (hs : s.stack = [])
    (hm : mem_holds s.memory (base + s.ip.ptr) (enc ++ [var]))
    (hb : base + s.ip.ptr + enc.length + 1 ≤ cfg.memory_size)
    (hw : s.ip.ptr + enc.length + 1 < 4294967296) :
    vm_eval cfg s = .ok (i, s.set_ip_ptr (s.ip.ptr + enc.length)) ∧
    vm_read_byte cfg (s.set_ip_ptr (s.ip.ptr + enc.length))
      = .ok (var, s.set_ip_ptr (s.ip.ptr + enc.length + 1)) := by
  rw [mem_holds_append] at hm
  obtain ⟨hm1, hm2⟩ := hm
  simp only [mem_holds_cons] at hm2
  refine ⟨hpure s base hc hs hm1 (by omega) (by omega), ?_⟩
  rw [vm_read_byte_eq cfg _ base var (by simpa using hc)
    (by simp only [set_ip_ptr_ptr]; omega)
    (by
      simp only [set_ip_ptr_ptr, set_ip_ptr_memory]
      rw [← Nat.add_assoc]
      exact hm2.1)]
  simp only [set_ip_ptr_ptr, set_ip_ptr_twice, u32_of_lt hw]

theorem stmt_setac_eq (cfg : Config) (s : Machine) (base i var b : Nat) (enc : List Nat)
    (hpure : pure_expr cfg enc i) (hc : s.ip.code = some base) (hs : s.stack = [])
    (hm : mem_holds s.memory (base + s.ip.ptr) (enc ++ [var]))
    (hb : base + s.ip.ptr + enc.length + 1 ≤ cfg.memory_size)
    (hw : s.ip.ptr + enc.length + 1 < 4294967296)
    (hbase : mem_get8 cfg s.memory (var4_addr cfg var) = .ok b) :
    stmt_setac cfg s = stmt_set_loop cfg (fun m a v => mem_set8 cfg m a (u8 v))
      (fun a => a + 1) (cfg.memory_size + 1) (b + i)
      (s.set_ip_ptr (s.ip.ptr + enc.length + 1)) := by
  obtain ⟨h1, h2⟩ := set_array_head cfg s base i var enc hpure hc hs hm hb hw
  simp only [stmt_setac, h1, h2, bind, Except.bind, set_ip_ptr_memory, hbase]

theorem stmt_seta_at_eq (cfg : Config) (s : Machine) (base i var b : Nat) (enc : List Nat)
    (hpure : pure_expr cfg enc i) (hc : s.ip.code = some base) (hs : s.stack = [])
    (hm : mem_holds s.memory (base + s.ip.ptr) (enc ++ [var]))
    (hb : base + s.ip.ptr + enc.length + 1 ≤ cfg.memory_size)
    (hw : s.ip.ptr + enc.length + 1 < 4294967296)
    (hbase : (if var = 0 then (.ok cfg.system_var16_off : Except Fault Nat)
      else mem_get16 cfg s.memory (var16_addr cfg (var - 1))) = .ok b) :
    stmt_seta_at cfg s = stmt_set_loop cfg (fun m a v => mem_set16 cfg m a (u16 v))
      (fun a => a + 2) (cfg.memory_size + 1) (b + 2 * i)
      (s.set_ip_ptr (s.ip.ptr + enc.length + 1)) := by
  obtain ⟨h1, h2⟩ := set_array_head cfg s base i var enc hpure hc hs hm hb hw
  simp only [stmt_seta_at, h1, h2, bind, Except.bind, set_ip_ptr_memory, pure, Except.pure]
  by_cases hv : var = 0
  · rw [if_pos hv] at hbase
    cases hbase
    rw [if_pos hv]
  · rw [if_neg hv] at hbase
    rw [if_neg hv, hbase]

theorem stmt_setad_eq (cfg : Config) (s : Machine) (base i var b : Nat) (enc : List Nat)
    (hpure : pure_expr cfg enc i) (hc : s.ip.code = some base) (hs : s.stack = [])
    (hm : mem_holds s.memory (base + s.ip.ptr) (enc ++ [var]))
    (hb : base + s.ip.ptr + enc.length + 1 ≤ cfg.memory_size)
    (hw : s.ip.ptr + enc.length + 1 < 4294967296)
    (hbase : (if var = 0 then (.ok cfg.system_var32_off : Except Fault Nat)
      else mem_get32 cfg s.memory (var32_addr cfg (var - 1))) = .ok b) :
    stmt_setad cfg s = stmt_set_loop cfg (fun m a v => mem_set32 cfg m a (u32 v))
      (fun a => a + 4) (cfg.memory_size + 1) (b + 4 * i)
      (s.set_ip_ptr (s.ip.ptr + enc.length + 1)) := by
  obtain ⟨h1, h2⟩ := set_array_head cfg s base i var enc hpure hc hs hm hb hw
  simp only [stmt_setad, h1, h2, bind, Except.bind, set_ip_ptr_memory, pure, Except.pure]
  by_cases hv : var = 0
  · rw [if_pos hv] at hbase
    cases hbase
    rw [if_pos hv]
  · rw [if_neg hv] at hbase
    rw [if_neg hv, hbase]

theorem stmt_setaw_eq (cfg : Config) (s : Machine) (base i var b : Nat) (enc : List Nat)
    (hpure : pure_expr cfg enc i) (hc : s.ip.code = some base) (hs : s.stack = [])
    (hm : mem_holds s.memory (base + s.ip.ptr) (enc ++ [var]))
    (hb : base + s.ip.ptr + enc.length + 1 ≤ cfg.memory_size)
    (hw : s.ip.ptr + enc.length + 1 < 4294967296)
    (hbase : var32_pred cfg s.memory var = .ok b) :
    stmt_setaw cfg s = stmt_set_loop cfg (fun m a v => mem_set16 cfg m a (u16 v))
      (fun a => a + 2) (cfg.memory_size + 1) (b + 2 * i)
      (s.set_ip_ptr (s.ip.ptr + enc.length + 1)) := by
  obtain ⟨h1, h2⟩ := set_array_head cfg s base i var enc hpure hc hs hm hb hw
  simp only [stmt_setaw, h1, h2, bind, Except.bind, set_ip_ptr_memory, hbase]

theorem stmt_setab_eq (cfg : Config) (s : Machine) (base i var b : Nat) (enc : List Nat)
    (hpure : pure_expr cfg enc i) (hc : s.ip.code = some base) (hs : s.stack = [])
    (hm : mem_holds s.memory (base + s.ip.ptr) (enc ++ [var]))
    (hb : base + s.ip.ptr + enc.length + 1 ≤ cfg.memory_size)
    (hw : s.ip.ptr + enc.length + 1 < 4294967296)
    (hbase : var32_pred cfg s.memory var = .ok b) :
    stmt_setab cfg s = stmt_set_loop cfg (fun m a v => mem_set8 cfg m a (u8 v))
      (fun a => a + 1) (cfg.memory_size + 1) (b + i)
      (s.set_ip_ptr (s.ip.ptr + enc.length + 1)) := by
  obtain ⟨h1, h2⟩ := set_array_head cfg s base i var enc hpure hc hs hm hb hw
  simp only [stmt_setab, h1, h2, bind, Except.bind, set_ip_ptr_memory, hbase]

/-! ## C26: `SETA_AT` and `SETAD` -/

/-- A `uint16_t` cell after the stores. -/
theorem cells_memory_get16 (cfg : Config) (m : Nat → Nat) (a : Nat) (vals : List Nat) (k : Nat)
    (hk : k < vals.length) (hb : a + 2 * vals.length ≤ cfg.memory_size) :
    mem_get16 cfg (cells_memory 2 m a vals) (a + 2 * k) = .ok (vals.getD k 0 % 65536) := by
  have h0 := cells_memory_cell 2 m a vals k 0 hk (by decide)
  have h1 := cells_memory_cell 2 m a vals k 1 hk (by decide)
  simp only [Nat.add_zero, Nat.pow_zero, Nat.div_one, Nat.pow_one] at h0 h1
  unfold mem_get16
  rw [if_pos (by omega), h0, h1]
  congr 1
  omega

/-- A `uint32_t` cell after the stores. -/
theorem cells_memory_get32 (cfg : Config) (m : Nat → Nat) (a : Nat) (vals : List Nat) (k : Nat)
    (hk : k < vals.length) (hb : a + 4 * vals.length ≤ cfg.memory_size) :
    mem_get32 cfg (cells_memory 4 m a vals) (a + 4 * k) = .ok (vals.getD k 0 % 4294967296) := by
  have h0 := cells_memory_cell 4 m a vals k 0 hk (by decide)
  have h1 := cells_memory_cell 4 m a vals k 1 hk (by decide)
  have h2 := cells_memory_cell 4 m a vals k 2 hk (by decide)
  have h3 := cells_memory_cell 4 m a vals k 3 hk (by decide)
  simp only [Nat.add_zero, Nat.pow_zero, Nat.div_one, Nat.pow_one] at h0 h1
  have e2 : (256 : Nat) ^ 2 = 65536 := by decide
  have e3 : (256 : Nat) ^ 3 = 16777216 := by decide
  rw [e2] at h2
  rw [e3] at h3
  unfold mem_get32
  rw [if_pos (by omega), h0, h1, h2, h3]
  congr 1
  omega

/-- `SETA_AT` over a well-formed value list whose cells lie in the memory image. -/
theorem stmt_seta_at_run (cfg : Config) (s : Machine) (base i var b : Nat) (enc : List Nat)
    (items : List set_item)
    (hc : s.ip.code = some base) (hs : s.stack = [])
    (hpure : pure_expr cfg enc i) (hok : set_items_ok cfg items)
    (hm : mem_holds s.memory (base + s.ip.ptr) (enc ++ [var] ++ set_items_bytes items))
    (hb : base + s.ip.ptr + enc.length + 1 + (set_items_bytes items).length ≤ cfg.memory_size)
    (hw : s.ip.ptr + enc.length + 1 + (set_items_bytes items).length < 4294967296)
    (hbase : (if var = 0 then (.ok cfg.system_var16_off : Except Fault Nat)
      else mem_get16 cfg s.memory (var16_addr cfg (var - 1))) = .ok b)
    (hcell : b + 2 * (i + items.length) ≤ cfg.memory_size)
    (hdis : b + 2 * (i + items.length) ≤ base + s.ip.ptr ∨
      base + s.ip.ptr + enc.length + 1 + (set_items_bytes items).length ≤ b + 2 * i) :
    stmt_seta_at cfg s = .ok ((s.set_memory
      (cells_memory 2 s.memory (b + 2 * i) (items.map (fun it => it.val)))).set_ip_ptr
        (s.ip.ptr + enc.length + 1 + (set_items_bytes items).length)) := by
  rw [mem_holds_append] at hm
  obtain ⟨hm1, hm2⟩ := hm
  simp only [List.length_append, List.length_cons, List.length_nil] at hm2
  rw [stmt_seta_at_eq cfg s base i var b enc hpure hc hs hm1 (by omega) (by omega) hbase]
  rw [stmt_set_loop_cells cfg base 2 _ (by decide) (fun m a v h => mem_set16_cells cfg m a v h)
    items (b + 2 * i) _ _ hok (by simpa using hc) (by simpa using hs)
    (by simpa [Nat.add_assoc] using hm2)
    (by simp only [set_ip_ptr_ptr]; omega) (by simp only [set_ip_ptr_ptr]; omega)
    (by omega) (by simp only [set_ip_ptr_ptr]; omega) (by omega)]
  rfl

/-- `SETAD` over a well-formed value list whose cells lie in the memory image. -/
theorem stmt_setad_run (cfg : Config) (s : Machine) (base i var b : Nat) (enc : List Nat)
    (items : List set_item)
    (hc : s.ip.code = some base) (hs : s.stack = [])
    (hpure : pure_expr cfg enc i) (hok : set_items_ok cfg items)
    (hm : mem_holds s.memory (base + s.ip.ptr) (enc ++ [var] ++ set_items_bytes items))
    (hb : base + s.ip.ptr + enc.length + 1 + (set_items_bytes items).length ≤ cfg.memory_size)
    (hw : s.ip.ptr + enc.length + 1 + (set_items_bytes items).length < 4294967296)
    (hbase : (if var = 0 then (.ok cfg.system_var32_off : Except Fault Nat)
      else mem_get32 cfg s.memory (var32_addr cfg (var - 1))) = .ok b)
    (hcell : b + 4 * (i + items.length) ≤ cfg.memory_size)
    (hdis : b + 4 * (i + items.length) ≤ base + s.ip.ptr ∨
      base + s.ip.ptr + enc.length + 1 + (set_items_bytes items).length ≤ b + 4 * i) :
    stmt_setad cfg s = .ok ((s.set_memory
      (cells_memory 4 s.memory (b + 4 * i) (items.map (fun it => it.val)))).set_ip_ptr
        (s.ip.ptr + enc.length + 1 + (set_items_bytes items).length)) := by
  rw [mem_holds_append] at hm
  obtain ⟨hm1, hm2⟩ := hm
  simp only [List.length_append, List.length_cons, List.length_nil] at hm2
  rw [stmt_setad_eq cfg s base i var b enc hpure hc hs hm1 (by omega) (by omega) hbase]
  rw [stmt_set_loop_cells cfg base 4 _ (by decide) (fun m a v h => mem_set32_cells cfg m a v h)
    items (b + 4 * i) _ _ hok (by simpa using hc) (by simpa using hs)
    (by simpa [Nat.add_assoc] using hm2)
    (by simp only [set_ip_ptr_ptr]; omega) (by simp only [set_ip_ptr_ptr]; omega)
    (by omega) (by simp only [set_ip_ptr_ptr]; omega) (by omega)]
  rfl

/-- C26. For every element index `i` (the value of the index expression), variable
byte `var` and value list `v_0 .. v_(n-1)`, with the cells written inside the memory
image and apart from the bytecode of the statement.  `SETA_AT` returns with
`v_k mod 2^16` in the `uint16_t` at `b + 2 * (i + k)` for every `k < n`, where `b` is
the offset of `system_var16` when `var = 0` and the value of `var16[var - 1]`
otherwise.  `SETAD` returns with `v_k` (a `uint32_t`) in the `uint32_t` at
`b + 4 * (i + k)`, where `b` is the offset of `system_var32` when `var = 0` and the
value of `var32[var - 1]` otherwise.  Both leave every byte outside those cells as it
was and the instruction pointer just past the value list. -/
theorem seta_at_setad_write_cells (cfg : Config) (s : Machine) (base i var : Nat)
    (enc : List Nat) (items : List set_item)
    (hc : s.ip.code = some base) (hs : s.stack = [])
    (hpure : pure_expr cfg enc i) (hok : set_items_ok cfg items)
    (hm : mem_holds s.memory (base + s.ip.ptr) (enc ++ [var] ++ set_items_bytes items))
    (hb : base + s.ip.ptr + enc.length + 1 + (set_items_bytes items).length ≤ cfg.memory_size)
    (hw : s.ip.ptr + enc.length + 1 + (set_items_bytes items).length < 4294967296) :
    (∀ b, (if var = 0 then (.ok cfg.system_var16_off : Except Fault Nat)
        else mem_get16 cfg s.memory (var16_addr cfg (var - 1))) = .ok b →
      b + 2 * (i + items.length) ≤ cfg.memory_size →
      (b + 2 * (i + items.length) ≤ base + s.ip.ptr ∨
        base + s.ip.ptr + enc.length + 1 + (set_items_bytes items).length ≤ b + 2 * i) →
      ∃ s', stmt_seta_at cfg s = .ok s' ∧
        (∀ k, k < items.length →
          mem_get16 cfg s'.memory (b + 2 * (i + k))
            = .ok ((items.map (fun it => it.val)).getD k 0 % 65536)) ∧
        (∀ x, x < b + 2 * i ∨ b + 2 * (i + items.length) ≤ x → s'.memory x = s.memory x) ∧
        s'.ip.ptr = s.ip.ptr + enc.length + 1 + (set_items_bytes items).length ∧
        s'.ip.code = s.ip.code) ∧
    (∀ b, (if var = 0 then (.ok cfg.system_var32_off : Except Fault Nat)
        else mem_get32 cfg s.memory (var32_addr cfg (var - 1))) = .ok b →
      b + 4 * (i + items.length) ≤ cfg.memory_size →
      (b + 4 * (i + items.length) ≤ base + s.ip.ptr ∨
        base + s.ip.ptr + enc.length + 1 + (set_items_bytes items).length ≤ b + 4 * i) →
      ∃ s', stmt_setad cfg s = .ok s' ∧
        (∀ k, k < items.length →
          mem_get32 cfg s'.memory (b + 4 * (i + k))
            = .ok ((items.map (fun it => it.val)).getD k 0 % 4294967296)) ∧
        (∀ x, x < b + 4 * i ∨ b + 4 * (i + items.length) ≤ x → s'.memory x = s.memory x) ∧
        s'.ip.ptr = s.ip.ptr + enc.length + 1 + (set_items_bytes items).length ∧
        s'.ip.code = s.ip.code) := by
  constructor
  · intro b hbase hcell hdis
    refine ⟨_, stmt_seta_at_run cfg s base i var b enc items hc hs hpure hok hm hb hw hbase
      hcell hdis, ?_, ?_, rfl, rfl⟩
    · intro k hk
      simp only [set_ip_ptr_memory, set_memory_memory]
      have e : b + 2 * (i + k) = b + 2 * i + 2 * k := by omega
      rw [e]
      exact cells_memory_get16 cfg _ _ _ k (by simpa using hk)
        (by simp only [List.length_map]; omega)
    · intro x hx
      simp only [set_ip_ptr_memory, set_memory_memory]
      exact cells_memory_outside _ _ _ _ _ (by simp only [List.length_map]; omega)
  · intro b hbase hcell hdis
    refine ⟨_, stmt_setad_run cfg s base i var b enc items hc hs hpure hok hm hb hw hbase
      hcell hdis, ?_, ?_, rfl, rfl⟩
    · intro k hk
      simp only [set_ip_ptr_memory, set_memory_memory]
      have e : b + 4 * (i + k) = b + 4 * i + 4 * k := by omega
      rw [e]
      exact cells_memory_get32 cfg _ _ _ k (by simpa using hk)
        (by simp only [List.length_map]; omega)
    · intro x hx
      simp only [set_ip_ptr_memory, set_memory_memory]
      exact cells_memory_outside _ _ _ _ _ (by simp only [List.length_map]; omega)

/-- Witness for C26: `SETA_AT` and `SETAD` with index 3, variable byte 0 and the
values `0x1234`, `7` write the cells 3 and 4 of `system_var16` and of
`system_var32`. -/
theorem seta_at_setad_write_cells_witness :
    (∃ s', stmt_seta_at example_title
        (example_machine [3, 0xFF, 0, 0xF1, 0x34, 0x12, 0xFF, 1, 7, 0xFF, 0]) = .ok s' ∧
      mem_get16 example_title s'.memory (system_var16_addr example_title 3) = .ok 0x1234 ∧
      mem_get16 example_title s'.memory (system_var16_addr example_title 4) = .ok 7 ∧
      s'.memory (system_var16_addr example_title 5) = 0) ∧
    (∃ s', stmt_setad example_title
        (example_machine [3, 0xFF, 0, 0xF1, 0x34, 0x12, 0xFF, 1, 7, 0xFF, 0]) = .ok s' ∧
      mem_get32 example_title s'.memory (system_var32_addr example_title 3) = .ok 0x1234 ∧
      mem_get32 example_title s'.memory (system_var32_addr example_title 4) = .ok 7 ∧
      s'.memory (system_var32_addr example_title 5) = 0) :=
  have h := seta_at_setad_write_cells example_title
    (example_machine [3, 0xFF, 0, 0xF1, 0x34, 0x12, 0xFF, 1, 7, 0xFF, 0]) 0x1000 3 0 [3, 0xFF]
    [⟨[0xF1, 0x34, 0x12, 0xFF], 0x1234, 1⟩, ⟨[7, 0xFF], 7, 0⟩]
    rfl rfl (pure_expr_imm example_title 3 0xFF rfl (by decide) rfl)
    ⟨pure_expr_imm16 example_title 0xF1 0xFF 0x1234 rfl (by decide) rfl, by decide, by decide,
      pure_expr_imm example_title 7 0xFF rfl (by decide) rfl, rfl⟩
    (by decide) (by decide) (by decide)
  ⟨match h.1 2232 rfl (by decide) (by decide) with
    | ⟨s', h1, h2, h3, _⟩ => ⟨s', h1, h2 0 (by decide), h2 1 (by decide), h3 2242 (by decide)⟩,
   match h.2 2384 rfl (by decide) (by decide) with
    | ⟨s', h1, h2, h3, _⟩ => ⟨s', h1, h2 0 (by decide), h2 1 (by decide), h3 2404 (by decide)⟩⟩

/-! ## C27: array assignments beyond the end of the memory image -/

/-- C27 does not hold: `SETAD` with the index `0x10000000` and the variable byte 0
has its destination beyond the end of the memory image, and it does not raise a VM
error.  The statement has no bounds check, so the C store is made outside the
buffer, which is undefined. -/
theorem stmt_setad_beyond_memory_no_vm_error :
    example_title.memory_size
      < system_var32_addr example_title 0x10000000 ∧
    stmt_setad example_title
        (example_machine [0xF2, 0x00, 0x00, 0x00, 0x10, 0xFF, 0, 7, 0xFF, 0])
      = .error (.undefined "write outside the memory image") ∧
    is_vm_error (stmt_setad example_title
        (example_machine [0xF2, 0x00, 0x00, 0x00, 0x10, 0xFF, 0, 7, 0xFF, 0])) = false :=
  ⟨by decide, by rfl, by rfl⟩

theorem pure_expr_imm32 (cfg : Config) (op en v : Nat)
    (hop : cfg.mes_opcode_to_expr op = .MES_EXPR_IMM32) (hv : v < 4294967296)
    (hen : cfg.mes_opcode_to_expr en = .MES_EXPR_END) :
    pure_expr cfg ((op :: le_bytes32 v) ++ [en]) v := by
  intro s base hc hs hm hb hw
  simp only [List.length_cons, List.length_nil, List.length_append, le_bytes32] at hb hw
  apply vm_eval_of_loop cfg 2 _ _ _ (by omega)
  rw [mem_holds_append] at hm
  rw [vm_eval_loop_imm32 cfg 1 s base s.ip.ptr op v hc rfl hm.1 hv (by omega) (by omega) hop
    (by simp [hs, VM_STACK_SIZE])]
  rw [vm_eval_loop_end cfg 0 _ base (s.ip.ptr + 5) en v (by simpa using hc) rfl
    (by simpa [le_bytes32] using hm.2)
    (by omega) (by omega) hen (by simp [hs])]
  have e2 : s.ip.ptr + 5 + 1 = s.ip.ptr + 6 := by omega
  simp only [set_stack_set_ip_ptr, set_ip_ptr_twice, set_stack_twice, e2, List.length_cons,
    List.length_nil, List.length_append, le_bytes32]
  rw [← hs]
  rfl

/-- The loop of an array assignment statement, started after the index expression
and the variable byte, when the cells of the values `pre` lie in the memory image and
the cell of the value after them does not. -/
theorem set_array_loop_fail (cfg : Config) (s : Machine) (base a w var : Nat)
    (store : (Nat → Nat) → Nat → Nat → Except Fault (Nat → Nat))
    (hok : ∀ m a v, a + w ≤ cfg.memory_size → store m a v = .ok (cells_memory w m a [v]))
    (herr : ∀ m a v, cfg.memory_size < a + w →
      store m a v = .error (.undefined "write outside the memory image"))
    (hw1 : 1 ≤ w)
    (enc : List Nat) (pre : List set_item) (enc_k : List Nat) (val_k : Nat)
    (hc : s.ip.code = some base) (hs : s.stack = [])
    (hopen : set_items_open cfg pre) (hpk : pure_expr cfg enc_k val_k)
    (hm : mem_holds s.memory (base + s.ip.ptr)
      (enc ++ [var] ++ (set_items_bytes pre ++ enc_k)))
    (hb : base + s.ip.ptr + enc.length + 1 + (set_items_bytes pre).length + enc_k.length
      ≤ cfg.memory_size)
    (hw : s.ip.ptr + enc.length + 1 + (set_items_bytes pre).length + enc_k.length
      < 4294967296)
    (hin : pre ≠ [] → a + w * pre.length ≤ cfg.memory_size)
    (hout : cfg.memory_size < a + w * pre.length + w)
    (hdis : pre ≠ [] → (a + w * pre.length ≤ base + s.ip.ptr ∨
      base + s.ip.ptr + enc.length + 1 + (set_items_bytes pre).length + enc_k.length ≤ a)) :
    stmt_set_loop cfg store (fun a => a + w) (cfg.memory_size + 1) a
        (s.set_ip_ptr (s.ip.ptr + enc.length + 1))
      = .error (.undefined "write outside the memory image") := by
  rw [mem_holds_append] at hm
  obtain ⟨-, hm2⟩ := hm
  simp only [List.length_append, List.length_cons, List.length_nil] at hm2
  by_cases hp : pre = []
  · subst hp
    simp only [set_items_bytes, List.nil_append, List.length_nil, Nat.add_zero, Nat.mul_zero]
      at hm2 hb hw hout
    exact stmt_set_loop_store_fails cfg store _ _ base a val_k cfg.memory_size enc_k _ hpk
      (by simpa using hc) (by simpa using hs)
      (by simpa [Nat.add_assoc] using hm2)
      (by simp only [set_ip_ptr_ptr]; omega) (by simp only [set_ip_ptr_ptr]; omega)
      (herr _ a val_k hout)
  · have hlen : pre.length ≤ w * pre.length := Nat.le_mul_of_pos_left _ hw1
    have hd := hdis hp
    have hi := hin hp
    exact stmt_set_loop_cells_fail cfg base w store hok herr enc_k val_k hpk pre a _ _ hopen
      (by simpa using hc) (by simpa using hs)
      (by simpa [Nat.add_assoc] using hm2)
      (by simp only [set_ip_ptr_ptr]; omega) (by simp only [set_ip_ptr_ptr]; omega)
      (hin hp) hout (by simp only [set_ip_ptr_ptr]; omega) (by omega)

/-- C27 as the code has it: the array assignment statements check no destination.  A
`SETAC`, `SETA_AT`, `SETAD`, `SETAW` or `SETAB` statement whose destination (base
offset `b` plus index, cells of `w` bytes) lies beyond the end of the memory image
for one of its values raises no VM error.  The value is the one after the values
`pre`, whose cells lie in the image; `pre` is empty when already the first
destination lies beyond the end, wherever it starts.  The statement ends in the C
store outside the buffer, which is undefined. -/
theorem set_array_beyond_memory_unchecked (cfg : Config) (s : Machine)
    (base i var b w : Nat) (enc : List Nat) (pre : List set_item) (enc_k : List Nat)
    (val_k : Nat)
    (hc : s.ip.code = some base) (hs : s.stack = [])
    (hpure : pure_expr cfg enc i) (hopen : set_items_open cfg pre)
    (hpk : pure_expr cfg enc_k val_k)
    (hm : mem_holds s.memory (base + s.ip.ptr)
      (enc ++ [var] ++ (set_items_bytes pre ++ enc_k)))
    (hb : base + s.ip.ptr + enc.length + 1 + (set_items_bytes pre).length + enc_k.length
      ≤ cfg.memory_size)
    (hw : s.ip.ptr + enc.length + 1 + (set_items_bytes pre).length + enc_k.length
      < 4294967296)
    (hin : pre ≠ [] → b + w * i + w * pre.length ≤ cfg.memory_size)
    (hout : cfg.memory_size < b + w * i + w * pre.length + w)
    (hdis : pre ≠ [] → (b + w * i + w * pre.length ≤ base + s.ip.ptr ∨
      base + s.ip.ptr + enc.length + 1 + (set_items_bytes pre).length + enc_k.length
        ≤ b + w * i)) :
    (w = 1 → mem_get8 cfg s.memory (var4_addr cfg var) = .ok b →
      stmt_setac cfg s = .error (.undefined "write outside the memory image") ∧
      is_vm_error (stmt_setac cfg s) = false) ∧
    (w = 2 → (if var = 0 then (.ok cfg.system_var16_off : Except Fault Nat)
        else mem_get16 cfg s.memory (var16_addr cfg (var - 1))) = .ok b →
      stmt_seta_at cfg s = .error (.undefined "write outside the memory image") ∧
      is_vm_error (stmt_seta_at cfg s) = false) ∧
    (w = 4 → (if var = 0 then (.ok cfg.system_var32_off : Except Fault Nat)
        else mem_get32 cfg s.memory (var32_addr cfg (var - 1))) = .ok b →
      stmt_setad cfg s = .error (.undefined "write outside the memory image") ∧
      is_vm_error (stmt_setad cfg s) = false) ∧
    (w = 2 → var32_pred cfg s.memory var = .ok b →
      stmt_setaw cfg s = .error (.undefined "write outside the memory image") ∧
      is_vm_error (stmt_setaw cfg s) = false) ∧
    (w = 1 → var32_pred cfg s.memory var = .ok b →
      stmt_setab cfg s = .error (.undefined "write outside the memory image") ∧
      is_vm_error (stmt_setab cfg s) = false) := by
  have hm' := hm
  rw [mem_holds_append] at hm'
  obtain ⟨hm1, -⟩ := hm'
  have both : ∀ r : Except Fault Machine,
      r = .error (.undefined "write outside the memory image") →
      r = .error (.undefined "write outside the memory image") ∧ is_vm_error r = false :=
    fun r h => ⟨h, by rw [h]; rfl⟩
  refine ⟨fun hw1 hbase => both _ ?_, fun hw2 hbase => both _ ?_, fun hw4 hbase => both _ ?_,
    fun hw2 hbase => both _ ?_, fun hw1 hbase => both _ ?_⟩
  · subst hw1
    rw [stmt_setac_eq cfg s base i var b enc hpure hc hs hm1 (by omega) (by omega) hbase]
    exact set_array_loop_fail cfg s base (b + i) 1 var _
      (fun m a v h => mem_set8_cells cfg m a v h) (fun m a v h => mem_set8_outside cfg m a v h)
      (by decide) enc pre enc_k val_k hc hs hopen hpk hm hb hw
      (fun h => by have := hin h; omega) (by omega) (fun h => by have := hdis h; omega)
  · subst hw2
    rw [stmt_seta_at_eq cfg s base i var b enc hpure hc hs hm1 (by omega) (by omega) hbase]
    exact set_array_loop_fail cfg s base (b + 2 * i) 2 var _
      (fun m a v h => mem_set16_cells cfg m a v h)
      (fun m a v h => mem_set16_outside cfg m a v h)
      (by decide) enc pre enc_k val_k hc hs hopen hpk hm hb hw hin hout hdis
  · subst hw4
    rw [stmt_setad_eq cfg s base i var b enc hpure hc hs hm1 (by omega) (by omega) hbase]
    exact set_array_loop_fail cfg s base (b + 4 * i) 4 var _
      (fun m a v h => mem_set32_cells cfg m a v h)
      (fun m a v h => mem_set32_outside cfg m a v h)
      (by decide) enc pre enc_k val_k hc hs hopen hpk hm hb hw hin hout hdis
  · subst hw2
    rw [stmt_setaw_eq cfg s base i var b enc hpure hc hs hm1 (by omega) (by omega) hbase]
    exact set_array_loop_fail cfg s base (b + 2 * i) 2 var _
      (fun m a v h => mem_set16_cells cfg m a v h)
      (fun m a v h => mem_set16_outside cfg m a v h)
      (by decide) enc pre enc_k val_k hc hs hopen hpk hm hb hw hin hout hdis
  · subst hw1
    rw [stmt_setab_eq cfg s base i var b enc hpure hc hs hm1 (by omega) (by omega) hbase]
    exact set_array_loop_fail cfg s base (b + i) 1 var _
      (fun m a v h => mem_set8_cells cfg m a v h) (fun m a v h => mem_set8_outside cfg m a v h)
      (by decide) enc pre enc_k val_k hc hs hopen hpk hm hb hw
      (fun h => by have := hin h; omega) (by omega) (fun h => by have := hdis h; omega)

/-- Witness for C27 as the code has it: `SETAD` with index `0x45AB`, variable byte 0
and the values 7 and 8 has the last `uint32_t` of the memory image as the cell of 7
and ends in the store of 8 past the end of the image; `SETAD` with index `0x10000000`
has its first cell far beyond the end.  No VM error is raised. -/
theorem set_array_beyond_memory_unchecked_witness :
    (stmt_setad example_title
        (example_machine [0xF1, 0xAB, 0x45, 0xFF, 0, 7, 0xFF, 1, 8, 0xFF, 0])
      = .error (.undefined "write outside the memory image") ∧
    is_vm_error (stmt_setad example_title
        (example_machine [0xF1, 0xAB, 0x45, 0xFF, 0, 7, 0xFF, 1, 8, 0xFF, 0])) = false) ∧
    (stmt_setad example_title
        (example_machine [0xF2, 0x00, 0x00, 0x00, 0x10, 0xFF, 0, 7, 0xFF, 0])
      = .error (.undefined "write outside the memory image") ∧
    is_vm_error (stmt_setad example_title
        (example_machine [0xF2, 0x00, 0x00, 0x00, 0x10, 0xFF, 0, 7, 0xFF, 0])) = false) :=
  ⟨(set_array_beyond_memory_unchecked example_title
    (example_machine [0xF1, 0xAB, 0x45, 0xFF, 0, 7, 0xFF, 1, 8, 0xFF, 0]) 0x1000 0x45AB 0
    2384 4 [0xF1, 0xAB, 0x45, 0xFF] [⟨[7, 0xFF], 7, 1⟩] [8, 0xFF] 8 rfl rfl
    (pure_expr_imm16 example_title 0xF1 0xFF 0x45AB rfl (by decide) rfl)
    (by
      intro it hit
      simp only [List.mem_singleton] at hit
      subst hit
      exact ⟨pure_expr_imm example_title 7 0xFF rfl (by decide) rfl, by decide, by decide⟩)
    (pure_expr_imm example_title 8 0xFF rfl (by decide) rfl)
    (by decide) (by decide) (by decide) (fun _ => by decide) (by decide)
    (fun _ => by decide)).2.2.1 rfl rfl,
   (set_array_beyond_memory_unchecked example_title
    (example_machine [0xF2, 0x00, 0x00, 0x00, 0x10, 0xFF, 0, 7, 0xFF, 0]) 0x1000 0x10000000 0
    2384 4 [0xF2, 0x00, 0x00, 0x00, 0x10, 0xFF] [] [7, 0xFF] 7 rfl rfl
    (pure_expr_imm32 example_title 0xF2 0xFF 0x10000000 rfl (by decide) rfl)
    (by intro it hit; cases hit)
    (pure_expr_imm example_title 7 0xFF rfl (by decide) rfl)
    (by decide) (by decide) (by decide) (fun h => absurd rfl h) (by decide)
    (fun h => absurd rfl h)).2.2.1 rfl rfl⟩

/-! ## `read_string_param`, byte by byte -/

theorem read_string_param_loop_succ (cfg : Config) (fuel : Nat) (acc : List Nat) (s : Machine) :
    read_string_param_loop cfg (fuel + 1) acc s =
      (vm_read_byte cfg s >>= fun x =>
        if x.1 = 0 then
          if acc.length ≥ STRING_PARAM_SIZE then
            .error (.undefined "write past the end of the string parameter buffer")
          else pure (acc.reverse, x.2)
        else if acc.length ≥ STRING_PARAM_SIZE then
          VM_ERROR "String parameter overflowed buffer" []
        else read_string_param_loop cfg fuel (x.1 :: acc) x.2) := by
  rfl

/-- The loop of `read_string_param` over characters that fit the buffer: they are
stored in order and the loop goes on after them. -/
theorem read_string_param_loop_chars (cfg : Config) (base : Nat) :
    ∀ (chars acc : List Nat) (fuel : Nat) (s : Machine),
      c_chars chars → s.ip.code = some base →
      mem_holds s.memory (base + s.ip.ptr) chars →
      base + s.ip.ptr + chars.length ≤ cfg.memory_size →
      s.ip.ptr + chars.length < 4294967296 →
      acc.length + chars.length ≤ STRING_PARAM_SIZE →
      read_string_param_loop cfg (fuel + chars.length) acc s =
        read_string_param_loop cfg fuel (chars.reverse ++ acc)
          (s.set_ip_ptr (s.ip.ptr + chars.length)) := by
  intro chars
  induction chars with
  | nil =>
    intro acc fuel s _ _ _ _ _ _
    simp only [List.length_nil, Nat.add_zero, List.reverse_nil, List.nil_append,
      set_ip_ptr_self]
  | cons c rest ih =>
    intro acc fuel s hch hc hm hb hw hlen
    simp only [List.length_cons] at hb hw hlen
    rw [mem_holds_cons] at hm
    obtain ⟨hm0, hm1⟩ := hm
    have hc0 : c ≠ 0 := (hch c (List.mem_cons_self _ _)).1
    have e : fuel + (c :: rest).length = (fuel + rest.length) + 1 := by
      simp only [List.length_cons]; omega
    rw [e, read_string_param_loop_succ,
      vm_read_byte_eq cfg s base c hc (by omega) hm0]
    simp only [bind, Except.bind, if_neg hc0]
    rw [if_neg (by omega), u32_of_lt (show s.ip.ptr + 1 < 4294967296 by omega)]
    rw [ih (c :: acc) fuel _ (fun x hx => hch x (List.mem_cons_of_mem _ hx))
      (by simpa using hc) (by simpa [Nat.add_assoc] using hm1)
      (by simp only [set_ip_ptr_ptr]; omega) (by simp only [set_ip_ptr_ptr]; omega)
      (by simp only [List.length_cons]; omega)]
    simp only [set_ip_ptr_twice, set_ip_ptr_ptr, List.reverse_cons, List.append_assoc,
      List.singleton_append, List.length_cons]
    congr 2
    omega

/-- A string of at most 63 characters and its NUL: `read_string_param` stores it. -/
theorem read_string_param_fits (cfg : Config) (s : Machine) (base : Nat) (chars : List Nat)
    (hch : c_chars chars) (hc : s.ip.code = some base)
    (hm : mem_holds s.memory (base + s.ip.ptr) (chars ++ [0]))
    (hb : base + s.ip.ptr + chars.length + 1 ≤ cfg.memory_size)
    (hw : s.ip.ptr + chars.length + 1 < 4294967296)
    (hlen : chars.length < STRING_PARAM_SIZE) :
    read_string_param cfg s = .ok (chars, s.set_ip_ptr (s.ip.ptr + chars.length + 1)) := by
  rw [mem_holds_append] at hm
  obtain ⟨hm1, hm2⟩ := hm
  simp only [mem_holds_cons] at hm2
  have e : cfg.memory_size + 1 = (cfg.memory_size - chars.length) + 1 + chars.length := by
    omega
  unfold read_string_param
  rw [e, read_string_param_loop_chars cfg base chars [] _ s hch hc hm1 (by omega) (by omega)
    (by simp only [List.length_nil]; omega),
    read_string_param_loop_succ,
    vm_read_byte_eq cfg _ base 0 (by simpa using hc) (by simp only [set_ip_ptr_ptr]; omega)
      (by
        simp only [set_ip_ptr_ptr, set_ip_ptr_memory]
        rw [← Nat.add_assoc]
        exact hm2.1)]
  simp only [bind, Except.bind, if_true, List.append_nil, List.length_reverse,
    List.reverse_reverse, set_ip_ptr_ptr, set_ip_ptr_twice, pure, Except.pure]
  rw [if_neg (by omega), u32_of_lt hw]

/-- A string of exactly 64 characters and its NUL: the length check of
`read_string_param` passes for every character, and the NUL is stored at `str[64]`,
one past the end of the buffer. -/
theorem read_string_param_64 (cfg : Config) (s : Machine) (base : Nat) (chars : List Nat)
    (hch : c_chars chars) (hc : s.ip.code = some base)
    (hm : mem_holds s.memory (base + s.ip.ptr) (chars ++ [0]))
    (hb : base + s.ip.ptr + chars.length + 1 ≤ cfg.memory_size)
    (hw : s.ip.ptr + chars.length + 1 < 4294967296)
    (hlen : chars.length = STRING_PARAM_SIZE) :
    read_string_param cfg s
      = .error (.undefined "write past the end of the string parameter buffer") := by
  rw [mem_holds_append] at hm
  obtain ⟨hm1, hm2⟩ := hm
  simp only [mem_holds_cons] at hm2
  have e : cfg.memory_size + 1 = (cfg.memory_size - chars.length) + 1 + chars.length := by
    omega
  unfold read_string_param
  rw [e, read_string_param_loop_chars cfg base chars [] _ s hch hc hm1 (by omega) (by omega)
    (by simp only [List.length_nil]; omega),
    read_string_param_loop_succ,
    vm_read_byte_eq cfg _ base 0 (by simpa using hc) (by simp only [set_ip_ptr_ptr]; omega)
      (by
        simp only [set_ip_ptr_ptr, set_ip_ptr_memory]
        rw [← Nat.add_assoc]
        exact hm2.1)]
  simp only [bind, Except.bind, if_true, List.append_nil, List.length_reverse]
  rw [if_pos (by omega)]

/-- A string of 65 characters or more: `read_string_param` raises the fatal error at
the 65th character. -/
theorem read_string_param_65 (cfg : Config) (s : Machine) (base c : Nat) (chars : List Nat)
    (hch : c_chars chars) (hc0 : c ≠ 0) (hc : s.ip.code = some base)
    (hm : mem_holds s.memory (base + s.ip.ptr) (chars ++ [c]))
    (hb : base + s.ip.ptr + chars.length + 1 ≤ cfg.memory_size)
    (hw : s.ip.ptr + chars.length + 1 < 4294967296)
    (hlen : chars.length = STRING_PARAM_SIZE) :
    read_string_param cfg s = VM_ERROR "String parameter overflowed buffer" [] := by
  rw [mem_holds_append] at hm
  obtain ⟨hm1, hm2⟩ := hm
  simp only [mem_holds_cons] at hm2
  have e : cfg.memory_size + 1 = (cfg.memory_size - chars.length) + 1 + chars.length := by
    omega
  unfold read_string_param
  rw [e, read_string_param_loop_chars cfg base chars [] _ s hch hc hm1 (by omega) (by omega)
    (by simp only [List.length_nil]; omega),
    read_string_param_loop_succ,
    vm_read_byte_eq cfg _ base c (by simpa using hc) (by simp only [set_ip_ptr_ptr]; omega)
      (by
        simp only [set_ip_ptr_ptr, set_ip_ptr_memory]
        rw [← Nat.add_assoc]
        exact hm2.1)]
  simp only [bind, Except.bind, if_neg hc0, List.append_nil, List.length_reverse]
  rw [if_pos (by omega)]

/-! ## C22: the buffer of a string parameter -/

/-- C22, what the code does: for a string of `n` characters (bytes other than NUL)
in the bytecode, `read_string_param` stores the string and its NUL for `n <= 63`,
all within the 64 bytes of the buffer; for `n = 64` the check
`str_i >= STRING_PARAM_SIZE` passes for every character, no error is raised, and the
NUL is stored at `str[64]`, one byte past the buffer; from the 65th character on it
raises the fatal error "String parameter overflowed buffer". -/
theorem read_string_param_buffer (cfg : Config) (s : Machine) (base : Nat) (chars : List Nat)
    (hch : c_chars chars) (hc : s.ip.code = some base)
    (hb : base + s.ip.ptr + chars.length + 1 ≤ cfg.memory_size)
    (hw : s.ip.ptr + chars.length + 1 < 4294967296) :
    (chars.length ≤ 63 → mem_holds s.memory (base + s.ip.ptr) (chars ++ [0]) →
      read_string_param cfg s = .ok (chars, s.set_ip_ptr (s.ip.ptr + chars.length + 1)) ∧
      (chars ++ [0]).length ≤ STRING_PARAM_SIZE) ∧
    (chars.length = 64 → mem_holds s.memory (base + s.ip.ptr) (chars ++ [0]) →
      read_string_param cfg s
        = .error (.undefined "write past the end of the string parameter buffer") ∧
      is_vm_error (read_string_param cfg s) = false ∧
      STRING_PARAM_SIZE < (chars ++ [0]).length) ∧
    (chars.length = 64 → ∀ c, c ≠ 0 → mem_holds s.memory (base + s.ip.ptr) (chars ++ [c]) →
      read_string_param cfg s = VM_ERROR "String parameter overflowed buffer" []) := by
  refine ⟨fun hlen hm => ⟨?_, ?_⟩, fun hlen hm => ?_, fun hlen c hc0 hm => ?_⟩
  · exact read_string_param_fits cfg s base chars hch hc hm hb hw
      (by simp only [STRING_PARAM_SIZE]; omega)
  · simp only [List.length_append, List.length_cons, List.length_nil, STRING_PARAM_SIZE]
    omega
  · have h := read_string_param_64 cfg s base chars hch hc hm hb hw hlen
    refine ⟨h, by rw [h]; rfl, ?_⟩
    simp only [List.length_append, List.length_cons, List.length_nil, STRING_PARAM_SIZE]
    omega
  · exact read_string_param_65 cfg s base c chars hch hc0 hc hm hb hw hlen

/-- Witness for C22: 64 letters `A` and a NUL are accepted without a VM error, and
the NUL goes to `str[64]`. -/
theorem read_string_param_buffer_witness :
    read_string_param example_title (example_machine (List.replicate 64 65 ++ [0]))
      = .error (.undefined "write past the end of the string parameter buffer") ∧
    is_vm_error (read_string_param example_title
      (example_machine (List.replicate 64 65 ++ [0]))) = false :=
  have h := (read_string_param_buffer example_title
    (example_machine (List.replicate 64 65 ++ [0])) 0x1000 (List.replicate 64 65)
    (by
      intro c hc
      rw [List.mem_replicate] at hc
      rw [hc.2]
      exact ⟨by decide, by decide⟩)
    rfl (by decide) (by decide)).2.1 (by decide) (by decide)
  ⟨h.1, h.2.1⟩

/-! ## `read_params`, entry by entry -/

theorem read_params_loop_succ (cfg : Config) (fuel i : Nat) (params : param_list)
    (s : Machine) :
    read_params_loop cfg (fuel + 1) i params s =
      (vm_read_byte cfg s >>= fun x =>
        if x.1 = 0 then pure ({ params with nr_params := i }, x.2)
        else if i ≥ MAX_PARAMS then VM_ERROR "Too many parameters" []
        else if x.1 = cfg.MES_PARAM_EXPRESSION then
          vm_eval cfg x.2 >>= fun y =>
            read_params_loop cfg fuel (i + 1) (params.set_expr i x.1 y.1) y.2
        else
          read_string_param cfg x.2 >>= fun y =>
            read_params_loop cfg fuel (i + 1) (params.set_str i x.1 y.1) y.2) := by
  rfl

theorem param_entry_bytes_pos (cfg : Config) (e : param_entry) : 0 < (e.bytes cfg).length := by
  cases e <;> simp [param_entry.bytes]

/-- One pass of the loop of `read_params` over a well-formed entry. -/
theorem read_params_loop_entry (cfg : Config) (base : Nat) (e : param_entry) (fuel i : Nat)
    (params : param_list) (s : Machine)
    (hE : cfg.MES_PARAM_EXPRESSION ≠ 0) (hok : e.ok cfg)
    (hc : s.ip.code = some base) (hs : s.stack = [])
    (hm : mem_holds s.memory (base + s.ip.ptr) (e.bytes cfg))
    (hb : base + s.ip.ptr + (e.bytes cfg).length ≤ cfg.memory_size)
    (hw : s.ip.ptr + (e.bytes cfg).length < 4294967296)
    (hi : i < MAX_PARAMS) :
    read_params_loop cfg (fuel + 1) i params s =
      read_params_loop cfg fuel (i + 1) (e.store cfg params i)
        (s.set_ip_ptr (s.ip.ptr + (e.bytes cfg).length)) := by
  have hi' : ¬ i ≥ MAX_PARAMS := by omega
  cases e with
  | expr enc val =>
    simp only [param_entry.bytes, List.length_cons] at hm hb hw ⊢
    rw [mem_holds_cons] at hm
    obtain ⟨hm0, hm1⟩ := hm
    have hev := hok (s.set_ip_ptr (s.ip.ptr + 1)) base (by simpa using hc) (by simpa using hs)
      (by simpa [Nat.add_assoc] using hm1) (by simp only [set_ip_ptr_ptr]; omega)
      (by simp only [set_ip_ptr_ptr]; omega)
    rw [read_params_loop_succ, vm_read_byte_eq cfg s base _ hc (by omega) hm0]
    simp only [bind, Except.bind, if_neg hE, if_neg hi', if_true,
      u32_of_lt (show s.ip.ptr + 1 < 4294967296 by omega), hev, set_ip_ptr_ptr,
      set_ip_ptr_twice, param_entry.store]
    congr 2
    omega
  | str tag chars =>
    obtain ⟨ht0, htE, hch, hlen⟩ := hok
    simp only [param_entry.bytes, List.length_cons, List.length_append, List.length_nil]
      at hm hb hw ⊢
    rw [mem_holds_cons] at hm
    obtain ⟨hm0, hm1⟩ := hm
    have hstr := read_string_param_fits cfg (s.set_ip_ptr (s.ip.ptr + 1)) base chars hch
      (by simpa using hc) (by simpa [Nat.add_assoc] using hm1)
      (by simp only [set_ip_ptr_ptr]; omega) (by simp only [set_ip_ptr_ptr]; omega)
      (by simp only [STRING_PARAM_SIZE]; omega)
    rw [read_params_loop_succ, vm_read_byte_eq cfg s base _ hc (by omega) hm0]
    simp only [bind, Except.bind, if_neg ht0, if_neg hi', if_neg htE,
      u32_of_lt (show s.ip.ptr + 1 < 4294967296 by omega), hstr, set_ip_ptr_ptr,
      set_ip_ptr_twice, param_entry.store]
    congr 2
    omega

/-- The loop of `read_params` over well-formed entries that fit the list. -/
theorem read_params_loop_entries (cfg : Config) (base : Nat)
    (hE : cfg.MES_PARAM_EXPRESSION ≠ 0) :
    ∀ (entries : List param_entry) (fuel i : Nat) (params : param_list) (s : Machine),
      (∀ e ∈ entries, e.ok cfg) → s.ip.code = some base → s.stack = [] →
      mem_holds s.memory (base + s.ip.ptr) (param_entries_bytes cfg entries) →
      base + s.ip.ptr + (param_entries_bytes cfg entries).length ≤ cfg.memory_size →
      s.ip.ptr + (param_entries_bytes cfg entries).length < 4294967296 →
      i + entries.length ≤ MAX_PARAMS →
      read_params_loop cfg (fuel + entries.length) i params s =
        read_params_loop cfg fuel (i + entries.length) (param_entries_store cfg entries params i)
          (s.set_ip_ptr (s.ip.ptr + (param_entries_bytes cfg entries).length)) := by
  intro entries
  induction entries with
  | nil =>
    intro fuel i params s _ _ _ _ _ _ _
    simp only [List.length_nil, Nat.add_zero, param_entries_bytes, param_entries_store,
      set_ip_ptr_self]
  | cons e rest ih =>
    intro fuel i params s hok hc hs hm hb hw hi
    simp only [param_entries_bytes, List.length_append, List.length_cons] at hm hb hw hi ⊢
    rw [mem_holds_append] at hm
    obtain ⟨hm1, hm2⟩ := hm
    have e1 : fuel + (rest.length + 1) = (fuel + rest.length) + 1 := by omega
    rw [e1, read_params_loop_entry cfg base e _ i params s hE (hok e (List.mem_cons_self _ _))
      hc hs hm1 (by omega) (by omega) (by omega)]
    rw [ih fuel (i + 1) _ _ (fun x hx => hok x (List.mem_cons_of_mem _ hx))
      (by simpa using hc) (by simpa using hs)
      (by simpa [Nat.add_assoc] using hm2)
      (by simp only [set_ip_ptr_ptr]; omega) (by simp only [set_ip_ptr_ptr]; omega)
      (by omega)]
    simp only [set_ip_ptr_twice, set_ip_ptr_ptr, param_entries_store]
    have a1 : i + 1 + rest.length = i + (rest.length + 1) := by omega
    have a2 : s.ip.ptr + (e.bytes cfg).length + (param_entries_bytes cfg rest).length
        = s.ip.ptr + ((e.bytes cfg).length + (param_entries_bytes cfg rest).length) := by omega
    rw [a1, a2]

theorem param_entry_store_other (cfg : Config) (e : param_entry) (params : param_list)
    (i j : Nat) (h : j ≠ i) : (e.store cfg params i).params j = params.params j := by
  cases e <;> simp [param_entry.store, param_list.set_expr, param_list.set_str, h]

theorem param_entry_store_nr (cfg : Config) (e : param_entry) (params : param_list) (i : Nat) :
    (e.store cfg params i).nr_params = params.nr_params := by
  cases e <;> rfl

theorem param_entry_store_stored (cfg : Config) (e : param_entry) (params : param_list)
    (i : Nat) : e.stored cfg ((e.store cfg params i).params i) := by
  cases e <;> simp [param_entry.store, param_entry.stored, param_list.set_expr,
    param_list.set_str]

theorem param_entries_store_before (cfg : Config) :
    ∀ (entries : List param_entry) (params : param_list) (i j : Nat), j < i →
      (param_entries_store cfg entries params i).params j = params.params j := by
  intro entries
  induction entries with
  | nil => intro params i j _; rfl
  | cons e rest ih =>
    intro params i j hj
    rw [param_entries_store, ih _ (i + 1) j (by omega),
      param_entry_store_other cfg e params i j (by omega)]

theorem param_entries_store_stored (cfg : Config) :
    ∀ (entries : List param_entry) (params : param_list) (i k : Nat) (e : param_entry),
      entries[k]? = some e →
      e.stored cfg ((param_entries_store cfg entries params i).params (i + k)) := by
  intro entries
  induction entries with
  | nil => intro params i k e h; simp at h
  | cons e0 rest ih =>
    intro params i k e h
    cases k with
    | zero =>
      simp only [List.getElem?_cons_zero, Option.some.injEq] at h
      subst h
      show param_entry.stored cfg e0
        ((param_entries_store cfg rest (e0.store cfg params i) (i + 1)).params i)
      rw [param_entries_store_before cfg rest _ (i + 1) i (by omega)]
      exact param_entry_store_stored cfg e0 params i
    | succ k =>
      simp only [List.getElem?_cons_succ] at h
      have := ih (e0.store cfg params i) (i + 1) k e h
      rw [param_entries_store]
      have e1 : i + (k + 1) = i + 1 + k := by omega
      rw [e1]
      exact this

theorem param_entries_bytes_append (cfg : Config) (xs ys : List param_entry) :
    param_entries_bytes cfg (xs ++ ys) = param_entries_bytes cfg xs ++ param_entries_bytes cfg ys := by
  induction xs with
  | nil => rfl
  | cons x xs ih =>
    show param_entry.bytes cfg x ++ param_entries_bytes cfg (xs ++ ys) = _
    rw [ih]
    simp only [param_entries_bytes, List.append_assoc]

theorem param_entries_length_le (cfg : Config) (entries : List param_entry) :
    entries.length ≤ (param_entries_bytes cfg entries).length := by
  induction entries with
  | nil => exact Nat.le_refl _
  | cons e rest ih =>
    have := param_entry_bytes_pos cfg e
    simp only [param_entries_bytes, List.length_cons, List.length_append]
    omega

/-- The first byte of a well-formed entry is its tag, which is not NUL. -/
theorem param_entry_tag (cfg : Config) (e : param_entry) (hE : cfg.MES_PARAM_EXPRESSION ≠ 0)
    (hok : e.ok cfg) : ∃ t rest, e.bytes cfg = t :: rest ∧ t ≠ 0 := by
  cases e with
  | expr enc val => exact ⟨_, _, rfl, hE⟩
  | str tag chars => exact ⟨_, _, rfl, hok.1⟩

/-- The parameter list `read_params` builds from at most 30 well-formed entries
followed by a NUL. -/
theorem read_params_run (cfg : Config) (s : Machine) (base : Nat)
    (entries : List param_entry)
    (hE : cfg.MES_PARAM_EXPRESSION ≠ 0) (hok : ∀ e ∈ entries, e.ok cfg)
    (hc : s.ip.code = some base) (hs : s.stack = [])
    (hn : entries.length ≤ 30)
    (hm : mem_holds s.memory (base + s.ip.ptr) (param_entries_bytes cfg entries ++ [0]))
    (hb : base + s.ip.ptr + (param_entries_bytes cfg entries).length + 1 ≤ cfg.memory_size)
    (hw : s.ip.ptr + (param_entries_bytes cfg entries).length + 1 < 4294967296) :
    read_params cfg s
      = .ok ({ param_entries_store cfg entries param_list_zero 0 with
                nr_params := entries.length },
             s.set_ip_ptr (s.ip.ptr + (param_entries_bytes cfg entries).length + 1)) := by
  rw [mem_holds_append] at hm
  obtain ⟨hm1, hm2⟩ := hm
  simp only [mem_holds_cons] at hm2
  have hlen := param_entries_length_le cfg entries
  have e : cfg.memory_size + 1 = (cfg.memory_size - entries.length) + 1 + entries.length := by
    omega
  unfold read_params
  rw [e, read_params_loop_entries cfg base hE entries _ 0 _ s hok hc hs hm1 (by omega)
    (by omega) (by simp only [MAX_PARAMS]; omega),
    read_params_loop_succ,
    vm_read_byte_eq cfg _ base 0 (by simpa using hc)
      (by simp only [set_ip_ptr_ptr]; omega)
      (by
        simp only [set_ip_ptr_ptr, set_ip_ptr_memory]
        rw [← Nat.add_assoc]
        exact hm2.1)]
  simp only [bind, Except.bind, if_true, pure, Except.pure, set_ip_ptr_ptr,
    set_ip_ptr_twice, u32_of_lt hw, Nat.zero_add]

/-- A parameter list returned by the loop of `read_params` has at most 30 entries,
and the tags of the slots from `nr_params` on are those of the zero-initialised
list. -/
theorem read_params_loop_tail (cfg : Config) (fuel : Nat) :
    ∀ (i : Nat) (params : param_list) (s : Machine) (x : param_list × Machine),
      read_params_loop cfg fuel i params s = .ok x → i ≤ MAX_PARAMS →
      (∀ k, i ≤ k → (params.params k).type = 0) →
      x.1.nr_params ≤ MAX_PARAMS ∧ (∀ k, x.1.nr_params ≤ k → (x.1.params k).type = 0) := by
  induction fuel with
  | zero => intro i params s x h; simp [read_params_loop] at h
  | succ fuel ih =>
    intro i params s x h hi htail
    simp only [read_params_loop, bind, Except.bind] at h
    cases h1 : vm_read_byte cfg s with
    | error e => simp [h1] at h
    | ok y =>
      simp only [h1] at h
      split at h
      · simp only [pure, Except.pure, Except.ok.injEq] at h
        subst h
        exact ⟨hi, htail⟩
      · split at h
        · simp [VM_ERROR] at h
        · rename_i hlt
          split at h
          · cases h2 : vm_eval cfg y.2 with
            | error e => simp [h2] at h
            | ok z =>
              simp only [h2] at h
              refine ih _ _ _ _ h (by omega) (fun k hk => ?_)
              simp only [param_list.set_expr]
              rw [if_neg (by omega)]
              exact htail k (by omega)
          · cases h2 : read_string_param cfg y.2 with
            | error e => simp [h2] at h
            | ok z =>
              simp only [h2] at h
              refine ih _ _ _ _ h (by omega) (fun k hk => ?_)
              simp only [param_list.set_str]
              rw [if_neg (by omega)]
              exact htail k (by omega)

/-- A parameter list returned by `read_params` has at most 30 entries, and the tag
of every slot from `nr_params` on is 0. -/
theorem read_params_tail (cfg : Config) (s : Machine) (x : param_list × Machine)
    (h : read_params cfg s = .ok x) :
    x.1.nr_params ≤ MAX_PARAMS ∧ (∀ k, x.1.nr_params ≤ k → (x.1.params k).type = 0) :=
  read_params_loop_tail cfg _ 0 param_list_zero s x h (Nat.zero_le _) (fun _ _ => rfl)

/-! ## `read_params` with the list and the globals at its fault -/

theorem read_params_loop_traced_succ (cfg : Config) (fuel i : Nat) (params : param_list)
    (s : Machine) :
    read_params_loop_traced cfg (fuel + 1) i params s =
      (of_callee (vm_read_byte cfg s) >>= fun x =>
        if x.1 = 0 then pure ({ params with nr_params := i }, x.2)
        else if i ≥ MAX_PARAMS then VM_ERROR_at (params, x.2) "Too many parameters" []
        else if x.1 = cfg.MES_PARAM_EXPRESSION then
          of_callee (vm_eval cfg x.2) >>= fun y =>
            read_params_loop_traced cfg fuel (i + 1) (params.set_expr i x.1 y.1) y.2
        else
          of_callee (read_string_param cfg x.2) >>= fun y =>
            read_params_loop_traced cfg fuel (i + 1) (params.set_str i x.1 y.1) y.2) := by
  rfl

theorem read_params_loop_traced_forget (cfg : Config) (fuel : Nat) :
    ∀ (i : Nat) (params : param_list) (s : Machine),
      forget_globals (read_params_loop_traced cfg fuel i params s)
        = read_params_loop cfg fuel i params s := by
  induction fuel with
  | zero => intro i params s; rfl
  | succ fuel ih =>
    intro i params s
    rw [read_params_loop_traced_succ, read_params_loop_succ, forget_globals_bind_callee]
    congr 1
    funext x
    split
    · rfl
    · split
      · rfl
      · split
        · rw [forget_globals_bind_callee]
          congr 1
          funext y
          exact ih _ _ _
        · rw [forget_globals_bind_callee]
          congr 1
          funext y
          exact ih _ _ _

theorem read_params_traced_forget (cfg : Config) (s : Machine) :
    forget_globals (read_params_traced cfg s) = read_params cfg s :=
  read_params_loop_traced_forget cfg _ _ _ _

/-- One pass of the loop of `read_params` over a well-formed entry. -/
theorem read_params_loop_traced_entry (cfg : Config) (base : Nat) (e : param_entry)
    (fuel i : Nat) (params : param_list) (s : Machine)
    (hE : cfg.MES_PARAM_EXPRESSION ≠ 0) (hok : e.ok cfg)
    (hc : s.ip.code = some base) (hs : s.stack = [])
    (hm : mem_holds s.memory (base + s.ip.ptr) (e.bytes cfg))
    (hb : base + s.ip.ptr + (e.bytes cfg).length ≤ cfg.memory_size)
    (hw : s.ip.ptr + (e.bytes cfg).length < 4294967296)
    (hi : i < MAX_PARAMS) :
    read_params_loop_traced cfg (fuel + 1) i params s =
      read_params_loop_traced cfg fuel (i + 1) (e.store cfg params i)
        (s.set_ip_ptr (s.ip.ptr + (e.bytes cfg).length)) := by
  have hi' : ¬ i ≥ MAX_PARAMS := by omega
  cases e with
  | expr enc val =>
    simp only [param_entry.bytes, List.length_cons] at hm hb hw ⊢
    rw [mem_holds_cons] at hm
    obtain ⟨hm0, hm1⟩ := hm
    have hev := hok (s.set_ip_ptr (s.ip.ptr + 1)) base (by simpa using hc) (by simpa using hs)
      (by simpa [Nat.add_assoc] using hm1) (by simp only [set_ip_ptr_ptr]; omega)
      (by simp only [set_ip_ptr_ptr]; omega)
    rw [read_params_loop_traced_succ, vm_read_byte_eq cfg s base _ hc (by omega) hm0]
    simp only [of_callee_ok, bind, Except.bind, if_neg hE, if_neg hi', if_true,
      u32_of_lt (show s.ip.ptr + 1 < 4294967296 by omega), hev, set_ip_ptr_ptr,
      set_ip_ptr_twice, param_entry.store]
    congr 2
    omega
  | str tag chars =>
    obtain ⟨ht0, htE, hch, hlen⟩ := hok
    simp only [param_entry.bytes, List.length_cons, List.length_append, List.length_nil]
      at hm hb hw ⊢
    rw [mem_holds_cons] at hm
    obtain ⟨hm0, hm1⟩ := hm
    have hstr := read_string_param_fits cfg (s.set_ip_ptr (s.ip.ptr + 1)) base chars hch
      (by simpa using hc) (by simpa [Nat.add_assoc] using hm1)
      (by simp only [set_ip_ptr_ptr]; omega) (by simp only [set_ip_ptr_ptr]; omega)
      (by simp only [STRING_PARAM_SIZE]; omega)
    rw [read_params_loop_traced_succ, vm_read_byte_eq cfg s base _ hc (by omega) hm0]
    simp only [of_callee_ok, bind, Except.bind, if_neg ht0, if_neg hi', if_neg htE,
      u32_of_lt (show s.ip.ptr + 1 < 4294967296 by omega), hstr, set_ip_ptr_ptr,
      set_ip_ptr_twice, param_entry.store]
    congr 2
    omega

/-- The loop of `read_params` over well-formed entries that fit the list. -/
theorem read_params_loop_traced_entries (cfg : Config) (base : Nat)
    (hE : cfg.MES_PARAM_EXPRESSION ≠ 0) :
    ∀ (entries : List param_entry) (fuel i : Nat) (params : param_list) (s : Machine),
      (∀ e ∈ entries, e.ok cfg) → s.ip.code = some base → s.stack = [] →
      mem_holds s.memory (base + s.ip.ptr) (param_entries_bytes cfg entries) →
      base + s.ip.ptr + (param_entries_bytes cfg entries).length ≤ cfg.memory_size →
      s.ip.ptr + (param_entries_bytes cfg entries).length < 4294967296 →
      i + entries.length ≤ MAX_PARAMS →
      read_params_loop_traced cfg (fuel + entries.length) i params s =
        read_params_loop_traced cfg fuel (i + entries.length)
          (param_entries_store cfg entries params i)
          (s.set_ip_ptr (s.ip.ptr + (param_entries_bytes cfg entries).length)) := by
  intro entries
  induction entries with
  | nil =>
    intro fuel i params s _ _ _ _ _ _ _
    simp only [List.length_nil, Nat.add_zero, param_entries_bytes, param_entries_store,
      set_ip_ptr_self]
  | cons e rest ih =>
    intro fuel i params s hok hc hs hm hb hw hi
    simp only [param_entries_bytes, List.length_append, List.length_cons] at hm hb hw hi ⊢
    rw [mem_holds_append] at hm
    obtain ⟨hm1, hm2⟩ := hm
    have e1 : fuel + (rest.length + 1) = (fuel + rest.length) + 1 := by omega
    rw [e1, read_params_loop_traced_entry cfg base e _ i params s hE
      (hok e (List.mem_cons_self _ _)) hc hs hm1 (by omega) (by omega) (by omega)]
    rw [ih fuel (i + 1) _ _ (fun x hx => hok x (List.mem_cons_of_mem _ hx))
      (by simpa using hc) (by simpa using hs)
      (by simpa [Nat.add_assoc] using hm2)
      (by simp only [set_ip_ptr_ptr]; omega) (by simp only [set_ip_ptr_ptr]; omega)
      (by omega)]
    simp only [set_ip_ptr_twice, set_ip_ptr_ptr, param_entries_store]
    have a1 : i + 1 + rest.length = i + (rest.length + 1) := by omega
    have a2 : s.ip.ptr + (e.bytes cfg).length + (param_entries_bytes cfg rest).length
        = s.ip.ptr + ((e.bytes cfg).length + (param_entries_bytes cfg rest).length) := by omega
    rw [a1, a2]

theorem param_entries_store_after (cfg : Config) :
    ∀ (entries : List param_entry) (params : param_list) (i j : Nat),
      i + entries.length ≤ j →
      (param_entries_store cfg entries params i).params j = params.params j := by
  intro entries
  induction entries with
  | nil => intro params i j _; rfl
  | cons e rest ih =>
    intro params i j hj
    simp only [List.length_cons] at hj
    rw [param_entries_store, ih _ (i + 1) j (by omega),
      param_entry_store_other cfg e params i j (by omega)]

/-- More than 30 well-formed entries: `read_params` calls `VM_ERROR` at the tag byte
of entry 31, with the first 30 entries in the list. -/
theorem read_params_traced_too_many (cfg : Config) (s : Machine) (base : Nat)
    (entries : List param_entry)
    (hE : cfg.MES_PARAM_EXPRESSION ≠ 0) (hok : ∀ e ∈ entries, e.ok cfg)
    (hc : s.ip.code = some base) (hs : s.stack = [])
    (hn : 30 < entries.length)
    (hm : mem_holds s.memory (base + s.ip.ptr) (param_entries_bytes cfg entries))
    (hb : base + s.ip.ptr + (param_entries_bytes cfg entries).length ≤ cfg.memory_size)
    (hw : s.ip.ptr + (param_entries_bytes cfg entries).length < 4294967296) :
    read_params_traced cfg s =
      VM_ERROR_at (param_entries_store cfg (entries.take 30) param_list_zero 0,
          s.set_ip_ptr (s.ip.ptr + (param_entries_bytes cfg (entries.take 30)).length + 1))
        "Too many parameters" [] := by
  have hsplit : entries = entries.take 30 ++ entries.drop 30 :=
    (List.take_append_drop 30 entries).symm
  have htake : (entries.take 30).length = 30 := by
    rw [List.length_take]
    omega
  obtain ⟨e0, post, hdrop⟩ : ∃ e0 post, entries.drop 30 = e0 :: post := by
    cases hd : entries.drop 30 with
    | nil =>
      have := congrArg List.length hd
      rw [List.length_drop, List.length_nil] at this
      omega
    | cons e0 post => exact ⟨e0, post, rfl⟩
  have he0 : e0 ∈ entries := by
    rw [hsplit, hdrop]
    exact List.mem_append_right _ (List.mem_cons_self _ _)
  obtain ⟨t, tl, hbytes, ht0⟩ := param_entry_tag cfg e0 hE (hok e0 he0)
  have hb30 : param_entries_bytes cfg entries
      = param_entries_bytes cfg (entries.take 30)
        ++ (t :: (tl ++ param_entries_bytes cfg post)) := by
    conv_lhs => rw [hsplit]
    rw [param_entries_bytes_append, hdrop, param_entries_bytes, hbytes, List.cons_append]
  rw [hb30] at hm hb hw
  simp only [List.length_append, List.length_cons] at hb hw
  rw [mem_holds_append] at hm
  obtain ⟨hm1, hm2⟩ := hm
  rw [mem_holds_cons] at hm2
  have hlen := param_entries_length_le cfg (entries.take 30)
  have e : cfg.memory_size + 1 = (cfg.memory_size - 30) + 1 + (entries.take 30).length := by
    omega
  unfold read_params_traced
  rw [e, read_params_loop_traced_entries cfg base hE (entries.take 30) _ 0 _ s
      (fun x hx => hok x (List.mem_of_mem_take hx)) hc hs hm1 (by omega)
      (by omega) (by simp only [MAX_PARAMS]; omega),
    read_params_loop_traced_succ,
    vm_read_byte_eq cfg _ base t (by simpa using hc)
      (by simp only [set_ip_ptr_ptr]; omega)
      (by
        simp only [set_ip_ptr_ptr, set_ip_ptr_memory]
        rw [← Nat.add_assoc]
        exact hm2.1)]
  simp only [of_callee_ok, bind, Except.bind, if_neg ht0]
  rw [if_pos (by simp only [MAX_PARAMS]; omega)]
  simp only [set_ip_ptr_ptr, set_ip_ptr_twice]
  rw [u32_of_lt (by omega)]

/-! ## C21: `read_params` -/

/-- C21. For a parameter list of `n` well-formed tagged entries in the bytecode (an
expression tag followed by an expression, or another non-zero tag followed by a
NUL-terminated string of at most 63 characters).  If `n <= 30` and a NUL byte
follows the entries, `read_params` returns with `nr_params = n`, with slot `k`
holding the tag and the value (the evaluated expression or the string) of entry `k`
for every `k < n`, and with `ip` just past the NUL.  If `n > 30`, `read_params`
raises the fatal error "Too many parameters" when it has read the tag of entry 31;
the list at the `VM_ERROR` call holds the first 30 entries in the slots 0 to 29 and
nothing else: every slot from 30 on is as in the zero-initialised list, so no 31st
entry has been written. -/
theorem read_params_reads_entries (cfg : Config) (s : Machine) (base : Nat)
    (entries : List param_entry)
    (hE : cfg.MES_PARAM_EXPRESSION ≠ 0) (hok : ∀ e ∈ entries, e.ok cfg)
    (hc : s.ip.code = some base) (hs : s.stack = []) :
    (entries.length ≤ 30 →
      mem_holds s.memory (base + s.ip.ptr) (param_entries_bytes cfg entries ++ [0]) →
      base + s.ip.ptr + (param_entries_bytes cfg entries).length + 1 ≤ cfg.memory_size →
      s.ip.ptr + (param_entries_bytes cfg entries).length + 1 < 4294967296 →
      ∃ params, read_params cfg s
          = .ok (params, s.set_ip_ptr (s.ip.ptr + (param_entries_bytes cfg entries).length + 1)) ∧
        params.nr_params = entries.length ∧
        ∀ (k : Nat) (e : param_entry), entries[k]? = some e → e.stored cfg (params.params k)) ∧
    (30 < entries.length →
      mem_holds s.memory (base + s.ip.ptr) (param_entries_bytes cfg entries) →
      base + s.ip.ptr + (param_entries_bytes cfg entries).length ≤ cfg.memory_size →
      s.ip.ptr + (param_entries_bytes cfg entries).length < 4294967296 →
      read_params cfg s = VM_ERROR "Too many parameters" [] ∧
      ∃ params s1, read_params_traced cfg s
          = VM_ERROR_at (params, s1) "Too many parameters" [] ∧
        (∀ (k : Nat) (e : param_entry), k < 30 → entries[k]? = some e →
          e.stored cfg (params.params k)) ∧
        (∀ k, 30 ≤ k → params.params k = param_list_zero.params k) ∧
        params.nr_params = 0 ∧
        s1 = s.set_ip_ptr
          (s.ip.ptr + (param_entries_bytes cfg (entries.take 30)).length + 1)) ∧
    forget_globals (read_params_traced cfg s) = read_params cfg s := by
  refine ⟨?_, ?_, read_params_traced_forget cfg s⟩
  · intro hn hm hb hw
    refine ⟨_, read_params_run cfg s base entries hE hok hc hs hn hm hb hw, rfl, ?_⟩
    intro k e hk
    have := param_entries_store_stored cfg entries param_list_zero 0 k e hk
    rw [Nat.zero_add] at this
    exact this
  · intro hn hm hb hw
    have hsplit : entries = entries.take 30 ++ entries.drop 30 := (List.take_append_drop 30 entries).symm
    have htake : (entries.take 30).length = 30 := by
      rw [List.length_take]
      omega
    obtain ⟨e0, post, hdrop⟩ : ∃ e0 post, entries.drop 30 = e0 :: post := by
      cases hd : entries.drop 30 with
      | nil =>
        have := congrArg List.length hd
        rw [List.length_drop, List.length_nil] at this
        omega
      | cons e0 post => exact ⟨e0, post, rfl⟩
    have he0 : e0 ∈ entries := by
      rw [hsplit, hdrop]
      exact List.mem_append_right _ (List.mem_cons_self _ _)
    obtain ⟨t, tl, hbytes, ht0⟩ := param_entry_tag cfg e0 hE (hok e0 he0)
    have hb30 : param_entries_bytes cfg entries
        = param_entries_bytes cfg (entries.take 30) ++ (t :: (tl ++ param_entries_bytes cfg post)) := by
      conv_lhs => rw [hsplit]
      rw [param_entries_bytes_append, hdrop, param_entries_bytes, hbytes, List.cons_append]
    rw [hb30] at hm hb hw
    simp only [List.length_append, List.length_cons] at hb hw
    rw [mem_holds_append] at hm
    obtain ⟨hm1, hm2⟩ := hm
    rw [mem_holds_cons] at hm2
    have hlen := param_entries_length_le cfg (entries.take 30)
    have e : cfg.memory_size + 1 = (cfg.memory_size - 30) + 1 + (entries.take 30).length := by
      omega
    unfold read_params
    rw [e, read_params_loop_entries cfg base hE (entries.take 30) _ 0 _ s
        (fun x hx => hok x (List.mem_of_mem_take hx)) hc hs hm1 (by omega)
        (by omega) (by simp only [MAX_PARAMS]; omega),
      read_params_loop_succ,
      vm_read_byte_eq cfg _ base t (by simpa using hc)
        (by simp only [set_ip_ptr_ptr]; omega)
        (by
          simp only [set_ip_ptr_ptr, set_ip_ptr_memory]
          rw [← Nat.add_assoc]
          exact hm2.1)]
    simp only [bind, Except.bind, if_neg ht0]
    rw [if_pos (by simp only [MAX_PARAMS]; omega)]
    refine ⟨rfl, _, _, read_params_traced_too_many cfg s base entries hE hok hc hs hn
      (by rw [hb30, mem_holds_append, mem_holds_cons]; exact ⟨hm1, hm2⟩)
      (by rw [hb30]; simp only [List.length_append, List.length_cons]; exact hb)
      (by rw [hb30]; simp only [List.length_append, List.length_cons]; exact hw),
      ?_, ?_, ?_, rfl⟩
    · intro k e hk hek
      have h30 : (entries.take 30)[k]? = some e := by
        rw [List.getElem?_take_of_lt hk]
        exact hek
      have := param_entries_store_stored cfg (entries.take 30) param_list_zero 0 k e h30
      rw [Nat.zero_add] at this
      exact this
    · intro k hk
      exact param_entries_store_after cfg (entries.take 30) param_list_zero 0 k
        (by rw [htake]; omega)
    · have hnr : ∀ (es : List param_entry) (p : param_list) (i : Nat),
          (param_entries_store cfg es p i).nr_params = p.nr_params := by
        intro es
        induction es with
        | nil => intro p i; rfl
        | cons e0 rest ih =>
          intro p i
          rw [param_entries_store, ih, param_entry_store_nr]
      exact hnr _ _ _

/-- Witness for C21: the three example entries are read into the slots 0, 1 and 2,
and a list of 31 expressions is refused. -/
theorem read_params_reads_entries_witness :
    (∃ params, read_params example_title
        (example_machine [2, 5, 0xFF, 1, 65, 66, 0, 2, 0xF1, 0x34, 0x12, 0xFF, 0])
        = .ok (params,
            (example_machine
              [2, 5, 0xFF, 1, 65, 66, 0, 2, 0xF1, 0x34, 0x12, 0xFF, 0]).set_ip_ptr 13) ∧
      params.nr_params = 3 ∧
      ((params.params 0).type = 2 ∧ (params.params 0).val = 5) ∧
      ((params.params 1).type = 1 ∧ (params.params 1).str = [65, 66]) ∧
      ((params.params 2).type = 2 ∧ (params.params 2).val = 0x1234)) ∧
    (read_params example_title
        (example_machine (param_entries_bytes example_title example_entries_31 ++ [0]))
      = VM_ERROR "Too many parameters" [] ∧
    ∃ params s1, read_params_traced example_title
        (example_machine (param_entries_bytes example_title example_entries_31 ++ [0]))
        = VM_ERROR_at (params, s1) "Too many parameters" [] ∧
      params.params 30 = param_list_zero.params 30) :=
  ⟨match (read_params_reads_entries example_title
      (example_machine [2, 5, 0xFF, 1, 65, 66, 0, 2, 0xF1, 0x34, 0x12, 0xFF, 0]) 0x1000
      example_entries (by decide)
      (by
        intro e he
        simp only [example_entries, List.mem_cons, List.mem_singleton, List.not_mem_nil,
          or_false] at he
        rcases he with rfl | rfl | rfl
        · exact pure_expr_imm example_title 5 0xFF rfl (by decide) rfl
        · exact ⟨by decide, by decide, by intro c hc; simp at hc; rcases hc with rfl | rfl <;> decide,
            by decide⟩
        · exact pure_expr_imm16 example_title 0xF1 0xFF 0x1234 rfl (by decide) rfl)
      rfl rfl).1 (by decide) (by decide) (by decide) (by decide) with
    | ⟨params, h1, h2, h3⟩ =>
      ⟨params, h1, h2, h3 0 _ rfl, h3 1 _ rfl, h3 2 _ rfl⟩,
   match (read_params_reads_entries example_title
      (example_machine (param_entries_bytes example_title example_entries_31 ++ [0])) 0x1000
      example_entries_31 (by decide)
      (by
        intro e he
        rw [example_entries_31, List.mem_replicate] at he
        rw [he.2]
        exact pure_expr_imm example_title 1 0xFF rfl (by decide) rfl)
      rfl rfl).2.1 (by decide) (by decide) (by decide) (by decide) with
    | ⟨h0, params, s1, h1, _, h3, _, _⟩ => ⟨h0, params, s1, h1, h3 30 (Nat.le_refl _)⟩⟩

/-! ## C23: `check_expr_param` and `check_string_param` -/

/-- C23. For every parameter list produced by `read_params` (with tag constants other
than 0) and every index `i`: `check_expr_param(params, i)` returns `params[i].val` if
`i < nr_params` and entry `i` is tagged EXPRESSION, and raises a fatal error
otherwise: "Too few parameters" for `i > nr_params`, "Expected expression parameter"
for `i = nr_params` and for an entry with another tag.  `check_string_param(params,
i)` returns the string of entry `i` if `i < nr_params` and the entry is tagged
STRING, and raises "Too few parameters" or "Expected string parameter" otherwise. -/
theorem check_param_contract (cfg : Config) (s s' : Machine) (params : param_list) (i : Nat)
    (hread : read_params cfg s = .ok (params, s'))
    (hE : cfg.MES_PARAM_EXPRESSION ≠ 0) (hS : cfg.MES_PARAM_STRING ≠ 0) :
    (i < params.nr_params ∧ (params.params i).type = cfg.MES_PARAM_EXPRESSION →
      check_expr_param cfg params i = .ok (params.params i).val) ∧
    (¬ (i < params.nr_params ∧ (params.params i).type = cfg.MES_PARAM_EXPRESSION) →
      is_vm_error (check_expr_param cfg params i) = true ∧
      (params.nr_params < i →
        check_expr_param cfg params i = VM_ERROR "Too few parameters" []) ∧
      (i ≤ params.nr_params →
        check_expr_param cfg params i = VM_ERROR "Expected expression parameter" [])) ∧
    (i < params.nr_params ∧ (params.params i).type = cfg.MES_PARAM_STRING →
      check_string_param cfg params i = .ok (params.params i).str) ∧
    (¬ (i < params.nr_params ∧ (params.params i).type = cfg.MES_PARAM_STRING) →
      is_vm_error (check_string_param cfg params i) = true ∧
      (params.nr_params < i →
        check_string_param cfg params i = VM_ERROR "Too few parameters" []) ∧
      (i ≤ params.nr_params →
        check_string_param cfg params i = VM_ERROR "Expected string parameter" [])) := by
  obtain ⟨hnr, htail⟩ := read_params_tail cfg s (params, s') hread
  simp only at hnr htail
  have key : ∀ (tag : Nat), tag ≠ 0 → ∀ {α : Type} (msg : String) (v : α),
      (i < params.nr_params ∧ (params.params i).type = tag →
        (if params.nr_params < i then (VM_ERROR "Too few parameters" [] : Except Fault α)
          else if (params.params i).type ≠ tag then VM_ERROR msg []
          else pure v) = .ok v) ∧
      (¬ (i < params.nr_params ∧ (params.params i).type = tag) →
        is_vm_error (if params.nr_params < i then
            (VM_ERROR "Too few parameters" [] : Except Fault α)
          else if (params.params i).type ≠ tag then VM_ERROR msg []
          else pure v) = true ∧
        (params.nr_params < i →
          (if params.nr_params < i then (VM_ERROR "Too few parameters" [] : Except Fault α)
            else if (params.params i).type ≠ tag then VM_ERROR msg []
            else pure v) = VM_ERROR "Too few parameters" []) ∧
        (i ≤ params.nr_params →
          (if params.nr_params < i then (VM_ERROR "Too few parameters" [] : Except Fault α)
            else if (params.params i).type ≠ tag then VM_ERROR msg []
            else pure v) = VM_ERROR msg [])) := by
    intro tag htag α msg v
    constructor
    · rintro ⟨hlt, hty⟩
      rw [if_neg (by omega), if_neg (by simp [hty])]
      rfl
    · intro hnot
      by_cases h1 : params.nr_params < i
      · rw [if_pos h1]
        exact ⟨rfl, fun _ => rfl, fun h => absurd h (by omega)⟩
      · have hty : (params.params i).type ≠ tag := by
          intro h
          by_cases h2 : i < params.nr_params
          · exact hnot ⟨h2, h⟩
          · have := htail i (by omega)
            rw [this] at h
            exact htag h.symm
        rw [if_neg h1, if_pos hty]
        exact ⟨rfl, fun h => absurd h h1, fun _ => rfl⟩
  exact ⟨(key _ hE "Expected expression parameter" (params.params i).val).1,
    (key _ hE "Expected expression parameter" (params.params i).val).2,
    (key _ hS "Expected string parameter" (params.params i).str).1,
    (key _ hS "Expected string parameter" (params.params i).str).2⟩

/-- Witness for C23: on the list `5, "AB", 0x1234`, `check_expr_param` returns 5 for
index 0 and raises a fatal error for index 1 (a string) and for index 3
(`nr_params`); `check_string_param` returns `AB` for index 1.  On a full list of 30
expressions the index 30 raises "Expected expression parameter". -/
theorem check_param_contract_witness :
    check_expr_param example_title example_read_params 0 = .ok 5 ∧
    is_vm_error (check_expr_param example_title example_read_params 1) = true ∧
    is_vm_error (check_expr_param example_title example_read_params 3) = true ∧
    check_string_param example_title example_read_params 1 = .ok [65, 66] ∧
    check_expr_param example_title
      { param_entries_store example_title example_entries_30 param_list_zero 0 with
        nr_params := example_entries_30.length } 30
      = VM_ERROR "Expected expression parameter" [] :=
  ⟨(check_param_contract example_title example_params_machine
      (example_params_machine.set_ip_ptr 13) example_read_params 0 rfl (by decide)
      (by decide)).1 ⟨by decide, by decide⟩,
   ((check_param_contract example_title example_params_machine
      (example_params_machine.set_ip_ptr 13) example_read_params 1 rfl (by decide)
      (by decide)).2.1 (by decide)).1,
   ((check_param_contract example_title example_params_machine
      (example_params_machine.set_ip_ptr 13) example_read_params 3 rfl (by decide)
      (by decide)).2.1 (by decide)).1,
   (check_param_contract example_title example_params_machine
      (example_params_machine.set_ip_ptr 13) example_read_params 1 rfl (by decide)
      (by decide)).2.2.1 ⟨by decide, by decide⟩,
   ((check_param_contract example_title
      (example_machine (param_entries_bytes example_title example_entries_30 ++ [0]))
      _ _ 30
      (read_params_run example_title
        (example_machine (param_entries_bytes example_title example_entries_30 ++ [0])) 0x1000
        example_entries_30 (by decide)
        (by
          intro e he
          rw [example_entries_30, List.mem_replicate] at he
          rw [he.2]
          exact pure_expr_imm example_title 1 0xFF rfl (by decide) rfl)
        rfl rfl (by decide) (by decide) (by decide) (by decide))
      (by decide) (by decide)).2.1 (by decide)).2.2 (by decide)⟩

/-! ## `aishimai.c`: bounds of a blended channel -/

/-- A blended channel lies between the two colours it blends: the weights
`alpha + 1` and `256 - alpha` add up to 257, and `257 * c / 256 = c` for a byte `c`. -/
theorem blend_between (alpha f b : Nat) (ha : alpha < 256) (hf : f < 256) (hb : b < 256) :
    min f b ≤ ((alpha + 1) * f + (256 - alpha) * b) / 256 ∧
    ((alpha + 1) * f + (256 - alpha) * b) / 256 ≤ max f b := by
  have hsum : (alpha + 1) + (256 - alpha) = 257 := by omega
  have h1 : (alpha + 1) * min f b ≤ (alpha + 1) * f :=
    Nat.mul_le_mul_left _ (Nat.min_le_left f b)
  have h2 : (256 - alpha) * min f b ≤ (256 - alpha) * b :=
    Nat.mul_le_mul_left _ (Nat.min_le_right f b)
  have h3 : (alpha + 1) * f ≤ (alpha + 1) * max f b :=
    Nat.mul_le_mul_left _ (Nat.le_max_left f b)
  have h4 : (256 - alpha) * b ≤ (256 - alpha) * max f b :=
    Nat.mul_le_mul_left _ (Nat.le_max_right f b)
  have e1 : (alpha + 1) * min f b + (256 - alpha) * min f b = 257 * min f b := by
    rw [← Nat.add_mul, hsum]
  have e2 : (alpha + 1) * max f b + (256 - alpha) * max f b = 257 * max f b := by
    rw [← Nat.add_mul, hsum]
  have hmax : max f b < 256 := by
    rcases Nat.le_total f b with h | h
    · rw [Nat.max_eq_right h]; exact hb
    · rw [Nat.max_eq_left h]; exact hf
  constructor
  · apply (Nat.le_div_iff_mul_le (by decide)).2
    omega
  · apply Nat.le_of_lt_succ
    apply (Nat.div_lt_iff_lt_mul (by decide)).2
    omega

/-- The buffer after `alpha_blend_rgb_bgr`, byte by byte: channel `k` of the pixel is
blended with byte `2 - k` of the foreground colour. -/
theorem alpha_blend_rgb_bgr_eq (bg : Nat → Nat) (p : Nat) (fg : Nat → Nat) (c alpha : Nat)
    (ha : alpha < 256) (x : Nat) :
    alpha_blend_rgb_bgr bg p fg c alpha x =
      if p ≤ x ∧ x < p + 3 then
        ((alpha + 1) * (fg (c + 2 - (x - p)) % 256) + (256 - alpha) * (bg x % 256)) / 256
      else bg x := by
  have key : ∀ (b : Nat → Nat) (k f y : Nat),
      blend_store b k (u32 (u8 alpha + 1)) (u32 (256 - u8 alpha)) (f % 256) y
        = if y = k then ((alpha + 1) * (f % 256) + (256 - alpha) * (b k % 256)) / 256
          else b y := fun b k f y => blend_store_eq b k alpha f ha y
  simp only [alpha_blend_rgb_bgr]
  rw [key _ (p + 2) (fg c) x]
  by_cases h2 : x = p + 2
  · subst h2
    have e : c + 2 - (p + 2 - p) = c := by omega
    rw [if_pos rfl, if_pos ⟨by omega, by omega⟩, e,
      key _ (p + 1) (fg (c + 1)) (p + 2), if_neg (by omega),
      key _ p (fg (c + 2)) (p + 2), if_neg (by omega)]
  · rw [if_neg h2, key _ (p + 1) (fg (c + 1)) x]
    by_cases h1 : x = p + 1
    · subst h1
      have e : c + 2 - (p + 1 - p) = c + 1 := by omega
      rw [if_pos rfl, if_pos ⟨by omega, by omega⟩, e,
        key _ p (fg (c + 2)) (p + 1), if_neg (by omega)]
    · rw [if_neg h1, key _ p (fg (c + 2)) x]
      by_cases h0 : x = p
      · subst h0
        have e : c + 2 - (x - x) = c + 2 := by omega
        rw [if_pos rfl, if_pos ⟨by omega, by omega⟩, e]
      · rw [if_neg h0, if_neg (by omega)]

/-! ## C39: a blended channel stays between its two colours -/

/-- C39. For all 8-bit `fg` and `alpha`, every buffer of bytes and each of the three
channels `k` of the pixel at `p`: the byte `alpha_blend_rgb_mono` stores is
`((alpha + 1) * fg + (256 - alpha) * bg) >> 8` for the old byte `bg` of the channel,
and the byte `alpha_blend_rgb_bgr` stores is the same expression with byte `2 - k` of
the foreground colour as `fg`.  The expression lies between `min(fg, bg)` and
`max(fg, bg)` inclusive, so it is below 256 before the conversion to `uint8_t`, and
blending a colour over itself returns that colour. -/
theorem alpha_blend_between (bg colour : Nat → Nat) (p c fg alpha k : Nat)
    (hfg : fg < 256) (ha : alpha < 256) (hk : k < 3) :
    (alpha_blend_rgb_mono bg p fg alpha (p + k)
        = ((alpha + 1) * fg + (256 - alpha) * (bg (p + k) % 256)) / 256 ∧
      min fg (bg (p + k) % 256) ≤ alpha_blend_rgb_mono bg p fg alpha (p + k) ∧
      alpha_blend_rgb_mono bg p fg alpha (p + k) ≤ max fg (bg (p + k) % 256) ∧
      ((alpha + 1) * fg + (256 - alpha) * (bg (p + k) % 256)) / 256 < 256 ∧
      (bg (p + k) % 256 = fg → alpha_blend_rgb_mono bg p fg alpha (p + k) = fg)) ∧
    (alpha_blend_rgb_bgr bg p colour c alpha (p + k)
        = ((alpha + 1) * (colour (c + 2 - k) % 256) + (256 - alpha) * (bg (p + k) % 256)) / 256 ∧
      min (colour (c + 2 - k) % 256) (bg (p + k) % 256)
        ≤ alpha_blend_rgb_bgr bg p colour c alpha (p + k) ∧
      alpha_blend_rgb_bgr bg p colour c alpha (p + k)
        ≤ max (colour (c + 2 - k) % 256) (bg (p + k) % 256) ∧
      ((alpha + 1) * (colour (c + 2 - k) % 256) + (256 - alpha) * (bg (p + k) % 256)) / 256
        < 256 ∧
      (bg (p + k) % 256 = colour (c + 2 - k) % 256 →
        alpha_blend_rgb_bgr bg p colour c alpha (p + k) = colour (c + 2 - k) % 256)) := by
  have hb : bg (p + k) % 256 < 256 := Nat.mod_lt _ (by decide)
  have hc : colour (c + 2 - k) % 256 < 256 := Nat.mod_lt _ (by decide)
  have fin : ∀ f : Nat, f < 256 → ∀ v : Nat,
      v = ((alpha + 1) * f + (256 - alpha) * (bg (p + k) % 256)) / 256 →
      v = ((alpha + 1) * f + (256 - alpha) * (bg (p + k) % 256)) / 256 ∧
      min f (bg (p + k) % 256) ≤ v ∧ v ≤ max f (bg (p + k) % 256) ∧
      ((alpha + 1) * f + (256 - alpha) * (bg (p + k) % 256)) / 256 < 256 ∧
      (bg (p + k) % 256 = f → v = f) := by
    intro f hf v hv
    obtain ⟨h1, h2⟩ := blend_between alpha f (bg (p + k) % 256) ha hf hb
    have hmax : max f (bg (p + k) % 256) < 256 := by
      rcases Nat.le_total f (bg (p + k) % 256) with h | h
      · rw [Nat.max_eq_right h]; exact hb
      · rw [Nat.max_eq_left h]; exact hf
    refine ⟨hv, by rw [hv]; exact h1, by rw [hv]; exact h2, by omega, fun heq => ?_⟩
    rw [heq, Nat.min_self] at h1
    rw [heq, Nat.max_self] at h2
    rw [hv, heq]
    omega
  constructor
  · apply fin fg hfg
    rw [alpha_blend_rgb_mono_eq bg p fg alpha ha, if_pos (by omega), Nat.mod_eq_of_lt hfg]
  · apply fin _ hc
    have e : p + k - p = k := by omega
    rw [alpha_blend_rgb_bgr_eq bg p colour c alpha ha, if_pos (by omega), e]

/-- Witness for C39: blending 200 over 100 with alpha 120 gives 147, between the two;
blending 100 over 100 gives 100. -/
theorem alpha_blend_between_witness :
    alpha_blend_rgb_mono example_surface 0 200 120 1 = 147 ∧
    alpha_blend_rgb_mono example_surface 0 100 120 1 = 100 :=
  ⟨(alpha_blend_between example_surface example_glyph_fnt 0 0 200 120 1
      (by decide) (by decide) (by decide)).1.1,
   (alpha_blend_between example_surface example_glyph_fnt 0 0 100 120 1
      (by decide) (by decide) (by decide)).1.2.2.2.2 (by decide)⟩

/-! ## C31: `render_char_redscale` -/

/-- The inner loop body of `render_char_redscale`, byte by byte. -/
theorem render_char_redscale_pixel_eq (dst fnt msk : Nat → Nat) (d g x : Nat) :
    render_char_redscale_pixel dst fnt msk d g x
      = if d ≤ x ∧ x < d + 3 then redscale_channel (fnt g) (msk g) (x - d) (dst x)
        else dst x := by
  unfold render_char_redscale_pixel redscale_channel merged_mono_channel
  by_cases h0 : msk g % 256 = 0
  · rw [if_pos h0, if_pos h0]
    split_ifs <;> rfl
  · rw [if_neg h0, if_neg h0, if_neg h0]
    by_cases h15 : msk g % 256 > 15
    · rw [if_pos h15, if_pos h15]
      unfold buf_set
      by_cases h2 : x = d + 2
      · subst h2
        rw [if_pos rfl, if_pos ⟨by omega, by omega⟩, if_neg (by omega)]
      · rw [if_neg h2]
        by_cases h1 : x = d + 1
        · subst h1
          rw [if_pos rfl, if_pos ⟨by omega, by omega⟩, if_neg (by omega)]
        · rw [if_neg h1]
          by_cases hx : x = d
          · subst hx
            rw [if_pos rfl, if_pos ⟨by omega, by omega⟩, if_pos (by omega)]
          · rw [if_neg hx, if_neg (by omega)]
    · rw [if_neg h15, if_neg h15]
      unfold buf_set
      by_cases h2 : x = d + 2
      · subst h2
        rw [if_pos rfl, if_pos ⟨by omega, by omega⟩, if_neg (by omega)]
      · rw [if_neg h2]
        by_cases h1 : x = d + 1
        · subst h1
          rw [if_pos rfl, if_pos ⟨by omega, by omega⟩, if_neg (by omega)]
        · rw [if_neg h1, alpha_blend_rgb_mono_eq dst d (fnt g) _ (glyph_alpha_lt _),
            glyph_alpha_eq _ (by omega), Nat.min_eq_left (by omega)]
          by_cases hx : x = d
          · subst hx
            rw [if_pos ⟨by omega, by omega⟩, if_pos ⟨by omega, by omega⟩, if_pos (by omega)]
          · rw [if_neg (by omega), if_neg (by omega)]

/-- C31. After `render_char_redscale` on a surface whose rows are at least as long as
a glyph row (`3 * char_w <= stride`): every glyph pixel whose mask is non-zero has
green = 0 and blue = 0, and its red channel is the red channel `render_char_merged`
without a palette leaves there for the same inputs; every glyph pixel whose mask
is 0, and every byte outside the glyph rectangle, is unchanged. -/
theorem render_char_redscale_red_only (dst fnt msk : Nat → Nat) (pal : Option (Nat → Nat))
    (char_w char_h stride : Nat) (hs : 3 * char_w ≤ stride) :
    (∀ row col, row < char_h → col < char_w →
      (msk (char_w * row + col) % 256 ≠ 0 →
        render_char_redscale dst fnt msk pal char_w char_h stride (row * stride + 3 * col)
          = render_char_merged dst fnt msk none char_w char_h stride (row * stride + 3 * col) ∧
        render_char_redscale dst fnt msk pal char_w char_h stride (row * stride + 3 * col + 1)
          = 0 ∧
        render_char_redscale dst fnt msk pal char_w char_h stride (row * stride + 3 * col + 2)
          = 0) ∧
      (msk (char_w * row + col) % 256 = 0 → ∀ k, k < 3 →
        render_char_redscale dst fnt msk pal char_w char_h stride (row * stride + 3 * col + k)
          = dst (row * stride + 3 * col + k))) ∧
    (∀ x, (∀ row col k, row < char_h → col < char_w → k < 3 →
        x ≠ row * stride + 3 * col + k) →
      render_char_redscale dst fnt msk pal char_w char_h stride x = dst x) := by
  obtain ⟨hA, hB⟩ := render_rows_eq
    (fun dst d g => render_char_redscale_pixel dst fnt msk d g)
    (fun g k c => redscale_channel (fnt g) (msk g) k c)
    (fun dst d g x => render_char_redscale_pixel_eq dst fnt msk d g x)
    char_w stride hs dst char_h
  obtain ⟨hM, -⟩ := render_rows_eq
    (fun dst d g => render_char_merged_pixel dst fnt msk none d g)
    (fun g _ c => merged_mono_channel (fnt g) (msk g) c)
    (fun dst d g x => render_char_merged_pixel_eq dst fnt msk d g x)
    char_w stride hs dst char_h
  have eR : ∀ row col k, row < char_h → col < char_w → k < 3 →
      render_char_redscale dst fnt msk pal char_w char_h stride (row * stride + 3 * col + k)
        = redscale_channel (fnt (char_w * row + col)) (msk (char_w * row + col)) k
            (dst (row * stride + 3 * col + k)) := hA
  have eM : ∀ row col k, row < char_h → col < char_w → k < 3 →
      render_char_merged dst fnt msk none char_w char_h stride (row * stride + 3 * col + k)
        = merged_mono_channel (fnt (char_w * row + col)) (msk (char_w * row + col))
            (dst (row * stride + 3 * col + k)) := hM
  refine ⟨fun row col hr hc => ⟨fun hm => ⟨?_, ?_, ?_⟩, fun hm k hk => ?_⟩, fun x hx => hB x hx⟩
  · have r := eR row col 0 hr hc (by decide)
    have m := eM row col 0 hr hc (by decide)
    rw [Nat.add_zero] at r m
    rw [r, m]
    unfold redscale_channel
    rw [if_neg hm, if_pos rfl]
  · rw [eR row col 1 hr hc (by decide)]
    unfold redscale_channel
    rw [if_neg hm, if_neg (by decide)]
  · rw [eR row col 2 hr hc (by decide)]
    unfold redscale_channel
    rw [if_neg hm, if_neg (by decide)]
  · rw [eR row col k hr hc hk]
    unfold redscale_channel
    rw [if_pos hm]

/-- Witness for C31: the 2 by 2 example glyph on a surface of 8 bytes per row.  The
pixel with mask 8 gets the red byte 147 of the merged mode and green = blue = 0; the
transparent pixel keeps 100. -/
theorem render_char_redscale_red_only_witness :
    render_char_redscale example_surface example_glyph_fnt example_glyph_msk none 2 2 8 3
      = render_char_merged example_surface example_glyph_fnt example_glyph_msk none 2 2 8 3 ∧
    render_char_redscale example_surface example_glyph_fnt example_glyph_msk none 2 2 8 4 = 0 ∧
    render_char_redscale example_surface example_glyph_fnt example_glyph_msk none 2 2 8 5 = 0 ∧
    render_char_redscale example_surface example_glyph_fnt example_glyph_msk none 2 2 8 1
      = 100 :=
  have h := (render_char_redscale_red_only example_surface example_glyph_fnt example_glyph_msk
    none 2 2 8 (by decide)).1
  ⟨((h 0 1 (by decide) (by decide)).1 (by decide)).1,
   ((h 0 1 (by decide) (by decide)).1 (by decide)).2.1,
   ((h 0 1 (by decide) (by decide)).1 (by decide)).2.2,
   (h 0 0 (by decide) (by decide)).2 (by decide) 1 (by decide)⟩

/-! ## C32: `get_char_index` -/

/-- The loop of `get_char_index` returns the first index from `i` on whose entry is
`ch`, and -1 exactly if none of the `n` entries from `i` on is `ch`. -/
theorem get_char_index_loop_spec (ch : Nat) (table : Nat → Nat) :
    ∀ (n i : Nat),
      (∀ k, i ≤ k → k < i + n → buf_get16 table ((k + 1) * 2) = ch →
        (∀ j, i ≤ j → j < k → buf_get16 table ((j + 1) * 2) ≠ ch) →
        get_char_index_loop ch table n i = (k : Int)) ∧
      (get_char_index_loop ch table n i = -1 ↔
        ∀ j, i ≤ j → j < i + n → buf_get16 table ((j + 1) * 2) ≠ ch) := by
  intro n
  induction n with
  | zero =>
    intro i
    refine ⟨fun k h1 h2 => by omega, ?_⟩
    simp only [get_char_index_loop, true_iff]
    intro j h1 h2
    omega
  | succ n ih =>
    intro i
    obtain ⟨ih1, ih2⟩ := ih (i + 1)
    simp only [get_char_index_loop]
    by_cases hi : buf_get16 table ((i + 1) * 2) = ch
    · rw [if_pos hi]
      constructor
      · intro k h1 h2 hk hmin
        by_cases hki : k = i
        · rw [hki]
        · exact absurd hi (hmin i (Nat.le_refl i) (by omega))
      · constructor
        · intro h
          omega
        · intro h
          exact absurd hi (h i (Nat.le_refl i) (by omega))
    · rw [if_neg hi]
      constructor
      · intro k h1 h2 hk hmin
        have hki : k ≠ i := fun h => hi (h ▸ hk)
        exact ih1 k (by omega) (by omega) hk (fun j hj1 hj2 => hmin j (by omega) hj2)
      · rw [ih2]
        constructor
        · intro h j hj1 hj2
          by_cases hji : j = i
          · rw [hji]; exact hi
          · exact h j (by omega) (by omega)
        · intro h j hj1 hj2
          exact h j (by omega) (by omega)

/-- C32. For every code point `ch` (a `uint16_t`) and every table that starts with
its entry count: `get_char_index(ch, table)` returns the smallest index `i < count`
whose 16-bit entry equals `ch`, and it returns -1 if and only if none of the first
`count` entries equals `ch`. -/
theorem get_char_index_first_match (ch : Nat) (table : Nat → Nat) (hch : ch < 65536) :
    (∀ i, i < buf_get16 table 0 → buf_get16 table ((i + 1) * 2) = ch →
      (∀ j, j < i → buf_get16 table ((j + 1) * 2) ≠ ch) →
      get_char_index ch table = (i : Int)) ∧
    (get_char_index ch table = -1 ↔
      ∀ j, j < buf_get16 table 0 → buf_get16 table ((j + 1) * 2) ≠ ch) := by
  obtain ⟨h1, h2⟩ := get_char_index_loop_spec ch table (buf_get16 table 0) 0
  have e : u16 ch = ch := u16_of_lt hch
  unfold get_char_index
  rw [e]
  constructor
  · intro i hi hm hmin
    exact h1 i (Nat.zero_le _) (by omega) hm (fun j _ hj => hmin j hj)
  · rw [h2]
    constructor
    · intro h j hj
      exact h j (Nat.zero_le _) (by omega)
    · intro h j _ hj
      exact h j (by omega)

/-- Witness for C32: in the example table `0x8141` is found at index 0, not at its
second occurrence, `0x82A0` at index 1, and `0x8140` is absent. -/
theorem get_char_index_first_match_witness :
    get_char_index 0x8141 example_font_tbl = 0 ∧
    get_char_index 0x82A0 example_font_tbl = 1 ∧
    get_char_index 0x8140 example_font_tbl = -1 :=
  ⟨(get_char_index_first_match 0x8141 example_font_tbl (by decide)).1 0 (by decide) (by decide)
      (fun j hj => absurd hj (Nat.not_lt_zero j)),
   (get_char_index_first_match 0x82A0 example_font_tbl (by decide)).1 1 (by decide) (by decide)
      (by intro j hj; interval_cases j; decide),
   (get_char_index_first_match 0x8140 example_font_tbl (by decide)).2.2
      (by
        intro j hj
        have hj3 : j < 3 := hj
        interval_cases j <;> decide)⟩

/-! ## C34: `SYS[18]`, `stmt_sys_check_input` -/

/-- A 32-bit store of a value below `2^32`, read back, and the bytes it leaves
alone. -/
theorem mem_set32_cell (cfg : Config) (m : Nat → Nat) (a v : Nat)
    (h : a + 4 ≤ cfg.memory_size) (hv : v < 4294967296) :
    ∃ m', mem_set32 cfg m a v = .ok m' ∧ mem_get32 cfg m' a = .ok v ∧
      ∀ x, x < a ∨ a + 4 ≤ x → m' x = m x := by
  have e := mem_set32_cells cfg m a v h
  rw [u32_of_lt hv] at e
  refine ⟨_, e, ?_, fun x hx => cells_memory_outside 4 m a [v] x (by simpa using hx)⟩
  have := cells_memory_get32 cfg m a [v] 0 (by simp) (by simpa using h)
  simpa [Nat.mod_eq_of_lt hv] using this

/-- C34, what the code does: for a valid input number `SYS[18]` stores 1 in
`var32[18]` if the value parameter is non-zero and the input is down, and 0
otherwise, and changes no other byte of the memory image.  For an invalid input
number it stores 0 in `system_var32[18]` and changes no other byte: `var32[18]` keeps
its value, and a cell of `system_var32` is modified. -/
theorem stmt_sys_check_input_result (cfg : Config) (params : param_list) (s : Machine)
    (input v : Nat)
    (h0 : check_expr_param cfg params 0 = .ok input)
    (h1 : check_expr_param cfg params 1 = .ok v)
    (husr : var32_addr cfg 18 + 4 ≤ cfg.memory_size)
    (hsys : system_var32_addr cfg 18 + 4 ≤ cfg.memory_size) :
    (input < cfg.INPUT_NR_INPUTS →
      ∃ s', stmt_sys_check_input cfg params s = .ok s' ∧
        mem_get32 cfg s'.memory (var32_addr cfg 18)
          = .ok (c_bool (v != 0 &&
              (cfg.host_ret s.trace ⟨"input_down", [.num input]⟩).headD 0 != 0)) ∧
        ∀ x, x < var32_addr cfg 18 ∨ var32_addr cfg 18 + 4 ≤ x → s'.memory x = s.memory x) ∧
    (cfg.INPUT_NR_INPUTS ≤ input →
      ∃ s', stmt_sys_check_input cfg params s = .ok s' ∧
        mem_get32 cfg s'.memory (system_var32_addr cfg 18) = .ok 0 ∧
        ∀ x, x < system_var32_addr cfg 18 ∨ system_var32_addr cfg 18 + 4 ≤ x →
          s'.memory x = s.memory x) := by
  constructor
  · intro hin
    have hnot : ¬ input ≥ cfg.INPUT_NR_INPUTS := by omega
    obtain ⟨m', e, hg, ho⟩ := mem_set32_cell cfg s.memory (var32_addr cfg 18)
      (c_bool (v != 0 && (cfg.host_ret s.trace ⟨"input_down", [.num input]⟩).headD 0 != 0))
      husr (by unfold c_bool; split <;> decide)
    refine ⟨(host_call cfg "input_down" [.num input] s).2.set_memory m', ?_, hg, ho⟩
    simp only [stmt_sys_check_input, h0, h1, bind, Except.bind, if_neg hnot, host_call,
      set_usr_var32]
    rw [e]
    rfl
  · intro hout
    obtain ⟨m', e, hg, ho⟩ := mem_set32_cell cfg s.memory (system_var32_addr cfg 18) 0
      hsys (by decide)
    refine ⟨(WARNING cfg "Invalid input number: %u" s).set_memory m', ?_, hg, ho⟩
    simp only [stmt_sys_check_input, h0, h1, bind, Except.bind,
      if_pos (show input ≥ cfg.INPUT_NR_INPUTS from hout), set_sys_var32, WARNING, host_do,
      host_call]
    rw [e]
    rfl

/-- Witness for C34: with `var32[18] = 5` and `system_var32[18] = 7`, the input
number 8 (there are 8 inputs) leaves `var32[18] = 5` and clears
`system_var32[18]`; the input number 3, down, with the value 1 stores 1 in
`var32[18]` and leaves `system_var32[18] = 7`. -/
theorem stmt_sys_check_input_result_witness :
    (∃ s', stmt_sys_check_input example_input_title (example_params_exprs [8, 1])
        example_input_machine = .ok s' ∧
      mem_get32 example_input_title s'.memory (system_var32_addr example_input_title 18)
        = .ok 0 ∧
      s'.memory (var32_addr example_input_title 18) = 5) ∧
    (∃ s', stmt_sys_check_input example_input_title (example_params_exprs [3, 1])
        example_input_machine = .ok s' ∧
      mem_get32 example_input_title s'.memory (var32_addr example_input_title 18) = .ok 1 ∧
      s'.memory (system_var32_addr example_input_title 18) = 7) :=
  ⟨match (stmt_sys_check_input_result example_input_title (example_params_exprs [8, 1])
      example_input_machine 8 1 rfl rfl (by decide) (by decide)).2 (by decide) with
    | ⟨s', h1, h2, h3⟩ => ⟨s', h1, h2, h3 2352 (by decide)⟩,
   match (stmt_sys_check_input_result example_input_title (example_params_exprs [3, 1])
      example_input_machine 3 1 rfl rfl (by decide) (by decide)).1 (by decide) with
    | ⟨s', h1, h2, h3⟩ => ⟨s', h1, h2, h3 2456 (by decide)⟩⟩

/-! ## The scan of `stmt_sys_check_cursor_pos` -/

theorem mem_get16_of_holds (cfg : Config) (m : Nat → Nat) (a v : Nat)
    (hm : mem_holds m a (le_bytes16 v)) (hv : v < 65536) (hb : a + 2 ≤ cfg.memory_size) :
    mem_get16 cfg m a = .ok v := by
  simp only [le_bytes16, mem_holds_cons] at hm
  obtain ⟨e0, e1, -⟩ := hm
  unfold mem_get16
  rw [if_pos (by omega), e0, e1]
  congr 1
  omega

theorem check_cursor_pos_loop_succ (cfg : Config) (x y fuel off : Nat) (s : Machine) :
    check_cursor_pos_loop cfg x y (fuel + 1) off s =
      if off + 10 < cfg.MEMORY_FILE_DATA_SIZE then
        mem_get16 cfg s.memory (cfg.file_data_off + off) >>= fun id =>
          if id = 0xffff then set_usr_var16 cfg s 18 0xffff
          else
            mem_get16 cfg s.memory (cfg.file_data_off + off + 2) >>= fun x_left =>
            mem_get16 cfg s.memory (cfg.file_data_off + off + 4) >>= fun y_top =>
            mem_get16 cfg s.memory (cfg.file_data_off + off + 6) >>= fun x_right =>
            mem_get16 cfg s.memory (cfg.file_data_off + off + 8) >>= fun y_bot =>
              if x ≥ x_left ∧ x ≤ x_right ∧ y ≥ y_top ∧ y ≤ y_bot then
                set_usr_var16 cfg s 18 id
              else check_cursor_pos_loop cfg x y fuel (off + 10) s
      else
        set_usr_var16 cfg
          (WARNING cfg "Read past end of buffer in System.check_cursor_pos" s) 18 0 := by
  rfl

/-- The fields of an entry stored at `a`, as the scan reads them. -/
theorem hit_entry_reads (cfg : Config) (m : Nat → Nat) (a : Nat) (e : hit_entry)
    (hok : e.ok) (hm : mem_holds m a e.bytes) (hb : a + 10 ≤ cfg.memory_size) :
    mem_get16 cfg m a = .ok e.id ∧ mem_get16 cfg m (a + 2) = .ok e.x_left ∧
    mem_get16 cfg m (a + 4) = .ok e.y_top ∧ mem_get16 cfg m (a + 6) = .ok e.x_right ∧
    mem_get16 cfg m (a + 8) = .ok e.y_bot := by
  obtain ⟨h1, -, h2, h3, h4, h5⟩ := hok
  unfold hit_entry.bytes at hm
  simp only [mem_holds_append, le_bytes16, List.length_cons, List.length_nil,
    List.length_append] at hm
  obtain ⟨⟨⟨⟨m1, m2⟩, m3⟩, m4⟩, m5⟩ := hm
  exact ⟨mem_get16_of_holds cfg m a _ m1 h1 (by omega),
    mem_get16_of_holds cfg m (a + 2) _ m2 h2 (by omega),
    mem_get16_of_holds cfg m (a + 4) _ m3 h3 (by omega),
    mem_get16_of_holds cfg m (a + 6) _ m4 h4 (by omega),
    mem_get16_of_holds cfg m (a + 8) _ m5 h5 (by omega)⟩

theorem hit_entry_bytes_length (e : hit_entry) : e.bytes.length = 10 := rfl

theorem hit_table_bytes_length (tbl : List hit_entry) :
    (hit_table_bytes tbl).length = 10 * tbl.length := by
  induction tbl with
  | nil => rfl
  | cons e rest ih =>
    simp only [hit_table_bytes, List.length_append, hit_entry_bytes_length, ih,
      List.length_cons]
    omega

theorem hit_table_bytes_append (xs ys : List hit_entry) :
    hit_table_bytes (xs ++ ys) = hit_table_bytes xs ++ hit_table_bytes ys := by
  induction xs with
  | nil => rfl
  | cons x xs ih =>
    show x.bytes ++ hit_table_bytes (xs ++ ys) = _
    rw [ih]
    simp only [hit_table_bytes, List.append_assoc]

/-- One pass of the scan over an entry whose rectangle does not contain the point. -/
theorem check_cursor_pos_loop_miss (cfg : Config) (x y fuel off : Nat) (s : Machine)
    (e : hit_entry) (hok : e.ok) (hmiss : ¬ e.has x y)
    (hm : mem_holds s.memory (cfg.file_data_off + off) e.bytes)
    (hscan : off + 10 < cfg.MEMORY_FILE_DATA_SIZE)
    (hb : cfg.file_data_off + off + 10 ≤ cfg.memory_size) :
    check_cursor_pos_loop cfg x y (fuel + 1) off s
      = check_cursor_pos_loop cfg x y fuel (off + 10) s := by
  obtain ⟨r1, r2, r3, r4, r5⟩ := hit_entry_reads cfg s.memory _ e hok hm hb
  rw [check_cursor_pos_loop_succ, if_pos hscan]
  simp only [r1, r2, r3, r4, r5, bind, Except.bind, if_neg hok.2.1]
  rw [if_neg]
  intro h
  exact hmiss ⟨h.1, h.2.1, h.2.2.1, h.2.2.2⟩

/-- One pass of the scan over an entry whose rectangle contains the point. -/
theorem check_cursor_pos_loop_hit (cfg : Config) (x y fuel off : Nat) (s : Machine)
    (e : hit_entry) (hok : e.ok) (hhit : e.has x y)
    (hm : mem_holds s.memory (cfg.file_data_off + off) e.bytes)
    (hscan : off + 10 < cfg.MEMORY_FILE_DATA_SIZE)
    (hb : cfg.file_data_off + off + 10 ≤ cfg.memory_size) :
    check_cursor_pos_loop cfg x y (fuel + 1) off s = set_usr_var16 cfg s 18 e.id := by
  obtain ⟨r1, r2, r3, r4, r5⟩ := hit_entry_reads cfg s.memory _ e hok hm hb
  rw [check_cursor_pos_loop_succ, if_pos hscan]
  simp only [r1, r2, r3, r4, r5, bind, Except.bind, if_neg hok.2.1]
  rw [if_pos]
  exact ⟨hhit.1, hhit.2.1, hhit.2.2.1, hhit.2.2.2⟩

/-- One pass of the scan at the terminator. -/
theorem check_cursor_pos_loop_end (cfg : Config) (x y fuel off : Nat) (s : Machine)
    (hm : mem_holds s.memory (cfg.file_data_off + off) [0xFF, 0xFF])
    (hscan : off + 10 < cfg.MEMORY_FILE_DATA_SIZE)
    (hb : cfg.file_data_off + off + 2 ≤ cfg.memory_size) :
    check_cursor_pos_loop cfg x y (fuel + 1) off s = set_usr_var16 cfg s 18 0xffff := by
  have r := mem_get16_of_holds cfg s.memory (cfg.file_data_off + off) 0xffff
    (by simpa [le_bytes16] using hm) (by decide) hb
  rw [check_cursor_pos_loop_succ, if_pos hscan]
  simp only [r, bind, Except.bind, if_true]

/-- The scan over entries none of which contains the point. -/
theorem check_cursor_pos_loop_skip (cfg : Config) (x y : Nat) :
    ∀ (tbl : List hit_entry) (off fuel : Nat) (s : Machine),
      (∀ e ∈ tbl, e.ok ∧ ¬ e.has x y) →
      mem_holds s.memory (cfg.file_data_off + off) (hit_table_bytes tbl) →
      off + 10 * tbl.length < cfg.MEMORY_FILE_DATA_SIZE ∨ tbl = [] →
      cfg.file_data_off + off + 10 * tbl.length ≤ cfg.memory_size →
      check_cursor_pos_loop cfg x y (fuel + tbl.length) off s
        = check_cursor_pos_loop cfg x y fuel (off + 10 * tbl.length) s := by
  intro tbl
  induction tbl with
  | nil => intro off fuel s _ _ _ _; rfl
  | cons e rest ih =>
    intro off fuel s hall hm hscan hb
    simp only [List.length_cons] at hscan hb ⊢
    have hscan' : off + 10 * (rest.length + 1) < cfg.MEMORY_FILE_DATA_SIZE := by
      rcases hscan with h | h
      · exact h
      · cases h
    rw [hit_table_bytes, mem_holds_append, hit_entry_bytes_length] at hm
    obtain ⟨hme, hmr⟩ := hm
    obtain ⟨hok, hmiss⟩ := hall e (List.mem_cons_self _ _)
    have e1 : fuel + (rest.length + 1) = (fuel + rest.length) + 1 := by omega
    rw [e1, check_cursor_pos_loop_miss cfg x y _ off s e hok hmiss hme (by omega) (by omega),
      ih (off + 10) fuel s (fun a ha => hall a (List.mem_cons_of_mem _ ha))
        (by simpa [Nat.add_assoc] using hmr) (Or.inl (by omega)) (by omega)]
    congr 1
    omega

/-- The assignment `usr_var16[18] = v` of the scan: the cell reads back `v` and every
other byte of the memory image, the instruction pointer and the trace are kept. -/
theorem set_usr_var16_18 (cfg : Config) (s : Machine) (v : Nat) (hv : v < 65536)
    (hcell : var16_addr cfg 18 + 2 ≤ cfg.memory_size) :
    ∃ s', set_usr_var16 cfg s 18 v = .ok s' ∧
      mem_get16 cfg s'.memory (var16_addr cfg 18) = .ok v ∧
      (∀ a, a ≠ var16_addr cfg 18 → a ≠ var16_addr cfg 18 + 1 → s'.memory a = s.memory a) ∧
      s'.ip = s.ip ∧ s'.trace = s.trace := by
  obtain ⟨m', hm'⟩ := mem_set16_ok cfg s.memory (var16_addr cfg 18) v hcell
  refine ⟨s.set_memory m', ?_, ?_, ?_, rfl, rfl⟩
  · simp only [set_usr_var16, hm', bind, Except.bind, pure, Except.pure]
  · have := mem_set16_get16 cfg s.memory m' _ v hm'
    rw [Nat.mod_eq_of_lt hv] at this
    exact this
  · intro a h0 h1
    exact mem_set16_other cfg s.memory m' _ v a hm' h0 h1

/-- The call of `stmt_sys_check_cursor_pos` with an in-view point is the scan from
the offset of its third parameter. -/
theorem stmt_sys_check_cursor_pos_eq (cfg : Config) (params : param_list) (s : Machine)
    (x y off : Nat)
    (hx : check_expr_param cfg params 0 = .ok x) (hy : check_expr_param cfg params 1 = .ok y)
    (ho : check_expr_param cfg params 2 = .ok off)
    (hview : x < cfg.gfx_view_w ∧ y < cfg.gfx_view_h) :
    stmt_sys_check_cursor_pos cfg params s
      = check_cursor_pos_loop cfg x y (cfg.MEMORY_FILE_DATA_SIZE + 1) off s := by
  have hv : ¬ (x ≥ cfg.gfx_view_w ∨ y ≥ cfg.gfx_view_h) := by omega
  simp only [stmt_sys_check_cursor_pos, hx, hy, ho, bind, Except.bind, if_neg hv]

/-- The scan that runs into the end of the file-data region: a table of entries none
of which contains the point, the last of them the last one the loop condition
admits. -/
theorem check_cursor_pos_overrun (cfg : Config) (x y off : Nat) (s : Machine)
    (tbl : List hit_entry) (hall : ∀ e ∈ tbl, e.ok ∧ ¬ e.has x y)
    (hm : mem_holds s.memory (cfg.file_data_off + off) (hit_table_bytes tbl))
    (hscan : ∀ k, k < tbl.length → off + 10 * k + 10 < cfg.MEMORY_FILE_DATA_SIZE)
    (hend : cfg.MEMORY_FILE_DATA_SIZE ≤ off + 10 * tbl.length + 10)
    (hmem : cfg.file_data_off + off + 10 * tbl.length ≤ cfg.memory_size) :
    check_cursor_pos_loop cfg x y (cfg.MEMORY_FILE_DATA_SIZE + 1) off s
      = set_usr_var16 cfg
          (WARNING cfg "Read past end of buffer in System.check_cursor_pos" s) 18 0 := by
  have hlen : tbl.length ≤ cfg.MEMORY_FILE_DATA_SIZE := by
    rcases Nat.eq_zero_or_pos tbl.length with h | h
    · omega
    · have := hscan (tbl.length - 1) (by omega)
      omega
  have hs : off + 10 * tbl.length < cfg.MEMORY_FILE_DATA_SIZE ∨ tbl = [] := by
    rcases Nat.eq_zero_or_pos tbl.length with h | h
    · exact Or.inr (List.length_eq_zero.1 h)
    · have := hscan (tbl.length - 1) (by omega)
      exact Or.inl (by omega)
  have e : cfg.MEMORY_FILE_DATA_SIZE + 1
      = (cfg.MEMORY_FILE_DATA_SIZE - tbl.length) + 1 + tbl.length := by omega
  rw [e, check_cursor_pos_loop_skip cfg x y tbl off _ s hall hm hs hmem,
    check_cursor_pos_loop_succ, if_neg (by omega)]

/-! ## C35: `SYS[14]`, the id of the first rectangle that contains the point -/

/-- C35. For `SYS[14]` with an in-view point `(x, y)` and a table of 10-byte entries
`{id, x_left, y_top, x_right, y_bottom}` in the scanned part of the file data,
terminated by an entry with id `0xFFFF`: `var16[18]` becomes the id of the first
entry whose rectangle contains `(x, y)`, bounds included, and it becomes `0xFFFF` if
no entry before the terminator contains the point; no other byte of the memory image
changes. -/
theorem check_cursor_pos_first_hit (cfg : Config) (params : param_list) (s : Machine)
    (x y off : Nat) (tbl : List hit_entry)
    (hx : check_expr_param cfg params 0 = .ok x) (hy : check_expr_param cfg params 1 = .ok y)
    (ho : check_expr_param cfg params 2 = .ok off)
    (hview : x < cfg.gfx_view_w ∧ y < cfg.gfx_view_h)
    (htbl : ∀ e ∈ tbl, e.ok)
    (hm : mem_holds s.memory (cfg.file_data_off + off) (hit_table_bytes tbl ++ [0xFF, 0xFF]))
    (hscan : off + 10 * tbl.length + 10 < cfg.MEMORY_FILE_DATA_SIZE)
    (hmem : cfg.file_data_off + off + 10 * tbl.length + 2 ≤ cfg.memory_size)
    (hcell : var16_addr cfg 18 + 2 ≤ cfg.memory_size) :
    (∀ (pre : List hit_entry) (e : hit_entry) (post : List hit_entry),
      tbl = pre ++ e :: post → (∀ p ∈ pre, ¬ p.has x y) → e.has x y →
      ∃ s', stmt_sys_check_cursor_pos cfg params s = .ok s' ∧
        mem_get16 cfg s'.memory (var16_addr cfg 18) = .ok e.id ∧
        ∀ a, a ≠ var16_addr cfg 18 → a ≠ var16_addr cfg 18 + 1 →
          s'.memory a = s.memory a) ∧
    ((∀ e ∈ tbl, ¬ e.has x y) →
      ∃ s', stmt_sys_check_cursor_pos cfg params s = .ok s' ∧
        mem_get16 cfg s'.memory (var16_addr cfg 18) = .ok 0xFFFF ∧
        ∀ a, a ≠ var16_addr cfg 18 → a ≠ var16_addr cfg 18 + 1 →
          s'.memory a = s.memory a) := by
  have heq := stmt_sys_check_cursor_pos_eq cfg params s x y off hx hy ho hview
  rw [mem_holds_append, hit_table_bytes_length] at hm
  obtain ⟨hm1, hm2⟩ := hm
  constructor
  · intro pre e post hsplit hpre hhit
    have hlen : tbl.length = pre.length + (post.length + 1) := by
      rw [hsplit, List.length_append, List.length_cons]
    have hbytes : hit_table_bytes tbl
        = hit_table_bytes pre ++ (e.bytes ++ hit_table_bytes post) := by
      rw [hsplit, hit_table_bytes_append, hit_table_bytes]
    rw [hbytes, mem_holds_append, mem_holds_append, hit_table_bytes_length] at hm1
    obtain ⟨hp, he, -⟩ := hm1
    have hmem_e : e ∈ tbl := by
      rw [hsplit]
      exact List.mem_append_right _ (List.mem_cons_self _ _)
    have hok := htbl e hmem_e
    have e1 : cfg.MEMORY_FILE_DATA_SIZE + 1
        = (cfg.MEMORY_FILE_DATA_SIZE - pre.length) + 1 + pre.length := by omega
    obtain ⟨s', h1, h2, h3, -⟩ := set_usr_var16_18 cfg s e.id hok.1 hcell
    refine ⟨s', ?_, h2, h3⟩
    rw [heq, e1, check_cursor_pos_loop_skip cfg x y pre off _ s
        (fun p hp' => ⟨htbl p (by rw [hsplit]; exact List.mem_append_left _ hp'), hpre p hp'⟩)
        hp (Or.inl (by omega)) (by omega),
      check_cursor_pos_loop_hit cfg x y _ _ s e hok hhit
        (by simpa [Nat.add_assoc] using he) (by omega) (by omega)]
    exact h1
  · intro hnone
    have e1 : cfg.MEMORY_FILE_DATA_SIZE + 1
        = (cfg.MEMORY_FILE_DATA_SIZE - tbl.length) + 1 + tbl.length := by omega
    obtain ⟨s', h1, h2, h3, -⟩ := set_usr_var16_18 cfg s 0xFFFF (by decide) hcell
    refine ⟨s', ?_, h2, h3⟩
    rw [heq, e1, check_cursor_pos_loop_skip cfg x y tbl off _ s
        (fun p hp' => ⟨htbl p hp', hnone p hp'⟩) hm1 (Or.inl (by omega)) (by omega),
      check_cursor_pos_loop_end cfg x y _ _ s (by simpa [Nat.add_assoc] using hm2)
        (by omega) (by omega)]
    exact h1

/-- Witness for C35: on the example table the point `(25, 25)` lies outside the first
rectangle and inside the next two, and `var16[18]` becomes the id 2 of the first of
them; the corner `(20, 20)` of the first rectangle gives its id 1; the point
`(100, 100)` lies in none, and `var16[18]` becomes `0xFFFF`. -/
theorem check_cursor_pos_first_hit_witness :
    (∃ s', stmt_sys_check_cursor_pos example_title (example_params_exprs [25, 25, 0])
        example_hit_machine = .ok s' ∧
      mem_get16 example_title s'.memory (var16_addr example_title 18) = .ok 2) ∧
    (∃ s', stmt_sys_check_cursor_pos example_title (example_params_exprs [20, 20, 0])
        example_hit_machine = .ok s' ∧
      mem_get16 example_title s'.memory (var16_addr example_title 18) = .ok 1) ∧
    (∃ s', stmt_sys_check_cursor_pos example_title (example_params_exprs [100, 100, 0])
        example_hit_machine = .ok s' ∧
      mem_get16 example_title s'.memory (var16_addr example_title 18) = .ok 0xFFFF) :=
  have hok : ∀ e ∈ example_hit_table, e.ok := by
    intro e he
    simp only [example_hit_table, List.mem_cons, List.mem_singleton, List.not_mem_nil,
      or_false] at he
    rcases he with rfl | rfl | rfl <;> decide
  ⟨match (check_cursor_pos_first_hit example_title (example_params_exprs [25, 25, 0])
      example_hit_machine 25 25 0 example_hit_table rfl rfl rfl (by decide) hok (by decide)
      (by decide) (by decide) (by decide)).1
      [⟨1, 10, 10, 20, 20⟩] ⟨2, 15, 15, 30, 30⟩ [⟨3, 15, 15, 30, 30⟩] rfl
      (by intro p hp; simp only [List.mem_singleton] at hp; subst hp; decide) (by decide) with
    | ⟨s', h1, h2, _⟩ => ⟨s', h1, h2⟩,
   match (check_cursor_pos_first_hit example_title (example_params_exprs [20, 20, 0])
      example_hit_machine 20 20 0 example_hit_table rfl rfl rfl (by decide) hok (by decide)
      (by decide) (by decide) (by decide)).1
      [] ⟨1, 10, 10, 20, 20⟩ [⟨2, 15, 15, 30, 30⟩, ⟨3, 15, 15, 30, 30⟩] rfl
      (by intro p hp; simp at hp) (by decide) with
    | ⟨s', h1, h2, _⟩ => ⟨s', h1, h2⟩,
   match (check_cursor_pos_first_hit example_title (example_params_exprs [100, 100, 0])
      example_hit_machine 100 100 0 example_hit_table rfl rfl rfl (by decide) hok (by decide)
      (by decide) (by decide) (by decide)).2
      (by
        intro e he
        simp only [example_hit_table, List.mem_cons, List.mem_singleton, List.not_mem_nil,
          or_false] at he
        rcases he with rfl | rfl | rfl <;> decide) with
    | ⟨s', h1, h2, _⟩ => ⟨s', h1, h2⟩⟩

/-! ## C33: `SYS[14]` at the end of the file data -/

/-- C33 does not hold: with one entry that does not contain the point at offset
`0xFFEC` of a file-data region of `0x10000` bytes, the scan leaves the region; the
call returns with `var16[18] = 0`, and `var16[18]` was 5 before. -/
theorem check_cursor_pos_overrun_writes_var16_18 :
    mem_get16 example_title example_overrun_machine.memory (var16_addr example_title 18)
      = .ok 5 ∧
    ∃ s', stmt_sys_check_cursor_pos example_title (example_params_exprs [0, 0, 0xFFEC])
        example_overrun_machine = .ok s' ∧
      mem_get16 example_title s'.memory (var16_addr example_title 18) = .ok 0 := by
  refine ⟨by rfl, ?_⟩
  obtain ⟨s', h1, h2, -⟩ := set_usr_var16_18 example_title
    (WARNING example_title "Read past end of buffer in System.check_cursor_pos"
      example_overrun_machine) 0 (by decide) (by decide)
  refine ⟨s', ?_, h2⟩
  rw [stmt_sys_check_cursor_pos_eq example_title (example_params_exprs [0, 0, 0xFFEC])
      example_overrun_machine 0 0 0xFFEC rfl rfl rfl (by decide),
    check_cursor_pos_overrun example_title 0 0 0xFFEC example_overrun_machine
      [⟨1, 10, 10, 20, 20⟩]
      (by intro e he; simp only [List.mem_singleton] at he; subst he; decide)
      (by decide)
      (by intro k hk; simp only [List.length_cons, List.length_nil] at hk; interval_cases k; decide)
      (by decide) (by decide)]
  exact h1

/-- C33 with the store the code makes. When `SYS[14]` scans to the end of the file
data without meeting a rectangle that contains the point or the `0xFFFF` terminator,
it logs the warning "Read past end of buffer in System.check_cursor_pos" and stores 0
in `var16[18]`; every other byte of the memory image keeps the value it had before
the call. -/
theorem check_cursor_pos_overrun_clears (cfg : Config) (params : param_list) (s : Machine)
    (x y off : Nat) (tbl : List hit_entry)
    (hx : check_expr_param cfg params 0 = .ok x) (hy : check_expr_param cfg params 1 = .ok y)
    (ho : check_expr_param cfg params 2 = .ok off)
    (hview : x < cfg.gfx_view_w ∧ y < cfg.gfx_view_h)
    (hall : ∀ e ∈ tbl, e.ok ∧ ¬ e.has x y)
    (hm : mem_holds s.memory (cfg.file_data_off + off) (hit_table_bytes tbl))
    (hscan : ∀ k, k < tbl.length → off + 10 * k + 10 < cfg.MEMORY_FILE_DATA_SIZE)
    (hend : cfg.MEMORY_FILE_DATA_SIZE ≤ off + 10 * tbl.length + 10)
    (hmem : cfg.file_data_off + off + 10 * tbl.length ≤ cfg.memory_size)
    (hcell : var16_addr cfg 18 + 2 ≤ cfg.memory_size) :
    ∃ s', stmt_sys_check_cursor_pos cfg params s = .ok s' ∧
      mem_get16 cfg s'.memory (var16_addr cfg 18) = .ok 0 ∧
      (∀ a, a ≠ var16_addr cfg 18 → a ≠ var16_addr cfg 18 + 1 → s'.memory a = s.memory a) ∧
      s'.trace = s.trace ++
        [⟨"WARNING", [.text "Read past end of buffer in System.check_cursor_pos"]⟩] := by
  obtain ⟨s', h1, h2, h3, -, h5⟩ := set_usr_var16_18 cfg
    (WARNING cfg "Read past end of buffer in System.check_cursor_pos" s) 0 (by decide) hcell
  refine ⟨s', ?_, h2, h3, h5⟩
  rw [stmt_sys_check_cursor_pos_eq cfg params s x y off hx hy ho hview,
    check_cursor_pos_overrun cfg x y off s tbl hall hm hscan hend hmem]
  exact h1

/-- Witness for C33 with the store the code makes: the overrun of the example stores
0 in `var16[18]` and leaves the byte after the cell as it was. -/
theorem check_cursor_pos_overrun_clears_witness :
    ∃ s', stmt_sys_check_cursor_pos example_title (example_params_exprs [0, 0, 0xFFEC])
        example_overrun_machine = .ok s' ∧
      mem_get16 example_title s'.memory (var16_addr example_title 18) = .ok 0 ∧
      s'.memory 2218 = example_overrun_machine.memory 2218 :=
  match check_cursor_pos_overrun_clears example_title (example_params_exprs [0, 0, 0xFFEC])
      example_overrun_machine 0 0 0xFFEC [⟨1, 10, 10, 20, 20⟩] rfl rfl rfl (by decide)
      (by intro e he; simp only [List.mem_singleton] at he; subst he; decide)
      (by decide)
      (by intro k hk; simp only [List.length_cons, List.length_nil] at hk; interval_cases k; decide)
      (by decide) (by decide) (by decide) with
  | ⟨s', h1, h2, h3, _⟩ => ⟨s', h1, h2, h3 2218 (by decide) (by decide)⟩

/-! ## C40: unprefixed text that is no text -/

theorem vm_rewind_after_read (s : Machine) (h : s.ip.ptr + 1 < 4294967296) :
    vm_rewind_byte (s.set_ip_ptr (u32 (s.ip.ptr + 1))) = s := by
  have e : u32 (u32 (s.ip.ptr + 1) + 4294967295) = s.ip.ptr := by
    unfold u32
    omega
  unfold vm_rewind_byte
  rw [set_ip_ptr_ptr, set_ip_ptr_twice, e]
  exact set_ip_ptr_self s

/-- `draw_text` of the empty string returns at once. -/
theorem draw_text_nil (cfg : Config) (s : Machine)
    (h1 : system_var16_addr cfg cfg.MES_SYS_VAR_DST_SURFACE + 2 ≤ cfg.memory_size)
    (h2 : system_var16_addr cfg cfg.MES_SYS_VAR_CHAR_SPACE + 2 ≤ cfg.memory_size) :
    draw_text cfg [] s = .ok s := by
  simp only [draw_text, get_sys_var16, mem_get16, bind, Except.bind,
    if_pos (show system_var16_addr cfg cfg.MES_SYS_VAR_DST_SURFACE + 1 < cfg.memory_size by omega),
    if_pos (show system_var16_addr cfg cfg.MES_SYS_VAR_CHAR_SPACE + 1 < cfg.memory_size by omega),
    List.length_nil, draw_text_loop, pure, Except.pure]

/-- The `MES_STMT_INVALID` case on a byte that is neither hankaku nor zenkaku: after
the rewind, `stmt_txt` stops at the byte without reading it. -/
theorem stmt_invalid_stuck (cfg : Config) (s : Machine) (base op : Nat)
    (hc : s.ip.code = some base) (hb : base + s.ip.ptr < cfg.memory_size)
    (hw : s.ip.ptr + 1 < 4294967296) (hop : s.memory (base + s.ip.ptr) % 256 = op)
    (h0 : op ≠ 0) (hh : cfg.mes_char_is_hankaku op = false)
    (hz : cfg.mes_char_is_zenkaku op = false)
    (h1 : system_var16_addr cfg cfg.MES_SYS_VAR_DST_SURFACE + 2 ≤ cfg.memory_size)
    (h2 : system_var16_addr cfg cfg.MES_SYS_VAR_CHAR_SPACE + 2 ≤ cfg.memory_size) :
    stmt_invalid cfg op (s.set_ip_ptr (u32 (s.ip.ptr + 1)))
      = .ok (WARNING cfg "Invalid byte in TXT statement: %02x"
          (WARNING cfg "Unprefixed text: 0x%02x (possibly unhandled statement)" s)) := by
  have hpeek : vm_peek_byte cfg
      (WARNING cfg "Unprefixed text: 0x%02x (possibly unhandled statement)" s) = .ok op := by
    have := code_get8_eq cfg
      (WARNING cfg "Unprefixed text: 0x%02x (possibly unhandled statement)" s) base 0
      hc (by simpa using hb)
    rw [vm_peek_byte, this]
    simp only [Nat.add_zero]
    exact congrArg Except.ok hop
  have hloop : stmt_txt_loop cfg (cfg.memory_size + 1) []
      (WARNING cfg "Unprefixed text: 0x%02x (possibly unhandled statement)" s)
      = .ok ([], WARNING cfg "Invalid byte in TXT statement: %02x"
          (WARNING cfg "Unprefixed text: 0x%02x (possibly unhandled statement)" s)) := by
    simp only [stmt_txt_loop, hpeek, bind, Except.bind, if_neg h0, hz, Bool.not_false, if_true,
      pure, Except.pure]
  unfold stmt_invalid
  rw [vm_rewind_after_read s hw]
  simp only [hh, Bool.false_eq_true, if_false, stmt_txt, hloop, bind, Except.bind,
    List.length_nil, List.reverse_nil]
  rw [if_neg (by decide)]
  exact draw_text_nil cfg _ h1 h2

/-- `vm_exec_statement` on such a byte returns `true` with the instruction pointer
and the memory image it started from. -/
theorem vm_exec_statement_stuck (cfg : Config) (exec : State → Except Fault State)
    (fuel : Nat) (s : State) (h : at_unprefixed_byte cfg s.toMachine) :
    vm_exec_statement cfg exec fuel s
      = .ok (true, s.with_machine
          (WARNING cfg "Invalid byte in TXT statement: %02x"
            (WARNING cfg "Unprefixed text: 0x%02x (possibly unhandled statement)"
              s.toMachine))) := by
  obtain ⟨base, op, hc, hb, hw, hop, h0, hinv, hh, hz, h1, h2⟩ := h
  have hread := State.run_ok s (vm_read_byte cfg) op _
    (vm_read_byte_eq cfg s.toMachine base op hc hb hop)
  have hne : cfg.mes_opcode_to_stmt op ≠ .MES_STMT_END := by
    rw [hinv]
    intro h
    cases h
  have hst := stmt_invalid_stuck cfg s.toMachine base op hc hb hw hop h0 hh hz h1 h2
  simp only [vm_exec_statement, hread, bind, Except.bind, if_neg hne, vm_exec_stmt_op, hinv]
  rw [State.run__ok _ _ _ hst]
  rfl

theorem at_unprefixed_byte_congr (cfg : Config) (s s' : Machine) (hip : s'.ip = s.ip)
    (hmem : s'.memory = s.memory) (h : at_unprefixed_byte cfg s) :
    at_unprefixed_byte cfg s' := by
  unfold at_unprefixed_byte at h ⊢
  rw [hip, hmem]
  exact h

/-- The loop of `vm_exec` at such a byte, with the RETURN flag clear: every pass
executes the same byte again, so no number of passes ends the loop. -/
theorem vm_exec_loop_stuck (cfg : Config) :
    ∀ (n : Nat) (s : State), at_unprefixed_byte cfg s.toMachine →
      vm_flag_is_on cfg s.toMachine VM_FLAG_RETURN = .ok false →
      vm_exec_loop cfg n s = .error .out_of_fuel := by
  intro n
  induction n with
  | zero => intro s _ _; rfl
  | succ n ih =>
    intro s hat hflag
    have hpass : vm_exec_pass cfg (vm_exec cfg n) n s
        = .ok (true, s.with_machine (vm_peek cfg
            (WARNING cfg "Invalid byte in TXT statement: %02x"
              (WARNING cfg "Unprefixed text: 0x%02x (possibly unhandled statement)"
                s.toMachine)))) := by
      simp only [vm_exec_pass, hflag, bind, Except.bind, Bool.false_and, Bool.false_eq_true,
        if_false, pure, Except.pure, vm_exec_statement_stuck cfg _ n s hat, Bool.not_true]
      rfl
    rw [vm_exec_loop_succ, hpass]
    simp only [bind, Except.bind, if_true]
    exact ih _ (at_unprefixed_byte_congr cfg s.toMachine _ rfl rfl hat) hflag

/-- C40, what the code does: when the opcode byte is classified `MES_STMT_INVALID`
and is neither NUL, nor a hankaku character, nor a zenkaku lead byte,
`vm_exec_statement` returns `true` with `ip.ptr` equal to its value before the call:
the byte is rewound, `stmt_txt` stops at it with a warning and reads nothing.  The
state it returns is again at that byte, and with the RETURN flag clear `vm_exec`
executes the byte again in every pass: it does not return within any number of
passes. -/
theorem vm_exec_statement_unprefixed_no_progress (cfg : Config)
    (exec : State → Except Fault State) (fuel : Nat) (s : State)
    (h : at_unprefixed_byte cfg s.toMachine) :
    (∃ s', vm_exec_statement cfg exec fuel s = .ok (true, s') ∧
      s'.ip.ptr = s.ip.ptr ∧ s'.ip.code = s.ip.code ∧ s'.memory = s.memory ∧
      at_unprefixed_byte cfg s'.toMachine) ∧
    (vm_flag_is_on cfg s.toMachine VM_FLAG_RETURN = .ok false →
      ∀ n, vm_exec cfg n s = .error .out_of_fuel) := by
  constructor
  · exact ⟨_, vm_exec_statement_stuck cfg exec fuel s h, rfl, rfl, rfl,
      at_unprefixed_byte_congr cfg s.toMachine _ rfl rfl h⟩
  · intro hflag n
    have := vm_exec_loop_stuck cfg n (scope_enter s) h hflag
    simp only [vm_exec, this, bind, Except.bind]

/-- Witness for C40: the byte `0xA0` is no statement opcode of the example title, no
hankaku character and no zenkaku lead byte; `vm_exec_statement` returns `true` at
offset 0, where it started, and `vm_exec` runs out of any number of passes. -/
theorem vm_exec_statement_unprefixed_no_progress_witness :
    (∃ s', vm_exec_statement example_title (vm_exec example_title 5) 5 (example_state [0xA0])
        = .ok (true, s') ∧ s'.ip.ptr = 0) ∧
    ∀ n, vm_exec example_title n (example_state [0xA0]) = .error .out_of_fuel :=
  have hat : at_unprefixed_byte example_title (example_state [0xA0]).toMachine :=
    ⟨0x1000, 0xA0, rfl, by decide, by decide, by decide, by decide, rfl, rfl, rfl,
      by decide, by decide⟩
  ⟨match (vm_exec_statement_unprefixed_no_progress example_title (vm_exec example_title 5) 5
      (example_state [0xA0]) hat).1 with
    | ⟨s', h1, h2, _⟩ => ⟨s', h1, h2⟩,
   (vm_exec_statement_unprefixed_no_progress example_title (vm_exec example_title 5) 5
      (example_state [0xA0]) hat).2 rfl⟩

/-! ## `ai_shimai_TXT`: the choice of the renderer and of the surface -/

theorem ai_shimai_TXT_params_eq (cfg : Config) (s : Machine) (a b d tbl msk fnt : Nat)
    (h17 : mem_get_var4 cfg s 2017 = .ok a)
    (h18 : mem_get_var4 cfg s 2018 = .ok b)
    (hd : a ≠ 0 → get_sys_var16 cfg s cfg.MES_SYS_VAR_DST_SURFACE = .ok d)
    (h0 : mem_get_var32 cfg s 0 = .ok tbl)
    (h1 : mem_get_var32 cfg s 1 = .ok msk)
    (h2 : mem_get_var32 cfg s 2 = .ok fnt) :
    ai_shimai_TXT_params cfg s = .ok
      { char_w := 28
        char_h := 28
        surface := if a = 0 then 7 else d
        render_char := if b ≠ 0 then .redscale else if a = 0 then .separate else .merged
        font_tbl := cfg.file_data_off + tbl
        font_msk := cfg.file_data_off + msk
        font_fnt := cfg.file_data_off + fnt
        font_pal := none } := by
  simp only [ai_shimai_TXT_params, h17, h18, h0, h1, h2, bind, Except.bind, pure, Except.pure]
  by_cases ha : a = 0
  · subst ha
    by_cases hb : b = 0
    · subst hb; rfl
    · have : (b != 0) = true := by simpa using hb
      simp [this, hb]
  · have ha' : (a != 0) = true := by simpa using ha
    simp only [ha', if_true, hd ha]
    by_cases hb : b = 0
    · subst hb; simp [ha]
    · have : (b != 0) = true := by simpa using hb
      simp [this, hb, ha]

theorem ai_shimai_TXT_eq (cfg : Config) (txt : List Nat) (surf : gfx_surfaces) (s : Machine)
    (a b d tbl msk fnt : Nat)
    (h02 : mem_get_var4 cfg s 2002 = .ok 0)
    (h17 : mem_get_var4 cfg s 2017 = .ok a)
    (h18 : mem_get_var4 cfg s 2018 = .ok b)
    (hd : a ≠ 0 → get_sys_var16 cfg s cfg.MES_SYS_VAR_DST_SURFACE = .ok d)
    (h0 : mem_get_var32 cfg s 0 = .ok tbl)
    (h1 : mem_get_var32 cfg s 1 = .ok msk)
    (h2 : mem_get_var32 cfg s 2 = .ok fnt) :
    ai_shimai_TXT cfg txt surf s = render_text cfg txt
      { char_w := 28
        char_h := 28
        surface := if a = 0 then 7 else d
        render_char := if b ≠ 0 then .redscale else if a = 0 then .separate else .merged
        font_tbl := cfg.file_data_off + tbl
        font_msk := cfg.file_data_off + msk
        font_fnt := cfg.file_data_off + fnt
        font_pal := none } surf s := by
  unfold ai_shimai_TXT
  rw [h02]
  simp only [bind, Except.bind, ne_eq, not_true_eq_false, if_false]
  rw [ai_shimai_TXT_params_eq cfg s a b d tbl msk fnt h17 h18 hd h0 h1 h2]

/-- C36 with the part `var4[2018]` has in the choice. In `ai_shimai_TXT` with
`var4[2002] = 0` the text is rendered by `render_text` with 28x28 glyphs of the fonts at `var32[0..2]`; the surface is 7 when
`var4[2017] = 0` and `System.dst_surface` otherwise, whatever `var4[2018]` is; the
renderer is `render_char_redscale` whenever `var4[2018] != 0`, and only with
`var4[2018] = 0` it is `render_char_separate` for `var4[2017] = 0` and
`render_char_merged` for `var4[2017] != 0`. -/
theorem ai_shimai_TXT_mode (cfg : Config) (txt : List Nat) (surf : gfx_surfaces) (s : Machine)
    (a b d tbl msk fnt : Nat)
    (h02 : mem_get_var4 cfg s 2002 = .ok 0)
    (h17 : mem_get_var4 cfg s 2017 = .ok a)
    (h18 : mem_get_var4 cfg s 2018 = .ok b)
    (hd : a ≠ 0 → get_sys_var16 cfg s cfg.MES_SYS_VAR_DST_SURFACE = .ok d)
    (h0 : mem_get_var32 cfg s 0 = .ok tbl)
    (h1 : mem_get_var32 cfg s 1 = .ok msk)
    (h2 : mem_get_var32 cfg s 2 = .ok fnt) :
    ∃ p : render_text_params,
      ai_shimai_TXT cfg txt surf s = render_text cfg txt p surf s ∧
      p.char_w = 28 ∧ p.char_h = 28 ∧ p.font_pal = none ∧
      p.font_tbl = cfg.file_data_off + tbl ∧ p.font_msk = cfg.file_data_off + msk ∧
      p.font_fnt = cfg.file_data_off + fnt ∧
      (a = 0 → p.surface = 7) ∧ (a ≠ 0 → p.surface = d) ∧
      (b ≠ 0 → p.render_char = .redscale) ∧
      (b = 0 → a = 0 → p.render_char = .separate) ∧
      (b = 0 → a ≠ 0 → p.render_char = .merged) := by
  refine ⟨_, ai_shimai_TXT_eq cfg txt surf s a b d tbl msk fnt h02 h17 h18 hd h0 h1 h2,
    rfl, rfl, rfl, rfl, rfl, rfl, ?_, ?_, ?_, ?_, ?_⟩
  · intro ha; simp [ha]
  · intro ha; simp [ha]
  · intro hb; simp [hb]
  · intro hb ha; simp [hb, ha]
  · intro hb ha; simp [hb, ha]

/-- The text of the examples on `example_text_machine`, where `var4[2017] = 0` and
`var4[2018] = 1`: the renderer is `render_char_redscale` and the surface is 7. -/
theorem ai_shimai_TXT_mode_witness :
    mem_get_var4 example_title example_text_machine 2002 = .ok 0 ∧
    mem_get_var4 example_title example_text_machine 2017 = .ok 0 ∧
    mem_get_var4 example_title example_text_machine 2018 = .ok 1 ∧
    ∃ p : render_text_params,
      ai_shimai_TXT example_title example_text example_surfaces example_text_machine
        = render_text example_title example_text p example_surfaces example_text_machine ∧
      p.char_w = 28 ∧ p.char_h = 28 ∧ p.font_pal = none ∧
      p.font_tbl = example_title.file_data_off + 0 ∧
      p.font_msk = example_title.file_data_off + 0x100 ∧
      p.font_fnt = example_title.file_data_off + 0x2000 ∧
      ((0 : Nat) = 0 → p.surface = 7) ∧ ((0 : Nat) ≠ 0 → p.surface = 0) ∧
      ((1 : Nat) ≠ 0 → p.render_char = .redscale) ∧
      ((1 : Nat) = 0 → (0 : Nat) = 0 → p.render_char = .separate) ∧
      ((1 : Nat) = 0 → (0 : Nat) ≠ 0 → p.render_char = .merged) :=
  ⟨rfl, rfl, rfl,
    ai_shimai_TXT_mode example_title example_text example_surfaces example_text_machine
      0 1 0 0 0x100 0x2000 rfl rfl rfl (fun h => absurd rfl h) rfl rfl rfl⟩

/-- C36 does not hold when `var4[2018] != 0`: with `var4[2002] = 0`, `var4[2017] = 0`
and `var4[2018] = 1` the statement does not use `render_char_separate`: the
parameters `ai_shimai_TXT` hands to `render_text` name `render_char_redscale`, on
surface 7. -/
theorem ai_shimai_TXT_redscale_on_surface_7 :
    mem_get_var4 example_title example_text_machine 2002 = .ok 0 ∧
    mem_get_var4 example_title example_text_machine 2017 = .ok 0 ∧
    mem_get_var4 example_title example_text_machine 2018 = .ok 1 ∧
    ai_shimai_TXT_params example_title example_text_machine = .ok
      { char_w := 28, char_h := 28, surface := 7, render_char := .redscale,
        font_tbl := 0x1000, font_msk := 0x1100, font_fnt := 0x3000, font_pal := none } ∧
    ai_shimai_TXT example_title example_text example_surfaces example_text_machine
      = render_text example_title example_text
          { char_w := 28, char_h := 28, surface := 7, render_char := .redscale,
            font_tbl := 0x1000, font_msk := 0x1100, font_fnt := 0x3000, font_pal := none }
          example_surfaces example_text_machine ∧
    render_char_fn.redscale ≠ render_char_fn.separate :=
  ⟨rfl, rfl, rfl, rfl,
    ai_shimai_TXT_eq example_title example_text example_surfaces example_text_machine
      0 1 0 0 0x100 0x2000 rfl rfl rfl (fun h => absurd rfl h) rfl rfl rfl,
    by decide⟩

/-! ## `render_text`: the walk of the cursor -/

theorem cursor_walk_inside (start_x end_x cs : Nat) (hfit : start_x + cs ≤ end_x)
    (fs : List Bool) :
    ∀ x, start_x ≤ x → x + cs ≤ end_x →
      start_x ≤ (cursor_walk start_x end_x cs fs x).1 ∧
      (cursor_walk start_x end_x cs fs x).1 + cs ≤ end_x := by
  induction fs with
  | nil => intro x h1 h2; exact ⟨h1, h2⟩
  | cons f fs ih =>
    intro x h1 h2
    cases f with
    | false => exact ih x h1 h2
    | true =>
      simp only [cursor_walk]
      split
      · exact ih start_x (Nat.le_refl _) hfit
      · exact ih (x + cs) (by omega) (by omega)

theorem cursor_walk_found (start_x end_x cs : Nat) (hfit : start_x + cs ≤ end_x)
    (fs : List Bool) :
    ∀ x, start_x ≤ x → true ∈ fs →
      start_x ≤ (cursor_walk start_x end_x cs fs x).1 ∧
      (cursor_walk start_x end_x cs fs x).1 + cs ≤ end_x := by
  induction fs with
  | nil => intro x _ h; cases h
  | cons f fs ih =>
    intro x h1 hf
    cases f with
    | false =>
      have : true ∈ fs := by simpa using hf
      exact ih x h1 this
    | true =>
      simp only [cursor_walk]
      split
      · exact cursor_walk_inside start_x end_x cs hfit fs start_x (Nat.le_refl _) hfit
      · exact cursor_walk_inside start_x end_x cs hfit fs (x + cs) (by omega) (by omega)

theorem render_text_loop_cursor (cfg : Config) (p : render_text_params)
    (pitch start_x end_x cs ls : Nat) (hfit : start_x + cs ≤ end_x) (hend : end_x < 65536)
    (n : Nat) :
    ∀ (txt : List Nat) (x y : Nat) (pixels : Nat → Nat) (s : Machine),
      txt.length = 2 * n → x + cs < 65536 →
      y + ls * (cursor_walk start_x end_x cs (text_found s.memory p.font_tbl txt) x).2 < 65536 →
      ∃ pixels1 s1,
        render_text_loop cfg p pitch start_x end_x cs ls txt x y pixels s = .ok
          ((cursor_walk start_x end_x cs (text_found s.memory p.font_tbl txt) x).1,
            y + ls * (cursor_walk start_x end_x cs (text_found s.memory p.font_tbl txt) x).2,
            pixels1, s1) ∧
        s1.memory = s.memory := by
  induction n with
  | zero =>
    intro txt x y pixels s hl _ _
    have : txt = [] := List.length_eq_zero.mp (by omega)
    subst this
    exact ⟨pixels, s, rfl, rfl⟩
  | succ n ih =>
    intro txt x y pixels s hl hx hy
    match txt, hl with
    | [], hl => simp at hl
    | [_], hl => simp at hl; omega
    | b0 :: b1 :: rest, hl =>
      have hrest : rest.length = 2 * n := by simp at hl; omega
      simp only [text_found] at hy ⊢
      simp only [render_text_loop]
      by_cases hneg : get_char_index (b0 % 256 + 256 * (b1 % 256))
          (fun k => s.memory (p.font_tbl + k)) < 0
      · have hd : decide (0 ≤ get_char_index (b0 % 256 + 256 * (b1 % 256))
            (fun k => s.memory (p.font_tbl + k))) = false := by
          simp only [decide_eq_false_iff_not]; omega
        rw [hd] at hy ⊢
        simp only [cursor_walk] at hy ⊢
        rw [if_pos hneg]
        have hm : (WARNING cfg "Invalid character: %04x" s).memory = s.memory := rfl
        obtain ⟨px1, s1, e1, e2⟩ := ih rest x y pixels
          (WARNING cfg "Invalid character: %04x" s) hrest hx (by rw [hm]; exact hy)
        rw [hm] at e1
        exact ⟨px1, s1, e1, e2.trans hm⟩
      · have hd : decide (0 ≤ get_char_index (b0 % 256 + 256 * (b1 % 256))
            (fun k => s.memory (p.font_tbl + k))) = true := by
          simp only [decide_eq_true_eq]; omega
        rw [hd] at hy ⊢
        simp only [cursor_walk] at hy ⊢
        rw [if_neg hneg, u16_of_lt hx]
        by_cases hw : x + cs + cs > end_x
        · rw [if_pos hw] at hy ⊢
          rw [if_pos hw]
          simp only at hy ⊢
          have hy1 : y + ls < 65536 := by
            have : ls * ((cursor_walk start_x end_x cs
              (text_found s.memory p.font_tbl rest) start_x).2 + 1) =
              ls * (cursor_walk start_x end_x cs
              (text_found s.memory p.font_tbl rest) start_x).2 + ls := by ring
            omega
          rw [u16_of_lt hy1]
          obtain ⟨px1, s1, e1, e2⟩ := ih rest start_x (y + ls) _ s hrest (by omega)
            (by
              have : ls * ((cursor_walk start_x end_x cs
                (text_found s.memory p.font_tbl rest) start_x).2 + 1) =
                ls * (cursor_walk start_x end_x cs
                (text_found s.memory p.font_tbl rest) start_x).2 + ls := by ring
              omega)
          refine ⟨px1, s1, ?_, e2⟩
          rw [e1]
          have : ls * ((cursor_walk start_x end_x cs
            (text_found s.memory p.font_tbl rest) start_x).2 + 1) =
            ls * (cursor_walk start_x end_x cs
            (text_found s.memory p.font_tbl rest) start_x).2 + ls := by ring
          rw [this, Nat.add_assoc y, Nat.add_comm ls]
        · rw [if_neg hw] at hy ⊢
          rw [if_neg hw]
          obtain ⟨px1, s1, e1, e2⟩ := ih rest (x + cs) y _ s hrest (by omega) hy
          exact ⟨px1, s1, e1, e2⟩

theorem mem_get16_set16_same (cfg : Config) (m m1 : Nat → Nat) (a v : Nat)
    (h : mem_set16 cfg m a v = .ok m1) : mem_get16 cfg m1 a = .ok (u16 v) := by
  unfold mem_set16 at h
  split at h
  · rename_i hb
    simp only [Except.ok.injEq] at h
    subst h
    unfold mem_get16
    rw [if_pos hb]
    have hne : a + 1 ≠ a := by omega
    simp only [if_true, hne, if_false, Nat.mod_mod, u16]
    congr 1
    omega
  · cases h

theorem mem_get16_set16_other (cfg : Config) (m m1 : Nat → Nat) (a b v : Nat)
    (h : mem_set16 cfg m a v = .ok m1) (hab : b + 1 < a ∨ a + 1 < b) :
    mem_get16 cfg m1 b = mem_get16 cfg m b := by
  unfold mem_set16 at h
  split at h
  · simp only [Except.ok.injEq] at h
    subst h
    unfold mem_get16
    have e1 : b ≠ a := by omega
    have e2 : b ≠ a + 1 := by omega
    have e3 : b + 1 ≠ a := by omega
    have e4 : b + 1 ≠ a + 1 := by omega
    simp only [e1, e2, e3, e4, if_false]
  · cases h

theorem mem_get16_in_memory (cfg : Config) (m : Nat → Nat) (a v : Nat)
    (h : mem_get16 cfg m a = .ok v) : a + 1 < cfg.memory_size ∧ v < 65536 := by
  unfold mem_get16 at h
  split at h
  · rename_i hb
    simp only [Except.ok.injEq] at h
    exact ⟨hb, by omega⟩
  · cases h

theorem set_sys_var16_ok (cfg : Config) (s : Machine) (i v : Nat)
    (h : system_var16_addr cfg i + 1 < cfg.memory_size) :
    ∃ m1, mem_set16 cfg s.memory (system_var16_addr cfg i) v = .ok m1 ∧
      set_sys_var16 cfg s i v = .ok (s.set_memory m1) := by
  unfold set_sys_var16 mem_set16
  rw [if_pos h]
  exact ⟨_, rfl, rfl⟩

/-- C37: `render_text` keeps the text cursor inside the text area.  With
`char_space >= 1`, `start_x < end_x`, `start_x + char_space <= end_x`, a cursor that
starts at `x0 >= start_x`, no 16-bit overflow in the first advance of `x` and in the
line feeds of `y`, and a text of whole two-byte characters of which at least one has
a glyph in the table, `render_text` returns, the `cursor_x` it stores is the end of
`cursor_walk` and satisfies `start_x <= cursor_x < end_x`, and the `cursor_y` it
stores is the old one plus `line_space` times the number of wraps. -/
theorem render_text_cursor_in_area (cfg : Config) (txt : List Nat) (p : render_text_params)
    (surf : gfx_surfaces) (s : Machine) (start_x end_x cs ls x0 y0 : Nat)
    (hxy : cfg.MES_SYS_VAR_TEXT_CURSOR_X ≠ cfg.MES_SYS_VAR_TEXT_CURSOR_Y)
    (hsx : get_sys_var16 cfg s cfg.MES_SYS_VAR_TEXT_START_X = .ok start_x)
    (hex : get_sys_var16 cfg s cfg.MES_SYS_VAR_TEXT_END_X = .ok end_x)
    (hcsp : get_sys_var16 cfg s cfg.MES_SYS_VAR_CHAR_SPACE = .ok cs)
    (hlsp : get_sys_var16 cfg s cfg.MES_SYS_VAR_LINE_SPACE = .ok ls)
    (hx : get_sys_var16 cfg s cfg.MES_SYS_VAR_TEXT_CURSOR_X = .ok x0)
    (hy : get_sys_var16 cfg s cfg.MES_SYS_VAR_TEXT_CURSOR_Y = .ok y0)
    (hlen : txt.length % 2 = 0)
    (hcs : 1 ≤ cs) (_hse : start_x < end_x) (hfit : start_x + cs ≤ end_x)
    (hx0 : start_x ≤ x0) (hox : x0 + cs < 65536)
    (hoy : y0 + ls * (cursor_walk start_x end_x cs
      (text_found s.memory p.font_tbl txt) x0).2 < 65536)
    (hfound : true ∈ text_found s.memory p.font_tbl txt) :
    ∃ r : gfx_surfaces × Machine, render_text cfg txt p surf s = .ok r ∧
      get_sys_var16 cfg r.2 cfg.MES_SYS_VAR_TEXT_CURSOR_X = .ok
        (cursor_walk start_x end_x cs (text_found s.memory p.font_tbl txt) x0).1 ∧
      start_x ≤ (cursor_walk start_x end_x cs (text_found s.memory p.font_tbl txt) x0).1 ∧
      (cursor_walk start_x end_x cs (text_found s.memory p.font_tbl txt) x0).1 < end_x ∧
      get_sys_var16 cfg r.2 cfg.MES_SYS_VAR_TEXT_CURSOR_Y = .ok
        (y0 + ls * (cursor_walk start_x end_x cs
          (text_found s.memory p.font_tbl txt) x0).2) := by
  have hend := (mem_get16_in_memory cfg _ _ _ hex).2
  have hbx := (mem_get16_in_memory cfg _ _ _ hx).1
  have hby := (mem_get16_in_memory cfg _ _ _ hy).1
  obtain ⟨k1, k2⟩ := cursor_walk_found start_x end_x cs hfit
    (text_found s.memory p.font_tbl txt) x0 hx0 hfound
  obtain ⟨px1, s1, e1, e2⟩ := render_text_loop_cursor cfg p (surf.pitch p.surface)
    start_x end_x cs ls hfit hend (txt.length / 2) txt x0 y0 (surf.pixels p.surface) s
    (by omega) hox hoy
  obtain ⟨m1, a1, b1⟩ := set_sys_var16_ok cfg s1 cfg.MES_SYS_VAR_TEXT_CURSOR_X
    (cursor_walk start_x end_x cs (text_found s.memory p.font_tbl txt) x0).1 hbx
  obtain ⟨m2, a2, b2⟩ := set_sys_var16_ok cfg (s1.set_memory m1) cfg.MES_SYS_VAR_TEXT_CURSOR_Y
    (y0 + ls * (cursor_walk start_x end_x cs (text_found s.memory p.font_tbl txt) x0).2) hby
  have hsep : system_var16_addr cfg cfg.MES_SYS_VAR_TEXT_CURSOR_X + 1
        < system_var16_addr cfg cfg.MES_SYS_VAR_TEXT_CURSOR_Y ∨
      system_var16_addr cfg cfg.MES_SYS_VAR_TEXT_CURSOR_Y + 1
        < system_var16_addr cfg cfg.MES_SYS_VAR_TEXT_CURSOR_X := by
    unfold system_var16_addr
    omega
  refine ⟨(⟨Function.update surf.pixels p.surface px1, surf.pitch⟩,
    host_do cfg "gfx_dirty" [.num p.surface] ((s1.set_memory m1).set_memory m2)), ?_, ?_,
    k1, by omega, ?_⟩
  · unfold render_text
    simp only [hsx, hex, hcsp, hlsp, hx, hy, bind, Except.bind, e1, b1, b2]
    rfl
  · show mem_get16 cfg m2 (system_var16_addr cfg cfg.MES_SYS_VAR_TEXT_CURSOR_X) = _
    rw [mem_get16_set16_other cfg _ _ _ _ _ a2 hsep]
    show mem_get16 cfg m1 (system_var16_addr cfg cfg.MES_SYS_VAR_TEXT_CURSOR_X) = _
    rw [mem_get16_set16_same cfg _ _ _ _ a1, u16_of_lt (by omega)]
  · show mem_get16 cfg m2 (system_var16_addr cfg cfg.MES_SYS_VAR_TEXT_CURSOR_Y) = _
    rw [mem_get16_set16_same cfg _ _ _ _ a2, u16_of_lt hoy]

/-- The text of the examples on `example_text_machine`: five characters, four of them
with a glyph; the cursor goes 10, 38, 66, wraps once and ends at 38, one line further
down. -/
theorem render_text_cursor_in_area_witness :
    text_found example_text_machine.memory 0x1000 example_text
      = [true, false, true, true, true] ∧
    cursor_walk 10 100 28 [true, false, true, true, true] 10 = (38, 1) ∧
    ∃ r : gfx_surfaces × Machine,
      render_text example_title example_text
        { char_w := 28, char_h := 28, surface := 7, render_char := .redscale,
          font_tbl := 0x1000, font_msk := 0x1100, font_fnt := 0x3000, font_pal := none }
        example_surfaces example_text_machine = .ok r ∧
      get_sys_var16 example_title r.2 example_title.MES_SYS_VAR_TEXT_CURSOR_X = .ok
        (cursor_walk 10 100 28 (text_found example_text_machine.memory 0x1000 example_text)
          10).1 ∧
      10 ≤ (cursor_walk 10 100 28 (text_found example_text_machine.memory 0x1000 example_text)
          10).1 ∧
      (cursor_walk 10 100 28 (text_found example_text_machine.memory 0x1000 example_text)
          10).1 < 100 ∧
      get_sys_var16 example_title r.2 example_title.MES_SYS_VAR_TEXT_CURSOR_Y = .ok
        (0 + 30 * (cursor_walk 10 100 28
          (text_found example_text_machine.memory 0x1000 example_text) 10).2) :=
  ⟨by decide, by decide, render_text_cursor_in_area example_title example_text
    { char_w := 28, char_h := 28, surface := 7, render_char := .redscale,
      font_tbl := 0x1000, font_msk := 0x1100, font_fnt := 0x3000, font_pal := none }
    example_surfaces example_text_machine 10 100 28 30 10 0
    (by decide) rfl rfl rfl rfl rfl rfl rfl (by decide) (by decide) (by decide) (by decide)
    (by decide) (by decide) (by decide)⟩

/-! ## `scope_counter` is kept by everything `vm_exec` runs -/

theorem State.run_scope {α : Type} (s s' : State) (f : Machine → Except Fault (α × Machine))
    (r : α) (h : s.run f = .ok (r, s')) : s'.scope_counter = s.scope_counter :=
  (State.run_fields s s' f r h).2.1

theorem State.run__scope (s s' : State) (f : Machine → Except Fault Machine)
    (h : s.run_ f = .ok s') : s'.scope_counter = s.scope_counter :=
  (State.run__fields s s' f h).2.1

theorem vm_call_procedure_scope (exec : State → Except Fault State) (c : Nat)
    (hexec : ∀ t t', exec t = .ok t' → t.scope_counter = c → t'.scope_counter = c)
    (no : Nat) (s s' : State) (h : vm_call_procedure exec no s = .ok s')
    (hs : s.scope_counter = c) : s'.scope_counter = c := by
  simp only [vm_call_procedure] at h
  split at h
  · simp [VM_ERROR] at h
  · cases he : exec (s.with_ip (s.procedures no)) with
    | error e => simp [he, bind, Except.bind] at h
    | ok s2 =>
      simp only [he, bind, Except.bind, pure, Except.pure, Except.ok.injEq] at h
      subst h
      show s2.scope_counter = c
      exact hexec _ _ he hs

theorem stmt_sys_farcall_scope (cfg : Config) (exec : State → Except Fault State) (c : Nat)
    (hexec : ∀ t t', exec t = .ok t' → t.scope_counter = c → t'.scope_counter = c)
    (params : param_list) (s s' : State) (h : stmt_sys_farcall cfg exec params s = .ok s')
    (hs : s.scope_counter = c) : s'.scope_counter = c := by
  simp only [stmt_sys_farcall, bind, Except.bind] at h
  split at h
  · simp at h
  · split at h
    · simp [VM_ERROR] at h
    · cases he : exec (s.with_ip { ptr := 0, code := some ‹Nat› }) with
      | error e => simp [he] at h
      | ok s2 =>
        simp only [he, pure, Except.pure, Except.ok.injEq] at h
        subst h
        show s2.scope_counter = c
        exact hexec _ _ he hs

theorem stmt_proc_scope (cfg : Config) (exec : State → Except Fault State) (c : Nat)
    (hexec : ∀ t t', exec t = .ok t' → t.scope_counter = c → t'.scope_counter = c)
    (s s' : State) (h : stmt_proc cfg exec s = .ok s')
    (hs : s.scope_counter = c) : s'.scope_counter = c := by
  simp only [stmt_proc, bind, Except.bind] at h
  cases h1 : s.run (read_params cfg) with
  | error e => simp [h1] at h
  | ok x =>
    simp only [h1] at h
    split at h
    · simp at h
    · exact vm_call_procedure_scope exec c hexec _ _ _ h
        ((State.run_scope s x.2 _ x.1 h1).trans hs)

theorem stmt_procd_scope (cfg : Config) (s s' : State) (h : stmt_procd cfg s = .ok s') :
    s'.scope_counter = s.scope_counter := by
  simp only [stmt_procd, bind, Except.bind] at h
  cases h1 : s.run (vm_eval cfg) with
  | error e => simp [h1] at h
  | ok x =>
    simp only [h1] at h
    split at h
    · simp [VM_ERROR] at h
    · split at h
      · simp at h
      · rename_i y hy
        simp only [pure, Except.pure, Except.ok.injEq] at h
        subst h
        have k1 := State.run_scope s x.2 _ x.1 h1
        have k2 := State.run_scope _ y.2 _ y.1 hy
        simp only [with_machine_scope_counter]
        rw [k2]
        exact k1

theorem stmt_util_wait_until_loop_scope (cfg : Config) (exec : State → Except Fault State)
    (c : Nat)
    (hexec : ∀ t t', exec t = .ok t' → t.scope_counter = c → t'.scope_counter = c)
    (stop_t : Nat) (fuel : Nat) :
    ∀ (t : Nat) (s s' : State),
      stmt_util_wait_until_loop cfg exec stop_t fuel t s = .ok s' → s.scope_counter = c →
      s'.scope_counter = c := by
  induction fuel with
  | zero => intro t s s' h _; simp [stmt_util_wait_until_loop] at h
  | succ fuel ih =>
    intro t s s' h hs
    simp only [stmt_util_wait_until_loop] at h
    repeat' split at h
    all_goals first
      | exact vm_call_procedure_scope exec c hexec _ _ _ h
          ((with_machine_scope_counter s _).trans hs)
      | exact ih _ _ _ h ((with_machine_scope_counter s _).trans hs)
      | (simp only [pure, Except.pure, Except.ok.injEq] at h
         subst h
         exact (with_machine_scope_counter s _).trans hs)

theorem stmt_util_wait_until_scope (cfg : Config) (exec : State → Except Fault State)
    (c : Nat)
    (hexec : ∀ t t', exec t = .ok t' → t.scope_counter = c → t'.scope_counter = c)
    (fuel : Nat) (params : param_list) (s s' : State)
    (h : stmt_util_wait_until cfg exec fuel params s = .ok s')
    (hs : s.scope_counter = c) : s'.scope_counter = c := by
  simp only [stmt_util_wait_until, bind, Except.bind] at h
  split at h
  · simp [VM_ERROR] at h
  · split at h
    · simp at h
    · exact stmt_util_wait_until_loop_scope cfg exec c hexec _ _ _ _ _ h
        ((with_machine_scope_counter s _).trans hs)

theorem stmt_util_scope (cfg : Config) (exec : State → Except Fault State) (c : Nat)
    (hexec : ∀ t t', exec t = .ok t' → t.scope_counter = c → t'.scope_counter = c)
    (fuel : Nat) (s s' : State) (h : stmt_util cfg exec fuel s = .ok s')
    (hs : s.scope_counter = c) : s'.scope_counter = c := by
  simp only [stmt_util, bind, Except.bind] at h
  cases h1 : s.run (read_params cfg) with
  | error e => simp [h1] at h
  | ok x =>
    simp only [h1] at h
    have k1 : x.2.scope_counter = c := (State.run_scope s x.2 _ x.1 h1).trans hs
    split at h
    · simp at h
    · split at h
      all_goals first
        | exact (State.run__scope _ _ _ h).trans k1
        | exact stmt_util_wait_until_scope cfg exec c hexec _ _ _ _ h k1
        | (exfalso; simp [VM_ERROR] at h)

theorem stmt_sys_scope (cfg : Config) (exec : State → Except Fault State) (c : Nat)
    (hexec : ∀ t t', exec t = .ok t' → t.scope_counter = c → t'.scope_counter = c)
    (fuel : Nat) (s s' : State) (h : stmt_sys cfg exec fuel s = .ok s')
    (hs : s.scope_counter = c) : s'.scope_counter = c := by
  simp only [stmt_sys, bind, Except.bind] at h
  cases h1 : s.run (vm_eval cfg) with
  | error e => simp [h1] at h
  | ok x =>
    simp only [h1] at h
    have k1 : x.2.scope_counter = c := (State.run_scope s x.2 _ x.1 h1).trans hs
    cases h2 : x.2.run (read_params cfg) with
    | error e => simp [h2] at h
    | ok y =>
      simp only [h2] at h
      have k2 : y.2.scope_counter = c := (State.run_scope x.2 y.2 _ y.1 h2).trans k1
      split at h
      all_goals first
        | exact (State.run__scope _ _ _ h).trans k2
        | exact stmt_sys_farcall_scope cfg exec c hexec _ _ _ h k2
        | (exfalso; simp [VM_ERROR] at h)

theorem stmt_call_save_scope (cfg : Config) (s s2 : State)
    (h : stmt_call_save cfg s = .ok s2) : s2.scope_counter = s.scope_counter := by
  obtain ⟨-, nm, -, e2⟩ := stmt_call_save_inv cfg _ _ h
  rw [e2]

theorem stmt_call_restore_scope (cfg : Config) (s s' : State)
    (h : stmt_call_restore cfg s = .ok s') : s'.scope_counter = s.scope_counter := by
  simp only [stmt_call_restore, bind, Except.bind] at h
  split at h
  · simp at h
  · split at h
    · simp at h
    · split at h
      · split at h
        · simp at h
        · rename_i s3 h3
          simp only [pure, Except.pure, Except.ok.injEq] at h
          subst h
          have k := State.run__scope _ _ _ h3
          exact k
      · simp only [pure, Except.pure, Except.ok.injEq] at h
        subst h
        rfl

theorem stmt_call_scope (cfg : Config) (exec : State → Except Fault State) (c : Nat)
    (hexec : ∀ t t', exec t = .ok t' → t.scope_counter = c → t'.scope_counter = c)
    (s s' : State) (h : stmt_call cfg exec s = .ok s')
    (hs : s.scope_counter = c) : s'.scope_counter = c := by
  simp only [stmt_call, bind, Except.bind] at h
  cases h1 : s.run (read_params cfg) with
  | error e => simp [h1] at h
  | ok x =>
    simp only [h1] at h
    have k1 : x.2.scope_counter = c := (State.run_scope s x.2 _ x.1 h1).trans hs
    cases hn : check_string_param cfg x.1 0 with
    | error e => simp [hn] at h
    | ok name =>
      simp only [hn] at h
      cases h2 : stmt_call_save cfg x.2 with
      | error e => simp [h2] at h
      | ok s2 =>
        simp only [h2] at h
        have k2 : s2.scope_counter = c := (stmt_call_save_scope cfg _ _ h2).trans k1
        cases h4 : (s2.with_ip { ptr := 0, code := some cfg.file_data_off }).run_
            (vm_load_mes cfg name) with
        | error e => simp [h4] at h
        | ok s4 =>
          simp only [h4] at h
          have k4 : s4.scope_counter = c := (State.run__scope _ _ _ h4).trans k2
          cases h5 : exec s4 with
          | error e => simp [h5] at h
          | ok s5 =>
            simp only [h5] at h
            exact (stmt_call_restore_scope cfg _ _ h).trans (hexec _ _ h5 k4)

theorem vm_exec_stmt_op_scope (cfg : Config) (exec : State → Except Fault State) (c : Nat)
    (hexec : ∀ t t', exec t = .ok t' → t.scope_counter = c → t'.scope_counter = c)
    (fuel op : Nat) (s s' : State) (h : vm_exec_stmt_op cfg exec fuel op s = .ok s')
    (hs : s.scope_counter = c) : s'.scope_counter = c := by
  simp only [vm_exec_stmt_op] at h
  split at h
  all_goals first
    | exact (State.run__scope _ _ _ h).trans hs
    | exact stmt_sys_scope cfg exec c hexec _ _ _ h hs
    | exact stmt_call_scope cfg exec c hexec _ _ h hs
    | exact stmt_proc_scope cfg exec c hexec _ _ h hs
    | exact stmt_util_scope cfg exec c hexec _ _ _ h hs
    | exact (stmt_procd_scope cfg _ _ h).trans hs
    | (simp only [pure, Except.pure, Except.ok.injEq] at h
       subst h
       exact hs)

theorem vm_exec_statement_scope (cfg : Config) (exec : State → Except Fault State) (c : Nat)
    (hexec : ∀ t t', exec t = .ok t' → t.scope_counter = c → t'.scope_counter = c)
    (fuel : Nat) (s : State) (x : Bool × State) (h : vm_exec_statement cfg exec fuel s = .ok x)
    (hs : s.scope_counter = c) : x.2.scope_counter = c := by
  simp only [vm_exec_statement, bind, Except.bind] at h
  cases h1 : s.run (vm_read_byte cfg) with
  | error e => simp [h1] at h
  | ok y =>
    simp only [h1] at h
    have k1 : y.2.scope_counter = c := (State.run_scope s y.2 _ y.1 h1).trans hs
    split at h
    · simp only [pure, Except.pure, Except.ok.injEq] at h
      subst h
      exact k1
    · cases h2 : vm_exec_stmt_op cfg exec fuel y.1 y.2 with
      | error e => simp [h2] at h
      | ok s2 =>
        simp only [h2, pure, Except.pure, Except.ok.injEq] at h
        subst h
        exact vm_exec_stmt_op_scope cfg exec c hexec _ _ _ _ h2 k1

theorem vm_exec_pass_scope (cfg : Config) (exec : State → Except Fault State) (c : Nat)
    (hexec : ∀ t t', exec t = .ok t' → t.scope_counter = c → t'.scope_counter = c)
    (fuel : Nat) (s : State) (x : Bool × State) (h : vm_exec_pass cfg exec fuel s = .ok x)
    (hs : s.scope_counter = c) : x.2.scope_counter = c := by
  simp only [vm_exec_pass, bind, Except.bind] at h
  cases hf : vm_flag_is_on cfg s.toMachine VM_FLAG_RETURN with
  | error e => simp [hf] at h
  | ok ret =>
    simp only [hf] at h
    split at h
    · simp only [pure, Except.pure, Except.ok.injEq] at h
      subst h
      exact hs
    · have tail : ∀ s1 : State, s1.scope_counter = c →
          (vm_exec_statement cfg exec fuel s1 >>= fun v =>
            if (!v.1) = true then (pure (false, v.2) : Except Fault (Bool × State))
              else pure (true, v.2.with_machine (vm_peek cfg v.2.toMachine))) = .ok x →
          x.2.scope_counter = c := by
        intro s1 k1 h
        cases h2 : vm_exec_statement cfg exec fuel s1 with
        | error e => simp [h2, bind, Except.bind] at h
        | ok y =>
          simp only [h2, bind, Except.bind] at h
          have k2 := vm_exec_statement_scope cfg exec c hexec _ _ _ h2 k1
          split at h
          · simp only [pure, Except.pure, Except.ok.injEq] at h
            subst h
            exact k2
          · simp only [pure, Except.pure, Except.ok.injEq] at h
            subst h
            exact k2
      split at h
      · split at h
        · simp at h
        · rename_i s1 h1
          exact tail s1 ((State.run__scope _ _ _ h1).trans hs) h
      · simp only [pure, Except.pure] at h
        exact tail s hs h

theorem scope_enter_counter (s : State) :
    (scope_enter s).scope_counter = u32 (s.scope_counter + 1) := rfl

theorem scope_leave_counter (s : State) :
    (scope_leave s).scope_counter = u32 (s.scope_counter + 4294967295) := rfl

theorem scope_round_trip (c : Nat) (hc : c < 4294967296) :
    u32 (u32 (c + 1) + 4294967295) = c := by
  unfold u32
  omega

theorem vm_exec_scope_of_loop (cfg : Config) (fuel : Nat)
    (ih : ∀ (s s' : State), s.scope_counter < 4294967296 →
      vm_exec_loop cfg fuel s = .ok s' → s'.scope_counter = s.scope_counter)
    (c : Nat) (hc : c < 4294967296) (t t' : State)
    (h : vm_exec cfg fuel t = .ok t') (ht : t.scope_counter = c) : t'.scope_counter = c := by
  simp only [vm_exec, bind, Except.bind] at h
  cases h1 : vm_exec_loop cfg fuel (scope_enter t) with
  | error e => simp [h1] at h
  | ok t1 =>
    simp only [h1, pure, Except.pure, Except.ok.injEq] at h
    subst h
    rw [scope_leave_counter, ih _ _ (by rw [scope_enter_counter]; exact u32_lt _) h1,
      scope_enter_counter, ht]
    exact scope_round_trip c hc

theorem vm_exec_loop_scope (cfg : Config) (fuel : Nat) :
    ∀ (s s' : State), s.scope_counter < 4294967296 →
      vm_exec_loop cfg fuel s = .ok s' → s'.scope_counter = s.scope_counter := by
  induction fuel with
  | zero => intro s s' _ h; simp [vm_exec_loop] at h
  | succ fuel ih =>
    intro s s' hc h
    rw [vm_exec_loop_succ] at h
    simp only [bind, Except.bind] at h
    cases h1 : vm_exec_pass cfg (vm_exec cfg fuel) fuel s with
    | error e => simp [h1] at h
    | ok x =>
      simp only [h1] at h
      have k1 := vm_exec_pass_scope cfg _ s.scope_counter
        (vm_exec_scope_of_loop cfg fuel ih s.scope_counter hc) _ _ _ h1 rfl
      split at h
      · rw [ih _ _ (by rw [k1]; exact hc) h]
        exact k1
      · simp only [pure, Except.pure, Except.ok.injEq] at h
        subst h
        exact k1

theorem vm_exec_scope (cfg : Config) (fuel : Nat) (s s' : State)
    (hc : s.scope_counter < 4294967296) (h : vm_exec cfg fuel s = .ok s') :
    s'.scope_counter = s.scope_counter :=
  vm_exec_scope_of_loop cfg fuel (vm_exec_loop_scope cfg fuel) s.scope_counter hc s s' h rfl

/-! ## The nested `vm_exec` is only called with the `scope_counter` of the caller -/

theorem vm_call_procedure_agree (ex1 ex2 : State → Except Fault State) (c : Nat)
    (hag : ∀ t, t.scope_counter = c → ex1 t = ex2 t) (no : Nat) (s : State)
    (hs : s.scope_counter = c) :
    vm_call_procedure ex1 no s = vm_call_procedure ex2 no s := by
  simp only [vm_call_procedure]
  rw [hag (s.with_ip (s.procedures no)) hs]

theorem stmt_sys_farcall_agree (cfg : Config) (ex1 ex2 : State → Except Fault State) (c : Nat)
    (hag : ∀ t, t.scope_counter = c → ex1 t = ex2 t) (params : param_list) (s : State)
    (hs : s.scope_counter = c) :
    stmt_sys_farcall cfg ex1 params s = stmt_sys_farcall cfg ex2 params s := by
  simp only [stmt_sys_farcall, bind, Except.bind]
  cases check_expr_param cfg params 0 with
  | error e => rfl
  | ok addr =>
    dsimp only
    rw [hag (s.with_ip { ptr := 0, code := some addr }) hs]

theorem stmt_proc_agree (cfg : Config) (ex1 ex2 : State → Except Fault State) (c : Nat)
    (hag : ∀ t, t.scope_counter = c → ex1 t = ex2 t) (s : State)
    (hs : s.scope_counter = c) :
    stmt_proc cfg ex1 s = stmt_proc cfg ex2 s := by
  simp only [stmt_proc, bind, Except.bind]
  cases h1 : s.run (read_params cfg) with
  | error e => rfl
  | ok x =>
    dsimp only
    cases check_expr_param cfg x.1 0 with
    | error e => rfl
    | ok no =>
      exact vm_call_procedure_agree ex1 ex2 c hag no x.2
        ((State.run_scope s x.2 _ x.1 h1).trans hs)

theorem stmt_call_agree (cfg : Config) (ex1 ex2 : State → Except Fault State) (c : Nat)
    (hag : ∀ t, t.scope_counter = c → ex1 t = ex2 t) (s : State)
    (hs : s.scope_counter = c) :
    stmt_call cfg ex1 s = stmt_call cfg ex2 s := by
  simp only [stmt_call, bind, Except.bind]
  cases h1 : s.run (read_params cfg) with
  | error e => rfl
  | ok x =>
    dsimp only
    have k1 : x.2.scope_counter = c := (State.run_scope s x.2 _ x.1 h1).trans hs
    cases check_string_param cfg x.1 0 with
    | error e => rfl
    | ok name =>
      dsimp only
      cases h2 : stmt_call_save cfg x.2 with
      | error e => rfl
      | ok s2 =>
        dsimp only
        have k2 : s2.scope_counter = c := (stmt_call_save_scope cfg _ _ h2).trans k1
        cases h4 : (s2.with_ip { ptr := 0, code := some cfg.file_data_off }).run_
            (vm_load_mes cfg name) with
        | error e => rfl
        | ok s4 =>
          dsimp only
          rw [hag s4 ((State.run__scope _ _ _ h4).trans k2)]

theorem stmt_util_wait_until_loop_agree (cfg : Config) (ex1 ex2 : State → Except Fault State)
    (c : Nat) (hag : ∀ t, t.scope_counter = c → ex1 t = ex2 t) (stop_t : Nat) (fuel : Nat) :
    ∀ (t : Nat) (s : State), s.scope_counter = c →
      stmt_util_wait_until_loop cfg ex1 stop_t fuel t s =
        stmt_util_wait_until_loop cfg ex2 stop_t fuel t s := by
  induction fuel with
  | zero => intro t s _; rfl
  | succ fuel ih =>
    intro t s hs
    simp only [stmt_util_wait_until_loop]
    rw [vm_call_procedure_agree ex1 ex2 c hag 110 _
        ((with_machine_scope_counter s _).trans hs),
      vm_call_procedure_agree ex1 ex2 c hag 111 _
        ((with_machine_scope_counter s _).trans hs),
      ih _ _ ((with_machine_scope_counter s _).trans hs)]

theorem stmt_util_wait_until_agree (cfg : Config) (ex1 ex2 : State → Except Fault State)
    (c : Nat) (hag : ∀ t, t.scope_counter = c → ex1 t = ex2 t) (fuel : Nat)
    (params : param_list) (s : State) (hs : s.scope_counter = c) :
    stmt_util_wait_until cfg ex1 fuel params s = stmt_util_wait_until cfg ex2 fuel params s := by
  simp only [stmt_util_wait_until, bind, Except.bind]
  split
  · rfl
  · cases check_expr_param cfg params 1 with
    | error e => rfl
    | ok stop_t =>
      dsimp only
      exact stmt_util_wait_until_loop_agree cfg ex1 ex2 c hag _ _ _ _
        ((with_machine_scope_counter s _).trans hs)

theorem stmt_util_agree (cfg : Config) (ex1 ex2 : State → Except Fault State) (c : Nat)
    (hag : ∀ t, t.scope_counter = c → ex1 t = ex2 t) (fuel : Nat) (s : State)
    (hs : s.scope_counter = c) :
    stmt_util cfg ex1 fuel s = stmt_util cfg ex2 fuel s := by
  simp only [stmt_util, bind, Except.bind]
  cases h1 : s.run (read_params cfg) with
  | error e => rfl
  | ok x =>
    dsimp only
    have k1 : x.2.scope_counter = c := (State.run_scope s x.2 _ x.1 h1).trans hs
    cases check_expr_param cfg x.1 0 with
    | error e => rfl
    | ok f =>
      dsimp only
      split
      all_goals first
        | rfl
        | exact stmt_util_wait_until_agree cfg ex1 ex2 c hag _ _ _ k1

theorem stmt_sys_agree (cfg : Config) (ex1 ex2 : State → Except Fault State) (c : Nat)
    (hag : ∀ t, t.scope_counter = c → ex1 t = ex2 t) (fuel : Nat) (s : State)
    (hs : s.scope_counter = c) :
    stmt_sys cfg ex1 fuel s = stmt_sys cfg ex2 fuel s := by
  simp only [stmt_sys, bind, Except.bind]
  cases h1 : s.run (vm_eval cfg) with
  | error e => rfl
  | ok x =>
    dsimp only
    have k1 : x.2.scope_counter = c := (State.run_scope s x.2 _ x.1 h1).trans hs
    cases h2 : x.2.run (read_params cfg) with
    | error e => rfl
    | ok y =>
      dsimp only
      have k2 : y.2.scope_counter = c := (State.run_scope x.2 y.2 _ y.1 h2).trans k1
      split
      all_goals first
        | rfl
        | exact stmt_sys_farcall_agree cfg ex1 ex2 c hag _ _ k2

theorem vm_exec_stmt_op_agree (cfg : Config) (ex1 ex2 : State → Except Fault State) (c : Nat)
    (hag : ∀ t, t.scope_counter = c → ex1 t = ex2 t) (fuel op : Nat) (s : State)
    (hs : s.scope_counter = c) :
    vm_exec_stmt_op cfg ex1 fuel op s = vm_exec_stmt_op cfg ex2 fuel op s := by
  simp only [vm_exec_stmt_op]
  split
  all_goals first
    | rfl
    | exact stmt_sys_agree cfg ex1 ex2 c hag _ _ hs
    | exact stmt_call_agree cfg ex1 ex2 c hag _ hs
    | exact stmt_proc_agree cfg ex1 ex2 c hag _ hs
    | exact stmt_util_agree cfg ex1 ex2 c hag _ _ hs

theorem vm_exec_statement_agree (cfg : Config) (ex1 ex2 : State → Except Fault State)
    (c : Nat) (hag : ∀ t, t.scope_counter = c → ex1 t = ex2 t) (fuel : Nat) (s : State)
    (hs : s.scope_counter = c) :
    vm_exec_statement cfg ex1 fuel s = vm_exec_statement cfg ex2 fuel s := by
  simp only [vm_exec_statement, bind, Except.bind]
  cases h1 : s.run (vm_read_byte cfg) with
  | error e => rfl
  | ok y =>
    dsimp only
    rw [vm_exec_stmt_op_agree cfg ex1 ex2 c hag fuel y.1 y.2
      ((State.run_scope s y.2 _ y.1 h1).trans hs)]

theorem vm_exec_pass_agree (cfg : Config) (ex1 ex2 : State → Except Fault State) (c : Nat)
    (hag : ∀ t, t.scope_counter = c → ex1 t = ex2 t) (fuel : Nat) (s : State)
    (hs : s.scope_counter = c) :
    vm_exec_pass cfg ex1 fuel s = vm_exec_pass cfg ex2 fuel s := by
  simp only [vm_exec_pass, bind, Except.bind]
  cases vm_flag_is_on cfg s.toMachine VM_FLAG_RETURN with
  | error e => rfl
  | ok ret =>
    dsimp only
    split
    · rfl
    · cases ret with
      | false =>
        simp only [Bool.false_eq_true, if_false, pure, Except.pure]
        rw [vm_exec_statement_agree cfg ex1 ex2 c hag fuel s hs]
      | true =>
        simp only [if_true]
        split
        · rfl
        · rename_i s1 h1
          rw [vm_exec_statement_agree cfg ex1 ex2 c hag fuel s1
            ((State.run__scope _ _ _ h1).trans hs)]

theorem vm_exec_loop_checked_succ (cfg : Config) (fuel : Nat) (s : State) :
    vm_exec_loop_checked cfg (fuel + 1) s =
      if s.scope_counter = 0 then .error (.undefined "statement with scope_counter = 0")
      else (vm_exec_pass cfg (vm_exec_checked cfg fuel) fuel s >>= fun x =>
        if x.1 then vm_exec_loop_checked cfg fuel x.2 else pure x.2) := by
  rfl

theorem vm_exec_loop_checked_eq (cfg : Config) (fuel : Nat) :
    ∀ s : State, 1 ≤ s.scope_counter → s.scope_counter + fuel < 4294967296 →
      vm_exec_loop_checked cfg fuel s = vm_exec_loop cfg fuel s := by
  induction fuel with
  | zero => intro s _ _; rfl
  | succ fuel ih =>
    intro s h1 h2
    have hag : ∀ t : State, t.scope_counter = s.scope_counter →
        vm_exec_checked cfg fuel t = vm_exec cfg fuel t := by
      intro t ht
      have e : (scope_enter t).scope_counter = s.scope_counter + 1 := by
        rw [scope_enter_counter, ht]
        exact u32_of_lt (by omega)
      unfold vm_exec_checked vm_exec
      rw [ih (scope_enter t) (by omega) (by omega)]
    rw [vm_exec_loop_checked_succ, vm_exec_loop_succ, if_neg (by omega),
      vm_exec_pass_agree cfg _ _ s.scope_counter hag fuel s rfl]
    cases hp : vm_exec_pass cfg (vm_exec cfg fuel) fuel s with
    | error e => rfl
    | ok x =>
      have k := vm_exec_pass_scope cfg _ s.scope_counter
        (vm_exec_scope_of_loop cfg fuel (vm_exec_loop_scope cfg fuel) s.scope_counter
          (by omega)) _ _ _ hp rfl
      simp only [bind, Except.bind]
      rw [ih x.2 (by omega) (by omega)]

/-- C38: `vm_exec` increments `scope_counter` on entry and decrements it on every way
out, so a `vm_exec` that returns leaves `scope_counter` at the value it had before the
call; and as long as the nesting cannot wrap the 32-bit counter, every pass of the
loop, also in every `vm_exec` nested through CALL, PROC and FARCALL, starts with
`scope_counter >= 1`: the loop with that assertion in front of every pass returns
what `vm_exec` returns. -/
theorem vm_exec_scope_counter (cfg : Config) (fuel : Nat) (s : State)
    (hw : s.scope_counter < 4294967296) :
    (∀ s', vm_exec cfg fuel s = .ok s' → s'.scope_counter = s.scope_counter) ∧
    (s.scope_counter + 1 + fuel < 4294967296 →
      vm_exec_checked cfg fuel s = vm_exec cfg fuel s) := by
  refine ⟨fun s' h => vm_exec_scope cfg fuel s s' hw h, ?_⟩
  intro hc
  have e : (scope_enter s).scope_counter = s.scope_counter + 1 := by
    rw [scope_enter_counter]
    exact u32_of_lt (by omega)
  unfold vm_exec_checked vm_exec
  rw [vm_exec_loop_checked_eq cfg fuel (scope_enter s) (by omega) (by omega)]

/-- The program `PROCD 7 ... PROC 7; END` run from the zero-initialised `vm`: the
nested `vm_exec` of `PROC 7` runs with `scope_counter = 2`, and the run returns with
`scope_counter = 0`. -/
theorem vm_exec_scope_counter_witness :
    (example_state example_proc_code).scope_counter < 4294967296 ∧
    (∀ s', vm_exec example_title 10 (example_state example_proc_code) = .ok s' →
      s'.scope_counter = (example_state example_proc_code).scope_counter) ∧
    vm_exec_checked example_title 10 (example_state example_proc_code)
      = vm_exec example_title 10 (example_state example_proc_code) ∧
    (vm_exec example_title 10 (example_state example_proc_code)).toOption.map
      State.scope_counter = some 0 :=
  ⟨by decide,
    (vm_exec_scope_counter example_title 10 (example_state example_proc_code) (by decide)).1,
    (vm_exec_scope_counter example_title 10 (example_state example_proc_code) (by decide)).2
      (by decide),
    rfl⟩

end AI5
